import Mathlib

/-!
# Game-ai-boss-fight: grid search, belief map and utility evaluation

A shallow embedding of the grid algorithms of
`Source/GameAI/Spatial/GASpatialComponent.cpp`,
`Source/GameAI/Pathfinding/GAPathComponent.cpp`,
`Source/GameAI/Perception/GATargetComponent.cpp` and
`Source/GameAI/Perception/GAPerceptionComponent.cpp`.

Conventions of the embedding.

* `float` values are rationals and arithmetic on them is exact.  Hop counts,
  the constants `0`, `1`, `0.75` and `FLT_MAX` are all exactly representable.
  A division whose divisor is zero has no rational value (IEEE gives NaN or an
  infinity); such a division makes the embedded function return `none`.
* `int32` cell coordinates are integers; no loop of the sources overflows them.
* A `while` loop is a recursive function with a fuel argument that returns
  `none` when the fuel runs out; the callers pass a fuel that is proved
  sufficient.
* `std::priority_queue` is a record of a `push` and a `pop` on a list together
  with the two facts the C++ standard gives about them, so every theorem holds
  for every heap layout and every resolution of ties.
-/

namespace GameAI

/-! ## Data model -/

/-- A grid cell, `FCellRef` in the sources: an integer pair. -/
structure FCellRef where
  X : Int
  Y : Int
deriving DecidableEq, Repr

/-- Modelled from the spec: the `ECellData` enumeration is declared in a header
that is not among the sources; a cell either carries the traversable flag or it
does not. -/
inductive ECellData where
  | CellDataNone
  | CellDataTraversable
deriving DecidableEq, Repr

/-- A world-space point; only the `X` and `Y` components are read by the
functions embedded here. -/
structure FVector where
  X : ℚ
  Y : ℚ
deriving DecidableEq

/-- The integer rectangle `FGridBox` that bounds a grid map. -/
structure FGridBox where
  MinX : Int
  MinY : Int
  MaxX : Int
  MaxY : Int
deriving DecidableEq

/-- Modelled from the spec: `FGridBox::IsValidCell` is declared in a header that
is not among the sources.  It is the containment test of the rectangle, with
the half-open convention `Min <= v < Max` that every loop of the sources and
the explicit neighbour test of `OccupancyMapDiffuse` use. -/
def FGridBox.IsValidCell (b : FGridBox) (c : FCellRef) : Bool :=
  decide (b.MinX ≤ c.X) && decide (c.X < b.MaxX) &&
    decide (b.MinY ≤ c.Y) && decide (c.Y < b.MaxY)

/-- The cells visited by the loop nest
`for (Y = MinY; Y < MaxY; Y++) for (X = MinX; X < MaxX; X++)`, in that order. -/
def FGridBox.cells (b : FGridBox) : List FCellRef :=
  (List.range (b.MaxY - b.MinY).toNat).flatMap fun (j : Nat) =>
    (List.range (b.MaxX - b.MinX).toNat).map fun (i : Nat) =>
      (⟨b.MinX + (i : Int), b.MinY + (j : Int)⟩ : FCellRef)

/-- A grid map `FGAGridMap`: a rectangle and one value per cell. -/
structure FGAGridMap where
  GridBounds : FGridBox
  Data : FCellRef → ℚ

/-- Modelled from the spec: `FGAGridMap::GetValue(Cell, ValueOut)` is declared in
a header that is not among the sources.  A read inside the bounds stores the
cell value in the output variable; a read outside the bounds fails and leaves
the output variable as it was. -/
def FGAGridMap.GetValue (m : FGAGridMap) (c : FCellRef) (ValueOut : ℚ) : ℚ :=
  if m.GridBounds.IsValidCell c then m.Data c else ValueOut

/-- Modelled from the spec: `FGAGridMap::SetValue(Cell, Value)` is declared in a
header that is not among the sources.  A write inside the bounds replaces the
value of that one cell; a write outside the bounds fails and changes nothing. -/
def FGAGridMap.SetValue (m : FGAGridMap) (c : FCellRef) (v : ℚ) : FGAGridMap :=
  if m.GridBounds.IsValidCell c then
    { m with Data := fun x => if x = c then v else m.Data x }
  else m

/-- The grid actor `AGAGridActor`, of which the sources hold only calls: the
extent of the grid, the cell flags, the maps between world points and cells,
and the validity test `FCellRef::IsValid` of a cell reference. -/
structure AGAGridActor where
  GridBounds : FGridBox
  CellData : FCellRef → ECellData
  IsValid : FCellRef → Bool
  GetCellRef : FVector → FCellRef
  GetCellPosition : FCellRef → FVector
  GetCellGridSpacePosition : FCellRef → FVector

/-- Modelled from the spec: `AGAGridActor::GetCellData` is declared in a header
that is not among the sources.  A cell of the grid has its stored flags, a cell
outside the grid has none. -/
def AGAGridActor.GetCellData (Grid : AGAGridActor) (c : FCellRef) : ECellData :=
  if Grid.GridBounds.IsValidCell c then Grid.CellData c else ECellData.CellDataNone

/-- `FGAGridMap(Grid, Value)`: a map over the whole grid holding one value. -/
def FGAGridMap.ofGrid (Grid : AGAGridActor) (v : ℚ) : FGAGridMap :=
  ⟨Grid.GridBounds, fun _ => v⟩

/-- `FGAGridMap(Grid, GridBox, Value)`: a map over a window holding one value. -/
def FGAGridMap.ofBox (b : FGridBox) (v : ℚ) : FGAGridMap :=
  ⟨b, fun _ => v⟩

/-- Division of two `float`s: no rational result when the divisor is zero. -/
def fdiv (a b : ℚ) : Option ℚ :=
  if b = 0 then none else some (a / b)

/-- The largest finite `float`. -/
def FLT_MAX : ℚ := 340282346638528859811704183484516925440

/-- The four orthogonal steps, in the order of the `directions` lists. -/
def directions : List (Int × Int) := [(0, 1), (0, -1), (1, 0), (-1, 0)]

/-- The neighbour `FCellRef(cur.X + d.first, cur.Y + d.second)`. -/
def FCellRef.offset (c : FCellRef) (d : Int × Int) : FCellRef :=
  ⟨c.X + d.1, c.Y + d.2⟩

/-- What the C++ standard fixes about `std::priority_queue<T, vector<T>, Compare>`:
`push` adds one element, and `top`/`pop` remove an element that `Compare` puts
before no other.  The order among equivalent elements is left open. -/
structure PriorityQueue (α : Type) (Compare : α → α → Bool) where
  push : List α → α → List α
  pop : List α → Option (α × List α)
  push_perm : ∀ q a, (push q a).Perm (a :: q)
  pop_nil : pop [] = none
  pop_top : ∀ q, q ≠ [] →
    ∃ a r, pop q = some (a, r) ∧ q.Perm (a :: r) ∧ ∀ b ∈ q, Compare a b = false

/-- The shape shared by the neighbour loops of `Dijkstra` and `AStar`: a neighbour
that is not yet in `visited` and passes the test `ok` is appended to `visited`
and pushed on the queue.  Used to reason about both loops at once. -/
def expandNeighbor {α : Type} {Compare : α → α → Bool} (Q : PriorityQueue α Compare)
    (ok : FCellRef → Bool) (mk : FCellRef → α) (curCell : FCellRef)
    (s : List FCellRef × List α) (d : Int × Int) : List FCellRef × List α :=
  if curCell.offset d ∉ s.1 ∧ ok (curCell.offset d) = true then
    (s.1 ++ [curCell.offset d], Q.push s.2 (mk (curCell.offset d)))
  else s

/-- A pop for a queue kept as a plain list: removes the first element of least
key. -/
def popMin {α κ : Type} [LinearOrder κ] (key : α → κ) : List α → Option (α × List α)
  | [] => none
  | a :: q =>
    match popMin key q with
    | none => some (a, [])
    | some (b, r) => if key a ≤ key b then some (a, q) else some (b, a :: r)

/-- A priority queue kept as a plain list, for a comparison that orders by
greatest key first as `PairLess` and `CompareCells` do. -/
def listQueue {α κ : Type} [LinearOrder κ] (key : α → κ) (Compare : α → α → Bool)
    (hc : ∀ a b, Compare a b = decide (key b < key a)) : PriorityQueue α Compare where
  push q a := a :: q
  pop := popMin key
  push_perm _ _ := List.Perm.refl _
  pop_nil := rfl
  pop_top := by
    intro q hq
    induction q with
    | nil => exact absurd rfl hq
    | cons a q ih =>
      by_cases hq2 : q = []
      · subst hq2
        refine ⟨a, [], rfl, List.Perm.refl _, ?_⟩
        intro b hb
        rw [List.mem_singleton.1 hb, hc]
        simp
      · obtain ⟨b, r, h1, h2, h3⟩ := ih hq2
        have h3k : ∀ x ∈ q, key b ≤ key x := by
          intro x hx
          have := h3 x hx
          rw [hc] at this
          simpa using this
        by_cases hab : key a ≤ key b
        · refine ⟨a, q, by simp [popMin, h1, hab], List.Perm.refl _, ?_⟩
          intro x hx
          rw [hc]
          rcases List.mem_cons.1 hx with rfl | hx
          · simp
          · simpa using hab.trans (h3k x hx)
        · refine ⟨b, a :: r, by simp [popMin, h1, hab], ?_, ?_⟩
          · exact (List.Perm.cons a h2).trans (List.Perm.swap b a r)
          · intro x hx
            rw [hc]
            rcases List.mem_cons.1 hx with rfl | hx
            · simpa using le_of_lt (not_le.1 hab)
            · simpa using h3k x hx

/-! ## Dijkstra (GASpatialComponent.cpp) -/

/-- The comparator `PairLess`: orders the queue by lowest distance. -/
def PairLess (lhs rhs : ℚ × FCellRef) : Bool := decide (lhs.1 > rhs.1)

/-- The loop state of `Dijkstra`. -/
structure DijkstraState where
  pq : List (ℚ × FCellRef)
  visited : List FCellRef
  DistanceMapOut : FGAGridMap

/-- One pass of the body of `for (const auto& d : directions)` in `Dijkstra`. -/
def DijkstraNeighbor (Q : PriorityQueue (ℚ × FCellRef) PairLess) (Grid : AGAGridActor)
    (bounds : FGridBox) (curCell : FCellRef) (newDist : ℚ)
    (s : List FCellRef × List (ℚ × FCellRef)) (d : Int × Int) :
    List FCellRef × List (ℚ × FCellRef) :=
  let adjCell := curCell.offset d
  if adjCell ∉ s.1 ∧ bounds.IsValidCell adjCell = true
      ∧ Grid.GetCellData adjCell = ECellData.CellDataTraversable then
    (s.1 ++ [adjCell], Q.push s.2 (newDist, adjCell))
  else s

/-- The loop `while (!pq.empty())` of `Dijkstra`; `none` when the fuel is used up
before the queue is empty. -/
def DijkstraLoop (Q : PriorityQueue (ℚ × FCellRef) PairLess) (Grid : AGAGridActor) :
    Nat → DijkstraState → Option FGAGridMap
  | fuel, s =>
    match Q.pop s.pq with
    | none => some s.DistanceMapOut
    | some ((curDist, curCell), rest) =>
      match fuel with
      | 0 => none
      | fuel + 1 =>
        let m := s.DistanceMapOut.SetValue curCell curDist
        let newDist := curDist + 1
        let r := directions.foldl
          (DijkstraNeighbor Q Grid m.GridBounds curCell newDist) (s.visited, rest)
        DijkstraLoop Q Grid fuel ⟨r.2, r.1, m⟩

/-- The function `UGASpatialComponent::Dijkstra(StartPoint, DistanceMapOut)`.  The
fuel, the number of cells of the map plus two, is never used up
(`Dijkstra_spec`). -/
def Dijkstra (Q : PriorityQueue (ℚ × FCellRef) PairLess) (Grid : AGAGridActor)
    (StartPoint : FVector) (DistanceMapOut : FGAGridMap) : Option FGAGridMap :=
  let startCell := Grid.GetCellRef StartPoint
  DijkstraLoop Q Grid (DistanceMapOut.GridBounds.cells.length + 2)
    ⟨Q.push [] (0, startCell), [startCell], DistanceMapOut⟩

/-! ## Path reconstruction and smoothing (GASpatialComponent.cpp) -/

/-- One pass of the body of `for (const auto& d : directions)` in
`getPositionPath`; the state is `(cellVal, nextCell)`. -/
def getPositionPathNeighbor (DistanceMapOut : FGAGridMap) (Grid : AGAGridActor)
    (curCell : FCellRef) (s : ℚ × FCellRef) (d : Int × Int) : ℚ × FCellRef :=
  let adjCell := curCell.offset d
  if DistanceMapOut.GridBounds.IsValidCell adjCell = true
      ∧ Grid.GetCellData adjCell = ECellData.CellDataTraversable then
    let adjDist := DistanceMapOut.GetValue adjCell 0
    if adjDist < s.1 then (adjDist, adjCell) else s
  else s

/-- The cell `nextCell` that one iteration of the `while` loop of
`getPositionPath` moves to. -/
def getPositionPathNext (DistanceMapOut : FGAGridMap) (Grid : AGAGridActor)
    (curCell : FCellRef) : FCellRef :=
  (directions.foldl (getPositionPathNeighbor DistanceMapOut Grid curCell)
    (FLT_MAX, curCell)).2

/-- The loop `while (curCell != startCell && iter < 1000)` of `getPositionPath`;
the first argument is `1000 - iter`. -/
def getPositionPathLoop (DistanceMapOut : FGAGridMap) (Grid : AGAGridActor)
    (startCell : FCellRef) : Nat → FCellRef → List FCellRef → List FCellRef
  | 0, _, path => path
  | left + 1, curCell, path =>
    if curCell = startCell then path
    else
      getPositionPathLoop DistanceMapOut Grid startCell left
        (getPositionPathNext DistanceMapOut Grid curCell) (path ++ [curCell])

/-- The function `getPositionPath(DistanceMapOut, StartPoint, dest, Grid)`. -/
def getPositionPath (DistanceMapOut : FGAGridMap) (StartPoint : FVector)
    (dest : FCellRef) (Grid : AGAGridActor) : List FCellRef :=
  (getPositionPathLoop DistanceMapOut Grid (Grid.GetCellRef StartPoint) 1000 dest []).reverse

/-- The sample point number `i` of `getPointsAlongLine` and
`getPointsAlongLine2`: `t = i / (steps - 1)` with `steps = 80`. -/
def lerpPoint (start finish : FVector) (i : Nat) : FVector :=
  let t : ℚ := (i : ℚ) / (80 - 1)
  ⟨start.X + t * (finish.X - start.X), start.Y + t * (finish.Y - start.Y)⟩

/-- The function `getPointsAlongLine2(start, end, Grid)`: `true` when one of the
80 sample points lies in a cell that is not traversable. -/
def getPointsAlongLine2 (start finish : FVector) (Grid : AGAGridActor) : Bool :=
  (List.range 80).any fun i =>
    decide (Grid.GetCellData (Grid.GetCellRef (lerpPoint start finish i))
      ≠ ECellData.CellDataTraversable)

/-- The `for` loop of `getLineTrace2`: `some prev` when it returns from inside
the loop, `none` when it runs to the end of the path. -/
def getLineTrace2Loop (origin : FVector) (Grid : AGAGridActor) :
    FCellRef → List FCellRef → Option FCellRef
  | _, [] => none
  | prev, element :: rest =>
    if getPointsAlongLine2 origin (Grid.GetCellPosition element) Grid then some prev
    else getLineTrace2Loop origin Grid element rest

/-- The function `getLineTrace2(path, origin, Grid)`.  `path.back()` has no value
on an empty path, for which the result is `none`. -/
def getLineTrace2 (path : List FCellRef) (origin : FVector) (Grid : AGAGridActor) :
    Option (FVector × FCellRef) :=
  match getLineTrace2Loop origin Grid (Grid.GetCellRef origin) path with
  | some prev => some (Grid.GetCellPosition prev, prev)
  | none => path.getLast?.map fun b => (Grid.GetCellPosition b, b)

/-! ## Greedy search and smoothing (GAPathComponent.cpp) -/

/-- The function `getPointsAlongLine(start, end, Grid)`. -/
def getPointsAlongLine (start finish : FVector) (Grid : AGAGridActor) : Bool :=
  (List.range 80).any fun i =>
    decide (Grid.GetCellData (Grid.GetCellRef (lerpPoint start finish i))
      ≠ ECellData.CellDataTraversable)

/-- The `for` loop of `getLineTrace`. -/
def getLineTraceLoop (originVec : FVector) (Grid : AGAGridActor) :
    FCellRef → List FCellRef → Option FCellRef
  | _, [] => none
  | prev, element :: rest =>
    if getPointsAlongLine originVec (Grid.GetCellPosition element) Grid then some prev
    else getLineTraceLoop originVec Grid element rest

/-- The function `getLineTrace(path, origin, Grid)`, whose origin is a cell. -/
def getLineTrace (path : List FCellRef) (origin : FCellRef) (Grid : AGAGridActor) :
    Option (FVector × FCellRef) :=
  match getLineTraceLoop (Grid.GetCellPosition origin) Grid origin path with
  | some prev => some (Grid.GetCellPosition prev, prev)
  | none => path.getLast?.map fun b => (Grid.GetCellPosition b, b)

/-- The radicand of `calculateDistance(point1, point2)`; the function itself
returns its square root. -/
def calculateDistanceSq (point1 point2 : FCellRef) : Int :=
  (point2.X - point1.X) * (point2.X - point1.X)
    + (point2.Y - point1.Y) * (point2.Y - point1.Y)

/-- The comparator `CompareCells`: `lhsDist > rhsDist`, decided on the radicands
because the square root is strictly increasing. -/
def CompareCells (DestinationCell : FCellRef)
    (lhs rhs : FCellRef × List FCellRef) : Bool :=
  decide (calculateDistanceSq lhs.1 DestinationCell
    > calculateDistanceSq rhs.1 DestinationCell)

/-- The goal test `FVector2D::Distance(curCell2D, destCell2D) <= ArrivalDistance`
of `AStar`, decided without the square root. -/
def AStarGoalTest (Grid : AGAGridActor) (DestinationCell : FCellRef)
    (ArrivalDistance : ℚ) (curCell : FCellRef) : Bool :=
  let a := Grid.GetCellGridSpacePosition curCell
  let b := Grid.GetCellGridSpacePosition DestinationCell
  decide (0 ≤ ArrivalDistance ∧
    (a.X - b.X) * (a.X - b.X) + (a.Y - b.Y) * (a.Y - b.Y)
      ≤ ArrivalDistance * ArrivalDistance)

/-- One pass of the body of `for (const list<int>& d : directions)` in `AStar`;
the state is `(visited, pq)`. -/
def AStarNeighbor {DestinationCell : FCellRef}
    (Q : PriorityQueue (FCellRef × List FCellRef) (CompareCells DestinationCell))
    (Grid : AGAGridActor) (curCell : FCellRef) (curPath : List FCellRef)
    (s : List FCellRef × List (FCellRef × List FCellRef)) (d : Int × Int) :
    List FCellRef × List (FCellRef × List FCellRef) :=
  let adjCell := curCell.offset d
  if adjCell ∉ s.1 ∧ Grid.IsValid adjCell = true
      ∧ Grid.GetCellData adjCell = ECellData.CellDataTraversable then
    (s.1 ++ [adjCell], Q.push s.2 (adjCell, curPath))
  else s

/-- The loop `while (!pq.empty())` of `AStar`, on the state `(visited, pq)`.  The
result is `none` when the fuel is used up, `some (some (curCell, curPath))` when
the loop is left by `break` with `pathFound = true`, and `some none` when the
queue runs empty. -/
def AStarLoop {DestinationCell : FCellRef}
    (Q : PriorityQueue (FCellRef × List FCellRef) (CompareCells DestinationCell))
    (Grid : AGAGridActor) (ArrivalDistance : ℚ) :
    Nat → List FCellRef × List (FCellRef × List FCellRef) →
      Option (Option (FCellRef × List FCellRef))
  | fuel, s =>
    match Q.pop s.2 with
    | none => some none
    | some ((curCell, curPath), rest) =>
      if AStarGoalTest Grid DestinationCell ArrivalDistance curCell then
        some (some (curCell, curPath))
      else
        match fuel with
        | 0 => none
        | fuel + 1 =>
          AStarLoop Q Grid ArrivalDistance fuel
            (directions.foldl (AStarNeighbor Q Grid curCell (curPath ++ [curCell]))
              (s.1, rest))

/-- The search of `UGAPathComponent::AStar` from the pawn position `StartPoint`
up to the end of its `while` loop.  The fuel, the number of cells of the grid
plus two, is never used up (`AStarSearch_finds_goal_iff`). -/
def AStarSearch {DestinationCell : FCellRef}
    (Q : PriorityQueue (FCellRef × List FCellRef) (CompareCells DestinationCell))
    (Grid : AGAGridActor) (ArrivalDistance : ℚ) (StartPoint : FVector) :
    Option (Option (FCellRef × List FCellRef)) :=
  let startCell := Grid.GetCellRef StartPoint
  AStarLoop Q Grid ArrivalDistance (Grid.GridBounds.cells.length + 2)
    ([startCell], Q.push [] (startCell, []))

/-! ## Position selection and layer evaluation (GASpatialComponent.cpp) -/

/-- The comparison `comparePairs` handed to `std::sort`. -/
def comparePairs (a b : ℚ × FCellRef) : Bool := decide (a.1 < b.1)

/-- What the C++ standard fixes about `std::sort(first, last, comp)`: the result
is a rearrangement of the input in which no element is put by `comp` before an
earlier one.  The order among equivalent elements is left open. -/
structure StdSort (α : Type) (comp : α → α → Bool) where
  sort : List α → List α
  sort_perm : ∀ l, (sort l).Perm l
  sort_sorted : ∀ l, (sort l).Pairwise fun a b => comp b a = false

/-- The function `trunc` of `<cmath>`: rounding toward zero. -/
def ftrunc (q : ℚ) : ℚ :=
  if 0 ≤ q then ((Int.floor q : Int) : ℚ) else ((Int.ceil q : Int) : ℚ)

/-- The loop nest of `ChoosePosition` that fills `cellValVec`. -/
def ChoosePositionCollect (GridMap : FGAGridMap) : List (ℚ × FCellRef) :=
  GridMap.GridBounds.cells.map fun CellRef => (GridMap.GetValue CellRef 0, CellRef)

/-- The test `curDistVal >= 0 && curDistVal < FLT_MAX && trunc(curDistVal) == curDistVal`
of `ChoosePosition`, on the distance read for a cell. -/
def ChoosePositionReached (DistanceMap : FGAGridMap) (c : FCellRef) : Bool :=
  let curDistVal := DistanceMap.GetValue c 0
  decide (curDistVal ≥ 0 ∧ curDistVal < FLT_MAX ∧ ftrunc curDistVal = curDistVal)

/-- The loop `for (const auto& pair : cellValVec)` of `ChoosePosition`, started
with the declared but unassigned `FCellRef maxCell`. -/
def ChoosePositionPick (DistanceMap : FGAGridMap) (maxCell : FCellRef)
    (cellValVec : List (ℚ × FCellRef)) : FCellRef :=
  cellValVec.foldl
    (fun maxCell pair => if ChoosePositionReached DistanceMap pair.2 then pair.2 else maxCell)
    maxCell

/-- Step 3 of `ChoosePosition`: collect, sort, pick. -/
def ChoosePositionSelect (S : StdSort (ℚ × FCellRef) comparePairs)
    (GridMap DistanceMap : FGAGridMap) (maxCell : FCellRef) : FCellRef :=
  ChoosePositionPick DistanceMap maxCell (S.sort (ChoosePositionCollect GridMap))

/-- The path states `EGAPathState`. -/
inductive EGAPathState where
  | GAPS_None
  | GAPS_Active
  | GAPS_Finished
  | GAPS_Invalid
deriving DecidableEq, Repr

/-- An aim point `FPathStep`: a point and its cell. -/
structure FPathStep where
  Point : FVector
  CellRef : FCellRef
deriving DecidableEq

/-- Step 4 of `ChoosePosition` (the `if (PathfindToPosition)` block): the value it
stores in `Steps[0]`, `none` when it stores nothing, and the path state it
sets.  What `SetDestination` writes to the state and to `Steps[0]` on the way is
overwritten by the two assignments that follow it. -/
def ChoosePositionGoThere (DistanceMap : FGAGridMap) (pawnLocation : FVector)
    (maxCell : FCellRef) (Grid : AGAGridActor) : Option FPathStep × EGAPathState :=
  let path := getPositionPath DistanceMap pawnLocation maxCell Grid
  if path.length > 1 ∧ path.length < 1000 then
    match getLineTrace2 path pawnLocation Grid with
    | some moveToTuple => (some ⟨moveToTuple.1, moveToTuple.2⟩, EGAPathState.GAPS_Active)
    | none => (none, EGAPathState.GAPS_Active)
  else if path.length = 1000 then
    (some ⟨Grid.GetCellGridSpacePosition maxCell, maxCell⟩, EGAPathState.GAPS_Active)
  else (none, EGAPathState.GAPS_Finished)

/-- The input kinds `ESpatialInput` handled by `EvaluateLayer`. -/
inductive ESpatialInput where
  | SI_None
  | SI_TargetRange
  | SI_PathDistance
  | SI_PERCEP
  | SI_LOS
deriving DecidableEq, Repr

/-- The operators `ESpatialOp`. -/
inductive ESpatialOp where
  | SO_None
  | SO_Add
  | SO_Multiply
deriving DecidableEq, Repr

/-- A layer `FFunctionLayer`; the response curve is the function
`ResponseCurve.GetRichCurveConst()->Eval(value, 0.0f)`. -/
structure FFunctionLayer where
  Input : ESpatialInput
  ResponseCurve : ℚ → ℚ
  Op : ESpatialOp

/-- What `EvaluateLayer` asks of the engine for a cell: the distance
`FVector::Dist(Grid->GetCellPosition(CellRef), End)` to the player and the
result `bHitSomething` of the line trace from the cell to the player. -/
structure SpatialQueries where
  TargetRange : FCellRef → ℚ
  LineTraceHit : FCellRef → Bool

/-- The `switch (Layer.Input)` of `EvaluateLayer`: the raw value of a cell. -/
def EvaluateLayerInput (W : SpatialQueries) (Layer : FFunctionLayer)
    (DistanceMap : FGAGridMap) (CellRef : FCellRef) : ℚ :=
  match Layer.Input with
  | ESpatialInput.SI_None => 0
  | ESpatialInput.SI_TargetRange => W.TargetRange CellRef
  | ESpatialInput.SI_PathDistance =>
    let tempDist := DistanceMap.GetValue CellRef 0
    if tempDist ≠ FLT_MAX then tempDist else 0
  | ESpatialInput.SI_PERCEP => 0
  | ESpatialInput.SI_LOS => if W.LineTraceHit CellRef then 0 else 1

/-- The body of the loop nest of `EvaluateLayer` for one cell. -/
def EvaluateLayerCell (W : SpatialQueries) (Grid : AGAGridActor) (Layer : FFunctionLayer)
    (DistanceMap : FGAGridMap) (GridMap : FGAGridMap) (CellRef : FCellRef) : FGAGridMap :=
  if Grid.GetCellData CellRef = ECellData.CellDataTraversable then
    let value := EvaluateLayerInput W Layer DistanceMap CellRef
    let ModifiedValue := Layer.ResponseCurve value
    let curValue := GridMap.GetValue CellRef 0
    match Layer.Op with
    | ESpatialOp.SO_None => GridMap.SetValue CellRef 0
    | ESpatialOp.SO_Add => GridMap.SetValue CellRef (curValue + ModifiedValue)
    | ESpatialOp.SO_Multiply => GridMap.SetValue CellRef (curValue * ModifiedValue)
  else GridMap

/-- The function `UGASpatialComponent::EvaluateLayer(Layer, GridMap, DistanceMap)`. -/
def EvaluateLayer (W : SpatialQueries) (Grid : AGAGridActor) (Layer : FFunctionLayer)
    (GridMap : FGAGridMap) (DistanceMap : FGAGridMap) : FGAGridMap :=
  GridMap.GridBounds.cells.foldl (EvaluateLayerCell W Grid Layer DistanceMap) GridMap

/-! ## Occupancy map (GATargetComponent.cpp) -/

/-- The state of step 2 of `OccupancyMapUpdate`: the occupancy map, the running
sum `oMapSum` and the variable `ocuVal` declared outside the loops. -/
structure ClearState where
  OccupancyMap : FGAGridMap
  oMapSum : ℚ
  ocuVal : ℚ

/-- The body of the loop nest of step 2 of `OccupancyMapUpdate` for one cell. -/
def OccupancyMapClearCell (VisibilityMap : FGAGridMap) (s : ClearState)
    (CellRef : FCellRef) : ClearState :=
  let visVal := VisibilityMap.GetValue CellRef 0
  let o := if visVal = 1 then s.OccupancyMap.SetValue CellRef 0 else s.OccupancyMap
  let ocuVal := o.GetValue CellRef s.ocuVal
  ⟨o, s.oMapSum + ocuVal, ocuVal⟩

/-- Step 2 of `OccupancyMapUpdate`: clear the visible cells and sum the map. -/
def OccupancyMapClear (VisibilityMap OccupancyMap : FGAGridMap) : ClearState :=
  VisibilityMap.GridBounds.cells.foldl (OccupancyMapClearCell VisibilityMap)
    ⟨OccupancyMap, 0, 0⟩

/-- The state of step 3 of `OccupancyMapUpdate`: the occupancy map, `maxVal` and
`maxCell`. -/
structure NormState where
  OccupancyMap : FGAGridMap
  maxVal : ℚ
  maxCell : FCellRef

/-- The body of the loop nest of step 3 of `OccupancyMapUpdate` for one cell;
`none` when the division has a zero divisor. -/
def OccupancyMapNormCell (Grid : AGAGridActor) (oMapSum : ℚ) (s : NormState)
    (CellRef : FCellRef) : Option NormState :=
  if Grid.GetCellData CellRef = ECellData.CellDataTraversable then
    let curVal := s.OccupancyMap.GetValue CellRef 0
    (fdiv curVal oMapSum).map fun newVal =>
      let o := s.OccupancyMap.SetValue CellRef newVal
      if newVal > s.maxVal then ⟨o, newVal, CellRef⟩ else ⟨o, s.maxVal, s.maxCell⟩
  else some s

/-- Steps 2 to 4 of `UGATargetComponent::OccupancyMapUpdate`, from the visibility
map that step 1 builds with the engine's line traces.  The result is the new
occupancy map and the new `LastKnownState.Position`; `maxCell` is the declared
but unassigned `FCellRef maxCell` of step 3. -/
def OccupancyMapUpdate (Grid : AGAGridActor) (VisibilityMap OccupancyMap : FGAGridMap)
    (maxCell : FCellRef) : Option (FGAGridMap × FVector) :=
  let c := OccupancyMapClear VisibilityMap OccupancyMap
  (c.OccupancyMap.GridBounds.cells.foldlM (OccupancyMapNormCell Grid c.oMapSum)
      ⟨c.OccupancyMap, 0, maxCell⟩).map
    fun n => (n.OccupancyMap, Grid.GetCellPosition n.maxCell)

/-- The factor `alpha` of `OccupancyMapDiffuse`. -/
def alpha : ℚ := 3 / 4

/-- The list `sides` of `OccupancyMapDiffuse`. -/
def sides : List (Int × Int) := [(0, 1), (0, -1), (1, 0), (-1, 0)]

/-- The list `diag` of `OccupancyMapDiffuse`. -/
def diag : List (Int × Int) := [(1, 1), (1, -1), (-1, 1), (-1, -1)]

/-- The body of `for (const auto& s : sides)` in `OccupancyMapDiffuse`. -/
def OccupancyMapDiffuseSide (flags : Bool) (X Y : Int) (curProb sideProb : ℚ)
    (OccupancyMap : FGAGridMap) (s : Int × Int) : FGAGridMap :=
  let maxX := OccupancyMap.GridBounds.MaxX
  let maxY := OccupancyMap.GridBounds.MaxY
  let minX := OccupancyMap.GridBounds.MinX
  let minY := OccupancyMap.GridBounds.MinY
  let newX := X + s.1
  let newY := Y + s.2
  if flags = true ∧ newX < maxX ∧ newX ≥ minX ∧ newY < maxY ∧ newY ≥ minY then
    let sideRef : FCellRef := ⟨newX, newY⟩
    let sideVal := OccupancyMap.GetValue sideRef 0
    if curProb > sideVal then OccupancyMap.SetValue sideRef sideProb else OccupancyMap
  else OccupancyMap

/-- The body of `for (const auto& d : diag)` in `OccupancyMapDiffuse`; it writes
`diagVal`, the value it has just read. -/
def OccupancyMapDiffuseDiag (flags : Bool) (X Y : Int) (curProb : ℚ)
    (OccupancyMap : FGAGridMap) (d : Int × Int) : FGAGridMap :=
  let maxX := OccupancyMap.GridBounds.MaxX
  let maxY := OccupancyMap.GridBounds.MaxY
  let minX := OccupancyMap.GridBounds.MinX
  let minY := OccupancyMap.GridBounds.MinY
  let newX := X + d.1
  let newY := Y + d.2
  if flags = true ∧ newX < maxX ∧ newX ≥ minX ∧ newY < maxY ∧ newY ≥ minY then
    let diagRef : FCellRef := ⟨newX, newY⟩
    let diagVal := OccupancyMap.GetValue diagRef 0
    if curProb > diagVal then OccupancyMap.SetValue diagRef diagVal else OccupancyMap
  else OccupancyMap

/-- The body of the first loop nest of `OccupancyMapDiffuse` for one cell.  The
value `diagProb = (alpha * curProb) / r2` of the sources is computed there and
never read, and is left out. -/
def OccupancyMapDiffuseCell (Grid : AGAGridActor) (OccupancyMap : FGAGridMap)
    (CellRef : FCellRef) : FGAGridMap :=
  let curProb := OccupancyMap.GetValue CellRef 0
  if curProb = 0 then OccupancyMap
  else
    let sideProb := alpha * curProb
    let flags := decide (Grid.GetCellData CellRef = ECellData.CellDataTraversable)
    let o := sides.foldl
      (OccupancyMapDiffuseSide flags CellRef.X CellRef.Y curProb sideProb) OccupancyMap
    diag.foldl (OccupancyMapDiffuseDiag flags CellRef.X CellRef.Y curProb) o

/-- The first loop nest of `OccupancyMapDiffuse`: the diffusion sweep. -/
def OccupancyMapDiffuseSweep (Grid : AGAGridActor) (OccupancyMap : FGAGridMap) :
    FGAGridMap :=
  OccupancyMap.GridBounds.cells.foldl (OccupancyMapDiffuseCell Grid) OccupancyMap

/-- The second loop nest of `OccupancyMapDiffuse`: the sum `oMapSum`, with the
variable `mapVal` declared outside the loops. -/
def OccupancyMapDiffuseSum (OccupancyMap : FGAGridMap) : ℚ :=
  (OccupancyMap.GridBounds.cells.foldl
    (fun (s : ℚ × ℚ) CellRef =>
      let mapVal := OccupancyMap.GetValue CellRef s.2
      (s.1 + mapVal, mapVal))
    (0, 0)).1

/-- The body of the third loop nest of `OccupancyMapDiffuse` for one cell; `none`
when the division has a zero divisor. -/
def OccupancyMapDiffuseNormCell (oMapSum : ℚ) (OccupancyMap : FGAGridMap)
    (CellRef : FCellRef) : Option FGAGridMap :=
  let curVal := OccupancyMap.GetValue CellRef 0
  (fdiv curVal oMapSum).map fun newVal => OccupancyMap.SetValue CellRef newVal

/-- The function `UGATargetComponent::OccupancyMapDiffuse()`, on the occupancy map. -/
def OccupancyMapDiffuse (Grid : AGAGridActor) (OccupancyMap : FGAGridMap) :
    Option FGAGridMap :=
  let o := OccupancyMapDiffuseSweep Grid OccupancyMap
  let oMapSum := OccupancyMapDiffuseSum o
  o.GridBounds.cells.foldlM (OccupancyMapDiffuseNormCell oMapSum) o

/-! ## The path component (GAPathComponent.cpp) -/

/-- A world-space point with its `Z` component, for the functions that read it. -/
structure FVector3 where
  X : ℚ
  Y : ℚ
  Z : ℚ
deriving DecidableEq

/-- The `X` and `Y` components of a point: `FVector2D(v)`, and what
`Grid->GetCellRef(v)` reads. -/
def FVector3.xy (v : FVector3) : FVector := ⟨v.X, v.Y⟩

/-- The function `FVector::DistSquared`. -/
def DistSquared (a b : FVector3) : ℚ :=
  (a.X - b.X) * (a.X - b.X) + (a.Y - b.Y) * (a.Y - b.Y) + (a.Z - b.Z) * (a.Z - b.Z)

/-- The test `FVector::Dist(a, b) <= r`, decided without the square root. -/
def DistLe (a b : FVector3) (r : ℚ) : Bool :=
  decide (0 ≤ r ∧ DistSquared a b ≤ r * r)

/-- The fields of `UGAPathComponent` that the embedded functions read or write. -/
structure UGAPathComponent where
  State : EGAPathState
  bDestinationValid : Bool
  Destination : FVector3
  DestinationCell : FCellRef
  ArrivalDistance : ℚ
  Steps : List FPathStep

/-- The call `Steps.SetNum(1)`: an empty array gets one new element, a longer one
keeps its first element.  `NewStep` is the default-constructed `FPathStep`,
whose constructor is not among the sources. -/
def StepsSetNum1 (NewStep : FPathStep) : List FPathStep → List FPathStep
  | [] => [NewStep]
  | step :: _ => [step]

/-- The function `UGAPathComponent::AStar()`, for the pawn position `StartPoint`: the
component after the call and the state returned.  The result is `none` only
if the search runs out of fuel or `path.back()` is taken of an empty path,
neither of which happens. -/
def AStar (Q : (dest : FCellRef) → PriorityQueue (FCellRef × List FCellRef) (CompareCells dest))
    (Grid : AGAGridActor) (NewStep : FPathStep) (StartPoint : FVector3)
    (C : UGAPathComponent) : Option (UGAPathComponent × EGAPathState) :=
  let Steps := StepsSetNum1 NewStep C.Steps
  let startCell := Grid.GetCellRef StartPoint.xy
  match AStarSearch (Q C.DestinationCell) Grid C.ArrivalDistance StartPoint.xy with
  | none => none
  | some (some (_, curPath)) =>
    if curPath.length ≥ 2 then
      match getLineTrace curPath startCell Grid with
      | some moveToTuple =>
        if Grid.GetCellData moveToTuple.2 = ECellData.CellDataTraversable then
          some ({ C with Steps := [⟨moveToTuple.1, moveToTuple.2⟩] }, EGAPathState.GAPS_Active)
        else some ({ C with Steps := Steps }, EGAPathState.GAPS_Active)
      | none => none
    else some ({ C with Steps := [⟨StartPoint.xy, startCell⟩] }, EGAPathState.GAPS_Active)
  | some none => some ({ C with Steps := Steps }, EGAPathState.GAPS_Active)

/-- The function `UGAPathComponent::RefreshPath()`, for the pawn position
`StartPoint`. -/
def RefreshPath (Q : (dest : FCellRef) → PriorityQueue (FCellRef × List FCellRef) (CompareCells dest))
    (Grid : AGAGridActor) (NewStep : FPathStep) (StartPoint : FVector3)
    (C : UGAPathComponent) : Option UGAPathComponent :=
  if DistLe StartPoint C.Destination C.ArrivalDistance then
    some { C with State := EGAPathState.GAPS_Finished }
  else
    (AStar Q Grid NewStep StartPoint C).map fun r => { r.1 with State := r.2 }

/-- The function `UGAPathComponent::FollowPath()`: the vector `V` from the pawn to
`Steps[0].Point` that it hands, normalised, to `RequestPathMove`; `none` when
`Steps` is empty. -/
def FollowPath (StartPoint : FVector3) (C : UGAPathComponent) : Option FVector3 :=
  C.Steps.head?.map fun step =>
    ⟨step.Point.X - StartPoint.X, step.Point.Y - StartPoint.Y, 0 - StartPoint.Z⟩

/-- The function `UGAPathComponent::TickComponent`: the component after the tick and
the move that `FollowPath` requests, `none` when `FollowPath` is not called. -/
def UGAPathComponent.TickComponent
    (Q : (dest : FCellRef) → PriorityQueue (FCellRef × List FCellRef) (CompareCells dest))
    (Grid : AGAGridActor) (NewStep : FPathStep) (StartPoint : FVector3)
    (C : UGAPathComponent) : Option (UGAPathComponent × Option FVector3) :=
  if C.bDestinationValid then
    (RefreshPath Q Grid NewStep StartPoint C).map fun C2 =>
      (C2, if C2.State = EGAPathState.GAPS_Active then FollowPath StartPoint C2 else none)
  else some (C, none)

/-- The body of the loop nest of `OccupancyMapSetPosition` for one cell. -/
def OccupancyMapSetPositionCell (curPosCell : FCellRef) (OccupancyMap : FGAGridMap)
    (CellRef : FCellRef) : FGAGridMap :=
  if CellRef.Y = curPosCell.Y ∧ CellRef.X = curPosCell.X then
    OccupancyMap.SetValue curPosCell 1
  else OccupancyMap.SetValue CellRef 0

/-- The function `UGATargetComponent::OccupancyMapSetPosition(Position)`, on the
occupancy map. -/
def OccupancyMapSetPosition (Grid : AGAGridActor) (OccupancyMap : FGAGridMap)
    (Position : FVector) : FGAGridMap :=
  OccupancyMap.GridBounds.cells.foldl
    (OccupancyMapSetPositionCell (Grid.GetCellRef Position)) OccupancyMap

/-! ## Target state machine (GATargetComponent.cpp) -/

/-- Modelled from the spec: the target states `ETargetState` are declared in a
header that is not among the sources; the spec names them Unknown, Immediate
and Hidden. -/
inductive ETargetState where
  | GATS_Unknown
  | GATS_Immediate
  | GATS_Hidden
deriving DecidableEq, Repr

/-- Modelled from the spec: `UGATargetComponent::IsKnown()` is declared in a header
that is not among the sources; a target is known when its state is Immediate
or Hidden. -/
def IsKnown (State : ETargetState) : Bool :=
  decide (State = ETargetState.GATS_Immediate ∨ State = ETargetState.GATS_Hidden)

/-- The loop of `UGATargetComponent::TickComponent` over the perception components:
each entry is what `GetTargetData(TargetGuid)` gives for one component, `none`
for a null pointer and else the `Awareness` it holds. -/
def TickComponentIsImmediate (PerceptionComponents : List (Option ℚ)) : Bool :=
  PerceptionComponents.any fun TargetData =>
    match TargetData with
    | some Awareness => decide (Awareness ≥ 1)
    | none => false

/-- The value of `LastKnownState.State` after the first `if` / `else if` of
`UGATargetComponent::TickComponent`; the map updates that follow do not write
it. -/
def TickComponentState (State : ETargetState) (PerceptionComponents : List (Option ℚ)) :
    ETargetState :=
  if TickComponentIsImmediate PerceptionComponents then ETargetState.GATS_Immediate
  else if IsKnown State then ETargetState.GATS_Hidden
  else State

/-- The state after `n` ticks, when tick number `i` sees the perception components
`obs i`. -/
def TickComponentStateAt (State : ETargetState) (obs : Nat → List (Option ℚ)) :
    Nat → ETargetState
  | 0 => State
  | n + 1 => TickComponentState (TickComponentStateAt State obs n) (obs n)

/-! ## Step 1 of the occupancy update (GATargetComponent.cpp) -/

/-- The function `IsWithinDistance`: the squared distance against the squared
threshold. -/
def IsWithinDistance (VectorA VectorB : FVector3) (DistanceThreshold : ℚ) : Bool :=
  decide (DistSquared VectorA VectorB ≤ DistanceThreshold * DistanceThreshold)

/-- The difference of two points, `a - b`. -/
def FVector3.sub (a b : FVector3) : FVector3 := ⟨a.X - b.X, a.Y - b.Y, a.Z - b.Z⟩

/-- What step 1 of `OccupancyMapUpdate` reads of one perception component:
`Start` is the location of its owner, `VisionDistance` its vision range,
`IsWithinVisionAngle` the test `IsWithinVisionAngle(ForwardVector, v, angle)`
for its forward vector and vision angle, which is computed with the engine's
`Acos`, and `LineTraceSingleByChannel` the engine's line trace between two
points that ignores the player and the owner. -/
structure UGAPerceptionComponent where
  Start : FVector3
  VisionDistance : ℚ
  IsWithinVisionAngle : FVector3 → Bool
  LineTraceSingleByChannel : FVector3 → FVector3 → Bool

/-- The body of the loop nest of step 1 of `OccupancyMapUpdate` for one perception
component and one cell. -/
def OccupancyMapVisibilityCell (Grid : AGAGridActor) (LastKnownPosition : FVector3)
    (PerceptionComponent : UGAPerceptionComponent) (VisibilityMap : FGAGridMap)
    (CellRef : FCellRef) : FGAGridMap :=
  let Start := PerceptionComponent.Start
  let End : FVector3 :=
    ⟨(Grid.GetCellPosition CellRef).X, (Grid.GetCellPosition CellRef).Y, Start.Z⟩
  let flags := decide (Grid.GetCellData CellRef = ECellData.CellDataTraversable)
  let inAngle := PerceptionComponent.IsWithinVisionAngle (End.sub Start)
  let inDist := IsWithinDistance Start End PerceptionComponent.VisionDistance
  let hasFound := IsWithinDistance Start LastKnownPosition 200
  if (flags && inAngle && inDist) || hasFound then
    let bHitSomething := PerceptionComponent.LineTraceSingleByChannel Start End
    if !bHitSomething then VisibilityMap.SetValue CellRef 1 else VisibilityMap
  else VisibilityMap

/-- Step 1 of `UGATargetComponent::OccupancyMapUpdate`: the visibility map built
from the perception components, over the window of the occupancy map. -/
def OccupancyMapVisibility (Grid : AGAGridActor) (OccupancyMap : FGAGridMap)
    (LastKnownPosition : FVector3) (PerceptionComponents : List UGAPerceptionComponent) :
    FGAGridMap :=
  PerceptionComponents.foldl
    (fun VisibilityMap PerceptionComponent =>
      OccupancyMap.GridBounds.cells.foldl
        (OccupancyMapVisibilityCell Grid LastKnownPosition PerceptionComponent) VisibilityMap)
    (FGAGridMap.ofGrid Grid 0)

/-- The loop `for (const FFunctionLayer& Layer : SpatialFunction->Layers)` of
`ChoosePosition`: every layer is evaluated in order into the same grid map. -/
def EvaluateLayers (W : SpatialQueries) (Grid : AGAGridActor) (Layers : List FFunctionLayer)
    (GridMap : FGAGridMap) (DistanceMap : FGAGridMap) : FGAGridMap :=
  Layers.foldl (fun GridMap Layer => EvaluateLayer W Grid Layer GridMap DistanceMap) GridMap

/-- The function `UGASpatialComponent::ChoosePosition(PathfindToPosition, Debug)`, for
the pawn position `pawnLocation`: its result and the `State` and `Steps` of the
path component after the call.  `SpatialFunctionReference` is the layer list of
the assigned spatial function, `none` when none is assigned; `Grid` is what
`GetGridActor()` returns, `none` for a null pointer; `CellRect` is the rectangle
that `GridSpaceBoundsToRect2D` gives for the box around the pawn, `none` when it
returns false; `maxCell` is the declared but unassigned `FCellRef maxCell`.  The
result is `none` when the call dereferences a null pointer or `Dijkstra` runs
out of fuel.  The debug block writes only to the grid actor and is left out;
of what `SetDestination` writes, only `State` and `Steps[0]` are tracked, which
the two assignments after it overwrite. -/
def ChoosePosition (S : StdSort (ℚ × FCellRef) comparePairs)
    (Q : PriorityQueue (ℚ × FCellRef) PairLess) (W : SpatialQueries)
    (SpatialFunctionReference : Option (List FFunctionLayer)) (Grid : Option AGAGridActor)
    (CellRect : Option FGridBox) (NewStep : FPathStep) (pawnLocation : FVector)
    (maxCell : FCellRef) (PathfindToPosition : Bool)
    (State : EGAPathState) (Steps : List FPathStep) :
    Option (Bool × EGAPathState × List FPathStep) :=
  match SpatialFunctionReference with
  | none => some (false, State, Steps)
  | some Layers =>
    match Grid with
    | none => none
    | some Grid =>
      let Steps := StepsSetNum1 NewStep Steps
      match CellRect with
      | none => some (false, State, Steps)
      | some GridBox =>
        match Dijkstra Q Grid pawnLocation (FGAGridMap.ofBox GridBox FLT_MAX) with
        | none => none
        | some DistanceMap =>
          let GridMap := EvaluateLayers W Grid Layers (FGAGridMap.ofBox GridBox 0) DistanceMap
          let maxCell := ChoosePositionSelect S GridMap DistanceMap maxCell
          if PathfindToPosition then
            let r := ChoosePositionGoThere DistanceMap pawnLocation maxCell Grid
            match r.1 with
            | some step => some (true, r.2, [step])
            | none => some (true, r.2, Steps)
          else some (true, State, Steps)

/-! ## Awareness (GAPerceptionComponent.cpp) -/

/-- The function `std::clamp(v, lo, hi)`. -/
def stdClamp (v lo hi : ℚ) : ℚ :=
  if v < lo then lo else if hi < v then hi else v

/-- The update of `TargetData->Awareness` in
`UGAPerceptionComponent::UpdateTargetData`, from the owner position `Start` and
the player position `End`: `inAngle` is the result of
`IsWithinVisionAngle(ForwardVector, End - Start, 90)`, which is computed with the
engine's `Acos`, and `bHitSomething` the result of the engine's line trace from
`Start` to `End`. -/
def UpdateTargetData (Start End : FVector3) (inAngle bHitSomething : Bool) (Awareness : ℚ) : ℚ :=
  let inDist := IsWithinDistance Start End 1000
  let Awareness :=
    if inAngle && inDist then
      let incAwareness : ℚ := if bHitSomething then -(1 / 40) else 1 / 4
      Awareness + incAwareness
    else Awareness - 1 / 40
  stdClamp Awareness 0 1

/-! ## Predicates used to state the properties -/

/-- A cell an agent may stand on inside a window: in the window and flagged
traversable. -/
def Walkable (Grid : AGAGridActor) (b : FGridBox) (c : FCellRef) : Prop :=
  b.IsValidCell c = true ∧ Grid.GetCellData c = ECellData.CellDataTraversable

/-- Two cells are 4-adjacent: they differ by one of the four orthogonal steps. -/
def Adjacent4 (u v : FCellRef) : Prop :=
  ∃ d ∈ directions, v = u.offset d

/-- A walk of `n` steps from `start`: cells `p 0 = start`, `p 1`, ..., `p n` in
which every cell after the first is walkable and 4-adjacent to the one before
it. -/
def IsWalk (Grid : AGAGridActor) (b : FGridBox) (start : FCellRef) (n : Nat)
    (p : Nat → FCellRef) : Prop :=
  p 0 = start ∧ ∀ i, i < n → Adjacent4 (p i) (p (i + 1)) ∧ Walkable Grid b (p (i + 1))

/-- A shortest walk from `start` to `c`: a walk of `n` steps that ends in `c`,
while no walk from `start` that ends in `c` has fewer steps. -/
def IsShortestWalk (Grid : AGAGridActor) (b : FGridBox) (start c : FCellRef) (n : Nat)
    (p : Nat → FCellRef) : Prop :=
  IsWalk Grid b start n p ∧ p n = c ∧
    ∀ m q, IsWalk Grid b start m q → q m = c → n ≤ m

/-- There is a walk of `n` steps from `start` to the cell. -/
inductive Reach (Grid : AGAGridActor) (b : FGridBox) (start : FCellRef) :
    Nat → FCellRef → Prop where
  | zero : Reach Grid b start 0 start
  | step {n : Nat} {u v : FCellRef} :
      Reach Grid b start n u → Adjacent4 u v → Walkable Grid b v →
      Reach Grid b start (n + 1) v

/-- The hop distance of a cell from `start` is `n`. -/
def HopDist (Grid : AGAGridActor) (b : FGridBox) (start : FCellRef) (c : FCellRef)
    (n : Nat) : Prop :=
  Reach Grid b start n c ∧ ∀ m, Reach Grid b start m c → n ≤ m

/-- A clear straight line from `start` to `finish`: each of the 80 sample points
lies in a traversable cell. -/
def LineClear (Grid : AGAGridActor) (start finish : FVector) : Prop :=
  ∀ i, i < 80 →
    Grid.GetCellData (Grid.GetCellRef (lerpPoint start finish i))
      = ECellData.CellDataTraversable

instance (Grid : AGAGridActor) (start finish : FVector) :
    Decidable (LineClear Grid start finish) := by
  unfold LineClear
  infer_instance

/-- The longest initial run of the path in which every cell has a clear straight
line from the point `originVec` to its world position. -/
def clearRun (Grid : AGAGridActor) (originVec : FVector) (path : List FCellRef) :
    List FCellRef :=
  path.takeWhile fun e => decide (LineClear Grid originVec (Grid.GetCellPosition e))

/-- The point number `i` of 80 uniformly spaced points on the segment from `a` to
`b`, written from the description of the smoothing and not from the code:
the point that divides the segment in the ratio `i : 79 - i`, so that point 0
is `a`, point 79 is `b` and consecutive points lie a 79th of the segment
apart. -/
def segmentPoint (a b : FVector) (i : Nat) : FVector :=
  ⟨((79 - (i : ℚ)) * a.X + (i : ℚ) * b.X) / 79, ((79 - (i : ℚ)) * a.Y + (i : ℚ) * b.Y) / 79⟩

/-- A clear straight line from `a` to `b`: every one of the 80 uniformly spaced
points of the segment falls in a traversable cell. -/
def SegmentClear (Grid : AGAGridActor) (a b : FVector) : Prop :=
  ∀ i, i < 80 →
    Grid.GetCellData (Grid.GetCellRef (segmentPoint a b i)) = ECellData.CellDataTraversable

instance (Grid : AGAGridActor) (a b : FVector) : Decidable (SegmentClear Grid a b) := by
  unfold SegmentClear
  infer_instance

/-- The longest prefix of the path in which every cell has a clear straight line
from the point `o` to its world position. -/
def clearPrefix (Grid : AGAGridActor) (o : FVector) (path : List FCellRef) : List FCellRef :=
  path.takeWhile fun e => decide (SegmentClear Grid o (Grid.GetCellPosition e))

/-- The value `EvaluateLayer` leaves in a cell that held `old`: unchanged when the
cell is not traversable, else combined with the modified value by the layer's
operator. -/
def EvaluateLayerValue (W : SpatialQueries) (Grid : AGAGridActor) (Layer : FFunctionLayer)
    (DistanceMap : FGAGridMap) (c : FCellRef) (old : ℚ) : ℚ :=
  if Grid.GetCellData c = ECellData.CellDataTraversable then
    match Layer.Op with
    | ESpatialOp.SO_None => 0
    | ESpatialOp.SO_Add => old + Layer.ResponseCurve (EvaluateLayerInput W Layer DistanceMap c)
    | ESpatialOp.SO_Multiply =>
      old * Layer.ResponseCurve (EvaluateLayerInput W Layer DistanceMap c)
  else old

/-- The sum of the values of a map over the traversable cells of its rectangle. -/
def TraversableSum (Grid : AGAGridActor) (m : FGAGridMap) : ℚ :=
  ((m.GridBounds.cells.filter fun c =>
      decide (Grid.GetCellData c = ECellData.CellDataTraversable)).map m.Data).sum

/-- The sum of the values of a map over all cells of its rectangle. -/
def CellSum (m : FGAGridMap) : ℚ :=
  (m.GridBounds.cells.map m.Data).sum

/-- The point `End` of step 1 of `OccupancyMapUpdate` for a perception component
and a cell: the position of the cell at the height of the observer. -/
def cellEnd (Grid : AGAGridActor) (P : UGAPerceptionComponent) (c : FCellRef) : FVector3 :=
  ⟨(Grid.GetCellPosition c).X, (Grid.GetCellPosition c).Y, P.Start.Z⟩

/-- A perception component marks a cell in step 1 of `OccupancyMapUpdate`: its line
trace to the cell hits nothing, and either the cell is traversable, in its
vision cone and in its vision range, or the observer itself is within 200 units
of the last known position. -/
def Marks (Grid : AGAGridActor) (LastKnownPosition : FVector3) (P : UGAPerceptionComponent)
    (c : FCellRef) : Prop :=
  P.LineTraceSingleByChannel P.Start (cellEnd Grid P c) = false ∧
    ((Grid.GetCellData c = ECellData.CellDataTraversable ∧
        P.IsWithinVisionAngle ((cellEnd Grid P c).sub P.Start) = true ∧
        IsWithinDistance P.Start (cellEnd Grid P c) P.VisionDistance = true) ∨
      IsWithinDistance P.Start LastKnownPosition 200 = true)

instance (Grid : AGAGridActor) (LastKnownPosition : FVector3) (P : UGAPerceptionComponent)
    (c : FCellRef) : Decidable (Marks Grid LastKnownPosition P c) := by
  unfold Marks
  infer_instance

/-- One step of the search for the largest value of `f` over the traversable cells
of a list: the pair `r` of the largest value so far and its cell is replaced
only by a traversable cell with a strictly larger value. -/
def maxScan (Grid : AGAGridActor) (f : FCellRef → ℚ) (r : ℚ × FCellRef) (c : FCellRef) :
    ℚ × FCellRef :=
  if Grid.GetCellData c = ECellData.CellDataTraversable ∧ f c > r.1 then (f c, c) else r

/-- The cell `a` comes before the cell `c` in the scan order of the loop nests: `Y`
outer, `X` inner. -/
def RowMajorBefore (a c : FCellRef) : Prop :=
  a.Y < c.Y ∨ (a.Y = c.Y ∧ a.X < c.X)

/-- The body of the diffusion sweep for one cell when only the four orthogonal
directions `sides` are visited: the procedure of `OccupancyMapDiffuseCell`
without its loop over `diag`. -/
def OccupancyMapDiffuseCellOrthogonal (Grid : AGAGridActor) (OccupancyMap : FGAGridMap)
    (CellRef : FCellRef) : FGAGridMap :=
  let curProb := OccupancyMap.GetValue CellRef 0
  if curProb = 0 then OccupancyMap
  else
    let sideProb := alpha * curProb
    let flags := decide (Grid.GetCellData CellRef = ECellData.CellDataTraversable)
    sides.foldl
      (OccupancyMapDiffuseSide flags CellRef.X CellRef.Y curProb sideProb) OccupancyMap

/-- The diffusion restricted to the four orthogonal directions: the sweep with
`OccupancyMapDiffuseCellOrthogonal`, then the same sum and the same
renormalisation as `OccupancyMapDiffuse`. -/
def OccupancyMapDiffuseOrthogonal (Grid : AGAGridActor) (OccupancyMap : FGAGridMap) :
    Option FGAGridMap :=
  let o := OccupancyMap.GridBounds.cells.foldl (OccupancyMapDiffuseCellOrthogonal Grid)
    OccupancyMap
  let oMapSum := OccupancyMapDiffuseSum o
  o.GridBounds.cells.foldlM (OccupancyMapDiffuseNormCell oMapSum) o

/-- The score a run of all layers leaves in a cell that held `old`: the layers'
updates `EvaluateLayerValue` applied to it one after the other. -/
def EvaluateLayersValue (W : SpatialQueries) (Grid : AGAGridActor) (Layers : List FFunctionLayer)
    (DistanceMap : FGAGridMap) (c : FCellRef) (old : ℚ) : ℚ :=
  Layers.foldl (fun v Layer => EvaluateLayerValue W Grid Layer DistanceMap c v) old

/-- The Manhattan distance `|x - sx| + |y - sy|` between two cells. -/
def manhattan (s c : FCellRef) : Nat :=
  (c.X - s.X).natAbs + (c.Y - s.Y).natAbs

/-- The loop of `Dijkstra` together with a record of its iterations: `log` lists,
one entry per iteration, the cell `curCell` whose distance the iteration
writes.  The result is the loop state at the exit and the record; the
`visited` list of the state holds every cell ever pushed on the queue, in the
order of the pushes. -/
def DijkstraLoopLog (Q : PriorityQueue (ℚ × FCellRef) PairLess) (Grid : AGAGridActor) :
    Nat → DijkstraState → List FCellRef → Option (DijkstraState × List FCellRef)
  | fuel, s, log =>
    match Q.pop s.pq with
    | none => some (s, log)
    | some ((curDist, curCell), rest) =>
      match fuel with
      | 0 => none
      | fuel + 1 =>
        let m := s.DistanceMapOut.SetValue curCell curDist
        let newDist := curDist + 1
        let r := directions.foldl
          (DijkstraNeighbor Q Grid m.GridBounds curCell newDist) (s.visited, rest)
        DijkstraLoopLog Q Grid fuel ⟨r.2, r.1, m⟩ (log ++ [curCell])

/-- The number of traversable cells of a window. -/
def traversableCount (Grid : AGAGridActor) (b : FGridBox) : Nat :=
  (b.cells.filter fun c => decide (Grid.GetCellData c = ECellData.CellDataTraversable)).length

/-- The loop invariant of `Dijkstra` that relates the record of the iterations to
the queue and to the list `visited`. -/
structure DijkstraLogInv (Grid : AGAGridActor) (b : FGridBox) (start : FCellRef)
    (s : DijkstraState) (log : List FCellRef) : Prop where
  bounds : s.DistanceMapOut.GridBounds = b
  nodup : s.visited.Nodup
  visitedOk : ∀ c ∈ s.visited, c = start ∨ Walkable Grid b c
  cover : ∀ c ∈ s.visited, c ∈ log ∨ ∃ e ∈ s.pq, e.2 = c
  count : log.length + s.pq.length = s.visited.length

/-- The combinator of a layer applied to the running value `v` of a cell: 0 for the
operator None, `v` plus or times the layer's response to the raw input of the
cell for Add and Multiply. -/
def LayerCombine (W : SpatialQueries) (Layer : FFunctionLayer) (DistanceMap : FGAGridMap)
    (c : FCellRef) (v : ℚ) : ℚ :=
  match Layer.Op with
  | ESpatialOp.SO_None => 0
  | ESpatialOp.SO_Add => v + Layer.ResponseCurve (EvaluateLayerInput W Layer DistanceMap c)
  | ESpatialOp.SO_Multiply => v * Layer.ResponseCurve (EvaluateLayerInput W Layer DistanceMap c)

/-- The evaluation cell by cell: for every cell of the window in turn, all layers
are applied to that cell in list order before the next cell is visited. -/
def EvaluateCellByCell (W : SpatialQueries) (Grid : AGAGridActor) (Layers : List FFunctionLayer)
    (GridMap : FGAGridMap) (DistanceMap : FGAGridMap) : FGAGridMap :=
  GridMap.GridBounds.cells.foldl
    (fun g c => Layers.foldl (fun g Layer => EvaluateLayerCell W Grid Layer DistanceMap g c) g)
    GridMap

/-- The value the diffusion sweep of a map holding 1 at `(cx, cy)` only has left at
the cell `(x, cy)` once the cells of `pre` (a prefix of the row-major order that
holds `(cx, cy)`) are processed. -/
def sweepRow (cx cy : Int) (pre : List FCellRef) (x : Int) : ℚ :=
  if x < cx - 1 then 0 else if x = cx - 1 then alpha else if x = cx then 1
  else if (⟨x - 1, cy⟩ : FCellRef) ∈ pre then alpha ^ (x - cx).toNat else 0

/-- The value the same sweep has left at the cell `(x, cy + 1)` of the next row, as
long as `pre` holds no cell beyond that row. -/
def sweepRowBelow (cx cy : Int) (pre : List FCellRef) (x : Int) : ℚ :=
  if x < cx - 1 then 0
  else if x = cx - 1 then (if (⟨cx, cy + 1⟩ : FCellRef) ∈ pre then alpha ^ 2 else 0)
  else if (⟨x, cy⟩ : FCellRef) ∈ pre then alpha ^ ((x - cx).toNat + 1) else 0

/-- The invariant of the diffusion sweep on a map `o` holding 1 at `(cx, cy)` only,
after the cells of `pre`: nothing has changed before `(cx, cy)` is processed;
afterwards the row `cy` holds `sweepRow` and the row `cy + 1` holds
`sweepRowBelow`. -/
structure SweepInv (o : FGAGridMap) (cx cy : Int) (pre : List FCellRef) (g : FGAGridMap) :
    Prop where
  bounds : g.GridBounds = o.GridBounds
  before : (⟨cx, cy⟩ : FCellRef) ∉ pre → ∀ y, g.Data y = o.Data y
  row : (⟨cx, cy⟩ : FCellRef) ∈ pre → ∀ x, o.GridBounds.IsValidCell ⟨x, cy⟩ = true →
    g.Data ⟨x, cy⟩ = sweepRow cx cy pre x
  below : (⟨cx, cy⟩ : FCellRef) ∈ pre → (∀ p ∈ pre, p.Y ≤ cy + 1) →
    ∀ x, o.GridBounds.IsValidCell ⟨x, cy + 1⟩ = true →
      g.Data ⟨x, cy + 1⟩ = sweepRowBelow cx cy pre x

/-- A valid distance at a cell of a distance map: at least 0, below `FLT_MAX` and
integral. -/
def ValidDistance (DistanceMap : FGAGridMap) (c : FCellRef) : Prop :=
  ∃ n : Nat, DistanceMap.Data c = (n : ℚ) ∧ (n : ℚ) < FLT_MAX

/-- The test of `Walkable` as a boolean. -/
def WalkableB (Grid : AGAGridActor) (b : FGridBox) (c : FCellRef) : Bool :=
  b.IsValidCell c && decide (Grid.GetCellData c = ECellData.CellDataTraversable)

/-- The loop invariant of `Dijkstra`, for the window `b`, the source cell `start`
and the distance map `init` the function is called with. -/
structure DijkstraInv (Grid : AGAGridActor) (b : FGridBox) (start : FCellRef)
    (init : FGAGridMap) (s : DijkstraState) : Prop where
  bounds : s.DistanceMapOut.GridBounds = b
  startVisited : start ∈ s.visited
  nodup : s.visited.Nodup
  visitedOk : ∀ c ∈ s.visited, c = start ∨ Walkable Grid b c
  queued : ∀ e ∈ s.pq, ∃ n : Nat, e.1 = (n : ℚ) ∧ HopDist Grid b start e.2 n ∧ e.2 ∈ s.visited
  settled : ∀ c ∈ s.visited, (∃ e ∈ s.pq, e.2 = c) ∨
    ∃ n : Nat, s.DistanceMapOut.Data c = (n : ℚ) ∧ HopDist Grid b start c n ∧
      ∀ v, Adjacent4 c v → Walkable Grid b v → v ∈ s.visited
  level : ∀ e ∈ s.pq, (∀ x ∈ s.pq, e.1 ≤ x.1) →
    ∀ c m, HopDist Grid b start c m → (m : ℚ) ≤ e.1 → c ∈ s.visited
  spread : ∀ x ∈ s.pq, ∀ y ∈ s.pq, x.1 ≤ y.1 + 1
  frame : ∀ c, c ∉ s.visited → s.DistanceMapOut.Data c = init.Data c

/-- The part of the loop invariant of `Dijkstra` that holds for a source cell inside
or outside the window: only cells reachable from the source are visited, and a
cell that is not visited keeps the value of the map `init`. -/
structure DijkstraFrameInv (Grid : AGAGridActor) (b : FGridBox) (start : FCellRef)
    (init : FGAGridMap) (s : DijkstraState) : Prop where
  bounds : s.DistanceMapOut.GridBounds = b
  nodup : s.visited.Nodup
  visitedOk : ∀ c ∈ s.visited, c = start ∨ Walkable Grid b c
  queued : ∀ e ∈ s.pq, e.2 ∈ s.visited
  reach : ∀ c ∈ s.visited, ∃ n, Reach Grid b start n c
  frame : ∀ c, c ∉ s.visited → s.DistanceMapOut.Data c = init.Data c

/-- The test `adjCell.IsValid() && Grid->GetCellData(adjCell) == CellDataTraversable`
of `AStar` as a boolean. -/
def AStarOk (Grid : AGAGridActor) (c : FCellRef) : Bool :=
  Grid.IsValid c && decide (Grid.GetCellData c = ECellData.CellDataTraversable)

/-- The cells the search of `AStar` can reach: the start cell and every cell
joined to it by a chain of 4-adjacent, valid, traversable cells. -/
inductive AStarReach (Grid : AGAGridActor) (start : FCellRef) : FCellRef → Prop where
  | start : AStarReach Grid start start
  | step {u v : FCellRef} :
      AStarReach Grid start u → Adjacent4 u v → Grid.IsValid v = true →
      Grid.GetCellData v = ECellData.CellDataTraversable → AStarReach Grid start v

/-- The loop invariant of `AStar` on the state `(visited, pq)`, for the goal test
`goal` and the start cell `start`. -/
structure AStarInv (Grid : AGAGridActor) (goal : FCellRef → Bool) (start : FCellRef)
    (s : List FCellRef × List (FCellRef × List FCellRef)) : Prop where
  startVisited : start ∈ s.1
  nodup : s.1.Nodup
  visitedOk : ∀ c ∈ s.1, c = start ∨ AStarOk Grid c = true
  reach : ∀ c ∈ s.1, AStarReach Grid start c
  queued : ∀ e ∈ s.2, e.1 ∈ s.1
  settled : ∀ c ∈ s.1, (∃ e ∈ s.2, e.1 = c) ∨
    (goal c = false ∧ ∀ v, Adjacent4 c v → AStarOk Grid v = true → v ∈ s.1)

/-- The cells that `k` iterations of the loop of `getPositionPath` append, from
the cell `cur` on. -/
def descent (DistanceMapOut : FGAGridMap) (Grid : AGAGridActor) :
    Nat → FCellRef → List FCellRef
  | 0, _ => []
  | k + 1, cur => cur :: descent DistanceMapOut Grid k (getPositionPathNext DistanceMapOut Grid cur)

/-! ## Sample data -/

/-- A sample grid of `w` by `h` cells of side 100 whose non-traversable cells are
listed in `blocked`; world points map to cells by rounding down and cells map
to their centres. -/
def sampleGrid (w h : Int) (blocked : List FCellRef) : AGAGridActor where
  GridBounds := ⟨0, 0, w, h⟩
  CellData c :=
    if c ∈ blocked then ECellData.CellDataNone else ECellData.CellDataTraversable
  IsValid c := decide (0 ≤ c.X ∧ 0 ≤ c.Y)
  GetCellRef p := ⟨Int.floor (p.X / 100), Int.floor (p.Y / 100)⟩
  GetCellPosition c := ⟨100 * (c.X : ℚ) + 50, 100 * (c.Y : ℚ) + 50⟩
  GetCellGridSpacePosition c := ⟨100 * (c.X : ℚ) + 50, 100 * (c.Y : ℚ) + 50⟩

/-- A list-based queue for `Dijkstra`. -/
def sampleDijkstraQueue : PriorityQueue (ℚ × FCellRef) PairLess :=
  listQueue Prod.fst PairLess fun _ _ => rfl

/-- A sort for `ChoosePosition`: merge sort by ascending value. -/
def sampleSort : StdSort (ℚ × FCellRef) comparePairs where
  sort l := l.mergeSort fun a b => decide (a.1 ≤ b.1)
  sort_perm l := List.mergeSort_perm l _
  sort_sorted l := by
    have h := @List.sorted_mergeSort (ℚ × FCellRef) (fun a b => decide (a.1 ≤ b.1))
      (fun a b c hab hbc => by
        simp only [decide_eq_true_eq] at hab hbc ⊢
        exact hab.trans hbc)
      (fun a b => by
        simp only [Bool.or_eq_true, decide_eq_true_eq]
        exact le_total a.1 b.1) l
    refine h.imp ?_
    intro a b hab
    simp only [decide_eq_true_eq] at hab
    simpa [comparePairs] using hab

/-- A sample map over a window `b` whose value at a cell is the cell's `X`. -/
def sampleMapX (b : FGridBox) : FGAGridMap :=
  ⟨b, fun c => (c.X : ℚ)⟩

/-- A sample map over the two cells `(0,0)` and `(1,0)` holding `v` and `w`. -/
def sampleTwoCells (v w : ℚ) : FGAGridMap :=
  ⟨⟨0, 0, 2, 1⟩, fun c => if c = ⟨0, 0⟩ then v else w⟩

/-- A list-based queue for `AStar`. -/
def sampleAStarQueue (dest : FCellRef) :
    PriorityQueue (FCellRef × List FCellRef) (CompareCells dest) :=
  listQueue (fun (e : FCellRef × List FCellRef) => calculateDistanceSq e.1 dest)
    (CompareCells dest) fun _ _ => rfl

/-- A sample path component heading for the cell `(2,0)` with the aim point
`(250, 50)` left by an earlier tick. -/
def samplePathComponent : UGAPathComponent where
  State := EGAPathState.GAPS_Active
  bDestinationValid := true
  Destination := ⟨250, 50, 0⟩
  DestinationCell := ⟨2, 0⟩
  ArrivalDistance := 100
  Steps := [⟨⟨250, 50⟩, ⟨2, 0⟩⟩]

/-- A sample distance field over three cells in a row: 0 at the cell `(0,0)` and
`FLT_MAX` at the two others, as `Dijkstra` leaves it when the middle cell is
not traversable. -/
def sampleBlockedField : FGAGridMap :=
  ⟨⟨0, 0, 3, 1⟩, fun c => if c = ⟨0, 0⟩ then 0 else FLT_MAX⟩

/-- A sample perception component standing at `Start` with vision range 100, every
direction in its vision cone and no line trace blocked. -/
def sampleObserver (Start : FVector3) : UGAPerceptionComponent :=
  ⟨Start, 100, fun _ => true, fun _ _ => false⟩

/-- A sample map over a window `b` holding 1 at the cell `c0` and 0 elsewhere. -/
def sampleOneHot (b : FGridBox) (c0 : FCellRef) : FGAGridMap :=
  ⟨b, fun c => if c = c0 then 1 else 0⟩

/-! # Theorems -/

/-! ## Grid boxes and grid maps -/

theorem mem_cells (b : FGridBox) (c : FCellRef) :
    c ∈ b.cells ↔ b.IsValidCell c = true := by
  obtain ⟨x, y⟩ := c
  simp only [FGridBox.cells, FGridBox.IsValidCell, List.mem_flatMap, List.mem_map,
    List.mem_range, FCellRef.mk.injEq, Bool.and_eq_true, decide_eq_true_eq]
  constructor
  · rintro ⟨j, hj, i, hi, rfl, rfl⟩
    omega
  · rintro ⟨⟨⟨h1, h2⟩, h3⟩, h4⟩
    exact ⟨(y - b.MinY).toNat, by omega, (x - b.MinX).toNat, by omega, by omega, by omega⟩

theorem nodup_cells (b : FGridBox) : b.cells.Nodup := by
  unfold FGridBox.cells
  rw [List.nodup_flatMap]
  refine ⟨fun j _ => ?_, ?_⟩
  · refine (List.nodup_range _).map ?_
    intro i i' h
    simp only [FCellRef.mk.injEq] at h
    omega
  · refine (List.nodup_range _).pairwise_of_forall_ne ?_
    intro j _ j' _ hne
    simp only [Function.onFun, List.disjoint_left, List.mem_map, List.mem_range]
    rintro c ⟨i, _, rfl⟩ ⟨i', _, h⟩
    simp only [FCellRef.mk.injEq] at h
    omega

@[simp] theorem SetValue_GridBounds (m : FGAGridMap) (c : FCellRef) (v : ℚ) :
    (m.SetValue c v).GridBounds = m.GridBounds := by
  unfold FGAGridMap.SetValue
  split <;> rfl

theorem SetValue_Data_self (m : FGAGridMap) (c : FCellRef) (v : ℚ)
    (h : m.GridBounds.IsValidCell c = true) : (m.SetValue c v).Data c = v := by
  simp [FGAGridMap.SetValue, h]

theorem SetValue_Data_ne (m : FGAGridMap) (c x : FCellRef) (v : ℚ) (h : x ≠ c) :
    (m.SetValue c v).Data x = m.Data x := by
  unfold FGAGridMap.SetValue
  split
  · simp [h]
  · rfl

theorem GetValue_valid (m : FGAGridMap) (c : FCellRef) (old : ℚ)
    (h : m.GridBounds.IsValidCell c = true) : m.GetValue c old = m.Data c := by
  simp [FGAGridMap.GetValue, h]

/-! ## The neighbour loop shared by the two searches -/

section Expand

variable {α : Type} {Compare : α → α → Bool} (Q : PriorityQueue α Compare)
  (ok : FCellRef → Bool) (mk : FCellRef → α) (cur : FCellRef)

theorem expand_visited (ds : List (Int × Int)) (vis : List FCellRef) (q : List α)
    (c : FCellRef) :
    c ∈ (ds.foldl (expandNeighbor Q ok mk cur) (vis, q)).1 ↔
      c ∈ vis ∨ ∃ d ∈ ds, c = cur.offset d ∧ ok c = true := by
  induction ds generalizing vis q with
  | nil => simp
  | cons d ds ih =>
    rw [List.foldl_cons]
    by_cases h : cur.offset d ∉ vis ∧ ok (cur.offset d) = true
    · have e : expandNeighbor Q ok mk cur (vis, q) d
          = (vis ++ [cur.offset d], Q.push q (mk (cur.offset d))) := by
        simp only [expandNeighbor]; rw [if_pos h]
      rw [e, ih]
      simp only [List.mem_append, List.mem_cons, List.not_mem_nil, or_false, exists_eq_or_imp]
      constructor
      · rintro ((h1 | h1) | h1)
        · exact Or.inl h1
        · exact Or.inr (Or.inl ⟨h1, h1 ▸ h.2⟩)
        · exact Or.inr (Or.inr h1)
      · rintro (h1 | ⟨h1, _⟩ | h1)
        · exact Or.inl (Or.inl h1)
        · exact Or.inl (Or.inr h1)
        · exact Or.inr h1
    · have e : expandNeighbor Q ok mk cur (vis, q) d = (vis, q) := by
        simp only [expandNeighbor]; rw [if_neg h]
      rw [e, ih]
      simp only [List.mem_cons, exists_eq_or_imp]
      constructor
      · rintro (h1 | h1)
        · exact Or.inl h1
        · exact Or.inr (Or.inr h1)
      · rintro (h1 | ⟨h1, h2⟩ | h1)
        · exact Or.inl h1
        · by_cases hv : cur.offset d ∈ vis
          · exact Or.inl (h1 ▸ hv)
          · exact absurd ⟨hv, h1 ▸ h2⟩ h
        · exact Or.inr h1

theorem expand_queue (ds : List (Int × Int)) (vis : List FCellRef) (q : List α) (e : α) :
    e ∈ (ds.foldl (expandNeighbor Q ok mk cur) (vis, q)).2 ↔
      e ∈ q ∨ ∃ c, e = mk c ∧ c ∉ vis ∧ ∃ d ∈ ds, c = cur.offset d ∧ ok c = true := by
  induction ds generalizing vis q with
  | nil => simp
  | cons d ds ih =>
    rw [List.foldl_cons]
    by_cases h : cur.offset d ∉ vis ∧ ok (cur.offset d) = true
    · have e1 : expandNeighbor Q ok mk cur (vis, q) d
          = (vis ++ [cur.offset d], Q.push q (mk (cur.offset d))) := by
        simp only [expandNeighbor]; rw [if_pos h]
      rw [e1, ih, (Q.push_perm q (mk (cur.offset d))).mem_iff]
      simp only [List.mem_append, List.mem_cons, List.not_mem_nil, or_false, exists_eq_or_imp, not_or]
      constructor
      · rintro ((h1 | h1) | ⟨c, h1, ⟨h2, h3⟩, h4⟩)
        · exact Or.inr ⟨_, h1, h.1, Or.inl ⟨rfl, h.2⟩⟩
        · exact Or.inl h1
        · exact Or.inr ⟨c, h1, h2, Or.inr h4⟩
      · rintro (h1 | ⟨c, h1, h2, (⟨h3, _⟩ | h3)⟩)
        · exact Or.inl (Or.inr h1)
        · exact Or.inl (Or.inl (h3 ▸ h1))
        · by_cases hc : c = cur.offset d
          · exact Or.inl (Or.inl (hc ▸ h1))
          · exact Or.inr ⟨c, h1, ⟨h2, hc⟩, h3⟩
    · have e1 : expandNeighbor Q ok mk cur (vis, q) d = (vis, q) := by
        simp only [expandNeighbor]; rw [if_neg h]
      rw [e1, ih]
      simp only [List.mem_cons, exists_eq_or_imp]
      constructor
      · rintro (h1 | ⟨c, h1, h2, h3⟩)
        · exact Or.inl h1
        · exact Or.inr ⟨c, h1, h2, Or.inr h3⟩
      · rintro (h1 | ⟨c, h1, h2, (⟨h3, h4⟩ | h3)⟩)
        · exact Or.inl h1
        · exact absurd ⟨h3 ▸ h2, h3 ▸ h4⟩ h
        · exact Or.inr ⟨c, h1, h2, h3⟩

theorem expand_nodup (ds : List (Int × Int)) (vis : List FCellRef) (q : List α)
    (hv : vis.Nodup) : (ds.foldl (expandNeighbor Q ok mk cur) (vis, q)).1.Nodup := by
  induction ds generalizing vis q with
  | nil => simpa using hv
  | cons d ds ih =>
    rw [List.foldl_cons]
    by_cases h : cur.offset d ∉ vis ∧ ok (cur.offset d) = true
    · have e1 : expandNeighbor Q ok mk cur (vis, q) d
          = (vis ++ [cur.offset d], Q.push q (mk (cur.offset d))) := by
        simp only [expandNeighbor]; rw [if_pos h]
      rw [e1]
      refine ih _ _ ?_
      rw [List.nodup_append]
      refine ⟨hv, List.nodup_singleton _, ?_⟩
      intro a ha hb
      rw [List.mem_singleton] at hb
      exact h.1 (hb ▸ ha)
    · have e1 : expandNeighbor Q ok mk cur (vis, q) d = (vis, q) := by
        simp only [expandNeighbor]; rw [if_neg h]
      rw [e1]
      exact ih _ _ hv

theorem expand_length (ds : List (Int × Int)) (vis : List FCellRef) (q : List α) :
    (ds.foldl (expandNeighbor Q ok mk cur) (vis, q)).1.length + q.length
      = vis.length + (ds.foldl (expandNeighbor Q ok mk cur) (vis, q)).2.length := by
  induction ds generalizing vis q with
  | nil => simp [Nat.add_comm]
  | cons d ds ih =>
    rw [List.foldl_cons]
    by_cases h : cur.offset d ∉ vis ∧ ok (cur.offset d) = true
    · have e1 : expandNeighbor Q ok mk cur (vis, q) d
          = (vis ++ [cur.offset d], Q.push q (mk (cur.offset d))) := by
        simp only [expandNeighbor]; rw [if_pos h]
      rw [e1]
      have h1 := ih (vis ++ [cur.offset d]) (Q.push q (mk (cur.offset d)))
      have h2 := (Q.push_perm q (mk (cur.offset d))).length_eq
      simp only [List.length_append, List.length_cons, List.length_nil] at h1 h2
      omega
    · have e1 : expandNeighbor Q ok mk cur (vis, q) d = (vis, q) := by
        simp only [expandNeighbor]; rw [if_neg h]
      rw [e1]
      exact ih _ _

end Expand

/-! ## Walks and hop distances -/

section Walks

variable {Grid : AGAGridActor} {b : FGridBox} {start : FCellRef}

theorem Reach.of_walk {n : Nat} {p : Nat → FCellRef} (h : IsWalk Grid b start n p) :
    Reach Grid b start n (p n) := by
  induction n with
  | zero => rw [h.1]; exact Reach.zero
  | succ n ih =>
    have h1 : IsWalk Grid b start n p := ⟨h.1, fun i hi => h.2 i (by omega)⟩
    exact Reach.step (ih h1) (h.2 n (by omega)).1 (h.2 n (by omega)).2

theorem Reach.walk {n : Nat} {c : FCellRef} (h : Reach Grid b start n c) :
    ∃ p, IsWalk Grid b start n p ∧ p n = c := by
  induction h with
  | zero => exact ⟨fun _ => start, ⟨rfl, fun i hi => absurd hi (by omega)⟩, rfl⟩
  | @step n u v _ hadj hw ih =>
    obtain ⟨p, hp, hpn⟩ := ih
    refine ⟨fun i => if i ≤ n then p i else v, ⟨?_, ?_⟩, ?_⟩
    · simp [hp.1]
    · intro i hi
      by_cases h1 : i + 1 ≤ n
      · have h2 : i ≤ n := by omega
        simp only [h1, h2, if_true]
        exact hp.2 i (by omega)
      · have h2 : i = n := by omega
        subst h2
        simp only [le_refl, if_true, h1, if_false, hpn]
        exact ⟨hadj, hw⟩
    · simp

theorem Reach.walkable_or_start {n : Nat} {c : FCellRef} (h : Reach Grid b start n c) :
    c = start ∨ Walkable Grid b c := by
  cases h with
  | zero => exact Or.inl rfl
  | step _ _ hw => exact Or.inr hw

theorem Reach.exists_hopDist {n : Nat} {c : FCellRef} (h : Reach Grid b start n c) :
    ∃ m, m ≤ n ∧ HopDist Grid b start c m := by
  classical
  have hex : ∃ k, Reach Grid b start k c := ⟨n, h⟩
  exact ⟨Nat.find hex, Nat.find_min' hex h, Nat.find_spec hex,
    fun m hm => Nat.find_min' hex hm⟩

theorem HopDist.unique {c : FCellRef} {n m : Nat} (h1 : HopDist Grid b start c n)
    (h2 : HopDist Grid b start c m) : n = m :=
  Nat.le_antisymm (h1.2 m h2.1) (h2.2 n h1.1)

theorem hopDist_start : HopDist Grid b start start 0 :=
  ⟨Reach.zero, fun _ _ => Nat.zero_le _⟩

theorem HopDist.eq_start {c : FCellRef} (h : HopDist Grid b start c 0) : c = start := by
  cases h.1
  rfl

theorem HopDist.pred {c : FCellRef} {n : Nat} (h : HopDist Grid b start c (n + 1)) :
    ∃ u, HopDist Grid b start u n ∧ Adjacent4 u c ∧ Walkable Grid b c := by
  obtain ⟨hr, hmin⟩ := h
  cases hr with
  | @step _ u _ hu hadj hw =>
    refine ⟨u, ⟨hu, fun m hm => ?_⟩, hadj, hw⟩
    have := hmin (m + 1) (Reach.step hm hadj hw)
    omega

theorem IsShortestWalk.hopDist {c : FCellRef} {n : Nat} {p : Nat → FCellRef}
    (h : IsShortestWalk Grid b start c n p) (i : Nat) (hi : i ≤ n) :
    HopDist Grid b start (p i) i := by
  obtain ⟨hw, hc, hmin⟩ := h
  have hwi : IsWalk Grid b start i p := ⟨hw.1, fun j hj => hw.2 j (by omega)⟩
  refine ⟨Reach.of_walk hwi, fun j hj => ?_⟩
  have ext : ∀ k, i + k ≤ n → Reach Grid b start (j + k) (p (i + k)) := by
    intro k
    induction k with
    | zero => intro _; exact hj
    | succ k ih =>
      intro hk
      have h1 := hw.2 (i + k) (by omega)
      exact Reach.step (ih (by omega)) h1.1 h1.2
  have h2 := ext (n - i) (by omega)
  have h3 : i + (n - i) = n := by omega
  rw [h3] at h2
  obtain ⟨q, hq, hqc⟩ := h2.walk
  have := hmin _ q hq (hqc.trans hc)
  omega

end Walks

/-! ## Priority queues -/

theorem PriorityQueue.pop_some {α : Type} {Compare : α → α → Bool}
    (Q : PriorityQueue α Compare) {q r : List α} {a : α} (h : Q.pop q = some (a, r)) :
    q.Perm (a :: r) ∧ ∀ x ∈ q, Compare a x = false := by
  have hq : q ≠ [] := by
    rintro rfl
    rw [Q.pop_nil] at h
    cases h
  obtain ⟨a', r', h1, h2, h3⟩ := Q.pop_top q hq
  rw [h] at h1
  cases h1
  exact ⟨h2, h3⟩

theorem PriorityQueue.pop_none {α : Type} {Compare : α → α → Bool}
    (Q : PriorityQueue α Compare) {q : List α} (h : Q.pop q = none) : q = [] := by
  by_contra hq
  obtain ⟨a, r, h1, _⟩ := Q.pop_top q hq
  rw [h] at h1
  cases h1

/-! ## Dijkstra: the loop invariant -/

section DijkstraProof

variable (Q : PriorityQueue (ℚ × FCellRef) PairLess) (Grid : AGAGridActor)

theorem walkableB_iff (b : FGridBox) (c : FCellRef) :
    WalkableB Grid b c = true ↔ Walkable Grid b c := by
  simp [WalkableB, Walkable]

theorem DijkstraNeighbor_eq (b : FGridBox) (cur : FCellRef) (nd : ℚ) :
    DijkstraNeighbor Q Grid b cur nd
      = expandNeighbor Q (WalkableB Grid b) (fun c => (nd, c)) cur := by
  funext s d
  simp only [DijkstraNeighbor, expandNeighbor, WalkableB, Bool.and_eq_true,
    decide_eq_true_eq, and_assoc]

theorem DijkstraInv.first (b : FGridBox) (start : FCellRef) (init : FGAGridMap)
    (hb : init.GridBounds = b) :
    DijkstraInv Grid b start init ⟨Q.push [] (0, start), [start], init⟩ := by
  have hmem : ∀ e, e ∈ Q.push [] ((0 : ℚ), start) ↔ e = (0, start) := by
    intro e
    rw [(Q.push_perm [] (0, start)).mem_iff, List.mem_singleton]
  refine ⟨hb, List.mem_singleton.2 rfl, List.nodup_singleton _, ?_, ?_, ?_, ?_, ?_, ?_⟩
  · intro c hc
    exact Or.inl (List.mem_singleton.1 hc)
  · intro e he
    rw [hmem] at he
    subst he
    exact ⟨0, by simp, hopDist_start, List.mem_singleton.2 rfl⟩
  · intro c hc
    rw [List.mem_singleton] at hc
    subst hc
    exact Or.inl ⟨(0, c), (hmem _).2 rfl, rfl⟩
  · intro e he _ c m hd hm
    rw [hmem] at he
    subst he
    have h0 : m = 0 := by
      have : (m : ℚ) ≤ 0 := hm
      exact_mod_cast Nat.le_zero.1 (by exact_mod_cast this)
    subst h0
    exact List.mem_singleton.2 hd.eq_start
  · intro x hx y hy
    rw [hmem] at hx hy
    subst hx; subst hy
    norm_num
  · intro c _
    rfl

theorem DijkstraInv.next {b : FGridBox} {start : FCellRef} {init : FGAGridMap}
    {s : DijkstraState} (hstart : b.IsValidCell start = true)
    (hinv : DijkstraInv Grid b start init s) {δ : ℚ} {u : FCellRef}
    {rest : List (ℚ × FCellRef)} (hpop : Q.pop s.pq = some ((δ, u), rest)) :
    DijkstraInv Grid b start init
      ⟨(directions.foldl (DijkstraNeighbor Q Grid b u (δ + 1)) (s.visited, rest)).2,
        (directions.foldl (DijkstraNeighbor Q Grid b u (δ + 1)) (s.visited, rest)).1,
        s.DistanceMapOut.SetValue u δ⟩ := by
  obtain ⟨hperm, hcmp⟩ := Q.pop_some hpop
  have hmin : ∀ x ∈ s.pq, δ ≤ x.1 := by
    intro x hx
    have := hcmp x hx
    simpa [PairLess] using this
  have hmem : ∀ e, e ∈ s.pq ↔ e = (δ, u) ∨ e ∈ rest := by
    intro e
    rw [hperm.mem_iff, List.mem_cons]
  obtain ⟨n, hn, hdu, huv⟩ := hinv.queued (δ, u) ((hmem _).2 (Or.inl rfl))
  simp only at hn hdu huv
  have huvalid : s.DistanceMapOut.GridBounds.IsValidCell u = true := by
    rw [hinv.bounds]
    rcases hinv.visitedOk u huv with h | h
    · rw [h]; exact hstart
    · exact h.1
  rw [DijkstraNeighbor_eq]
  have hvis := expand_visited Q (WalkableB Grid b) (fun c => (δ + 1, c)) u directions
    s.visited rest
  have hque := expand_queue Q (WalkableB Grid b) (fun c => (δ + 1, c)) u directions
    s.visited rest
  have hnd := expand_nodup Q (WalkableB Grid b) (fun c => (δ + 1, c)) u directions
    s.visited rest hinv.nodup
  generalize directions.foldl (expandNeighbor Q (WalkableB Grid b) (fun c => (δ + 1, c)) u)
    (s.visited, rest) = R at hvis hque hnd
  have hsub : ∀ c, c ∈ s.visited → c ∈ R.1 := fun c hc => (hvis c).2 (Or.inl hc)
  have hnb : ∀ v, Adjacent4 u v → Walkable Grid b v → v ∈ R.1 := by
    intro v ⟨d, hd, hv⟩ hw
    exact (hvis v).2 (Or.inr ⟨d, hd, hv, (walkableB_iff Grid b v).2 hw⟩)
  have hkey : ∀ e ∈ R.2, δ ≤ e.1 ∧ e.1 ≤ δ + 1 := by
    intro e he
    rcases (hque e).1 he with h | ⟨c, rfl, _⟩
    · exact ⟨hmin e ((hmem e).2 (Or.inr h)),
        hinv.spread e ((hmem e).2 (Or.inr h)) (δ, u) ((hmem _).2 (Or.inl rfl))⟩
    · exact ⟨by simp, le_refl _⟩
  refine ⟨by simp [hinv.bounds], hsub _ hinv.startVisited, hnd, ?_, ?_, ?_, ?_, ?_, ?_⟩
  · intro c hc
    rcases (hvis c).1 hc with h | ⟨d, _, _, hw⟩
    · exact hinv.visitedOk c h
    · exact Or.inr ((walkableB_iff Grid b c).1 hw)
  · intro e he
    rcases (hque e).1 he with h | ⟨c, rfl, hcv, d, hd, hcd, hw⟩
    · obtain ⟨k, hk1, hk2, hk3⟩ := hinv.queued e ((hmem e).2 (Or.inr h))
      exact ⟨k, hk1, hk2, hsub _ hk3⟩
    · have hwc := (walkableB_iff Grid b c).1 hw
      have hreach : Reach Grid b start (n + 1) c := Reach.step hdu.1 ⟨d, hd, hcd⟩ hwc
      refine ⟨n + 1, by simp [hn], ⟨hreach, fun m hm => ?_⟩, hnb c ⟨d, hd, hcd⟩ hwc⟩
      by_contra hlt
      obtain ⟨k, hk, hdk⟩ := hm.exists_hopDist
      have hle : (k : ℚ) ≤ δ := by
        rw [hn]
        exact_mod_cast (by omega : k ≤ n)
      exact hcv (hinv.level (δ, u) ((hmem _).2 (Or.inl rfl)) hmin c k hdk hle)
  · intro c hc
    have key : c = u →
        ∃ k : Nat, (s.DistanceMapOut.SetValue u δ).Data c = (k : ℚ) ∧
          HopDist Grid b start c k ∧ ∀ v, Adjacent4 c v → Walkable Grid b v → v ∈ R.1 := by
      rintro rfl
      exact ⟨n, by rw [SetValue_Data_self _ _ _ huvalid, hn], hdu, hnb⟩
    rcases (hvis c).1 hc with h | ⟨d, hd, hcd, hw⟩
    · rcases hinv.settled c h with ⟨e, he, rfl⟩ | ⟨k, hk1, hk2, hk3⟩
      · rcases (hmem e).1 he with rfl | h1
        · exact Or.inr (key rfl)
        · exact Or.inl ⟨e, (hque e).2 (Or.inl h1), rfl⟩
      · by_cases hcu : c = u
        · exact Or.inr (key hcu)
        · exact Or.inr ⟨k, by rw [SetValue_Data_ne _ _ _ _ hcu, hk1], hk2,
            fun v hv hw => hsub v (hk3 v hv hw)⟩
    · by_cases hcv : c ∈ s.visited
      · rcases hinv.settled c hcv with ⟨e, he, rfl⟩ | ⟨k, hk1, hk2, hk3⟩
        · rcases (hmem e).1 he with rfl | h1
          · exact Or.inr (key rfl)
          · exact Or.inl ⟨e, (hque e).2 (Or.inl h1), rfl⟩
        · by_cases hcu : c = u
          · exact Or.inr (key hcu)
          · exact Or.inr ⟨k, by rw [SetValue_Data_ne _ _ _ _ hcu, hk1], hk2,
              fun v hv hw => hsub v (hk3 v hv hw)⟩
      · exact Or.inl ⟨(δ + 1, c), (hque _).2 (Or.inr ⟨c, rfl, hcv, d, hd, hcd, hw⟩), rfl⟩
  · intro e he hemin c m hd hm
    by_cases hle : (m : ℚ) ≤ δ
    · exact hsub c (hinv.level (δ, u) ((hmem _).2 (Or.inl rfl)) hmin c m hd hle)
    · have hm1 : m = n + 1 := by
        have h1 : (m : ℚ) ≤ (n : ℚ) + 1 := by
          rw [← hn]
          exact hm.trans (hkey e he).2
        have h2 : (n : ℚ) < (m : ℚ) := by
          rw [← hn]
          exact not_le.1 hle
        have h3 : m ≤ n + 1 := by exact_mod_cast h1
        have h4 : n < m := by exact_mod_cast h2
        omega
      subst hm1
      have he1 : e.1 = δ + 1 := by
        refine le_antisymm (hkey e he).2 ?_
        rw [hn]
        exact_mod_cast hm
      obtain ⟨w, hw1, hw2, hw3⟩ := hd.pred
      have hwv : w ∈ s.visited :=
        hinv.level (δ, u) ((hmem _).2 (Or.inl rfl)) hmin w n hw1 (by rw [hn])
      rcases hinv.settled w hwv with ⟨e', he', rfl⟩ | ⟨k, _, _, hk3⟩
      · rcases (hmem e').1 he' with rfl | h1
        · exact hnb c hw2 hw3
        · exfalso
          obtain ⟨k, hk1, hk2, _⟩ := hinv.queued e' he'
          have hkn : k = n := hk2.unique hw1
          have h5 := hemin e' ((hque e').2 (Or.inl h1))
          rw [he1, hk1, hkn, hn] at h5
          linarith
      · exact hsub c (hk3 c hw2 hw3)
  · intro x hx y hy
    have h1 := hkey x hx
    have h2 := hkey y hy
    linarith
  · intro c hc
    have hcv : c ∉ s.visited := fun h => hc (hsub c h)
    have hcu : c ≠ u := fun h => hcv (h ▸ huv)
    rw [SetValue_Data_ne _ _ _ _ hcu]
    exact hinv.frame c hcv

theorem DijkstraInv.visited_length {b : FGridBox} {start : FCellRef} {init : FGAGridMap}
    {s : DijkstraState} (hinv : DijkstraInv Grid b start init s) :
    s.visited.length ≤ b.cells.length + 1 := by
  have hsub : s.visited ⊆ start :: b.cells := by
    intro c hc
    rcases hinv.visitedOk c hc with h | h
    · exact List.mem_cons.2 (Or.inl h)
    · exact List.mem_cons.2 (Or.inr ((mem_cells b c).2 h.1))
  simpa using (List.subperm_of_subset hinv.nodup hsub).length_le

theorem DijkstraInv.finish {b : FGridBox} {start : FCellRef} {init : FGAGridMap}
    {s : DijkstraState} (hinv : DijkstraInv Grid b start init s) (hq : s.pq = []) :
    s.DistanceMapOut.GridBounds = b ∧
      (∀ c n, HopDist Grid b start c n → s.DistanceMapOut.Data c = (n : ℚ)) ∧
      (∀ c, (∀ n, ¬ Reach Grid b start n c) → s.DistanceMapOut.Data c = init.Data c) := by
  have hdone : ∀ c ∈ s.visited, ∃ n : Nat, s.DistanceMapOut.Data c = (n : ℚ) ∧
      HopDist Grid b start c n ∧ ∀ v, Adjacent4 c v → Walkable Grid b v → v ∈ s.visited := by
    intro c hc
    rcases hinv.settled c hc with ⟨e, he, _⟩ | h
    · rw [hq] at he
      cases he
    · exact h
  have hall : ∀ n c, Reach Grid b start n c → c ∈ s.visited := by
    intro n c h
    induction h with
    | zero => exact hinv.startVisited
    | step _ hadj hw ih =>
      obtain ⟨_, _, _, hk⟩ := hdone _ ih
      exact hk _ hadj hw
  refine ⟨hinv.bounds, ?_, ?_⟩
  · intro c n hd
    obtain ⟨k, hk1, hk2, _⟩ := hdone c (hall n c hd.1)
    rw [hk1, hk2.unique hd]
  · intro c hc
    refine hinv.frame c (fun hv => ?_)
    obtain ⟨k, _, hk2, _⟩ := hdone c hv
    exact hc k hk2.1

theorem DijkstraLoop_spec {b : FGridBox} {start : FCellRef} {init : FGAGridMap}
    (hstart : b.IsValidCell start = true) (fuel : Nat) (s : DijkstraState)
    (hinv : DijkstraInv Grid b start init s)
    (hfuel : (b.cells.length + 1 - s.visited.length) + s.pq.length ≤ fuel) :
    ∃ m, DijkstraLoop Q Grid fuel s = some m ∧ m.GridBounds = b ∧
      (∀ c n, HopDist Grid b start c n → m.Data c = (n : ℚ)) ∧
      (∀ c, (∀ n, ¬ Reach Grid b start n c) → m.Data c = init.Data c) := by
  induction fuel generalizing s with
  | zero =>
    have hq : s.pq = [] := List.length_eq_zero.1 (by omega)
    refine ⟨s.DistanceMapOut, ?_, hinv.finish Grid hq⟩
    unfold DijkstraLoop
    rw [hq, Q.pop_nil]
  | succ fuel ih =>
    unfold DijkstraLoop
    cases hpop : Q.pop s.pq with
    | none => exact ⟨s.DistanceMapOut, rfl, hinv.finish Grid (Q.pop_none hpop)⟩
    | some a =>
      obtain ⟨⟨δ, u⟩, rest⟩ := a
      simp only [SetValue_GridBounds, hinv.bounds]
      have hnext := hinv.next Q Grid hstart hpop
      refine ih _ hnext ?_
      have hlen := expand_length Q (WalkableB Grid b) (fun c => (δ + 1, c)) u directions
        s.visited rest
      rw [← DijkstraNeighbor_eq] at hlen
      have h1 := hnext.visited_length
      have h2 := (Q.pop_some hpop).1.length_eq
      simp only [List.length_cons] at h2
      simp only at h1 ⊢
      omega

theorem Dijkstra_spec (StartPoint : FVector) (init : FGAGridMap)
    (hstart : init.GridBounds.IsValidCell (Grid.GetCellRef StartPoint) = true) :
    ∃ m, Dijkstra Q Grid StartPoint init = some m ∧ m.GridBounds = init.GridBounds ∧
      (∀ c n, HopDist Grid init.GridBounds (Grid.GetCellRef StartPoint) c n →
        m.Data c = (n : ℚ)) ∧
      (∀ c, (∀ n, ¬ Reach Grid init.GridBounds (Grid.GetCellRef StartPoint) n c) →
        m.Data c = init.Data c) := by
  unfold Dijkstra
  refine DijkstraLoop_spec Q Grid hstart _ _ (DijkstraInv.first Q Grid _ _ init rfl) ?_
  have := (Q.push_perm [] ((0 : ℚ), Grid.GetCellRef StartPoint)).length_eq
  simp only [List.length_cons, List.length_nil] at this ⊢
  omega

end DijkstraProof

/-! ## Dijkstra: the distance field -/

/-- C1: for every grid, window and source cell inside the window, `Dijkstra`
returns a distance map, and along every shortest walk `p 0, ..., p n` from the
source to a cell `c` through 4-adjacent traversable in-window cells the map
holds `0, 1, ..., n`; in particular the value at `c` is the number `n` of steps
of a shortest walk. -/
theorem Dijkstra_shortest_walk (Q : PriorityQueue (ℚ × FCellRef) PairLess)
    (Grid : AGAGridActor) (StartPoint : FVector) (DistanceMapOut : FGAGridMap)
    (c : FCellRef) (n : Nat) (p : Nat → FCellRef)
    (hsrc : DistanceMapOut.GridBounds.IsValidCell (Grid.GetCellRef StartPoint) = true)
    (hp : IsShortestWalk Grid DistanceMapOut.GridBounds (Grid.GetCellRef StartPoint) c n p) :
    ∃ m, Dijkstra Q Grid StartPoint DistanceMapOut = some m ∧
      (∀ old, m.GetValue c old = (n : ℚ)) ∧
      ∀ i, i ≤ n → ∀ old, m.GetValue (p i) old = (i : ℚ) := by
  obtain ⟨m, hm, hb, hdist, _⟩ := Dijkstra_spec Q Grid StartPoint DistanceMapOut hsrc
  have hall : ∀ i, i ≤ n → ∀ old, m.GetValue (p i) old = (i : ℚ) := by
    intro i hi old
    have hd := hp.hopDist i hi
    have hvalid : m.GridBounds.IsValidCell (p i) = true := by
      rw [hb]
      rcases hd.1.walkable_or_start with h | h
      · rw [h]; exact hsrc
      · exact h.1
    rw [GetValue_valid _ _ _ hvalid]
    exact hdist _ _ hd
  refine ⟨m, hm, ?_, hall⟩
  intro old
  rw [← hp.2.1]
  exact hall n (le_refl n) old

theorem sampleGrid_start : (sampleGrid 3 1 []).GetCellRef ⟨50, 50⟩ = ⟨0, 0⟩ := by
  simp only [sampleGrid, FCellRef.mk.injEq]
  constructor <;> norm_num [Int.floor_eq_iff]

theorem sampleGrid_shortest :
    IsShortestWalk (sampleGrid 3 1 []) ⟨0, 0, 3, 1⟩ ⟨0, 0⟩ ⟨2, 0⟩ 2
      (fun k : Nat => ⟨(k : Int), 0⟩) := by
  refine ⟨⟨rfl, ?_⟩, rfl, ?_⟩
  · intro i hi
    refine ⟨⟨(1, 0), by simp [directions], ?_⟩, ?_, ?_⟩
    · simp [FCellRef.offset]
    · simp only [FGridBox.IsValidCell, Bool.and_eq_true, decide_eq_true_eq]
      omega
    · simp only [AGAGridActor.GetCellData, sampleGrid, FGridBox.IsValidCell]
      have h1 : ((0 : Int) ≤ (i : Int) + 1) := by omega
      have h2 : ((i : Int) + 1 < 3) := by omega
      simp [h1, h2]
  · intro m q hq hqm
    have hx : ∀ k, k ≤ m → (q k).X ≤ (k : Int) := by
      intro k
      induction k with
      | zero => intro _; rw [hq.1]; simp
      | succ k ih =>
        intro hk
        obtain ⟨⟨d, hd, hadj⟩, _⟩ := hq.2 k (by omega)
        have := ih (by omega)
        rw [hadj]
        simp only [directions, List.mem_cons, List.mem_singleton, List.not_mem_nil,
          or_false] at hd
        rcases hd with rfl | rfl | rfl | rfl <;> simp [FCellRef.offset] <;> omega
    have := hx m (le_refl m)
    rw [hqm] at this
    simp only at this
    omega

theorem Dijkstra_shortest_walk_witness :
    ∃ m, Dijkstra sampleDijkstraQueue (sampleGrid 3 1 []) ⟨50, 50⟩
        (FGAGridMap.ofBox ⟨0, 0, 3, 1⟩ FLT_MAX) = some m ∧
      (∀ old, m.GetValue ⟨2, 0⟩ old = ((2 : Nat) : ℚ)) ∧
      ∀ i : Nat, i ≤ 2 → ∀ old, m.GetValue (⟨(i : Int), 0⟩ : FCellRef) old = (i : ℚ) :=
  Dijkstra_shortest_walk sampleDijkstraQueue (sampleGrid 3 1 []) ⟨50, 50⟩
    (FGAGridMap.ofBox ⟨0, 0, 3, 1⟩ FLT_MAX) ⟨2, 0⟩ 2 (fun k : Nat => ⟨(k : Int), 0⟩)
    (by rw [sampleGrid_start]; decide)
    (by rw [sampleGrid_start]; exact sampleGrid_shortest)

/-! ## Path reconstruction on a distance field -/

theorem Adjacent4.symm {u v : FCellRef} (h : Adjacent4 u v) : Adjacent4 v u := by
  obtain ⟨d, hd, rfl⟩ := h
  obtain ⟨x, y⟩ := u
  simp only [directions, List.mem_cons, List.mem_singleton, List.not_mem_nil, or_false] at hd
  rcases hd with rfl | rfl | rfl | rfl
  · exact ⟨(0, -1), by simp [directions], by simp [FCellRef.offset]⟩
  · exact ⟨(0, 1), by simp [directions], by simp [FCellRef.offset]⟩
  · exact ⟨(-1, 0), by simp [directions], by simp [FCellRef.offset]⟩
  · exact ⟨(1, 0), by simp [directions], by simp [FCellRef.offset]⟩

theorem getPositionPathNeighbor_fold (m : FGAGridMap) (Grid : AGAGridActor) (cur : FCellRef)
    (ds : List (Int × Int)) (s0 : ℚ × FCellRef) :
    ((ds.foldl (getPositionPathNeighbor m Grid cur) s0).1 ≤ s0.1 ∧
      ∀ d ∈ ds, Walkable Grid m.GridBounds (cur.offset d) →
        (ds.foldl (getPositionPathNeighbor m Grid cur) s0).1 ≤ m.Data (cur.offset d)) ∧
    (ds.foldl (getPositionPathNeighbor m Grid cur) s0 = s0 ∨
      ∃ d ∈ ds, Walkable Grid m.GridBounds (cur.offset d) ∧
        ds.foldl (getPositionPathNeighbor m Grid cur) s0
          = (m.Data (cur.offset d), cur.offset d)) := by
  induction ds generalizing s0 with
  | nil => simp
  | cons d ds ih =>
    rw [List.foldl_cons]
    obtain ⟨⟨h1, h2⟩, h3⟩ := ih (getPositionPathNeighbor m Grid cur s0 d)
    by_cases hw : Walkable Grid m.GridBounds (cur.offset d)
    · have hval : m.GetValue (cur.offset d) 0 = m.Data (cur.offset d) :=
        GetValue_valid _ _ _ hw.1
      by_cases hlt : m.Data (cur.offset d) < s0.1
      · have e : getPositionPathNeighbor m Grid cur s0 d
            = (m.Data (cur.offset d), cur.offset d) := by
          simp only [getPositionPathNeighbor, hval]
          rw [if_pos (show _ ∧ _ from hw), if_pos hlt]
        rw [e] at h1 h2 h3 ⊢
        refine ⟨⟨h1.trans (le_of_lt hlt), ?_⟩, ?_⟩
        · intro d' hd' hw'
          rcases List.mem_cons.1 hd' with rfl | hd'
          · exact h1
          · exact h2 d' hd' hw'
        · rcases h3 with h3 | ⟨d', hd', hw', h3⟩
          · exact Or.inr ⟨d, List.mem_cons_self _ _, hw, h3⟩
          · exact Or.inr ⟨d', List.mem_cons_of_mem _ hd', hw', h3⟩
      · have e : getPositionPathNeighbor m Grid cur s0 d = s0 := by
          simp only [getPositionPathNeighbor, hval]
          rw [if_pos (show _ ∧ _ from hw), if_neg hlt]
        rw [e] at h1 h2 h3 ⊢
        refine ⟨⟨h1, ?_⟩, ?_⟩
        · intro d' hd' hw'
          rcases List.mem_cons.1 hd' with rfl | hd'
          · exact h1.trans (not_lt.1 hlt)
          · exact h2 d' hd' hw'
        · rcases h3 with h3 | ⟨d', hd', hw', h3⟩
          · exact Or.inl h3
          · exact Or.inr ⟨d', List.mem_cons_of_mem _ hd', hw', h3⟩
    · have e : getPositionPathNeighbor m Grid cur s0 d = s0 := by
        simp only [getPositionPathNeighbor]
        rw [if_neg (show ¬ (_ ∧ _) from hw)]
      rw [e] at h1 h2 h3 ⊢
      refine ⟨⟨h1, ?_⟩, ?_⟩
      · intro d' hd' hw'
        rcases List.mem_cons.1 hd' with rfl | hd'
        · exact absurd hw' hw
        · exact h2 d' hd' hw'
      · rcases h3 with h3 | ⟨d', hd', hw', h3⟩
        · exact Or.inl h3
        · exact Or.inr ⟨d', List.mem_cons_of_mem _ hd', hw', h3⟩

section Descent

variable {Grid : AGAGridActor} {b : FGridBox} {start : FCellRef} {m : FGAGridMap}

theorem HopDist.walkable_of_pos {c : FCellRef} {n : Nat} (h : HopDist Grid b start c n)
    (hn : 0 < n) : Walkable Grid b c ∧ c ≠ start := by
  obtain ⟨k, rfl⟩ : ∃ k, n = k + 1 := ⟨n - 1, by omega⟩
  obtain ⟨_, _, _, hw⟩ := h.pred
  refine ⟨hw, fun hc => ?_⟩
  subst hc
  have := h.unique hopDist_start
  omega

theorem getPositionPathNext_hopDist (hb : m.GridBounds = b)
    (hdist : ∀ c n, HopDist Grid b start c n → m.Data c = (n : ℚ))
    (hsv : b.IsValidCell start = true)
    (hst : Grid.GetCellData start = ECellData.CellDataTraversable)
    {cur : FCellRef} {k : Nat} (hd : HopDist Grid b start cur (k + 1)) (hk : k < 1000) :
    HopDist Grid b start (getPositionPathNext m Grid cur) k ∧
      Adjacent4 cur (getPositionPathNext m Grid cur) := by
  obtain ⟨u, hu, hadj, hwcur⟩ := hd.pred
  have hwu : Walkable Grid m.GridBounds u := by
    rw [hb]
    rcases hu.1.walkable_or_start with h | h
    · rw [h]; exact ⟨hsv, hst⟩
    · exact h
  obtain ⟨d0, hd0, hud0⟩ := hadj.symm
  obtain ⟨⟨_, h2⟩, h3⟩ := getPositionPathNeighbor_fold m Grid cur directions (FLT_MAX, cur)
  have hle : (directions.foldl (getPositionPathNeighbor m Grid cur) (FLT_MAX, cur)).1
      ≤ (k : ℚ) := by
    have := h2 d0 hd0 (hud0 ▸ hwu)
    rwa [← hud0, hdist u k hu] at this
  have hkq : (k : ℚ) < FLT_MAX := by
    have : (k : ℚ) < 1000 := by exact_mod_cast hk
    exact this.trans (by norm_num [FLT_MAX])
  unfold getPositionPathNext
  rcases h3 with h3 | ⟨d, hd1, hw, h3⟩
  · rw [h3] at hle
    exact absurd hle (not_le.2 hkq)
  · rw [h3] at hle ⊢
    rw [hb] at hw
    have hadjw : Adjacent4 cur (cur.offset d) := ⟨d, hd1, rfl⟩
    obtain ⟨j, _, hj⟩ := (Reach.step hd.1 hadjw hw).exists_hopDist
    rw [hdist _ j hj] at hle
    have hle2 : (j : ℚ) ≤ (k : ℚ) := hle
    have hj1 : j ≤ k := by exact_mod_cast hle2
    have hj2 := hd.2 (j + 1) (Reach.step hj.1 hadjw.symm hwcur)
    have hjk : j = k := by omega
    subst hjk
    exact ⟨hj, hadjw⟩

theorem descent_spec (hb : m.GridBounds = b)
    (hdist : ∀ c n, HopDist Grid b start c n → m.Data c = (n : ℚ))
    (hsv : b.IsValidCell start = true)
    (hst : Grid.GetCellData start = ECellData.CellDataTraversable)
    (k : Nat) (cur : FCellRef) (hd : HopDist Grid b start cur k) (hk : k < 1000) :
    (descent m Grid k cur).length = k ∧
      (∀ i x, (descent m Grid k cur)[i]? = some x → HopDist Grid b start x (k - i)) ∧
      (descent m Grid k cur).Chain' Adjacent4 ∧
      (∀ x, (descent m Grid k cur).head? = some x → x = cur) ∧
      (∀ x, (descent m Grid k cur).getLast? = some x → Adjacent4 x start) := by
  induction k generalizing cur with
  | zero => simp [descent]
  | succ k ih =>
    obtain ⟨hnext, hadj⟩ := getPositionPathNext_hopDist hb hdist hsv hst hd (by omega)
    obtain ⟨h1, h2, h3, h4, h5⟩ := ih _ hnext (by omega)
    refine ⟨by simp [descent, h1], ?_, ?_, ?_, ?_⟩
    · intro i x hx
      cases i with
      | zero =>
        simp only [descent, List.getElem?_cons_zero, Option.some.injEq] at hx
        subst hx
        exact hd
      | succ i =>
        simp only [descent, List.getElem?_cons_succ] at hx
        have := h2 i x hx
        have e : k + 1 - (i + 1) = k - i := by omega
        rw [e]
        exact this
    · simp only [descent]
      rw [List.chain'_cons']
      refine ⟨?_, h3⟩
      intro y hy
      rw [h4 y hy]
      exact hadj
    · intro x hx
      simpa [descent] using hx.symm
    · intro x hx
      simp only [descent] at hx
      cases hL : descent m Grid k (getPositionPathNext m Grid cur) with
      | nil =>
        rw [hL] at hx h1
        simp only [List.length_nil] at h1
        subst h1
        simp only [List.getLast?_singleton, Option.some.injEq] at hx
        subst hx
        rw [← hnext.eq_start]
        exact hadj
      | cons y L =>
        rw [hL] at hx
        rw [List.getLast?_cons_cons] at hx
        exact h5 x (hL ▸ hx)

theorem getPositionPathLoop_eq (hb : m.GridBounds = b)
    (hdist : ∀ c n, HopDist Grid b start c n → m.Data c = (n : ℚ))
    (hsv : b.IsValidCell start = true)
    (hst : Grid.GetCellData start = ECellData.CellDataTraversable) (k : Nat) :
    ∀ (left : Nat) (cur : FCellRef) (path : List FCellRef),
      HopDist Grid b start cur k → k ≤ left → k < 1000 →
      getPositionPathLoop m Grid start left cur path = path ++ descent m Grid k cur := by
  induction k with
  | zero =>
    intro left cur path hd _ _
    have := hd.eq_start
    subst this
    cases left <;> simp [getPositionPathLoop, descent]
  | succ k ih =>
    intro left cur path hd hle hk
    obtain ⟨left, rfl⟩ : ∃ l, left = l + 1 := ⟨left - 1, by omega⟩
    have hne := (hd.walkable_of_pos (by omega)).2
    obtain ⟨hnext, _⟩ := getPositionPathNext_hopDist hb hdist hsv hst hd (by omega)
    rw [getPositionPathLoop, if_neg hne, ih left _ _ hnext (by omega) (by omega)]
    simp [descent]

end Descent

/-- C2 as the code has it: when the distance map is the one `Dijkstra` produces from
the start cell on a map filled with `FLT_MAX`, the start cell is a traversable
cell of the window of that map and the destination has recorded distance `d`
with `1 <= d < 1000`, then `getPositionPath` returns exactly `d` cells; the cell
at index `i` (from 0) has recorded distance `i + 1`, the last cell is the
destination, the first cell is 4-adjacent to the start cell, consecutive cells
are 4-adjacent, every cell is a traversable cell of the window, and the start
cell is not in the sequence. -/
theorem getPositionPath_of_Dijkstra (Q : PriorityQueue (ℚ × FCellRef) PairLess)
    (Grid : AGAGridActor) (StartPoint : FVector) (b : FGridBox) (m : FGAGridMap)
    (dest : FCellRef) (d : Nat)
    (hD : Dijkstra Q Grid StartPoint (FGAGridMap.ofBox b FLT_MAX) = some m)
    (hsv : b.IsValidCell (Grid.GetCellRef StartPoint) = true)
    (hst : Grid.GetCellData (Grid.GetCellRef StartPoint) = ECellData.CellDataTraversable)
    (hdd : m.Data dest = (d : ℚ)) (h1 : 1 ≤ d) (h2 : d < 1000) :
    (getPositionPath m StartPoint dest Grid).length = d ∧
      (∀ i x, (getPositionPath m StartPoint dest Grid)[i]? = some x →
        ∀ old, m.GetValue x old = ((i + 1 : Nat) : ℚ)) ∧
      (getPositionPath m StartPoint dest Grid).getLast? = some dest ∧
      (∀ x, (getPositionPath m StartPoint dest Grid).head? = some x →
        Adjacent4 (Grid.GetCellRef StartPoint) x) ∧
      (getPositionPath m StartPoint dest Grid).Chain' Adjacent4 ∧
      (∀ x ∈ getPositionPath m StartPoint dest Grid, Walkable Grid b x) ∧
      Grid.GetCellRef StartPoint ∉ getPositionPath m StartPoint dest Grid := by
  obtain ⟨m', hm', hb, hdist, hframe⟩ :=
    Dijkstra_spec Q Grid StartPoint (FGAGridMap.ofBox b FLT_MAX) hsv
  rw [hD] at hm'
  cases hm'
  change m.GridBounds = b at hb
  change ∀ c n, HopDist Grid b (Grid.GetCellRef StartPoint) c n → m.Data c = (n : ℚ) at hdist
  change ∀ c, (∀ n, ¬ Reach Grid b (Grid.GetCellRef StartPoint) n c) → m.Data c = FLT_MAX
    at hframe
  have hdq : (d : ℚ) < FLT_MAX := by
    have : (d : ℚ) < 1000 := by exact_mod_cast h2
    exact this.trans (by norm_num [FLT_MAX])
  have hdest : HopDist Grid b (Grid.GetCellRef StartPoint) dest d := by
    by_cases hr : ∃ n, Reach Grid b (Grid.GetCellRef StartPoint) n dest
    · obtain ⟨n, hn⟩ := hr
      obtain ⟨j, _, hj⟩ := hn.exists_hopDist
      have := hdist dest j hj
      rw [hdd] at this
      have hjd : d = j := by exact_mod_cast this
      rw [hjd]
      exact hj
    · have := hframe dest (fun n hn => hr ⟨n, hn⟩)
      rw [hdd] at this
      exact absurd this (ne_of_lt hdq)
  obtain ⟨k1, k2, k3, k4, k5⟩ := descent_spec hb hdist hsv hst d dest hdest h2
  have hpath : getPositionPath m StartPoint dest Grid
      = (descent m Grid d dest).reverse := by
    unfold getPositionPath
    rw [getPositionPathLoop_eq hb hdist hsv hst d 1000 dest [] hdest (by omega) h2]
    simp
  have hmemL : ∀ x ∈ descent m Grid d dest,
      ∃ j, 0 < j ∧ HopDist Grid b (Grid.GetCellRef StartPoint) x j := by
    intro x hx
    obtain ⟨i, hi, hix⟩ := List.getElem_of_mem hx
    have h := k2 i x (by rw [List.getElem?_eq_getElem hi, hix])
    exact ⟨d - i, by omega, h⟩
  rw [hpath]
  refine ⟨by simp [k1], ?_, ?_, ?_, ?_, ?_, ?_⟩
  · intro i x hx old
    have hi : i < d := by
      have := (List.getElem?_eq_some_iff.1 hx).1
      simpa [k1] using this
    rw [List.getElem?_reverse (by omega)] at hx
    have h := k2 _ x hx
    have e : d - ((descent m Grid d dest).length - 1 - i) = i + 1 := by omega
    rw [e] at h
    have hv : m.GridBounds.IsValidCell x = true := by
      rw [hb]
      exact (h.walkable_of_pos (by omega)).1.1
    rw [GetValue_valid _ _ _ hv]
    exact hdist x _ h
  · rw [List.getLast?_reverse]
    obtain ⟨k, rfl⟩ : ∃ k, d = k + 1 := ⟨d - 1, by omega⟩
    simp [descent]
  · intro x hx
    rw [List.head?_reverse] at hx
    exact (k5 x hx).symm
  · rw [List.chain'_reverse]
    exact List.Chain'.imp (fun {u v} (h : Adjacent4 u v) => (h.symm : flip Adjacent4 u v)) k3
  · intro x hx
    obtain ⟨j, hj, h⟩ := hmemL x (List.mem_reverse.1 hx)
    exact (h.walkable_of_pos hj).1
  · intro hx
    obtain ⟨j, hj, h⟩ := hmemL _ (List.mem_reverse.1 hx)
    exact (h.walkable_of_pos hj).2 rfl

theorem getPositionPath_of_Dijkstra_witness :
    ∃ m, Dijkstra sampleDijkstraQueue (sampleGrid 3 1 []) ⟨50, 50⟩
        (FGAGridMap.ofBox ⟨0, 0, 3, 1⟩ FLT_MAX) = some m ∧
      m.Data ⟨2, 0⟩ = ((2 : Nat) : ℚ) ∧
      (getPositionPath m ⟨50, 50⟩ ⟨2, 0⟩ (sampleGrid 3 1 [])).length = 2 ∧
      (getPositionPath m ⟨50, 50⟩ ⟨2, 0⟩ (sampleGrid 3 1 [])).getLast? = some ⟨2, 0⟩ := by
  have hsv : (⟨0, 0, 3, 1⟩ : FGridBox).IsValidCell
      ((sampleGrid 3 1 []).GetCellRef ⟨50, 50⟩) = true := by
    rw [sampleGrid_start]; decide
  have hst : (sampleGrid 3 1 []).GetCellData ((sampleGrid 3 1 []).GetCellRef ⟨50, 50⟩)
      = ECellData.CellDataTraversable := by
    rw [sampleGrid_start]; decide
  obtain ⟨m, hm, _, hdist, _⟩ := Dijkstra_spec sampleDijkstraQueue (sampleGrid 3 1 [])
    ⟨50, 50⟩ (FGAGridMap.ofBox ⟨0, 0, 3, 1⟩ FLT_MAX) hsv
  have hdd : m.Data ⟨2, 0⟩ = ((2 : Nat) : ℚ) :=
    hdist ⟨2, 0⟩ 2 (by
      have h := sampleGrid_shortest.hopDist 2 (le_refl 2)
      rw [← sampleGrid_start] at h
      exact h)
  have h := getPositionPath_of_Dijkstra sampleDijkstraQueue (sampleGrid 3 1 []) ⟨50, 50⟩
    ⟨0, 0, 3, 1⟩ m ⟨2, 0⟩ 2 hm hsv hst hdd (by decide) (by decide)
  exact ⟨m, hm, hdd, h.1, h.2.2.1⟩

/-! ## The greedy search of AStar -/

section AStarProof

variable {DestinationCell : FCellRef}
  (Q : PriorityQueue (FCellRef × List FCellRef) (CompareCells DestinationCell))
  (Grid : AGAGridActor)

theorem AStarNeighbor_eq (cur : FCellRef) (curPath : List FCellRef) :
    AStarNeighbor Q Grid cur curPath
      = expandNeighbor Q (AStarOk Grid) (fun c => (c, curPath)) cur := by
  funext s d
  simp only [AStarNeighbor, expandNeighbor, AStarOk, Bool.and_eq_true,
    decide_eq_true_eq, and_assoc]

theorem AStarInv.start_state (goal : FCellRef → Bool) (start : FCellRef) :
    AStarInv Grid goal start ([start], Q.push [] (start, [])) := by
  have hmem : ∀ e, e ∈ Q.push [] (start, ([] : List FCellRef)) ↔ e = (start, []) := by
    intro e
    rw [(Q.push_perm [] (start, [])).mem_iff, List.mem_singleton]
  refine ⟨List.mem_singleton.2 rfl, List.nodup_singleton _, ?_, ?_, ?_, ?_⟩
  · intro c hc
    exact Or.inl (List.mem_singleton.1 hc)
  · intro c hc
    rw [List.mem_singleton.1 hc]
    exact AStarReach.start
  · intro e he
    rw [(hmem e).1 he]
    exact List.mem_singleton.2 rfl
  · intro c hc
    rw [List.mem_singleton.1 hc]
    exact Or.inl ⟨(start, []), (hmem _).2 rfl, rfl⟩

theorem AStarInv.step_state {goal : FCellRef → Bool} {start : FCellRef}
    {s : List FCellRef × List (FCellRef × List FCellRef)}
    (hinv : AStarInv Grid goal start s) {u : FCellRef} {path path2 : List FCellRef}
    {rest : List (FCellRef × List FCellRef)} (hpop : Q.pop s.2 = some ((u, path), rest))
    (hgoal : goal u = false) :
    AStarInv Grid goal start
      (directions.foldl (AStarNeighbor Q Grid u path2) (s.1, rest)) := by
  obtain ⟨hperm, _⟩ := Q.pop_some hpop
  have hmem : ∀ e, e ∈ s.2 ↔ e = (u, path) ∨ e ∈ rest := by
    intro e
    rw [hperm.mem_iff, List.mem_cons]
  have huv : u ∈ s.1 := hinv.queued (u, path) ((hmem _).2 (Or.inl rfl))
  rw [AStarNeighbor_eq]
  have hvis := expand_visited Q (AStarOk Grid) (fun c => (c, path2)) u directions s.1 rest
  have hque := expand_queue Q (AStarOk Grid) (fun c => (c, path2)) u directions s.1 rest
  have hnd := expand_nodup Q (AStarOk Grid) (fun c => (c, path2)) u directions s.1 rest
    hinv.nodup
  generalize directions.foldl (expandNeighbor Q (AStarOk Grid) (fun c => (c, path2)) u)
    (s.1, rest) = R at hvis hque hnd
  have hsub : ∀ c, c ∈ s.1 → c ∈ R.1 := fun c hc => (hvis c).2 (Or.inl hc)
  have hnb : ∀ v, Adjacent4 u v → AStarOk Grid v = true → v ∈ R.1 := by
    intro v ⟨d, hd, hv⟩ hw
    exact (hvis v).2 (Or.inr ⟨d, hd, hv, hw⟩)
  refine ⟨hsub _ hinv.startVisited, hnd, ?_, ?_, ?_, ?_⟩
  · intro c hc
    rcases (hvis c).1 hc with h | ⟨_, _, _, hw⟩
    · exact hinv.visitedOk c h
    · exact Or.inr hw
  · intro c hc
    rcases (hvis c).1 hc with h | ⟨d, hd, hcd, hw⟩
    · exact hinv.reach c h
    · simp only [AStarOk, Bool.and_eq_true, decide_eq_true_eq] at hw
      exact AStarReach.step (hinv.reach u huv) ⟨d, hd, hcd⟩ hw.1 hw.2
  · intro e he
    rcases (hque e).1 he with h | ⟨c, rfl, _, d, hd, hcd, hw⟩
    · exact hsub _ (hinv.queued e ((hmem e).2 (Or.inr h)))
    · exact hnb c ⟨d, hd, hcd⟩ hw
  · intro c hc
    have old : c ∈ s.1 → (∃ e ∈ R.2, e.1 = c) ∨
        (goal c = false ∧ ∀ v, Adjacent4 c v → AStarOk Grid v = true → v ∈ R.1) := by
      intro h
      rcases hinv.settled c h with ⟨e, he, rfl⟩ | ⟨k1, k2⟩
      · rcases (hmem e).1 he with rfl | h1
        · exact Or.inr ⟨hgoal, hnb⟩
        · exact Or.inl ⟨e, (hque e).2 (Or.inl h1), rfl⟩
      · exact Or.inr ⟨k1, fun v hv hw => hsub v (k2 v hv hw)⟩
    by_cases hcv : c ∈ s.1
    · exact old hcv
    · rcases (hvis c).1 hc with h | ⟨d, hd, hcd, hw⟩
      · exact absurd h hcv
      · exact Or.inl ⟨(c, path2), (hque _).2 (Or.inr ⟨c, rfl, hcv, d, hd, hcd, hw⟩), rfl⟩

theorem AStarInv.visited_bound {goal : FCellRef → Bool} {start : FCellRef}
    {s : List FCellRef × List (FCellRef × List FCellRef)}
    (hinv : AStarInv Grid goal start s) : s.1.length ≤ Grid.GridBounds.cells.length + 1 := by
  have hsub : s.1 ⊆ start :: Grid.GridBounds.cells := by
    intro c hc
    rcases hinv.visitedOk c hc with h | h
    · exact List.mem_cons.2 (Or.inl h)
    · refine List.mem_cons.2 (Or.inr ((mem_cells _ c).2 ?_))
      simp only [AStarOk, Bool.and_eq_true, decide_eq_true_eq, AGAGridActor.GetCellData] at h
      by_contra hv
      rw [if_neg hv] at h
      exact absurd h.2 (by decide)
  simpa using (List.subperm_of_subset hinv.nodup hsub).length_le

theorem AStarInv.exhausted {goal : FCellRef → Bool} {start : FCellRef}
    {s : List FCellRef × List (FCellRef × List FCellRef)}
    (hinv : AStarInv Grid goal start s) (hq : s.2 = []) :
    ∀ c, AStarReach Grid start c → goal c = false := by
  have hdone : ∀ c ∈ s.1,
      goal c = false ∧ ∀ v, Adjacent4 c v → AStarOk Grid v = true → v ∈ s.1 := by
    intro c hc
    rcases hinv.settled c hc with ⟨e, he, _⟩ | h
    · rw [hq] at he
      cases he
    · exact h
  have hall : ∀ c, AStarReach Grid start c → c ∈ s.1 := by
    intro c h
    induction h with
    | start => exact hinv.startVisited
    | step _ hadj hv ht ih =>
      exact (hdone _ ih).2 _ hadj (by simp [AStarOk, hv, ht])
  exact fun c hc => (hdone c (hall c hc)).1

theorem AStarLoop_spec (ArrivalDistance : ℚ) {start : FCellRef} (fuel : Nat)
    (s : List FCellRef × List (FCellRef × List FCellRef))
    (hinv : AStarInv Grid (AStarGoalTest Grid DestinationCell ArrivalDistance) start s)
    (hfuel : (Grid.GridBounds.cells.length + 1 - s.1.length) + s.2.length ≤ fuel) :
    ∃ r, AStarLoop Q Grid ArrivalDistance fuel s = some r ∧
      (∀ cell path, r = some (cell, path) →
        AStarReach Grid start cell ∧
          AStarGoalTest Grid DestinationCell ArrivalDistance cell = true) ∧
      (r = none → ∀ c, AStarReach Grid start c →
        AStarGoalTest Grid DestinationCell ArrivalDistance c = false) := by
  induction fuel generalizing s with
  | zero =>
    have hq : s.2 = [] := List.length_eq_zero.1 (by omega)
    refine ⟨none, ?_, (fun _ _ h => by cases h), fun _ => hinv.exhausted Grid hq⟩
    unfold AStarLoop
    rw [hq, Q.pop_nil]
  | succ fuel ih =>
    unfold AStarLoop
    cases hpop : Q.pop s.2 with
    | none =>
      exact ⟨none, rfl, (fun _ _ h => by cases h),
        fun _ => hinv.exhausted Grid (Q.pop_none hpop)⟩
    | some a =>
      obtain ⟨⟨u, path⟩, rest⟩ := a
      have huv : u ∈ s.1 :=
        hinv.queued (u, path) ((Q.pop_some hpop).1.mem_iff.2 (List.mem_cons_self _ _))
      by_cases hg : AStarGoalTest Grid DestinationCell ArrivalDistance u = true
      · refine ⟨some (u, path), by simp [hg], ?_, (fun h => by cases h)⟩
        intro cell p h
        cases h
        exact ⟨hinv.reach u huv, hg⟩
      · simp only [hg]
        have hnext : AStarInv Grid (AStarGoalTest Grid DestinationCell ArrivalDistance) start
            (directions.foldl (AStarNeighbor Q Grid u (path ++ [u])) (s.1, rest)) :=
          hinv.step_state Q Grid hpop (by simpa using hg)
        refine ih _ hnext ?_
        have hlen := expand_length Q (AStarOk Grid) (fun c => (c, path ++ [u])) u directions
          s.1 rest
        rw [← AStarNeighbor_eq] at hlen
        have h1 := hnext.visited_bound
        have h2 := (Q.pop_some hpop).1.length_eq
        simp only [List.length_cons] at h2
        omega

end AStarProof

/-- C3: the search loop of `AStar` always ends, and it ends having found a goal
(`break` with `pathFound = true`) exactly when some cell among the start cell
and the cells reachable from it through 4-adjacent, valid, traversable cells
passes the goal test; the popped cell it stops at is such a cell, and otherwise
the queue runs empty. -/
theorem AStarSearch_finds_goal_iff {DestinationCell : FCellRef}
    (Q : PriorityQueue (FCellRef × List FCellRef) (CompareCells DestinationCell))
    (Grid : AGAGridActor) (ArrivalDistance : ℚ) (StartPoint : FVector) :
    ∃ r, AStarSearch Q Grid ArrivalDistance StartPoint = some r ∧
      (r.isSome = true ↔ ∃ c, AStarReach Grid (Grid.GetCellRef StartPoint) c ∧
        AStarGoalTest Grid DestinationCell ArrivalDistance c = true) ∧
      (∀ cell path, r = some (cell, path) →
        AStarReach Grid (Grid.GetCellRef StartPoint) cell ∧
          AStarGoalTest Grid DestinationCell ArrivalDistance cell = true) := by
  have hfuel : (Grid.GridBounds.cells.length + 1
        - ([Grid.GetCellRef StartPoint], Q.push [] (Grid.GetCellRef StartPoint, [])).1.length)
      + ([Grid.GetCellRef StartPoint], Q.push [] (Grid.GetCellRef StartPoint, [])).2.length
      ≤ Grid.GridBounds.cells.length + 2 := by
    have := (Q.push_perm [] (Grid.GetCellRef StartPoint, ([] : List FCellRef))).length_eq
    simp only [List.length_cons, List.length_nil] at this ⊢
    omega
  obtain ⟨r, hr, h1, h2⟩ := AStarLoop_spec Q Grid ArrivalDistance _ _
    (AStarInv.start_state Q Grid _ (Grid.GetCellRef StartPoint)) hfuel
  refine ⟨r, hr, ⟨?_, ?_⟩, h1⟩
  · intro hs
    obtain ⟨⟨cell, path⟩, rfl⟩ := Option.isSome_iff_exists.1 hs
    exact ⟨cell, h1 cell path rfl⟩
  · rintro ⟨c, hc, hg⟩
    cases r with
    | none => rw [h2 rfl c hc] at hg; cases hg
    | some _ => rfl

/-! ## Line-of-sight smoothing -/

theorem getPointsAlongLine2_eq_false (Grid : AGAGridActor) (start finish : FVector) :
    getPointsAlongLine2 start finish Grid = false ↔ LineClear Grid start finish := by
  simp [getPointsAlongLine2, LineClear]

theorem getPointsAlongLine_eq_false (Grid : AGAGridActor) (start finish : FVector) :
    getPointsAlongLine start finish Grid = false ↔ LineClear Grid start finish := by
  simp [getPointsAlongLine, LineClear]

theorem getLast?_cons_getD (e prev : FCellRef) (L : List FCellRef) :
    (e :: L).getLast?.getD prev = L.getLast?.getD e := by
  cases L with
  | nil => rfl
  | cons y L => rw [List.getLast?_cons_cons]; simp [List.getLast?_cons]

theorem getLineTrace2Loop_eq (Grid : AGAGridActor) (origin : FVector) (path : List FCellRef)
    (prev : FCellRef) :
    getLineTrace2Loop origin Grid prev path
      = if clearRun Grid origin path = path then none
        else some ((clearRun Grid origin path).getLast?.getD prev) := by
  induction path generalizing prev with
  | nil => simp [getLineTrace2Loop, clearRun]
  | cons e rest ih =>
    by_cases hc : LineClear Grid origin (Grid.GetCellPosition e)
    · have h1 : getPointsAlongLine2 origin (Grid.GetCellPosition e) Grid = false :=
        (getPointsAlongLine2_eq_false _ _ _).2 hc
      have h2 : clearRun Grid origin (e :: rest) = e :: clearRun Grid origin rest := by
        simp [clearRun, List.takeWhile_cons, hc]
      rw [getLineTrace2Loop, h1, h2, ih, getLast?_cons_getD]
      simp
    · have h1 : getPointsAlongLine2 origin (Grid.GetCellPosition e) Grid = true := by
        rw [← Bool.not_eq_false, getPointsAlongLine2_eq_false]
        exact hc
      have h2 : clearRun Grid origin (e :: rest) = [] := by
        simp [clearRun, List.takeWhile_cons, hc]
      rw [getLineTrace2Loop, h1, h2]
      simp

theorem getLineTraceLoop_eq (Grid : AGAGridActor) (originVec : FVector)
    (path : List FCellRef) (prev : FCellRef) :
    getLineTraceLoop originVec Grid prev path
      = if clearRun Grid originVec path = path then none
        else some ((clearRun Grid originVec path).getLast?.getD prev) := by
  induction path generalizing prev with
  | nil => simp [getLineTraceLoop, clearRun]
  | cons e rest ih =>
    by_cases hc : LineClear Grid originVec (Grid.GetCellPosition e)
    · have h1 : getPointsAlongLine originVec (Grid.GetCellPosition e) Grid = false :=
        (getPointsAlongLine_eq_false _ _ _).2 hc
      have h2 : clearRun Grid originVec (e :: rest) = e :: clearRun Grid originVec rest := by
        simp [clearRun, List.takeWhile_cons, hc]
      rw [getLineTraceLoop, h1, h2, ih, getLast?_cons_getD]
      simp
    · have h1 : getPointsAlongLine originVec (Grid.GetCellPosition e) Grid = true := by
        rw [← Bool.not_eq_false, getPointsAlongLine_eq_false]
        exact hc
      have h2 : clearRun Grid originVec (e :: rest) = [] := by
        simp [clearRun, List.takeWhile_cons, hc]
      rw [getLineTraceLoop, h1, h2]
      simp

theorem getLineTrace2_eq (Grid : AGAGridActor) (origin : FVector) (path : List FCellRef)
    (hne : path ≠ []) :
    getLineTrace2 path origin Grid
      = some (Grid.GetCellPosition
            ((clearRun Grid origin path).getLast?.getD (Grid.GetCellRef origin)),
          (clearRun Grid origin path).getLast?.getD (Grid.GetCellRef origin)) := by
  unfold getLineTrace2
  rw [getLineTrace2Loop_eq]
  by_cases h : clearRun Grid origin path = path
  · rw [if_pos h, h]
    obtain ⟨b, hb⟩ : ∃ b, path.getLast? = some b :=
      ⟨path.getLast hne, List.getLast?_eq_getLast _ hne⟩
    simp [hb]
  · rw [if_neg h]

theorem getLineTrace_eq (Grid : AGAGridActor) (origin : FCellRef) (path : List FCellRef)
    (hne : path ≠ []) :
    getLineTrace path origin Grid
      = some (Grid.GetCellPosition
            ((clearRun Grid (Grid.GetCellPosition origin) path).getLast?.getD origin),
          (clearRun Grid (Grid.GetCellPosition origin) path).getLast?.getD origin) := by
  unfold getLineTrace
  rw [getLineTraceLoop_eq]
  by_cases h : clearRun Grid (Grid.GetCellPosition origin) path = path
  · rw [if_pos h, h]
    obtain ⟨b, hb⟩ : ∃ b, path.getLast? = some b :=
      ⟨path.getLast hne, List.getLast?_eq_getLast _ hne⟩
    simp [hb]
  · rw [if_neg h]

theorem sampleGrid_GetCellData (w h : Int) (blocked : List FCellRef) (c : FCellRef) :
    (sampleGrid w h blocked).GetCellData c = ECellData.CellDataTraversable ↔
      (0 ≤ c.X ∧ c.X < w ∧ 0 ≤ c.Y ∧ c.Y < h) ∧ c ∉ blocked := by
  simp only [AGAGridActor.GetCellData, sampleGrid, FGridBox.IsValidCell, Bool.and_eq_true,
    decide_eq_true_eq]
  by_cases hb : (0 ≤ c.X ∧ c.X < w) ∧ 0 ≤ c.Y ∧ c.Y < h
  · have hb2 : ((0 ≤ c.X ∧ c.X < w) ∧ 0 ≤ c.Y) ∧ c.Y < h := ⟨⟨hb.1, hb.2.1⟩, hb.2.2⟩
    rw [if_pos hb2]
    by_cases hm : c ∈ blocked
    · simp [hm]
    · simp [hm, hb.1.1, hb.1.2, hb.2.1, hb.2.2]
  · have hb2 : ¬ (((0 ≤ c.X ∧ c.X < w) ∧ 0 ≤ c.Y) ∧ c.Y < h) :=
      fun h => hb ⟨h.1.1, h.1.2, h.2⟩
    rw [if_neg hb2]
    constructor
    · intro h; cases h
    · intro h; exact absurd ⟨⟨h.1.1, h.1.2.1⟩, h.1.2.2.1, h.1.2.2.2⟩ hb

theorem sampleLine_clear :
    LineClear (sampleGrid 4 1 [⟨2, 0⟩]) ⟨50, 50⟩
      ((sampleGrid 4 1 [⟨2, 0⟩]).GetCellPosition ⟨1, 0⟩) := by
  intro i hi
  rw [sampleGrid_GetCellData]
  have hi2 : (i : ℚ) < 80 := by exact_mod_cast hi
  have hi0 : (0 : ℚ) ≤ (i : ℚ) := by exact_mod_cast Nat.zero_le i
  have hx0 : (0 : ℚ) ≤ (50 + (i : ℚ) / (80 - 1) * (100 * 1 + 50 - 50)) / 100 := by
    have : (0 : ℚ) ≤ (i : ℚ) / (80 - 1) := div_nonneg hi0 (by norm_num)
    have : (0 : ℚ) ≤ (i : ℚ) / (80 - 1) * (100 * 1 + 50 - 50) :=
      mul_nonneg this (by norm_num)
    exact div_nonneg (by linarith) (by norm_num)
  have hx2 : (50 + (i : ℚ) / (80 - 1) * (100 * 1 + 50 - 50)) / 100 < 2 := by
    rw [div_lt_iff₀ (by norm_num : (0 : ℚ) < 100)]
    have : (i : ℚ) / (80 - 1) < 80 / 79 := by
      rw [div_lt_div_iff₀ (by norm_num) (by norm_num)]
      linarith
    linarith
  have hy : ⌊((50 : ℚ) + (i : ℚ) / (80 - 1) * (100 * 0 + 50 - 50)) / 100⌋ = 0 := by
    rw [Int.floor_eq_iff]
    constructor <;> norm_num
  simp only [sampleGrid, lerpPoint, Int.cast_one, Int.cast_zero]
  rw [hy]
  have h0 : 0 ≤ ⌊((50 : ℚ) + (i : ℚ) / (80 - 1) * (100 * 1 + 50 - 50)) / 100⌋ :=
    Int.floor_nonneg.2 hx0
  have h2 : ⌊((50 : ℚ) + (i : ℚ) / (80 - 1) * (100 * 1 + 50 - 50)) / 100⌋ < 2 :=
    Int.floor_lt.2 (by exact_mod_cast hx2)
  refine ⟨⟨h0, by omega, le_refl _, by norm_num⟩, ?_⟩
  simp only [List.mem_singleton, FCellRef.mk.injEq, and_true]
  omega

theorem sampleLine_blocked :
    ¬ LineClear (sampleGrid 4 1 [⟨2, 0⟩]) ⟨50, 50⟩
      ((sampleGrid 4 1 [⟨2, 0⟩]).GetCellPosition ⟨2, 0⟩) := by
  intro h
  have h79 := h 79 (by norm_num)
  rw [sampleGrid_GetCellData] at h79
  apply h79.2
  have hx : ⌊((50 : ℚ) + ((79 : Nat) : ℚ) / (80 - 1) * (100 * 2 + 50 - 50)) / 100⌋ = 2 := by
    rw [Int.floor_eq_iff]
    constructor <;> norm_num
  have hy : ⌊((50 : ℚ) + ((79 : Nat) : ℚ) / (80 - 1) * (100 * 0 + 50 - 50)) / 100⌋ = 0 := by
    rw [Int.floor_eq_iff]
    constructor <;> norm_num
  simp only [sampleGrid, lerpPoint, Int.cast_ofNat, Int.cast_zero]
  rw [hx, hy]
  simp

theorem sampleLine_position :
    (sampleGrid 4 1 [⟨2, 0⟩]).GetCellPosition ⟨0, 0⟩ = ⟨50, 50⟩ ∧
      (sampleGrid 4 1 [⟨2, 0⟩]).GetCellRef ⟨50, 50⟩ = ⟨0, 0⟩ := by
  constructor
  · simp [sampleGrid]
  · simp only [sampleGrid, FCellRef.mk.injEq]
    constructor <;> norm_num [Int.floor_eq_iff]

theorem sampleLine_clearRun :
    clearRun (sampleGrid 4 1 [⟨2, 0⟩]) ⟨50, 50⟩ [⟨1, 0⟩, ⟨2, 0⟩, ⟨3, 0⟩] = [⟨1, 0⟩] := by
  simp [clearRun, List.takeWhile_cons, sampleLine_clear, sampleLine_blocked]

theorem lerpPoint_eq_segmentPoint (a b : FVector) (i : Nat) :
    lerpPoint a b i = segmentPoint a b i := by
  simp only [lerpPoint, segmentPoint, FVector.mk.injEq]
  constructor <;> ring

theorem LineClear_iff_SegmentClear (Grid : AGAGridActor) (a b : FVector) :
    LineClear Grid a b ↔ SegmentClear Grid a b := by
  unfold LineClear SegmentClear
  simp only [lerpPoint_eq_segmentPoint]

theorem clearRun_eq_clearPrefix (Grid : AGAGridActor) (o : FVector) (path : List FCellRef) :
    clearRun Grid o path = clearPrefix Grid o path := by
  unfold clearRun clearPrefix
  congr 1
  funext e
  simp only [LineClear_iff_SegmentClear]

theorem clearPrefix_longest (Grid : AGAGridActor) (o : FVector) (path : List FCellRef) :
    clearPrefix Grid o path <+: path ∧
      (∀ e ∈ clearPrefix Grid o path, SegmentClear Grid o (Grid.GetCellPosition e)) ∧
      (∀ e, clearPrefix Grid o path ++ [e] <+: path →
        ¬ SegmentClear Grid o (Grid.GetCellPosition e)) := by
  refine ⟨List.takeWhile_prefix _, fun e he => ?_, fun e he => ?_⟩
  · have := List.mem_takeWhile_imp he
    simpa using this
  · obtain ⟨t, ht⟩ := he
    have hsplit := List.takeWhile_append_dropWhile
      (fun e => decide (SegmentClear Grid o (Grid.GetCellPosition e))) path
    have hd : path.dropWhile (fun e => decide (SegmentClear Grid o (Grid.GetCellPosition e)))
        = e :: t := by
      have h2 : clearPrefix Grid o path ++ (e :: t) = clearPrefix Grid o path
          ++ path.dropWhile
            (fun e => decide (SegmentClear Grid o (Grid.GetCellPosition e))) := by
        rw [List.append_assoc, List.singleton_append] at ht
        rw [ht]
        exact hsplit.symm
      exact (List.append_cancel_left h2).symm
    have hh := List.head?_dropWhile_not
      (fun e => decide (SegmentClear Grid o (Grid.GetCellPosition e))) path
    rw [hd] at hh
    simpa using hh

theorem sampleDetour_position :
    (sampleGrid 4 2 [⟨1, 0⟩]).GetCellPosition ⟨0, 0⟩ = ⟨50, 50⟩ ∧
      (sampleGrid 4 2 [⟨1, 0⟩]).GetCellRef ⟨50, 50⟩ = ⟨0, 0⟩ ∧
      (sampleGrid 4 2 [⟨1, 0⟩]).GetCellPosition ⟨1, 1⟩ = ⟨150, 150⟩ ∧
      (sampleGrid 4 2 [⟨1, 0⟩]).GetCellPosition ⟨2, 1⟩ = ⟨250, 150⟩ := by
  refine ⟨?_, ?_, ?_, ?_⟩
  · simp [sampleGrid]
  · simp only [sampleGrid, FCellRef.mk.injEq]
    constructor <;> norm_num [Int.floor_eq_iff]
  · simp only [sampleGrid, FVector.mk.injEq]
    constructor <;> norm_num
  · simp only [sampleGrid, FVector.mk.injEq]
    constructor <;> norm_num

theorem sampleDetour_clear :
    SegmentClear (sampleGrid 4 2 [⟨1, 0⟩]) ⟨50, 50⟩
      ((sampleGrid 4 2 [⟨1, 0⟩]).GetCellPosition ⟨1, 1⟩) := by
  rw [sampleDetour_position.2.2.1]
  intro i hi
  rw [sampleGrid_GetCellData]
  have hi2 : (i : ℚ) < 80 := by exact_mod_cast hi
  have hi0 : (0 : ℚ) ≤ (i : ℚ) := by exact_mod_cast Nat.zero_le i
  have h0 : 0 ≤ ⌊((79 - (i : ℚ)) * 50 + (i : ℚ) * 150) / 79 / 100⌋ := by
    apply Int.floor_nonneg.2
    apply div_nonneg _ (by norm_num)
    apply div_nonneg _ (by norm_num)
    nlinarith
  have h2 : ⌊((79 - (i : ℚ)) * 50 + (i : ℚ) * 150) / 79 / 100⌋ < 2 := by
    apply Int.floor_lt.2
    rw [div_lt_iff₀ (by norm_num : (0 : ℚ) < 100), div_lt_iff₀ (by norm_num : (0 : ℚ) < 79)]
    push_cast
    linarith
  simp only [sampleGrid, segmentPoint]
  refine ⟨⟨h0, by omega, h0, h2⟩, ?_⟩
  simp only [List.mem_singleton, FCellRef.mk.injEq]
  omega

theorem sampleDetour_blocked :
    ¬ SegmentClear (sampleGrid 4 2 [⟨1, 0⟩]) ⟨50, 50⟩
      ((sampleGrid 4 2 [⟨1, 0⟩]).GetCellPosition ⟨2, 1⟩) := by
  rw [sampleDetour_position.2.2.2]
  intro h
  have h20 := h 20 (by norm_num)
  rw [sampleGrid_GetCellData] at h20
  apply h20.2
  have hx : ⌊((79 - ((20 : Nat) : ℚ)) * 50 + ((20 : Nat) : ℚ) * 250) / 79 / 100⌋ = 1 := by
    rw [Int.floor_eq_iff]
    constructor <;> norm_num
  have hy : ⌊((79 - ((20 : Nat) : ℚ)) * 50 + ((20 : Nat) : ℚ) * 150) / 79 / 100⌋ = 0 := by
    rw [Int.floor_eq_iff]
    constructor <;> norm_num
  simp only [sampleGrid, segmentPoint]
  rw [hx, hy]
  simp

theorem sampleDetour_clearPrefix :
    clearPrefix (sampleGrid 4 2 [⟨1, 0⟩]) ⟨50, 50⟩ [⟨1, 1⟩, ⟨2, 1⟩, ⟨3, 1⟩] = [⟨1, 1⟩] := by
  simp [clearPrefix, List.takeWhile_cons, sampleDetour_clear, sampleDetour_blocked]

/-- C4: for every non-empty path, `getLineTrace2` (origin a point) and `getLineTrace`
(origin a cell) return the last cell of the longest prefix of the path in which
every cell has a clear straight line from the origin, together with that cell's
world position.  A line is clear when all 80 uniformly spaced points of the
segment from the origin to the cell's world position (`segmentPoint`, point 0
the origin and point 79 the cell's position) fall in traversable cells; the
prefix is a prefix of the path, every cell of it has a clear line, and the path
cell that follows it, if any, has none.  The returned cell is the origin cell
when the line to the first path cell is blocked and the final path cell when no
line is blocked.  On the straight path `(1,0), (2,0), (3,0)` from the cell
`(0,0)` with the obstacle `(2,0)` both functions return the cell `(1,0)`; on
the straight path `(1,1), (2,1), (3,1)` from the cell `(0,0)` with the obstacle
`(1,0)`, which is no cell of the path and lies on the line to `(2,1)`, both
return the cell `(1,1)` before the obstruction, not the final cell. -/
theorem lineTrace_last_clear_cell (Grid : AGAGridActor) (path : List FCellRef)
    (origin : FVector) (originCell : FCellRef) (hne : path ≠ []) :
    (getLineTrace2 path origin Grid
        = some (Grid.GetCellPosition
              ((clearPrefix Grid origin path).getLast?.getD (Grid.GetCellRef origin)),
            (clearPrefix Grid origin path).getLast?.getD (Grid.GetCellRef origin))) ∧
      (getLineTrace path originCell Grid
        = some (Grid.GetCellPosition
              ((clearPrefix Grid (Grid.GetCellPosition originCell) path).getLast?.getD
                originCell),
            (clearPrefix Grid (Grid.GetCellPosition originCell) path).getLast?.getD
              originCell)) ∧
      (∀ o : FVector, clearPrefix Grid o path <+: path ∧
        (∀ e ∈ clearPrefix Grid o path, SegmentClear Grid o (Grid.GetCellPosition e)) ∧
        (∀ e, clearPrefix Grid o path ++ [e] <+: path →
          ¬ SegmentClear Grid o (Grid.GetCellPosition e))) ∧
      (∀ a b : FVector, segmentPoint a b 0 = a ∧ segmentPoint a b 79 = b ∧
        ∀ i : Nat, (segmentPoint a b (i + 1)).X - (segmentPoint a b i).X = (b.X - a.X) / 79 ∧
          (segmentPoint a b (i + 1)).Y - (segmentPoint a b i).Y = (b.Y - a.Y) / 79) ∧
      (∀ e rest, path = e :: rest →
        (¬ SegmentClear Grid origin (Grid.GetCellPosition e) →
          getLineTrace2 path origin Grid
            = some (Grid.GetCellPosition (Grid.GetCellRef origin), Grid.GetCellRef origin)) ∧
        (¬ SegmentClear Grid (Grid.GetCellPosition originCell) (Grid.GetCellPosition e) →
          getLineTrace path originCell Grid
            = some (Grid.GetCellPosition originCell, originCell))) ∧
      (∀ last, path.getLast? = some last →
        ((∀ e ∈ path, SegmentClear Grid origin (Grid.GetCellPosition e)) →
          getLineTrace2 path origin Grid = some (Grid.GetCellPosition last, last)) ∧
        ((∀ e ∈ path,
            SegmentClear Grid (Grid.GetCellPosition originCell) (Grid.GetCellPosition e)) →
          getLineTrace path originCell Grid = some (Grid.GetCellPosition last, last))) ∧
      getLineTrace2 [⟨1, 0⟩, ⟨2, 0⟩, ⟨3, 0⟩] ⟨50, 50⟩ (sampleGrid 4 1 [⟨2, 0⟩])
        = some (⟨150, 50⟩, ⟨1, 0⟩) ∧
      getLineTrace [⟨1, 0⟩, ⟨2, 0⟩, ⟨3, 0⟩] ⟨0, 0⟩ (sampleGrid 4 1 [⟨2, 0⟩])
        = some (⟨150, 50⟩, ⟨1, 0⟩) ∧
      getLineTrace2 [⟨1, 1⟩, ⟨2, 1⟩, ⟨3, 1⟩] ⟨50, 50⟩ (sampleGrid 4 2 [⟨1, 0⟩])
        = some (⟨150, 150⟩, ⟨1, 1⟩) ∧
      getLineTrace [⟨1, 1⟩, ⟨2, 1⟩, ⟨3, 1⟩] ⟨0, 0⟩ (sampleGrid 4 2 [⟨1, 0⟩])
        = some (⟨150, 150⟩, ⟨1, 1⟩) := by
  have all_clear : ∀ (o : FVector),
      (∀ e ∈ path, SegmentClear Grid o (Grid.GetCellPosition e)) →
        clearPrefix Grid o path = path := by
    intro o h
    unfold clearPrefix
    rw [List.takeWhile_eq_self_iff]
    intro e he
    simpa using h e he
  have t2 : ∀ (G : AGAGridActor) (o : FVector) (p : List FCellRef), p ≠ [] →
      getLineTrace2 p o G
        = some (G.GetCellPosition ((clearPrefix G o p).getLast?.getD (G.GetCellRef o)),
            (clearPrefix G o p).getLast?.getD (G.GetCellRef o)) := by
    intro G o p hp
    rw [getLineTrace2_eq G o p hp, clearRun_eq_clearPrefix]
  have t1 : ∀ (G : AGAGridActor) (oc : FCellRef) (p : List FCellRef), p ≠ [] →
      getLineTrace p oc G
        = some (G.GetCellPosition
              ((clearPrefix G (G.GetCellPosition oc) p).getLast?.getD oc),
            (clearPrefix G (G.GetCellPosition oc) p).getLast?.getD oc) := by
    intro G oc p hp
    rw [getLineTrace_eq G oc p hp, clearRun_eq_clearPrefix]
  refine ⟨t2 Grid origin path hne, t1 Grid originCell path hne,
    fun o => clearPrefix_longest Grid o path, ?_, ?_, ?_, ?_, ?_, ?_, ?_⟩
  · intro a b
    refine ⟨?_, ?_, fun i => ?_⟩
    · simp [segmentPoint]
    · simp [segmentPoint]
    · simp only [segmentPoint]
      push_cast
      constructor <;> ring
  · intro e rest hp
    subst hp
    constructor
    · intro hb
      rw [t2 Grid origin _ hne]
      simp [clearPrefix, List.takeWhile_cons, hb]
    · intro hb
      rw [t1 Grid originCell _ hne]
      simp [clearPrefix, List.takeWhile_cons, hb]
  · intro last hl
    constructor
    · intro h
      rw [t2 Grid origin _ hne, all_clear _ h, hl]
      rfl
    · intro h
      rw [t1 Grid originCell _ hne, all_clear _ h, hl]
      rfl
  · rw [getLineTrace2_eq _ _ _ (by simp), sampleLine_clearRun]
    simp only [List.getLast?_singleton, Option.getD_some]
    simp only [sampleGrid]
    norm_num
  · rw [getLineTrace_eq _ _ _ (by simp), sampleLine_position.1, sampleLine_clearRun]
    simp only [List.getLast?_singleton, Option.getD_some]
    simp only [sampleGrid]
    norm_num
  · rw [t2 _ _ _ (by simp), sampleDetour_clearPrefix]
    simp only [List.getLast?_singleton, Option.getD_some]
    rw [sampleDetour_position.2.2.1]
  · rw [t1 _ _ _ (by simp), sampleDetour_position.1, sampleDetour_clearPrefix]
    simp only [List.getLast?_singleton, Option.getD_some]
    rw [sampleDetour_position.2.2.1]

theorem lineTrace_last_clear_cell_witness :
    clearPrefix (sampleGrid 4 2 [⟨1, 0⟩]) ⟨50, 50⟩ [⟨1, 1⟩, ⟨2, 1⟩, ⟨3, 1⟩] = [⟨1, 1⟩] ∧
      getLineTrace2 [⟨1, 1⟩, ⟨2, 1⟩, ⟨3, 1⟩] ⟨50, 50⟩ (sampleGrid 4 2 [⟨1, 0⟩])
        = some ((sampleGrid 4 2 [⟨1, 0⟩]).GetCellPosition ⟨1, 1⟩, ⟨1, 1⟩) ∧
      getLineTrace [⟨1, 1⟩, ⟨2, 1⟩, ⟨3, 1⟩] ⟨0, 0⟩ (sampleGrid 4 2 [⟨1, 0⟩])
        = some ((sampleGrid 4 2 [⟨1, 0⟩]).GetCellPosition ⟨1, 1⟩, ⟨1, 1⟩) := by
  obtain ⟨h2, h1, _⟩ := lineTrace_last_clear_cell (sampleGrid 4 2 [⟨1, 0⟩])
    [⟨1, 1⟩, ⟨2, 1⟩, ⟨3, 1⟩] ⟨50, 50⟩ ⟨0, 0⟩ (List.cons_ne_nil _ _)
  rw [sampleDetour_clearPrefix] at h2
  rw [sampleDetour_position.1, sampleDetour_clearPrefix] at h1
  exact ⟨sampleDetour_clearPrefix, h2, h1⟩

/-! ## Reconstruction followed by smoothing -/

theorem getPositionPathLoop_exit (m : FGAGridMap) (Grid : AGAGridActor) (start : FCellRef)
    (left : Nat) (cur : FCellRef) (path : List FCellRef) :
    (getPositionPathLoop m Grid start left cur path).length = path.length + left ∨
      (cur = start ∧ getPositionPathLoop m Grid start left cur path = path) ∨
      Grid.GetCellData start = ECellData.CellDataTraversable := by
  induction left generalizing cur path with
  | zero => exact Or.inl (by simp [getPositionPathLoop])
  | succ left ih =>
    rw [getPositionPathLoop]
    by_cases hc : cur = start
    · rw [if_pos hc]
      exact Or.inr (Or.inl ⟨hc, rfl⟩)
    · rw [if_neg hc]
      rcases ih (getPositionPathNext m Grid cur) (path ++ [cur]) with h | ⟨hn, _⟩ | h
      · left
        rw [h]
        simp only [List.length_append, List.length_singleton]
        omega
      · refine Or.inr (Or.inr ?_)
        obtain ⟨_, h3⟩ := getPositionPathNeighbor_fold m Grid cur directions (FLT_MAX, cur)
        unfold getPositionPathNext at hn
        rcases h3 with h3 | ⟨d, _, hw, h3⟩
        · rw [h3] at hn
          exact absurd hn hc
        · rw [h3] at hn
          simp only at hn
          rw [← hn]
          exact hw.2
      · exact Or.inr (Or.inr h)

theorem lerpPoint_last (start finish : FVector) : lerpPoint start finish 79 = finish := by
  obtain ⟨fx, fy⟩ := finish
  simp only [lerpPoint, FVector.mk.injEq]
  constructor <;> norm_num

theorem clearRun_last_traversable (Grid : AGAGridActor) (origin : FVector)
    (path : List FCellRef) (r : FCellRef)
    (hround : ∀ c, Grid.GetCellRef (Grid.GetCellPosition c) = c)
    (hr : (clearRun Grid origin path).getLast? = some r) :
    Grid.GetCellData r = ECellData.CellDataTraversable := by
  have hmem : r ∈ clearRun Grid origin path := List.mem_of_getLast?_eq_some hr
  have hclear : LineClear Grid origin (Grid.GetCellPosition r) := by
    have := List.mem_takeWhile_imp hmem
    simpa using this
  have h := hclear 79 (by norm_num)
  rwa [lerpPoint_last, hround] at h

theorem sampleGrid_round (w h : Int) (blocked : List FCellRef) (c : FCellRef) :
    (sampleGrid w h blocked).GetCellRef ((sampleGrid w h blocked).GetCellPosition c) = c := by
  obtain ⟨x, y⟩ := c
  simp only [sampleGrid, FCellRef.mk.injEq]
  constructor
  · rw [Int.floor_eq_iff]
    constructor
    · rw [le_div_iff₀ (by norm_num : (0 : ℚ) < 100)]
      linarith
    · rw [div_lt_iff₀ (by norm_num : (0 : ℚ) < 100)]
      linarith
  · rw [Int.floor_eq_iff]
    constructor
    · rw [le_div_iff₀ (by norm_num : (0 : ℚ) < 100)]
      linarith
    · rw [div_lt_iff₀ (by norm_num : (0 : ℚ) < 100)]
      linarith

theorem sampleGrid_path_length (m : FGAGridMap)
    (hm : Dijkstra sampleDijkstraQueue (sampleGrid 3 1 []) ⟨50, 50⟩
      (FGAGridMap.ofBox ⟨0, 0, 3, 1⟩ FLT_MAX) = some m) :
    (getPositionPath m ⟨50, 50⟩ ⟨2, 0⟩ (sampleGrid 3 1 [])).length = 2 := by
  have hsv : (⟨0, 0, 3, 1⟩ : FGridBox).IsValidCell
      ((sampleGrid 3 1 []).GetCellRef ⟨50, 50⟩) = true := by
    rw [sampleGrid_start]; decide
  have hst : (sampleGrid 3 1 []).GetCellData ((sampleGrid 3 1 []).GetCellRef ⟨50, 50⟩)
      = ECellData.CellDataTraversable := by
    rw [sampleGrid_start]; decide
  obtain ⟨m', hm', hb, hdist, _⟩ := Dijkstra_spec sampleDijkstraQueue (sampleGrid 3 1 [])
    ⟨50, 50⟩ (FGAGridMap.ofBox ⟨0, 0, 3, 1⟩ FLT_MAX) hsv
  rw [hm] at hm'
  cases hm'
  have hd : HopDist (sampleGrid 3 1 []) ⟨0, 0, 3, 1⟩
      ((sampleGrid 3 1 []).GetCellRef ⟨50, 50⟩) ⟨2, 0⟩ 2 := by
    have h := sampleGrid_shortest.hopDist 2 (le_refl 2)
    rw [sampleGrid_start]
    exact h
  unfold getPositionPath
  rw [getPositionPathLoop_eq hb hdist hsv hst 2 1000 ⟨2, 0⟩ [] hd (by omega) (by omega)]
  simp [descent]

/-- C5: whenever `ChoosePosition` hands the reconstructed path to the smoothing, that
is when the path has more than one and fewer than 1000 cells, the aim cell it
stores in `Steps[0]` is the cell `getLineTrace2` returns and that cell is
traversable, for every grid, distance map, pawn position and destination cell,
a cell's world position mapping back to that cell. -/
theorem ChoosePosition_aim_traversable (Grid : AGAGridActor) (DistanceMap : FGAGridMap)
    (pawnLocation : FVector) (maxCell : FCellRef)
    (hround : ∀ c, Grid.GetCellRef (Grid.GetCellPosition c) = c)
    (h1 : (getPositionPath DistanceMap pawnLocation maxCell Grid).length > 1)
    (h2 : (getPositionPath DistanceMap pawnLocation maxCell Grid).length < 1000) :
    ∃ step, ChoosePositionGoThere DistanceMap pawnLocation maxCell Grid
        = (some step, EGAPathState.GAPS_Active) ∧
      getLineTrace2 (getPositionPath DistanceMap pawnLocation maxCell Grid) pawnLocation Grid
        = some (step.Point, step.CellRef) ∧
      Grid.GetCellData step.CellRef = ECellData.CellDataTraversable := by
  have hne : getPositionPath DistanceMap pawnLocation maxCell Grid ≠ [] := by
    intro h
    rw [h] at h1
    simp at h1
  have hstart : Grid.GetCellData (Grid.GetCellRef pawnLocation)
      = ECellData.CellDataTraversable := by
    have hlen : (getPositionPath DistanceMap pawnLocation maxCell Grid).length
        = (getPositionPathLoop DistanceMap Grid (Grid.GetCellRef pawnLocation) 1000
            maxCell []).length := by
      simp [getPositionPath]
    rcases getPositionPathLoop_exit DistanceMap Grid (Grid.GetCellRef pawnLocation) 1000
      maxCell [] with h | ⟨_, h⟩ | h
    · rw [← hlen] at h
      simp only [List.length_nil] at h
      omega
    · rw [hlen, h] at h1
      simp at h1
    · exact h
  have htrace := getLineTrace2_eq Grid pawnLocation _ hne
  have htrav : Grid.GetCellData
      ((clearRun Grid pawnLocation
        (getPositionPath DistanceMap pawnLocation maxCell Grid)).getLast?.getD
          (Grid.GetCellRef pawnLocation)) = ECellData.CellDataTraversable := by
    cases hl : (clearRun Grid pawnLocation
        (getPositionPath DistanceMap pawnLocation maxCell Grid)).getLast? with
    | none => exact hstart
    | some r => exact clearRun_last_traversable Grid pawnLocation _ r hround hl
  refine ⟨⟨Grid.GetCellPosition _, _⟩, ?_, htrace, htrav⟩
  unfold ChoosePositionGoThere
  simp only [htrace]
  rw [if_pos ⟨h1, h2⟩]
  rfl

theorem ChoosePosition_aim_traversable_witness :
    ∃ m, Dijkstra sampleDijkstraQueue (sampleGrid 3 1 []) ⟨50, 50⟩
        (FGAGridMap.ofBox ⟨0, 0, 3, 1⟩ FLT_MAX) = some m ∧
      ∃ step, ChoosePositionGoThere m ⟨50, 50⟩ ⟨2, 0⟩ (sampleGrid 3 1 [])
          = (some step, EGAPathState.GAPS_Active) ∧
        (sampleGrid 3 1 []).GetCellData step.CellRef = ECellData.CellDataTraversable := by
  obtain ⟨m, hm, _⟩ := Dijkstra_spec sampleDijkstraQueue (sampleGrid 3 1 [])
    ⟨50, 50⟩ (FGAGridMap.ofBox ⟨0, 0, 3, 1⟩ FLT_MAX) (by rw [sampleGrid_start]; decide)
  have hlen := sampleGrid_path_length m hm
  obtain ⟨step, hs1, _, hs3⟩ := ChoosePosition_aim_traversable (sampleGrid 3 1 []) m
    ⟨50, 50⟩ ⟨2, 0⟩ (sampleGrid_round 3 1 []) (by rw [hlen]; decide) (by rw [hlen]; decide)
  exact ⟨m, hm, step, hs1, hs3⟩

/-! ## Position selection -/

theorem ftrunc_eq_iff (q : ℚ) : (q ≥ 0 ∧ ftrunc q = q) ↔ ∃ n : Nat, q = (n : ℚ) := by
  constructor
  · rintro ⟨h0, ht⟩
    unfold ftrunc at ht
    rw [if_pos h0] at ht
    refine ⟨⌊q⌋.toNat, ?_⟩
    have hf : 0 ≤ ⌊q⌋ := Int.floor_nonneg.2 h0
    have : ((⌊q⌋.toNat : Nat) : ℚ) = ((⌊q⌋ : Int) : ℚ) := by
      have h1 : ((⌊q⌋.toNat : Nat) : Int) = ⌊q⌋ := Int.toNat_of_nonneg hf
      exact_mod_cast congrArg (fun z : Int => (z : ℚ)) h1
    rw [this, ht]
  · rintro ⟨n, rfl⟩
    refine ⟨by exact_mod_cast Nat.zero_le n, ?_⟩
    unfold ftrunc
    rw [if_pos (by exact_mod_cast Nat.zero_le n), Int.floor_natCast]
    simp

theorem ChoosePositionReached_iff (DistanceMap : FGAGridMap) (c : FCellRef)
    (hc : DistanceMap.GridBounds.IsValidCell c = true) :
    ChoosePositionReached DistanceMap c = true ↔ ValidDistance DistanceMap c := by
  simp only [ChoosePositionReached, GetValue_valid _ _ _ hc, decide_eq_true_eq, ValidDistance]
  constructor
  · rintro ⟨h0, hlt, ht⟩
    obtain ⟨n, hn⟩ := (ftrunc_eq_iff _).1 ⟨h0, ht⟩
    exact ⟨n, hn, hn ▸ hlt⟩
  · rintro ⟨n, hn, hlt⟩
    obtain ⟨h0, ht⟩ := (ftrunc_eq_iff _).2 ⟨n, hn⟩
    exact ⟨h0, hn ▸ hlt, ht⟩

theorem ChoosePositionPick_spec (DistanceMap : FGAGridMap) (maxCell : FCellRef)
    (l : List (ℚ × FCellRef)) (hs : l.Pairwise fun a b => comparePairs b a = false)
    (hex : ∃ q ∈ l, ChoosePositionReached DistanceMap q.2 = true) :
    ∃ p ∈ l, ChoosePositionPick DistanceMap maxCell l = p.2 ∧
      ChoosePositionReached DistanceMap p.2 = true ∧
      ∀ q ∈ l, ChoosePositionReached DistanceMap q.2 = true → q.1 ≤ p.1 := by
  induction l using List.reverseRecOn with
  | nil =>
    obtain ⟨q, hq, _⟩ := hex
    cases hq
  | append_singleton l p ih =>
    rw [List.pairwise_append] at hs
    obtain ⟨hs1, _, hs3⟩ := hs
    have hpick : ChoosePositionPick DistanceMap maxCell (l ++ [p])
        = if ChoosePositionReached DistanceMap p.2 = true then p.2
          else ChoosePositionPick DistanceMap maxCell l := by
      simp [ChoosePositionPick, List.foldl_append]
    by_cases hp : ChoosePositionReached DistanceMap p.2 = true
    · refine ⟨p, by simp, by rw [hpick, if_pos hp], hp, ?_⟩
      intro q hq _
      rcases List.mem_append.1 hq with h | h
      · have := hs3 q h p (List.mem_singleton.2 rfl)
        simpa [comparePairs] using this
      · rw [List.mem_singleton.1 h]
    · have hex2 : ∃ q ∈ l, ChoosePositionReached DistanceMap q.2 = true := by
        obtain ⟨q, hq, hr⟩ := hex
        rcases List.mem_append.1 hq with h | h
        · exact ⟨q, h, hr⟩
        · rw [List.mem_singleton.1 h] at hr
          exact absurd hr hp
      obtain ⟨p2, hp2, k1, k2, k3⟩ := ih hs1 hex2
      refine ⟨p2, List.mem_append.2 (Or.inl hp2), by rw [hpick, if_neg hp, k1], k2, ?_⟩
      intro q hq hr
      rcases List.mem_append.1 hq with h | h
      · exact k3 q h hr
      · rw [List.mem_singleton.1 h] at hr
        exact absurd hr hp

/-- C6: when the distance map covers the evaluated window and some window cell has
a valid distance (at least 0, below `FLT_MAX`, integral), the cell `maxCell`
that `ChoosePosition` ends with is a window cell with a valid distance whose
score is at least the score of every window cell with a valid distance, for
every order `std::sort` gives to equal scores. -/
theorem ChoosePositionSelect_best (S : StdSort (ℚ × FCellRef) comparePairs)
    (GridMap DistanceMap : FGAGridMap) (maxCell : FCellRef)
    (hb : DistanceMap.GridBounds = GridMap.GridBounds)
    (hex : ∃ c ∈ GridMap.GridBounds.cells, ValidDistance DistanceMap c) :
    ChoosePositionSelect S GridMap DistanceMap maxCell ∈ GridMap.GridBounds.cells ∧
      ValidDistance DistanceMap (ChoosePositionSelect S GridMap DistanceMap maxCell) ∧
      ∀ c ∈ GridMap.GridBounds.cells, ValidDistance DistanceMap c →
        GridMap.Data c ≤ GridMap.Data (ChoosePositionSelect S GridMap DistanceMap maxCell) := by
  have hvalid : ∀ c ∈ GridMap.GridBounds.cells, DistanceMap.GridBounds.IsValidCell c = true :=
    fun c hc => by rw [hb]; exact (mem_cells _ c).1 hc
  have hmem : ∀ p, p ∈ S.sort (ChoosePositionCollect GridMap) ↔
      p.2 ∈ GridMap.GridBounds.cells ∧ p.1 = GridMap.Data p.2 := by
    intro p
    rw [(S.sort_perm _).mem_iff]
    simp only [ChoosePositionCollect, List.mem_map]
    constructor
    · rintro ⟨c, hc, rfl⟩
      exact ⟨hc, GetValue_valid _ _ _ ((mem_cells _ c).1 hc)⟩
    · rintro ⟨hc, hv⟩
      refine ⟨p.2, hc, ?_⟩
      rw [GetValue_valid _ _ _ ((mem_cells _ _).1 hc), ← hv]
  obtain ⟨c0, hc0, hv0⟩ := hex
  obtain ⟨p, hp, k1, k2, k3⟩ := ChoosePositionPick_spec DistanceMap maxCell
    (S.sort (ChoosePositionCollect GridMap)) (S.sort_sorted _)
    ⟨(GridMap.Data c0, c0), (hmem _).2 ⟨hc0, rfl⟩,
      (ChoosePositionReached_iff _ _ (hvalid c0 hc0)).2 hv0⟩
  have hpc := ((hmem p).1 hp).1
  unfold ChoosePositionSelect
  rw [k1]
  refine ⟨hpc, (ChoosePositionReached_iff _ _ (hvalid _ hpc)).1 k2, ?_⟩
  intro c hc hv
  have := k3 (GridMap.Data c, c) ((hmem _).2 ⟨hc, rfl⟩)
    ((ChoosePositionReached_iff _ _ (hvalid c hc)).2 hv)
  rw [((hmem p).1 hp).2] at this
  exact this

theorem ChoosePositionSelect_best_witness :
    ChoosePositionSelect sampleSort (sampleMapX ⟨0, 0, 2, 1⟩) (sampleMapX ⟨0, 0, 2, 1⟩) ⟨7, 7⟩
        ∈ (sampleMapX ⟨0, 0, 2, 1⟩).GridBounds.cells ∧
      ValidDistance (sampleMapX ⟨0, 0, 2, 1⟩)
        (ChoosePositionSelect sampleSort (sampleMapX ⟨0, 0, 2, 1⟩)
          (sampleMapX ⟨0, 0, 2, 1⟩) ⟨7, 7⟩) ∧
      ∀ c ∈ (sampleMapX ⟨0, 0, 2, 1⟩).GridBounds.cells,
        ValidDistance (sampleMapX ⟨0, 0, 2, 1⟩) c →
        (sampleMapX ⟨0, 0, 2, 1⟩).Data c
          ≤ (sampleMapX ⟨0, 0, 2, 1⟩).Data
              (ChoosePositionSelect sampleSort (sampleMapX ⟨0, 0, 2, 1⟩)
                (sampleMapX ⟨0, 0, 2, 1⟩) ⟨7, 7⟩) :=
  ChoosePositionSelect_best sampleSort (sampleMapX ⟨0, 0, 2, 1⟩) (sampleMapX ⟨0, 0, 2, 1⟩)
    ⟨7, 7⟩ rfl
    ⟨⟨0, 0⟩, (mem_cells _ _).2 (by decide), 0, by simp [sampleMapX], by norm_num [FLT_MAX]⟩

/-! ## Loops that rewrite a map cell by cell -/

theorem foldl_pointwise (f : FGAGridMap → FCellRef → FGAGridMap) (upd : FCellRef → ℚ → ℚ)
    (hb : ∀ g c, (f g c).GridBounds = g.GridBounds)
    (hne : ∀ g c x, x ≠ c → (f g c).Data x = g.Data x)
    (hself : ∀ g c, g.GridBounds.IsValidCell c = true → (f g c).Data c = upd c (g.Data c))
    (l : List FCellRef) (hl : l.Nodup) (g : FGAGridMap) :
    (l.foldl f g).GridBounds = g.GridBounds ∧
      (∀ x, x ∉ l → (l.foldl f g).Data x = g.Data x) ∧
      (∀ x ∈ l, g.GridBounds.IsValidCell x = true → (l.foldl f g).Data x = upd x (g.Data x)) := by
  induction l generalizing g with
  | nil => simp
  | cons c l ih =>
    rw [List.nodup_cons] at hl
    obtain ⟨h1, h2, h3⟩ := ih hl.2 (f g c)
    rw [List.foldl_cons]
    refine ⟨h1.trans (hb g c), ?_, ?_⟩
    · intro x hx
      rw [List.mem_cons, not_or] at hx
      rw [h2 x hx.2, hne g c x hx.1]
    · intro x hx hv
      rcases List.mem_cons.1 hx with rfl | hx
      · rw [h2 x hl.1, hself g x hv]
      · have hxc : x ≠ c := fun h => hl.1 (h ▸ hx)
        rw [h3 x hx (by rw [hb]; exact hv), hne g c x hxc]

/-! ## Layer evaluation -/

theorem EvaluateLayerCell_bounds (W : SpatialQueries) (Grid : AGAGridActor)
    (Layer : FFunctionLayer) (D g : FGAGridMap) (c : FCellRef) :
    (EvaluateLayerCell W Grid Layer D g c).GridBounds = g.GridBounds := by
  unfold EvaluateLayerCell
  split
  · split <;> simp
  · rfl

theorem EvaluateLayerCell_ne (W : SpatialQueries) (Grid : AGAGridActor)
    (Layer : FFunctionLayer) (D g : FGAGridMap) (c x : FCellRef) (h : x ≠ c) :
    (EvaluateLayerCell W Grid Layer D g c).Data x = g.Data x := by
  unfold EvaluateLayerCell
  split
  · split <;> simp [SetValue_Data_ne _ _ _ _ h]
  · rfl

theorem EvaluateLayerCell_self (W : SpatialQueries) (Grid : AGAGridActor)
    (Layer : FFunctionLayer) (D g : FGAGridMap) (c : FCellRef)
    (h : g.GridBounds.IsValidCell c = true) :
    (EvaluateLayerCell W Grid Layer D g c).Data c
      = EvaluateLayerValue W Grid Layer D c (g.Data c) := by
  unfold EvaluateLayerCell EvaluateLayerValue
  split
  · split <;> simp [SetValue_Data_self _ _ _ h, GetValue_valid _ _ _ h]
  · rfl

theorem EvaluateLayer_Data (W : SpatialQueries) (Grid : AGAGridActor)
    (Layer : FFunctionLayer) (GridMap DistanceMap : FGAGridMap) (c : FCellRef)
    (hc : c ∈ GridMap.GridBounds.cells) :
    (EvaluateLayer W Grid Layer GridMap DistanceMap).Data c
      = EvaluateLayerValue W Grid Layer DistanceMap c (GridMap.Data c) :=
  (foldl_pointwise (EvaluateLayerCell W Grid Layer DistanceMap)
    (EvaluateLayerValue W Grid Layer DistanceMap)
    (EvaluateLayerCell_bounds W Grid Layer DistanceMap)
    (EvaluateLayerCell_ne W Grid Layer DistanceMap)
    (EvaluateLayerCell_self W Grid Layer DistanceMap)
    _ (nodup_cells _) GridMap).2.2 c hc ((mem_cells _ c).1 hc)

/-- C7: after `EvaluateLayer`, a traversable cell of the window holds 0 when the
layer's operator is None, `old + m` when it is Add and `old * m` when it is
Multiply, `m` being the response curve applied to the cell's raw input value,
and a cell that is not traversable keeps its value.  A single Add layer with
the constant response 1 on a zero-filled fully traversable 3x3 window leaves 1
in every cell. -/
theorem EvaluateLayer_postcondition (W : SpatialQueries) (Grid : AGAGridActor)
    (Layer : FFunctionLayer) (GridMap DistanceMap : FGAGridMap) (c : FCellRef)
    (hc : c ∈ GridMap.GridBounds.cells) :
    (Grid.GetCellData c = ECellData.CellDataTraversable →
      (Layer.Op = ESpatialOp.SO_None →
        (EvaluateLayer W Grid Layer GridMap DistanceMap).Data c = 0) ∧
      (Layer.Op = ESpatialOp.SO_Add →
        (EvaluateLayer W Grid Layer GridMap DistanceMap).Data c
          = GridMap.Data c
            + Layer.ResponseCurve (EvaluateLayerInput W Layer DistanceMap c)) ∧
      (Layer.Op = ESpatialOp.SO_Multiply →
        (EvaluateLayer W Grid Layer GridMap DistanceMap).Data c
          = GridMap.Data c
            * Layer.ResponseCurve (EvaluateLayerInput W Layer DistanceMap c))) ∧
    (Grid.GetCellData c ≠ ECellData.CellDataTraversable →
      (EvaluateLayer W Grid Layer GridMap DistanceMap).Data c = GridMap.Data c) ∧
    (∀ (input : ESpatialInput) (x : FCellRef), x ∈ (⟨0, 0, 3, 3⟩ : FGridBox).cells →
      (EvaluateLayer W (sampleGrid 3 3 []) ⟨input, fun _ => 1, ESpatialOp.SO_Add⟩
        (FGAGridMap.ofBox ⟨0, 0, 3, 3⟩ 0) DistanceMap).Data x = 1) := by
  refine ⟨fun ht => ⟨fun ho => ?_, fun ho => ?_, fun ho => ?_⟩, fun ht => ?_, ?_⟩
  · rw [EvaluateLayer_Data W Grid Layer GridMap DistanceMap c hc, EvaluateLayerValue,
      if_pos ht, ho]
  · rw [EvaluateLayer_Data W Grid Layer GridMap DistanceMap c hc, EvaluateLayerValue,
      if_pos ht, ho]
  · rw [EvaluateLayer_Data W Grid Layer GridMap DistanceMap c hc, EvaluateLayerValue,
      if_pos ht, ho]
  · rw [EvaluateLayer_Data W Grid Layer GridMap DistanceMap c hc, EvaluateLayerValue,
      if_neg ht]
  · intro input x hx
    have hx2 : x ∈ (FGAGridMap.ofBox ⟨0, 0, 3, 3⟩ 0).GridBounds.cells := hx
    have ht : (sampleGrid 3 3 []).GetCellData x = ECellData.CellDataTraversable := by
      rw [sampleGrid_GetCellData]
      have := (mem_cells _ x).1 hx
      simp only [FGridBox.IsValidCell, Bool.and_eq_true, decide_eq_true_eq] at this
      exact ⟨⟨this.1.1.1, this.1.1.2, this.1.2, this.2⟩, by simp⟩
    rw [EvaluateLayer_Data W _ _ _ DistanceMap x hx2, EvaluateLayerValue, if_pos ht]
    simp [FGAGridMap.ofBox]

theorem EvaluateLayer_postcondition_witness :
    (EvaluateLayer ⟨fun _ => 0, fun _ => false⟩ (sampleGrid 2 1 [⟨1, 0⟩])
        ⟨ESpatialInput.SI_PathDistance, fun v => v + 2, ESpatialOp.SO_Multiply⟩
        (sampleMapX ⟨0, 0, 2, 1⟩) (sampleMapX ⟨0, 0, 2, 1⟩)).Data ⟨1, 0⟩
      = (sampleMapX ⟨0, 0, 2, 1⟩).Data ⟨1, 0⟩ :=
  (EvaluateLayer_postcondition ⟨fun _ => 0, fun _ => false⟩ (sampleGrid 2 1 [⟨1, 0⟩])
    ⟨ESpatialInput.SI_PathDistance, fun v => v + 2, ESpatialOp.SO_Multiply⟩
    (sampleMapX ⟨0, 0, 2, 1⟩) (sampleMapX ⟨0, 0, 2, 1⟩) ⟨1, 0⟩
    ((mem_cells _ _).2 (by decide))).2.1 (by decide)

/-! ## Occupancy map: visibility subtraction and renormalisation -/

theorem OccupancyMapClear_map (VisibilityMap : FGAGridMap) (l : List FCellRef)
    (s : ClearState) :
    (l.foldl (OccupancyMapClearCell VisibilityMap) s).OccupancyMap
      = l.foldl (fun o c => if VisibilityMap.GetValue c 0 = 1 then o.SetValue c 0 else o)
          s.OccupancyMap := by
  induction l generalizing s with
  | nil => rfl
  | cons c l ih =>
    rw [List.foldl_cons, List.foldl_cons, ih]
    rfl

theorem OccupancyMapClear_Data (VisibilityMap OccupancyMap : FGAGridMap)
    (hb : VisibilityMap.GridBounds = OccupancyMap.GridBounds) :
    (OccupancyMapClear VisibilityMap OccupancyMap).OccupancyMap.GridBounds
        = OccupancyMap.GridBounds ∧
      ∀ c ∈ OccupancyMap.GridBounds.cells,
        (OccupancyMapClear VisibilityMap OccupancyMap).OccupancyMap.Data c
          = if VisibilityMap.Data c = 1 then 0 else OccupancyMap.Data c := by
  unfold OccupancyMapClear
  rw [OccupancyMapClear_map, hb]
  have h := foldl_pointwise
    (fun o c => if VisibilityMap.GetValue c 0 = 1 then o.SetValue c 0 else o)
    (fun c v => if VisibilityMap.GetValue c 0 = 1 then 0 else v)
    (fun g c => by dsimp only; split <;> simp)
    (fun g c x hx => by dsimp only; split <;> simp [SetValue_Data_ne _ _ _ _ hx])
    (fun g c hv => by dsimp only; split <;> simp [SetValue_Data_self _ _ _ hv])
    _ (nodup_cells OccupancyMap.GridBounds) OccupancyMap
  refine ⟨h.1, fun c hc => ?_⟩
  have hv := (mem_cells _ c).1 hc
  rw [h.2.2 c hc hv, GetValue_valid _ _ _ (by rw [hb]; exact hv)]

theorem OccupancyMapNorm_some (Grid : AGAGridActor) (S : ℚ) (hS : S ≠ 0)
    (l : List FCellRef) (s : NormState) :
    ∃ n, l.foldlM (OccupancyMapNormCell Grid S) s = some n ∧
      n.OccupancyMap = l.foldl
        (fun o c => if Grid.GetCellData c = ECellData.CellDataTraversable
          then o.SetValue c (o.GetValue c 0 / S) else o) s.OccupancyMap := by
  induction l generalizing s with
  | nil => exact ⟨s, rfl, rfl⟩
  | cons c l ih =>
    rw [List.foldlM_cons, List.foldl_cons]
    by_cases ht : Grid.GetCellData c = ECellData.CellDataTraversable
    · by_cases hgt : s.OccupancyMap.GetValue c 0 / S > s.maxVal
      · obtain ⟨n, hn1, hn2⟩ := ih
          ⟨s.OccupancyMap.SetValue c (s.OccupancyMap.GetValue c 0 / S),
            s.OccupancyMap.GetValue c 0 / S, c⟩
        refine ⟨n, ?_, by rw [hn2, if_pos ht]⟩
        simp only [OccupancyMapNormCell, if_pos ht, fdiv, if_neg hS, Option.map_some',
          if_pos hgt, Option.bind_eq_bind, Option.some_bind]
        exact hn1
      · obtain ⟨n, hn1, hn2⟩ := ih
          ⟨s.OccupancyMap.SetValue c (s.OccupancyMap.GetValue c 0 / S), s.maxVal, s.maxCell⟩
        refine ⟨n, ?_, by rw [hn2, if_pos ht]⟩
        simp only [OccupancyMapNormCell, if_pos ht, fdiv, if_neg hS, Option.map_some',
          if_neg hgt, Option.bind_eq_bind, Option.some_bind]
        exact hn1
    · obtain ⟨n, hn1, hn2⟩ := ih s
      refine ⟨n, ?_, by rw [hn2, if_neg ht]⟩
      simp only [OccupancyMapNormCell, if_neg ht, Option.bind_eq_bind, Option.some_bind]
      exact hn1

theorem OccupancyMapUpdate_Data (Grid : AGAGridActor)
    (VisibilityMap OccupancyMap : FGAGridMap) (maxCell : FCellRef)
    (hb : VisibilityMap.GridBounds = OccupancyMap.GridBounds)
    (hsum : (OccupancyMapClear VisibilityMap OccupancyMap).oMapSum ≠ 0) :
    ∃ m p, OccupancyMapUpdate Grid VisibilityMap OccupancyMap maxCell = some (m, p) ∧
      m.GridBounds = OccupancyMap.GridBounds ∧
      ∀ c ∈ OccupancyMap.GridBounds.cells,
        m.Data c =
          if Grid.GetCellData c = ECellData.CellDataTraversable then
            (if VisibilityMap.Data c = 1 then 0 else OccupancyMap.Data c)
              / (OccupancyMapClear VisibilityMap OccupancyMap).oMapSum
          else (if VisibilityMap.Data c = 1 then 0 else OccupancyMap.Data c) := by
  obtain ⟨hcb, hcd⟩ := OccupancyMapClear_Data VisibilityMap OccupancyMap hb
  obtain ⟨n, hn1, hn2⟩ := OccupancyMapNorm_some Grid _ hsum
    (OccupancyMapClear VisibilityMap OccupancyMap).OccupancyMap.GridBounds.cells
    ⟨(OccupancyMapClear VisibilityMap OccupancyMap).OccupancyMap, 0, maxCell⟩
  refine ⟨n.OccupancyMap, Grid.GetCellPosition n.maxCell, ?_, ?_, ?_⟩
  · unfold OccupancyMapUpdate
    simp only [hn1, Option.map_some']
  · have h := foldl_pointwise
      (fun o c => if Grid.GetCellData c = ECellData.CellDataTraversable
        then o.SetValue c (o.GetValue c 0 / (OccupancyMapClear VisibilityMap OccupancyMap).oMapSum)
        else o)
      (fun c v => if Grid.GetCellData c = ECellData.CellDataTraversable
        then v / (OccupancyMapClear VisibilityMap OccupancyMap).oMapSum else v)
      (fun g c => by dsimp only; split <;> simp)
      (fun g c x hx => by dsimp only; split <;> simp [SetValue_Data_ne _ _ _ _ hx])
      (fun g c hv => by
        dsimp only
        split <;> simp [SetValue_Data_self _ _ _ hv, GetValue_valid _ _ _ hv])
      _ (nodup_cells (OccupancyMapClear VisibilityMap OccupancyMap).OccupancyMap.GridBounds)
      (OccupancyMapClear VisibilityMap OccupancyMap).OccupancyMap
    rw [hn2, h.1, hcb]
  · intro c hc
    have h := foldl_pointwise
      (fun o c => if Grid.GetCellData c = ECellData.CellDataTraversable
        then o.SetValue c (o.GetValue c 0 / (OccupancyMapClear VisibilityMap OccupancyMap).oMapSum)
        else o)
      (fun c v => if Grid.GetCellData c = ECellData.CellDataTraversable
        then v / (OccupancyMapClear VisibilityMap OccupancyMap).oMapSum else v)
      (fun g c => by dsimp only; split <;> simp)
      (fun g c x hx => by dsimp only; split <;> simp [SetValue_Data_ne _ _ _ _ hx])
      (fun g c hv => by
        dsimp only
        split <;> simp [SetValue_Data_self _ _ _ hv, GetValue_valid _ _ _ hv])
      _ (nodup_cells (OccupancyMapClear VisibilityMap OccupancyMap).OccupancyMap.GridBounds)
      (OccupancyMapClear VisibilityMap OccupancyMap).OccupancyMap
    have hc2 : c ∈ (OccupancyMapClear VisibilityMap OccupancyMap).OccupancyMap.GridBounds.cells := by
      rw [hcb]; exact hc
    rw [hn2, h.2.2 c hc2 ((mem_cells _ c).1 hc2), hcd c hc]

theorem OccupancyMapClear_sum_aux (VisibilityMap : FGAGridMap) (l : List FCellRef)
    (hl : l.Nodup) (s : ClearState)
    (hv : ∀ c ∈ l, VisibilityMap.GridBounds.IsValidCell c = true ∧
      s.OccupancyMap.GridBounds.IsValidCell c = true) :
    (l.foldl (OccupancyMapClearCell VisibilityMap) s).oMapSum
      = s.oMapSum
        + (l.map fun c => if VisibilityMap.Data c = 1 then 0 else s.OccupancyMap.Data c).sum := by
  induction l generalizing s with
  | nil => simp
  | cons c l ih =>
    rw [List.nodup_cons] at hl
    obtain ⟨hv1, hv2⟩ := hv c (List.mem_cons_self _ _)
    have hstep : OccupancyMapClearCell VisibilityMap s c
        = ⟨if VisibilityMap.Data c = 1 then s.OccupancyMap.SetValue c 0 else s.OccupancyMap,
            s.oMapSum + (if VisibilityMap.Data c = 1 then 0 else s.OccupancyMap.Data c),
            if VisibilityMap.Data c = 1 then 0 else s.OccupancyMap.Data c⟩ := by
      unfold OccupancyMapClearCell
      simp only [GetValue_valid _ _ _ hv1]
      by_cases h : VisibilityMap.Data c = 1
      · simp only [if_pos h]
        rw [GetValue_valid _ _ _ (by simpa using hv2), SetValue_Data_self _ _ _ hv2]
      · simp only [if_neg h]
        rw [GetValue_valid _ _ _ hv2]
    rw [List.foldl_cons, ih hl.2, hstep]
    · simp only [List.map_cons, List.sum_cons]
      have hmap : (l.map fun x => if VisibilityMap.Data x = 1 then 0 else
            (if VisibilityMap.Data c = 1 then s.OccupancyMap.SetValue c 0
              else s.OccupancyMap).Data x)
          = l.map fun x => if VisibilityMap.Data x = 1 then 0 else s.OccupancyMap.Data x := by
        refine List.map_congr_left fun x hx => ?_
        have hxc : x ≠ c := fun h => hl.1 (h ▸ hx)
        by_cases h : VisibilityMap.Data c = 1
        · simp only [if_pos h, SetValue_Data_ne _ _ _ _ hxc]
        · simp only [if_neg h]
      rw [hmap]
      ring
    · intro x hx
      obtain ⟨h1, h2⟩ := hv x (List.mem_cons_of_mem _ hx)
      refine ⟨h1, ?_⟩
      rw [hstep]
      split <;> simpa using h2

theorem OccupancyMapClear_sum (VisibilityMap OccupancyMap : FGAGridMap)
    (hb : VisibilityMap.GridBounds = OccupancyMap.GridBounds) :
    (OccupancyMapClear VisibilityMap OccupancyMap).oMapSum
      = (OccupancyMap.GridBounds.cells.map fun c =>
          if VisibilityMap.Data c = 1 then 0 else OccupancyMap.Data c).sum := by
  unfold OccupancyMapClear
  rw [OccupancyMapClear_sum_aux VisibilityMap _ (nodup_cells _) _ (fun c hc => by
    have := (mem_cells _ c).1 hc
    exact ⟨this, by rw [← hb]; exact this⟩), hb]
  simp

theorem sample_cells : (⟨0, 0, 2, 1⟩ : FGridBox).cells = [⟨0, 0⟩, ⟨1, 0⟩] := by
  decide

/-- C9: after `OccupancyMapUpdate` on a map whose remaining belief mass `oMapSum` is
not zero, the update returns a map and every cell the visibility map marks
visible (value 1) holds belief 0 in it. -/
theorem OccupancyMapUpdate_visible_zero (Grid : AGAGridActor)
    (VisibilityMap OccupancyMap : FGAGridMap) (maxCell c : FCellRef)
    (hb : VisibilityMap.GridBounds = OccupancyMap.GridBounds)
    (hsum : (OccupancyMapClear VisibilityMap OccupancyMap).oMapSum ≠ 0)
    (hc : c ∈ OccupancyMap.GridBounds.cells) (hvis : VisibilityMap.Data c = 1) :
    ∃ m p, OccupancyMapUpdate Grid VisibilityMap OccupancyMap maxCell = some (m, p) ∧
      m.Data c = 0 := by
  obtain ⟨m, p, h1, _, h3⟩ :=
    OccupancyMapUpdate_Data Grid VisibilityMap OccupancyMap maxCell hb hsum
  refine ⟨m, p, h1, ?_⟩
  rw [h3 c hc, if_pos hvis]
  split <;> simp

theorem OccupancyMapUpdate_visible_zero_witness :
    ∃ m p, OccupancyMapUpdate (sampleGrid 2 1 []) (sampleTwoCells 1 0)
        (sampleTwoCells (1 / 2) (1 / 2)) ⟨0, 0⟩ = some (m, p) ∧
      m.Data ⟨0, 0⟩ = 0 :=
  OccupancyMapUpdate_visible_zero (sampleGrid 2 1 []) (sampleTwoCells 1 0)
    (sampleTwoCells (1 / 2) (1 / 2)) ⟨0, 0⟩ ⟨0, 0⟩ rfl
    (by
      rw [OccupancyMapClear_sum (sampleTwoCells 1 0) (sampleTwoCells (1 / 2) (1 / 2)) rfl]
      simp only [sampleTwoCells, sample_cells]
      norm_num)
    (by simp only [sampleTwoCells, sample_cells]; simp)
    (by simp [sampleTwoCells])

/-- C8, evaluated on a map whose non-traversable cell holds belief: with grid cells
`(0,0)` traversable and `(1,0)` not, nothing visible and belief 1/4 in both
cells, the remaining mass is 1/2, not zero, and after `OccupancyMapUpdate` the
values over the traversable cells sum to 1/2 and the values over all cells to
3/4, so neither sum is 1. -/
theorem OccupancyMapUpdate_sum_not_one :
    (OccupancyMapClear (sampleTwoCells 0 0) (sampleTwoCells (1 / 4) (1 / 4))).oMapSum = 1 / 2 ∧
      ∃ m p, OccupancyMapUpdate (sampleGrid 2 1 [⟨1, 0⟩]) (sampleTwoCells 0 0)
          (sampleTwoCells (1 / 4) (1 / 4)) ⟨0, 0⟩ = some (m, p) ∧
        TraversableSum (sampleGrid 2 1 [⟨1, 0⟩]) m = 1 / 2 ∧ CellSum m = 3 / 4 := by
  have hS : (OccupancyMapClear (sampleTwoCells 0 0) (sampleTwoCells (1 / 4) (1 / 4))).oMapSum
      = 1 / 2 := by
    rw [OccupancyMapClear_sum (sampleTwoCells 0 0) (sampleTwoCells (1 / 4) (1 / 4)) rfl]
    simp only [sampleTwoCells, sample_cells]
    norm_num
  refine ⟨hS, ?_⟩
  obtain ⟨m, p, h1, h2, h3⟩ := OccupancyMapUpdate_Data (sampleGrid 2 1 [⟨1, 0⟩])
    (sampleTwoCells 0 0) (sampleTwoCells (1 / 4) (1 / 4)) ⟨0, 0⟩ rfl (by rw [hS]; norm_num)
  have hb : m.GridBounds = ⟨0, 0, 2, 1⟩ := h2
  have ht0 : (sampleGrid 2 1 [⟨1, 0⟩]).GetCellData ⟨0, 0⟩ = ECellData.CellDataTraversable := by
    decide
  have ht1 : (sampleGrid 2 1 [⟨1, 0⟩]).GetCellData ⟨1, 0⟩ ≠ ECellData.CellDataTraversable := by
    decide
  have hd0 : m.Data ⟨0, 0⟩ = 1 / 2 := by
    rw [h3 ⟨0, 0⟩ (by simp only [sampleTwoCells, sample_cells]; simp), if_pos ht0, hS]
    simp only [sampleTwoCells]
    norm_num
  have hd1 : m.Data ⟨1, 0⟩ = 1 / 4 := by
    rw [h3 ⟨1, 0⟩ (by simp only [sampleTwoCells, sample_cells]; simp), if_neg ht1]
    simp only [sampleTwoCells]
    norm_num
  refine ⟨m, p, h1, ?_, ?_⟩
  · simp only [TraversableSum, hb, sample_cells, List.filter_cons, ht0, ht1, decide_True,
      decide_False, if_true, List.filter_nil, List.map_cons, List.map_nil, List.sum_cons,
      List.sum_nil, hd0]
    norm_num
  · simp only [CellSum, hb, sample_cells, List.map_cons, List.map_nil, List.sum_cons,
      List.sum_nil, hd0, hd1]
    norm_num

/-! ## Occupancy map: diffusion and renormalisation -/

theorem SetValue_same (m : FGAGridMap) (c : FCellRef) : m.SetValue c (m.Data c) = m := by
  unfold FGAGridMap.SetValue
  split
  · obtain ⟨b, d⟩ := m
    simp only [FGAGridMap.mk.injEq, true_and]
    funext x
    by_cases h : x = c
    · simp [h]
    · simp [h]
  · rfl

theorem valid_of_bounds (b : FGridBox) (x y : Int)
    (h : x < b.MaxX ∧ x ≥ b.MinX ∧ y < b.MaxY ∧ y ≥ b.MinY) :
    b.IsValidCell ⟨x, y⟩ = true := by
  simp only [FGridBox.IsValidCell, Bool.and_eq_true, decide_eq_true_eq]
  exact ⟨⟨⟨h.2.1, h.1⟩, h.2.2.2⟩, h.2.2.1⟩

theorem OccupancyMapDiffuseDiag_eq (flags : Bool) (X Y : Int) (curProb : ℚ)
    (o : FGAGridMap) (d : Int × Int) : OccupancyMapDiffuseDiag flags X Y curProb o d = o := by
  unfold OccupancyMapDiffuseDiag
  dsimp only
  split
  · rename_i h
    rw [GetValue_valid _ _ _ (valid_of_bounds _ _ _ h.2)]
    split
    · exact SetValue_same _ _
    · rfl
  · rfl

theorem OccupancyMapDiffuseDiag_fold (flags : Bool) (X Y : Int) (curProb : ℚ)
    (o : FGAGridMap) (ds : List (Int × Int)) :
    ds.foldl (OccupancyMapDiffuseDiag flags X Y curProb) o = o := by
  induction ds with
  | nil => rfl
  | cons d ds ih => rw [List.foldl_cons, OccupancyMapDiffuseDiag_eq, ih]

theorem OccupancyMapDiffuseSide_nonneg (flags : Bool) (X Y : Int) (curProb sideProb : ℚ)
    (hs : 0 ≤ sideProb) (o : FGAGridMap) (ds : List (Int × Int))
    (ho : ∀ x, o.GridBounds.IsValidCell x = true → 0 ≤ o.Data x) :
    (ds.foldl (OccupancyMapDiffuseSide flags X Y curProb sideProb) o).GridBounds
        = o.GridBounds ∧
      ∀ x, o.GridBounds.IsValidCell x = true →
        0 ≤ (ds.foldl (OccupancyMapDiffuseSide flags X Y curProb sideProb) o).Data x := by
  induction ds generalizing o with
  | nil => exact ⟨rfl, ho⟩
  | cons d ds ih =>
    rw [List.foldl_cons]
    have hstep : (OccupancyMapDiffuseSide flags X Y curProb sideProb o d).GridBounds
          = o.GridBounds ∧
        ∀ x, o.GridBounds.IsValidCell x = true →
          0 ≤ (OccupancyMapDiffuseSide flags X Y curProb sideProb o d).Data x := by
      unfold OccupancyMapDiffuseSide
      dsimp only
      split
      · split
        · refine ⟨SetValue_GridBounds _ _ _, fun x hx => ?_⟩
          by_cases hxc : x = ⟨X + d.1, Y + d.2⟩
          · rw [hxc, SetValue_Data_self _ _ _ (hxc ▸ hx)]
            exact hs
          · rw [SetValue_Data_ne _ _ _ _ hxc]
            exact ho x hx
        · exact ⟨rfl, ho⟩
      · exact ⟨rfl, ho⟩
    obtain ⟨h1, h2⟩ := ih (OccupancyMapDiffuseSide flags X Y curProb sideProb o d)
      (fun x hx => hstep.2 x (hstep.1 ▸ hx))
    exact ⟨h1.trans hstep.1, fun x hx => h2 x (by rw [hstep.1]; exact hx)⟩

theorem OccupancyMapDiffuseSweep_nonneg (Grid : AGAGridActor) (o : FGAGridMap)
    (l : List FCellRef) (hl : ∀ c ∈ l, o.GridBounds.IsValidCell c = true)
    (ho : ∀ x, o.GridBounds.IsValidCell x = true → 0 ≤ o.Data x) :
    (l.foldl (OccupancyMapDiffuseCell Grid) o).GridBounds = o.GridBounds ∧
      ∀ x, o.GridBounds.IsValidCell x = true →
        0 ≤ (l.foldl (OccupancyMapDiffuseCell Grid) o).Data x := by
  induction l generalizing o with
  | nil => exact ⟨rfl, ho⟩
  | cons c l ih =>
    rw [List.foldl_cons]
    have hc := hl c (List.mem_cons_self _ _)
    have hstep : (OccupancyMapDiffuseCell Grid o c).GridBounds = o.GridBounds ∧
        ∀ x, o.GridBounds.IsValidCell x = true →
          0 ≤ (OccupancyMapDiffuseCell Grid o c).Data x := by
      unfold OccupancyMapDiffuseCell
      dsimp only
      split
      · exact ⟨rfl, ho⟩
      · rw [OccupancyMapDiffuseDiag_fold]
        refine OccupancyMapDiffuseSide_nonneg _ _ _ _ _ ?_ o sides ho
        rw [GetValue_valid _ _ _ hc]
        exact mul_nonneg (by norm_num [alpha]) (ho c hc)
    obtain ⟨h1, h2⟩ := ih (OccupancyMapDiffuseCell Grid o c)
      (fun x hx => by rw [hstep.1]; exact hl x (List.mem_cons_of_mem _ hx))
      (fun x hx => hstep.2 x (hstep.1 ▸ hx))
    exact ⟨h1.trans hstep.1, fun x hx => h2 x (by rw [hstep.1]; exact hx)⟩

theorem OccupancyMapDiffuseSum_eq (o : FGAGridMap) : OccupancyMapDiffuseSum o = CellSum o := by
  have aux : ∀ (l : List FCellRef) (s : ℚ × ℚ),
      (∀ c ∈ l, o.GridBounds.IsValidCell c = true) →
      (l.foldl (fun (s : ℚ × ℚ) CellRef =>
          (s.1 + o.GetValue CellRef s.2, o.GetValue CellRef s.2)) s).1
        = s.1 + (l.map o.Data).sum := by
    intro l
    induction l with
    | nil => intro s _; simp
    | cons c l ih =>
      intro s hl
      rw [List.foldl_cons, ih _ (fun x hx => hl x (List.mem_cons_of_mem _ hx))]
      simp only [GetValue_valid _ _ _ (hl c (List.mem_cons_self _ _)), List.map_cons,
        List.sum_cons]
      ring
  unfold OccupancyMapDiffuseSum CellSum
  rw [aux _ _ (fun c hc => (mem_cells _ c).1 hc)]
  simp

theorem OccupancyMapDiffuseNorm_some (S : ℚ) (hS : S ≠ 0) (l : List FCellRef)
    (o : FGAGridMap) :
    l.foldlM (OccupancyMapDiffuseNormCell S) o
      = some (l.foldl (fun g c => g.SetValue c (g.GetValue c 0 / S)) o) := by
  induction l generalizing o with
  | nil => rfl
  | cons c l ih =>
    rw [List.foldlM_cons, List.foldl_cons]
    simp only [OccupancyMapDiffuseNormCell, fdiv, if_neg hS, Option.map_some',
      Option.bind_eq_bind, Option.some_bind]
    exact ih _

theorem OccupancyMapDiffuseSide_bounds (flags : Bool) (X Y : Int) (curProb sideProb : ℚ)
    (o : FGAGridMap) (ds : List (Int × Int)) :
    (ds.foldl (OccupancyMapDiffuseSide flags X Y curProb sideProb) o).GridBounds
      = o.GridBounds := by
  induction ds generalizing o with
  | nil => rfl
  | cons d ds ih =>
    rw [List.foldl_cons, ih]
    unfold OccupancyMapDiffuseSide
    dsimp only
    split
    · split
      · exact SetValue_GridBounds _ _ _
      · rfl
    · rfl

theorem OccupancyMapDiffuseCell_bounds (Grid : AGAGridActor) (o : FGAGridMap) (c : FCellRef) :
    (OccupancyMapDiffuseCell Grid o c).GridBounds = o.GridBounds := by
  unfold OccupancyMapDiffuseCell
  dsimp only
  split
  · rfl
  · rw [OccupancyMapDiffuseDiag_fold, OccupancyMapDiffuseSide_bounds]

theorem OccupancyMapDiffuseSweep_bounds (Grid : AGAGridActor) (o : FGAGridMap) :
    (OccupancyMapDiffuseSweep Grid o).GridBounds = o.GridBounds := by
  unfold OccupancyMapDiffuseSweep
  generalize o.GridBounds.cells = l
  induction l generalizing o with
  | nil => rfl
  | cons c l ih => rw [List.foldl_cons, ih, OccupancyMapDiffuseCell_bounds]

theorem OccupancyMapDiffuse_Data (Grid : AGAGridActor) (OccupancyMap : FGAGridMap)
    (hS : OccupancyMapDiffuseSum (OccupancyMapDiffuseSweep Grid OccupancyMap) ≠ 0) :
    ∃ m, OccupancyMapDiffuse Grid OccupancyMap = some m ∧
      m.GridBounds = OccupancyMap.GridBounds ∧
      ∀ c ∈ OccupancyMap.GridBounds.cells,
        m.Data c = (OccupancyMapDiffuseSweep Grid OccupancyMap).Data c
          / OccupancyMapDiffuseSum (OccupancyMapDiffuseSweep Grid OccupancyMap) := by
  have hsb := OccupancyMapDiffuseSweep_bounds Grid OccupancyMap
  have h := foldl_pointwise
    (fun g c => g.SetValue c
      (g.GetValue c 0 / OccupancyMapDiffuseSum (OccupancyMapDiffuseSweep Grid OccupancyMap)))
    (fun _ v => v / OccupancyMapDiffuseSum (OccupancyMapDiffuseSweep Grid OccupancyMap))
    (fun g c => SetValue_GridBounds _ _ _)
    (fun g c x hx => SetValue_Data_ne _ _ _ _ hx)
    (fun g c hv => by
      dsimp only
      rw [SetValue_Data_self _ _ _ hv, GetValue_valid _ _ _ hv])
    _ (nodup_cells (OccupancyMapDiffuseSweep Grid OccupancyMap).GridBounds)
    (OccupancyMapDiffuseSweep Grid OccupancyMap)
  refine ⟨_, ?_, h.1.trans hsb, ?_⟩
  · unfold OccupancyMapDiffuse
    dsimp only
    rw [OccupancyMapDiffuseNorm_some _ hS]
  · intro c hc
    have hc2 : c ∈ (OccupancyMapDiffuseSweep Grid OccupancyMap).GridBounds.cells := by
      rw [hsb]; exact hc
    exact h.2.2 c hc2 ((mem_cells _ c).1 hc2)

/-- C10: after `OccupancyMapDiffuse` on a map whose values are at least 0 and whose
total after the diffusion sweep is positive, the values over all cells of the
map, traversable or not, sum to 1 and every value lies between 0 and 1. -/
theorem OccupancyMapDiffuse_normalised (Grid : AGAGridActor) (OccupancyMap : FGAGridMap)
    (hnn : ∀ c ∈ OccupancyMap.GridBounds.cells, 0 ≤ OccupancyMap.Data c)
    (hpos : 0 < OccupancyMapDiffuseSum (OccupancyMapDiffuseSweep Grid OccupancyMap)) :
    ∃ m, OccupancyMapDiffuse Grid OccupancyMap = some m ∧
      m.GridBounds = OccupancyMap.GridBounds ∧ CellSum m = 1 ∧
      ∀ c ∈ OccupancyMap.GridBounds.cells, 0 ≤ m.Data c ∧ m.Data c ≤ 1 := by
  obtain ⟨m, h1, h2, h3⟩ := OccupancyMapDiffuse_Data Grid OccupancyMap (ne_of_gt hpos)
  have hsb := OccupancyMapDiffuseSweep_bounds Grid OccupancyMap
  have hsn : ∀ c ∈ OccupancyMap.GridBounds.cells,
      0 ≤ (OccupancyMapDiffuseSweep Grid OccupancyMap).Data c := by
    intro c hc
    exact (OccupancyMapDiffuseSweep_nonneg Grid OccupancyMap _
      (fun x hx => (mem_cells _ x).1 hx)
      (fun x hx => hnn x ((mem_cells _ x).2 hx))).2 c ((mem_cells _ c).1 hc)
  have hsum : OccupancyMapDiffuseSum (OccupancyMapDiffuseSweep Grid OccupancyMap)
      = (OccupancyMap.GridBounds.cells.map
          (OccupancyMapDiffuseSweep Grid OccupancyMap).Data).sum := by
    rw [OccupancyMapDiffuseSum_eq, CellSum, hsb]
  refine ⟨m, h1, h2, ?_, ?_⟩
  · unfold CellSum
    rw [h2]
    have hmap : OccupancyMap.GridBounds.cells.map m.Data
        = OccupancyMap.GridBounds.cells.map fun c =>
            (OccupancyMapDiffuseSweep Grid OccupancyMap).Data c
              * (OccupancyMapDiffuseSum (OccupancyMapDiffuseSweep Grid OccupancyMap))⁻¹ := by
      refine List.map_congr_left fun c hc => ?_
      rw [h3 c hc, div_eq_mul_inv]
    rw [hmap, List.sum_map_mul_right, ← hsum]
    exact mul_inv_cancel₀ (ne_of_gt hpos)
  · intro c hc
    rw [h3 c hc]
    refine ⟨div_nonneg (hsn c hc) (le_of_lt hpos), ?_⟩
    rw [div_le_one hpos, hsum]
    refine List.single_le_sum ?_ _ (List.mem_map_of_mem _ hc)
    intro x hx
    obtain ⟨y, hy, rfl⟩ := List.mem_map.1 hx
    exact hsn y hy

theorem sampleSweep_Data :
    (OccupancyMapDiffuseSweep (sampleGrid 2 1 []) (sampleTwoCells 1 0)).Data ⟨0, 0⟩ = 1 ∧
      (OccupancyMapDiffuseSweep (sampleGrid 2 1 []) (sampleTwoCells 1 0)).Data ⟨1, 0⟩
        = 3 / 4 := by
  have hc : (sampleTwoCells 1 0).GridBounds.cells = [⟨0, 0⟩, ⟨1, 0⟩] := sample_cells
  have ht0 : (sampleGrid 2 1 []).GetCellData ⟨0, 0⟩ = ECellData.CellDataTraversable := by
    decide
  have ht1 : (sampleGrid 2 1 []).GetCellData ⟨1, 0⟩ = ECellData.CellDataTraversable := by
    decide
  unfold OccupancyMapDiffuseSweep
  rw [hc]
  simp only [List.foldl_cons, List.foldl_nil, OccupancyMapDiffuseCell,
    OccupancyMapDiffuseDiag_fold, sides, OccupancyMapDiffuseSide, alpha, ht0, ht1]
  norm_num [sampleTwoCells, FGAGridMap.GetValue, FGAGridMap.SetValue, FGridBox.IsValidCell]

theorem OccupancyMapDiffuse_normalised_witness :
    ∃ m, OccupancyMapDiffuse (sampleGrid 2 1 []) (sampleTwoCells 1 0) = some m ∧
      m.GridBounds = (sampleTwoCells 1 0).GridBounds ∧ CellSum m = 1 ∧
      ∀ c ∈ (sampleTwoCells 1 0).GridBounds.cells, 0 ≤ m.Data c ∧ m.Data c ≤ 1 :=
  OccupancyMapDiffuse_normalised (sampleGrid 2 1 []) (sampleTwoCells 1 0)
    (by
      intro c _
      simp only [sampleTwoCells]
      split <;> norm_num)
    (by
      rw [OccupancyMapDiffuseSum_eq, CellSum, OccupancyMapDiffuseSweep_bounds]
      have hc : (sampleTwoCells 1 0).GridBounds.cells = [⟨0, 0⟩, ⟨1, 0⟩] := sample_cells
      rw [hc]
      simp only [List.map_cons, List.map_nil, List.sum_cons, List.sum_nil, sampleSweep_Data.1,
        sampleSweep_Data.2]
      norm_num)

/-! ## Direct observation -/

theorem OccupancyMapSetPosition_Data (Grid : AGAGridActor) (OccupancyMap : FGAGridMap)
    (Position : FVector) :
    (OccupancyMapSetPosition Grid OccupancyMap Position).GridBounds = OccupancyMap.GridBounds ∧
      ∀ c ∈ OccupancyMap.GridBounds.cells,
        (OccupancyMapSetPosition Grid OccupancyMap Position).Data c
          = if c = Grid.GetCellRef Position then 1 else 0 := by
  have hcc : ∀ c : FCellRef,
      (c.Y = (Grid.GetCellRef Position).Y ∧ c.X = (Grid.GetCellRef Position).X) ↔
        c = Grid.GetCellRef Position := by
    intro c
    obtain ⟨x, y⟩ := c
    cases hq : Grid.GetCellRef Position
    simp only [FCellRef.mk.injEq]
    exact ⟨fun h => ⟨h.2, h.1⟩, fun h => ⟨h.2, h.1⟩⟩
  have h := foldl_pointwise (OccupancyMapSetPositionCell (Grid.GetCellRef Position))
    (fun c _ => if c = Grid.GetCellRef Position then 1 else 0)
    (fun g c => by unfold OccupancyMapSetPositionCell; split <;> simp)
    (fun g c x hx => by
      unfold OccupancyMapSetPositionCell
      split
      · rename_i hc
        rw [← (hcc c).1 hc]
        exact SetValue_Data_ne _ _ _ _ hx
      · exact SetValue_Data_ne _ _ _ _ hx)
    (fun g c hv => by
      unfold OccupancyMapSetPositionCell
      dsimp only
      split
      · rename_i hc
        rw [if_pos ((hcc c).1 hc), ← (hcc c).1 hc]
        exact SetValue_Data_self _ _ _ hv
      · rename_i hc
        rw [if_neg (fun h => hc ((hcc c).2 h))]
        exact SetValue_Data_self _ _ _ hv)
    _ (nodup_cells OccupancyMap.GridBounds) OccupancyMap
  exact ⟨h.1, fun c hc => h.2.2 c hc ((mem_cells _ c).1 hc)⟩

theorem sampleOffMap_cell : (sampleGrid 2 1 []).GetCellRef ⟨-50, 50⟩ = ⟨-1, 0⟩ := by
  simp only [sampleGrid, FCellRef.mk.injEq]
  constructor <;> norm_num [Int.floor_eq_iff]

/-- C11, evaluated at a position off the map: on the grid of the two cells `(0,0)`
and `(1,0)` the position `(-50, 50)` has the cell reference `(-1,0)`, which is
no cell of the occupancy map; after `OccupancyMapSetPosition` every cell of the
map holds 0 and no cell holds 1. -/
theorem OccupancyMapSetPosition_off_map :
    (sampleGrid 2 1 []).GetCellRef ⟨-50, 50⟩ ∉ (sampleTwoCells 1 0).GridBounds.cells ∧
      (∀ c ∈ (sampleTwoCells 1 0).GridBounds.cells,
        (OccupancyMapSetPosition (sampleGrid 2 1 []) (sampleTwoCells 1 0) ⟨-50, 50⟩).Data c
          = 0) ∧
      ¬ ∃ c ∈ (sampleTwoCells 1 0).GridBounds.cells,
        (OccupancyMapSetPosition (sampleGrid 2 1 []) (sampleTwoCells 1 0) ⟨-50, 50⟩).Data c
          = 1 := by
  have hout : (sampleGrid 2 1 []).GetCellRef ⟨-50, 50⟩
      ∉ (sampleTwoCells 1 0).GridBounds.cells := by
    rw [sampleOffMap_cell, mem_cells]
    decide
  have hd := (OccupancyMapSetPosition_Data (sampleGrid 2 1 []) (sampleTwoCells 1 0)
    ⟨-50, 50⟩).2
  have hz : ∀ c ∈ (sampleTwoCells 1 0).GridBounds.cells,
      (OccupancyMapSetPosition (sampleGrid 2 1 []) (sampleTwoCells 1 0) ⟨-50, 50⟩).Data c
        = 0 := by
    intro c hc
    rw [hd c hc, if_neg]
    intro h
    exact hout (h ▸ hc)
  refine ⟨hout, hz, ?_⟩
  rintro ⟨c, hc, h1⟩
  rw [hz c hc] at h1
  norm_num at h1

/-- C11 as the code has it: after `OccupancyMapSetPosition(p)` the map has its bounds
and every cell of the map other than the cell of `p` holds 0.  When the cell of
`p` is a cell of the occupancy map, that cell holds 1 and it is the only cell
of the map that holds 1; when it is not, every cell of the map holds 0. -/
theorem OccupancyMapSetPosition_one_cell (Grid : AGAGridActor) (OccupancyMap : FGAGridMap)
    (Position : FVector) :
    (OccupancyMapSetPosition Grid OccupancyMap Position).GridBounds
        = OccupancyMap.GridBounds ∧
      (∀ c ∈ OccupancyMap.GridBounds.cells, c ≠ Grid.GetCellRef Position →
        (OccupancyMapSetPosition Grid OccupancyMap Position).Data c = 0) ∧
      (Grid.GetCellRef Position ∈ OccupancyMap.GridBounds.cells →
        (OccupancyMapSetPosition Grid OccupancyMap Position).Data (Grid.GetCellRef Position)
            = 1 ∧
          ∀ c ∈ OccupancyMap.GridBounds.cells,
            (OccupancyMapSetPosition Grid OccupancyMap Position).Data c = 1 ↔
              c = Grid.GetCellRef Position) ∧
      (Grid.GetCellRef Position ∉ OccupancyMap.GridBounds.cells →
        ∀ c ∈ OccupancyMap.GridBounds.cells,
          (OccupancyMapSetPosition Grid OccupancyMap Position).Data c = 0) := by
  obtain ⟨hb, hd⟩ := OccupancyMapSetPosition_Data Grid OccupancyMap Position
  refine ⟨hb, fun c hc hne => by rw [hd c hc, if_neg hne], fun hp => ⟨?_, fun c hc => ?_⟩,
    fun hp c hc => ?_⟩
  · rw [hd _ hp, if_pos rfl]
  · rw [hd c hc]
    by_cases hcc : c = Grid.GetCellRef Position
    · simp [hcc]
    · simp [hcc]
  · rw [hd c hc, if_neg]
    intro h
    exact hp (h ▸ hc)

theorem OccupancyMapSetPosition_one_cell_witness :
    (OccupancyMapSetPosition (sampleGrid 2 1 []) (sampleTwoCells (1 / 2) (1 / 2))
        ⟨150, 50⟩).Data ⟨1, 0⟩ = 1 ∧
      (OccupancyMapSetPosition (sampleGrid 2 1 []) (sampleTwoCells (1 / 2) (1 / 2))
        ⟨150, 50⟩).Data ⟨0, 0⟩ = 0 := by
  have h : (sampleGrid 2 1 []).GetCellRef ⟨150, 50⟩ = ⟨1, 0⟩ := by
    simp only [sampleGrid, FCellRef.mk.injEq]
    constructor <;> norm_num [Int.floor_eq_iff]
  obtain ⟨_, h0, h1, _⟩ := OccupancyMapSetPosition_one_cell (sampleGrid 2 1 [])
    (sampleTwoCells (1 / 2) (1 / 2)) ⟨150, 50⟩
  rw [h] at h0 h1
  exact ⟨(h1 ((mem_cells _ _).2 (by decide))).1,
    h0 ⟨0, 0⟩ ((mem_cells _ _).2 (by decide)) (by decide)⟩

/-! ## Target state machine -/

/-- C12: on every tick of the target component the new state is Immediate when some
observer's awareness of the target is at least 1, else Hidden when the previous
state was Immediate or Hidden, else the previous state, Unknown.  Over any
sequence of ticks a target that is Unknown at one tick and Hidden at a later
one is Immediate at a tick in between, and a target that has left Unknown
is never Unknown again. -/
theorem TickComponentState_machine (State : ETargetState)
    (obs : Nat → List (Option ℚ)) (PerceptionComponents : List (Option ℚ)) :
    ((∃ a, some a ∈ PerceptionComponents ∧ a ≥ 1) →
        TickComponentState State PerceptionComponents = ETargetState.GATS_Immediate) ∧
      ((¬ ∃ a, some a ∈ PerceptionComponents ∧ a ≥ 1) →
        (State = ETargetState.GATS_Immediate ∨ State = ETargetState.GATS_Hidden →
          TickComponentState State PerceptionComponents = ETargetState.GATS_Hidden) ∧
        (State = ETargetState.GATS_Unknown →
          TickComponentState State PerceptionComponents = ETargetState.GATS_Unknown)) ∧
      (∀ i k, i < k → TickComponentStateAt State obs i = ETargetState.GATS_Unknown →
        TickComponentStateAt State obs k = ETargetState.GATS_Hidden →
        ∃ j, i < j ∧ j < k ∧ TickComponentStateAt State obs j = ETargetState.GATS_Immediate) ∧
      (∀ i k, i ≤ k → TickComponentStateAt State obs i ≠ ETargetState.GATS_Unknown →
        TickComponentStateAt State obs k ≠ ETargetState.GATS_Unknown) := by
  have himm : ∀ l : List (Option ℚ),
      TickComponentIsImmediate l = true ↔ ∃ a, some a ∈ l ∧ a ≥ 1 := by
    intro l
    simp only [TickComponentIsImmediate, List.any_eq_true]
    constructor
    · rintro ⟨x, hx, h⟩
      cases x with
      | none => simp at h
      | some a => exact ⟨a, hx, by simpa using h⟩
    · rintro ⟨a, ha, h⟩
      exact ⟨some a, ha, by simpa using h⟩
  have hstep : ∀ (s : ETargetState) (l : List (Option ℚ)),
      (s = ETargetState.GATS_Unknown →
        TickComponentState s l ≠ ETargetState.GATS_Hidden) ∧
      (s ≠ ETargetState.GATS_Unknown →
        TickComponentState s l ≠ ETargetState.GATS_Unknown) ∧
      (TickComponentState s l = ETargetState.GATS_Hidden →
        s = ETargetState.GATS_Immediate ∨ s = ETargetState.GATS_Hidden) := by
    intro s l
    unfold TickComponentState
    cases s <;> cases TickComponentIsImmediate l <;> simp [IsKnown]
  refine ⟨fun h => ?_, fun h => ⟨fun hk => ?_, fun hu => ?_⟩, ?_, ?_⟩
  · unfold TickComponentState
    rw [if_pos ((himm _).2 h)]
  · have hn : ¬ TickComponentIsImmediate PerceptionComponents = true :=
      fun hi => h ((himm _).1 hi)
    unfold TickComponentState
    rw [if_neg hn, if_pos (by simpa [IsKnown] using hk)]
  · have hn : ¬ TickComponentIsImmediate PerceptionComponents = true :=
      fun hi => h ((himm _).1 hi)
    unfold TickComponentState
    rw [if_neg hn, hu]
    simp [IsKnown]
  · intro i k
    induction k with
    | zero => intro h; omega
    | succ k ih =>
      intro hik hi hk
      have hk2 : TickComponentState (TickComponentStateAt State obs k) (obs k)
          = ETargetState.GATS_Hidden := hk
      by_cases hik2 : i = k
      · subst hik2
        exact absurd hk2 ((hstep _ _).1 hi)
      · rcases (hstep _ _).2.2 hk2 with h | h
        · exact ⟨k, by omega, by omega, h⟩
        · obtain ⟨j, h1, h2, h3⟩ := ih (by omega) hi h
          exact ⟨j, h1, by omega, h3⟩
  · intro i k hik hi
    induction k with
    | zero =>
      have : i = 0 := by omega
      subst this
      exact hi
    | succ k ih =>
      by_cases hik2 : i = k + 1
      · subst hik2
        exact hi
      · exact (hstep _ _).2.1 (ih (by omega))

/-! ## Renormalisation with a zero sum -/

theorem OccupancyMapNorm_none (Grid : AGAGridActor) (l : List FCellRef) (s : NormState)
    (hl : ∃ c ∈ l, Grid.GetCellData c = ECellData.CellDataTraversable) :
    l.foldlM (OccupancyMapNormCell Grid 0) s = none := by
  induction l generalizing s with
  | nil =>
    obtain ⟨c, hc, _⟩ := hl
    cases hc
  | cons c l ih =>
    rw [List.foldlM_cons]
    by_cases ht : Grid.GetCellData c = ECellData.CellDataTraversable
    · simp [OccupancyMapNormCell, ht, fdiv]
    · have hstep : OccupancyMapNormCell Grid 0 s c = some s := by
        simp [OccupancyMapNormCell, ht]
      rw [hstep]
      simp only [Option.bind_eq_bind, Option.some_bind]
      refine ih s ?_
      obtain ⟨x, hx, hxt⟩ := hl
      rcases List.mem_cons.1 hx with rfl | hx
      · exact absurd hxt ht
      · exact ⟨x, hx, hxt⟩

theorem OccupancyMapDiffuseNorm_none (l : List FCellRef) (o : FGAGridMap) (hl : l ≠ []) :
    l.foldlM (OccupancyMapDiffuseNormCell 0) o = none := by
  cases l with
  | nil => exact absurd rfl hl
  | cons c l => simp [List.foldlM_cons, OccupancyMapDiffuseNormCell, fdiv]

/-- C13, evaluated where the belief mass is zero: on a grid of two traversable
cells, with both cells visible the sum `oMapSum` of `OccupancyMapUpdate` is 0
and its renormalisation divides by it, and on the all-zero map the sum of
`OccupancyMapDiffuse` is 0 and its renormalisation divides by it; neither
function yields a map. -/
theorem renormalisation_divides_by_zero :
    (OccupancyMapClear (sampleTwoCells 1 1) (sampleTwoCells (1 / 2) (1 / 2))).oMapSum = 0 ∧
      OccupancyMapUpdate (sampleGrid 2 1 []) (sampleTwoCells 1 1)
        (sampleTwoCells (1 / 2) (1 / 2)) ⟨0, 0⟩ = none ∧
      OccupancyMapDiffuseSum (OccupancyMapDiffuseSweep (sampleGrid 2 1 []) (sampleTwoCells 0 0))
        = 0 ∧
      OccupancyMapDiffuse (sampleGrid 2 1 []) (sampleTwoCells 0 0) = none := by
  have hS : (OccupancyMapClear (sampleTwoCells 1 1) (sampleTwoCells (1 / 2) (1 / 2))).oMapSum
      = 0 := by
    rw [OccupancyMapClear_sum (sampleTwoCells 1 1) (sampleTwoCells (1 / 2) (1 / 2)) rfl]
    simp only [sampleTwoCells, sample_cells]
    norm_num
  have hcb := (OccupancyMapClear_Data (sampleTwoCells 1 1) (sampleTwoCells (1 / 2) (1 / 2))
    rfl).1
  have hsweep : OccupancyMapDiffuseSweep (sampleGrid 2 1 []) (sampleTwoCells 0 0)
      = sampleTwoCells 0 0 := by
    have hc : (sampleTwoCells 0 0).GridBounds.cells = [⟨0, 0⟩, ⟨1, 0⟩] := sample_cells
    unfold OccupancyMapDiffuseSweep
    rw [hc]
    simp [OccupancyMapDiffuseCell, sampleTwoCells, FGAGridMap.GetValue]
  have hD : OccupancyMapDiffuseSum
      (OccupancyMapDiffuseSweep (sampleGrid 2 1 []) (sampleTwoCells 0 0)) = 0 := by
    rw [hsweep, OccupancyMapDiffuseSum_eq, CellSum]
    have hc : (sampleTwoCells 0 0).GridBounds.cells = [⟨0, 0⟩, ⟨1, 0⟩] := sample_cells
    rw [hc]
    simp [sampleTwoCells]
  refine ⟨hS, ?_, hD, ?_⟩
  · unfold OccupancyMapUpdate
    dsimp only
    rw [hS, OccupancyMapNorm_none]
    · rfl
    · rw [hcb]
      exact ⟨⟨0, 0⟩, by simp only [sampleTwoCells, sample_cells]; simp, by decide⟩
  · unfold OccupancyMapDiffuse
    dsimp only
    rw [hD, OccupancyMapDiffuseNorm_none]
    rw [OccupancyMapDiffuseSweep_bounds]
    have hc : (sampleTwoCells 0 0).GridBounds.cells = [⟨0, 0⟩, ⟨1, 0⟩] := sample_cells
    rw [hc]
    simp

/-! ## The state AStar returns -/

theorem AStarSearch_result {DestinationCell : FCellRef}
    (Q : PriorityQueue (FCellRef × List FCellRef) (CompareCells DestinationCell))
    (Grid : AGAGridActor) (ArrivalDistance : ℚ) (StartPoint : FVector) :
    ∃ r, AStarSearch Q Grid ArrivalDistance StartPoint = some r ∧
      (∀ cell path, r = some (cell, path) →
        AStarReach Grid (Grid.GetCellRef StartPoint) cell ∧
          AStarGoalTest Grid DestinationCell ArrivalDistance cell = true) ∧
      (r = none → ∀ c, AStarReach Grid (Grid.GetCellRef StartPoint) c →
        AStarGoalTest Grid DestinationCell ArrivalDistance c = false) := by
  have hfuel : (Grid.GridBounds.cells.length + 1
        - ([Grid.GetCellRef StartPoint], Q.push [] (Grid.GetCellRef StartPoint, [])).1.length)
      + ([Grid.GetCellRef StartPoint], Q.push [] (Grid.GetCellRef StartPoint, [])).2.length
      ≤ Grid.GridBounds.cells.length + 2 := by
    have := (Q.push_perm [] (Grid.GetCellRef StartPoint, ([] : List FCellRef))).length_eq
    simp only [List.length_cons, List.length_nil] at this ⊢
    omega
  exact AStarLoop_spec Q Grid ArrivalDistance _ _
    (AStarInv.start_state Q Grid _ (Grid.GetCellRef StartPoint)) hfuel

theorem AStar_state
    (Q : (dest : FCellRef) → PriorityQueue (FCellRef × List FCellRef) (CompareCells dest))
    (Grid : AGAGridActor) (NewStep : FPathStep) (StartPoint : FVector3)
    (C : UGAPathComponent) (r : UGAPathComponent × EGAPathState)
    (h : AStar Q Grid NewStep StartPoint C = some r) : r.2 = EGAPathState.GAPS_Active := by
  unfold AStar at h
  dsimp only at h
  split at h
  · cases h
  · split at h
    · split at h
      · split at h
        · cases h; rfl
        · cases h; rfl
      · cases h
    · cases h; rfl
  · cases h; rfl

theorem samplePath_start :
    (sampleGrid 3 1 [⟨1, 0⟩]).GetCellRef (FVector3.xy ⟨50, 50, 0⟩) = ⟨0, 0⟩ := by
  simp only [sampleGrid, FVector3.xy, FCellRef.mk.injEq]
  constructor <;> norm_num [Int.floor_eq_iff]

theorem samplePath_reach (c : FCellRef)
    (h : AStarReach (sampleGrid 3 1 [⟨1, 0⟩]) ⟨0, 0⟩ c) : c = ⟨0, 0⟩ := by
  induction h with
  | start => rfl
  | @step u v _ hadj _ ht ih =>
    subst ih
    rw [sampleGrid_GetCellData] at ht
    obtain ⟨d, hd, rfl⟩ := hadj
    simp only [directions, List.mem_cons, List.mem_singleton, List.not_mem_nil,
      or_false] at hd
    rcases hd with rfl | rfl | rfl | rfl <;> simp [FCellRef.offset] at ht

theorem samplePath_search :
    AStarSearch (sampleAStarQueue ⟨2, 0⟩) (sampleGrid 3 1 [⟨1, 0⟩]) 100
      (FVector3.xy ⟨50, 50, 0⟩) = some none := by
  obtain ⟨r, hr, h1, _⟩ := AStarSearch_result (sampleAStarQueue ⟨2, 0⟩)
    (sampleGrid 3 1 [⟨1, 0⟩]) 100 (FVector3.xy ⟨50, 50, 0⟩)
  rw [hr]
  cases r with
  | none => rfl
  | some e =>
    obtain ⟨cell, path⟩ := e
    obtain ⟨k1, k2⟩ := h1 cell path rfl
    rw [samplePath_start] at k1
    have := samplePath_reach cell k1
    subst this
    exfalso
    simp only [AStarGoalTest, sampleGrid, decide_eq_true_eq] at k2
    norm_num at k2

/-- C14, evaluated where no cell passes the goal test: on a grid of three cells in a
row whose middle cell is not traversable, with the pawn in the first cell and
the destination in the third, the search of `AStar` empties its queue without
a goal, yet `AStar` returns `GAPS_Active`, the state it returns on every call,
leaves the old aim point in `Steps[0]`, and `TickComponent` calls `FollowPath`
towards that aim point. -/
theorem AStar_no_path_returns_active :
    AStarSearch (sampleAStarQueue ⟨2, 0⟩) (sampleGrid 3 1 [⟨1, 0⟩]) 100
        (FVector3.xy ⟨50, 50, 0⟩) = some none ∧
      AStar sampleAStarQueue (sampleGrid 3 1 [⟨1, 0⟩]) ⟨⟨0, 0⟩, ⟨0, 0⟩⟩ ⟨50, 50, 0⟩
          samplePathComponent
        = some (samplePathComponent, EGAPathState.GAPS_Active) ∧
      UGAPathComponent.TickComponent sampleAStarQueue (sampleGrid 3 1 [⟨1, 0⟩])
          ⟨⟨0, 0⟩, ⟨0, 0⟩⟩ ⟨50, 50, 0⟩ samplePathComponent
        = some (samplePathComponent, some ⟨200, 0, 0⟩) ∧
      (∀ Q Grid NewStep StartPoint C r, AStar Q Grid NewStep StartPoint C = some r →
        r.2 = EGAPathState.GAPS_Active) := by
  have hA : AStar sampleAStarQueue (sampleGrid 3 1 [⟨1, 0⟩]) ⟨⟨0, 0⟩, ⟨0, 0⟩⟩ ⟨50, 50, 0⟩
      samplePathComponent = some (samplePathComponent, EGAPathState.GAPS_Active) := by
    unfold AStar
    dsimp only
    have hs := samplePath_search
    simp only [samplePathComponent] at hs ⊢
    rw [hs]
    rfl
  refine ⟨samplePath_search, hA, ?_, AStar_state⟩
  unfold UGAPathComponent.TickComponent RefreshPath
  have hd : DistLe ⟨50, 50, 0⟩ samplePathComponent.Destination
      samplePathComponent.ArrivalDistance = false := by
    simp only [DistLe, DistSquared, samplePathComponent, decide_eq_false_iff_not]
    norm_num
  rw [if_pos (by rfl), hd, hA]
  simp only [Bool.false_eq_true, if_false, Option.map_some']
  simp only [samplePathComponent, FollowPath, List.head?_cons, Option.map_some', if_true]
  norm_num

/-! ## The outcomes of path reconstruction -/

theorem getPositionPathLoop_stuck (m : FGAGridMap) (Grid : AGAGridActor) (start cur : FCellRef)
    (hn : getPositionPathNext m Grid cur = cur) (hc : cur ≠ start) (left : Nat)
    (path : List FCellRef) :
    getPositionPathLoop m Grid start left cur path = path ++ List.replicate left cur := by
  induction left generalizing path with
  | zero => simp [getPositionPathLoop]
  | succ left ih =>
    rw [getPositionPathLoop, if_neg hc, hn, ih, List.replicate_succ]
    simp

theorem getPositionPathLoop_length (m : FGAGridMap) (Grid : AGAGridActor) (start : FCellRef)
    (left : Nat) (cur : FCellRef) (path : List FCellRef) :
    (getPositionPathLoop m Grid start left cur path).length = path.length + left ∨
      ∃ k, k < left ∧ Nat.iterate (getPositionPathNext m Grid) k cur = start ∧
        (getPositionPathLoop m Grid start left cur path).length = path.length + k := by
  induction left generalizing cur path with
  | zero => exact Or.inl (by simp [getPositionPathLoop])
  | succ left ih =>
    rw [getPositionPathLoop]
    by_cases hc : cur = start
    · rw [if_pos hc]
      exact Or.inr ⟨0, by omega, hc, rfl⟩
    · rw [if_neg hc]
      rcases ih (getPositionPathNext m Grid cur) (path ++ [cur]) with h | ⟨k, hk, h1, h2⟩
      · left
        rw [h]
        simp only [List.length_append, List.length_singleton]
        omega
      · refine Or.inr ⟨k + 1, by omega, ?_, ?_⟩
        · rw [Function.iterate_succ_apply]
          exact h1
        · rw [h2]
          simp only [List.length_append, List.length_singleton]
          omega

theorem getPositionPath_stuck (DistanceMap : FGAGridMap) (StartPoint : FVector)
    (dest : FCellRef) (Grid : AGAGridActor)
    (hn : getPositionPathNext DistanceMap Grid dest = dest)
    (hc : dest ≠ Grid.GetCellRef StartPoint) :
    getPositionPath DistanceMap StartPoint dest Grid = List.replicate 1000 dest ∧
      ChoosePositionGoThere DistanceMap StartPoint dest Grid
        = (some ⟨Grid.GetCellGridSpacePosition dest, dest⟩, EGAPathState.GAPS_Active) := by
  have hp : getPositionPath DistanceMap StartPoint dest Grid = List.replicate 1000 dest := by
    unfold getPositionPath
    rw [getPositionPathLoop_stuck _ _ _ _ hn hc, List.nil_append, List.reverse_replicate]
  refine ⟨hp, ?_⟩
  have hl : (getPositionPath DistanceMap StartPoint dest Grid).length = 1000 := by
    rw [hp, List.length_replicate]
  unfold ChoosePositionGoThere
  dsimp only
  rw [if_neg (by omega), if_pos hl]

theorem sampleBlockedField_stuck :
    getPositionPathNext sampleBlockedField (sampleGrid 3 1 [⟨1, 0⟩]) ⟨2, 0⟩ = ⟨2, 0⟩ := by
  obtain ⟨_, h⟩ := getPositionPathNeighbor_fold sampleBlockedField (sampleGrid 3 1 [⟨1, 0⟩])
    ⟨2, 0⟩ directions (FLT_MAX, ⟨2, 0⟩)
  unfold getPositionPathNext
  rcases h with h | ⟨d, hd, hw, _⟩
  · rw [h]
  · exfalso
    obtain ⟨_, ht⟩ := hw
    rw [sampleGrid_GetCellData] at ht
    simp only [directions, List.mem_cons, List.mem_singleton, List.not_mem_nil,
      or_false] at hd
    rcases hd with rfl | rfl | rfl | rfl <;> simp [FCellRef.offset] at ht

theorem sampleBlockedField_start :
    (⟨2, 0⟩ : FCellRef) ≠ (sampleGrid 3 1 [⟨1, 0⟩]).GetCellRef ⟨50, 50⟩ := by
  have h : (sampleGrid 3 1 [⟨1, 0⟩]).GetCellRef ⟨50, 50⟩ = ⟨0, 0⟩ := by
    simp only [sampleGrid, FCellRef.mk.injEq]
    constructor <;> norm_num [Int.floor_eq_iff]
  rw [h]
  decide

/-- C15, evaluated where the destination has no path: with three cells in a row, the
middle one not traversable, the pawn in the first and the destination the
third, no neighbour of the destination is a candidate, so this is the no-path
case; the loop repeats the destination until the cap, the result is the
1000-cell path of the cap case, and `ChoosePosition` takes its cap branch. -/
theorem getPositionPath_no_path_is_cap :
    getPositionPathNext sampleBlockedField (sampleGrid 3 1 [⟨1, 0⟩]) ⟨2, 0⟩ = ⟨2, 0⟩ ∧
      (getPositionPath sampleBlockedField ⟨50, 50⟩ ⟨2, 0⟩ (sampleGrid 3 1 [⟨1, 0⟩])).length
        = 1000 ∧
      ChoosePositionGoThere sampleBlockedField ⟨50, 50⟩ ⟨2, 0⟩ (sampleGrid 3 1 [⟨1, 0⟩])
        = (some ⟨(sampleGrid 3 1 [⟨1, 0⟩]).GetCellGridSpacePosition ⟨2, 0⟩, ⟨2, 0⟩⟩,
            EGAPathState.GAPS_Active) := by
  obtain ⟨h1, h2⟩ := getPositionPath_stuck sampleBlockedField ⟨50, 50⟩ ⟨2, 0⟩
    (sampleGrid 3 1 [⟨1, 0⟩]) sampleBlockedField_stuck sampleBlockedField_start
  exact ⟨sampleBlockedField_stuck, by rw [h1, List.length_replicate], h2⟩

/-- C15 as the code has it: `getPositionPath` has two kinds of result.  Either the
start cell is reached in fewer than 1000 iterations and the path has that many
cells, or the path has exactly 1000 cells; `ChoosePosition` smooths a path of 2
to 999 cells, aims at the destination itself for 1000 cells and finishes for 0
or 1 cell.  When no neighbour of the destination is a candidate (no path), the
loop repeats the destination until the cap: the path is 1000 copies of it and
`ChoosePosition` takes the branch of the cap. -/
theorem getPositionPath_outcomes (DistanceMap : FGAGridMap) (StartPoint : FVector)
    (dest : FCellRef) (Grid : AGAGridActor) :
    (getPositionPath DistanceMap StartPoint dest Grid).length ≤ 1000 ∧
      ((getPositionPath DistanceMap StartPoint dest Grid).length < 1000 →
        Nat.iterate (getPositionPathNext DistanceMap Grid)
          (getPositionPath DistanceMap StartPoint dest Grid).length dest
            = Grid.GetCellRef StartPoint) ∧
      ((getPositionPath DistanceMap StartPoint dest Grid).length = 1000 →
        ChoosePositionGoThere DistanceMap StartPoint dest Grid
          = (some ⟨Grid.GetCellGridSpacePosition dest, dest⟩, EGAPathState.GAPS_Active)) ∧
      ((getPositionPath DistanceMap StartPoint dest Grid).length ≤ 1 →
        ChoosePositionGoThere DistanceMap StartPoint dest Grid
          = (none, EGAPathState.GAPS_Finished)) ∧
      ((getPositionPath DistanceMap StartPoint dest Grid).length > 1 →
        (getPositionPath DistanceMap StartPoint dest Grid).length < 1000 →
        ∃ moveToTuple,
          getLineTrace2 (getPositionPath DistanceMap StartPoint dest Grid) StartPoint Grid
            = some moveToTuple ∧
          ChoosePositionGoThere DistanceMap StartPoint dest Grid
            = (some ⟨moveToTuple.1, moveToTuple.2⟩, EGAPathState.GAPS_Active)) ∧
      (getPositionPathNext DistanceMap Grid dest = dest → dest ≠ Grid.GetCellRef StartPoint →
        getPositionPath DistanceMap StartPoint dest Grid = List.replicate 1000 dest ∧
        ChoosePositionGoThere DistanceMap StartPoint dest Grid
          = (some ⟨Grid.GetCellGridSpacePosition dest, dest⟩, EGAPathState.GAPS_Active)) := by
  have hlen : (getPositionPath DistanceMap StartPoint dest Grid).length
      = (getPositionPathLoop DistanceMap Grid (Grid.GetCellRef StartPoint) 1000
          dest []).length := by
    simp [getPositionPath]
  have hcases := getPositionPathLoop_length DistanceMap Grid (Grid.GetCellRef StartPoint)
    1000 dest []
  rw [← hlen] at hcases
  simp only [List.length_nil, Nat.zero_add] at hcases
  refine ⟨?_, ?_, ?_, ?_, ?_, getPositionPath_stuck DistanceMap StartPoint dest Grid⟩
  · rcases hcases with h | ⟨k, hk, _, h⟩ <;> omega
  · intro hlt
    rcases hcases with h | ⟨k, _, h1, h⟩
    · omega
    · rw [h]
      exact h1
  · intro h
    unfold ChoosePositionGoThere
    dsimp only
    rw [if_neg (by omega), if_pos h]
  · intro h
    unfold ChoosePositionGoThere
    dsimp only
    rw [if_neg (by omega), if_neg (by omega)]
  · intro h1 h2
    have hne : getPositionPath DistanceMap StartPoint dest Grid ≠ [] := by
      intro h
      rw [h] at h1
      simp at h1
    refine ⟨_, getLineTrace2_eq Grid StartPoint _ hne, ?_⟩
    unfold ChoosePositionGoThere
    simp only [getLineTrace2_eq Grid StartPoint _ hne]
    rw [if_pos ⟨h1, h2⟩]

/-! ## Dijkstra: the cells it leaves alone -/

section DijkstraFrame

variable (Q : PriorityQueue (ℚ × FCellRef) PairLess) (Grid : AGAGridActor)

theorem DijkstraFrameInv.frame_first (b : FGridBox) (start : FCellRef) (init : FGAGridMap)
    (hb : init.GridBounds = b) :
    DijkstraFrameInv Grid b start init ⟨Q.push [] (0, start), [start], init⟩ := by
  refine ⟨hb, List.nodup_singleton _, ?_, ?_, ?_, fun _ _ => rfl⟩
  · intro c hc
    exact Or.inl (List.mem_singleton.1 hc)
  · intro e he
    rw [(Q.push_perm [] (0, start)).mem_iff, List.mem_singleton] at he
    rw [he]
    exact List.mem_singleton.2 rfl
  · intro c hc
    rw [List.mem_singleton.1 hc]
    exact ⟨0, Reach.zero⟩

theorem DijkstraFrameInv.frame_next {b : FGridBox} {start : FCellRef} {init : FGAGridMap}
    {s : DijkstraState} (hinv : DijkstraFrameInv Grid b start init s) {δ : ℚ} {u : FCellRef}
    {rest : List (ℚ × FCellRef)} (hpop : Q.pop s.pq = some ((δ, u), rest)) :
    DijkstraFrameInv Grid b start init
      ⟨(directions.foldl (DijkstraNeighbor Q Grid b u (δ + 1)) (s.visited, rest)).2,
        (directions.foldl (DijkstraNeighbor Q Grid b u (δ + 1)) (s.visited, rest)).1,
        s.DistanceMapOut.SetValue u δ⟩ := by
  obtain ⟨hperm, _⟩ := Q.pop_some hpop
  have hmem : ∀ e, e ∈ s.pq ↔ e = (δ, u) ∨ e ∈ rest := by
    intro e
    rw [hperm.mem_iff, List.mem_cons]
  have huv : u ∈ s.visited := hinv.queued (δ, u) ((hmem _).2 (Or.inl rfl))
  rw [DijkstraNeighbor_eq]
  have hvis := expand_visited Q (WalkableB Grid b) (fun c => (δ + 1, c)) u directions
    s.visited rest
  have hque := expand_queue Q (WalkableB Grid b) (fun c => (δ + 1, c)) u directions
    s.visited rest
  have hnd := expand_nodup Q (WalkableB Grid b) (fun c => (δ + 1, c)) u directions
    s.visited rest hinv.nodup
  generalize directions.foldl (expandNeighbor Q (WalkableB Grid b) (fun c => (δ + 1, c)) u)
    (s.visited, rest) = R at hvis hque hnd
  have hsub : ∀ c, c ∈ s.visited → c ∈ R.1 := fun c hc => (hvis c).2 (Or.inl hc)
  refine ⟨by simp [hinv.bounds], hnd, ?_, ?_, ?_, ?_⟩
  · intro c hc
    rcases (hvis c).1 hc with h | ⟨d, _, _, hw⟩
    · exact hinv.visitedOk c h
    · exact Or.inr ((walkableB_iff Grid b c).1 hw)
  · intro e he
    rcases (hque e).1 he with h | ⟨c, rfl, _, d, hd, hcd, hw⟩
    · exact hsub _ (hinv.queued e ((hmem e).2 (Or.inr h)))
    · exact (hvis c).2 (Or.inr ⟨d, hd, hcd, hw⟩)
  · intro c hc
    rcases (hvis c).1 hc with h | ⟨d, hd, hcd, hw⟩
    · exact hinv.reach c h
    · obtain ⟨n, hn⟩ := hinv.reach u huv
      exact ⟨n + 1, Reach.step hn ⟨d, hd, hcd⟩ ((walkableB_iff Grid b c).1 hw)⟩
  · intro c hc
    have hcv : c ∉ s.visited := fun h => hc (hsub c h)
    have hcu : c ≠ u := fun h => hcv (h ▸ huv)
    rw [SetValue_Data_ne _ _ _ _ hcu]
    exact hinv.frame c hcv

theorem DijkstraFrameInv.frame_bound {b : FGridBox} {start : FCellRef} {init : FGAGridMap}
    {s : DijkstraState} (hinv : DijkstraFrameInv Grid b start init s) :
    s.visited.length ≤ b.cells.length + 1 := by
  have hsub : s.visited ⊆ start :: b.cells := by
    intro c hc
    rcases hinv.visitedOk c hc with h | h
    · exact List.mem_cons.2 (Or.inl h)
    · exact List.mem_cons.2 (Or.inr ((mem_cells b c).2 h.1))
  simpa using (List.subperm_of_subset hinv.nodup hsub).length_le

theorem DijkstraLoop_frame {b : FGridBox} {start : FCellRef} {init : FGAGridMap}
    (fuel : Nat) (s : DijkstraState) (hinv : DijkstraFrameInv Grid b start init s)
    (hfuel : (b.cells.length + 1 - s.visited.length) + s.pq.length ≤ fuel) :
    ∃ m, DijkstraLoop Q Grid fuel s = some m ∧ m.GridBounds = b ∧
      ∀ c, (∀ n, ¬ Reach Grid b start n c) → m.Data c = init.Data c := by
  have hdone : ∀ s : DijkstraState, DijkstraFrameInv Grid b start init s →
      s.DistanceMapOut.GridBounds = b ∧
        ∀ c, (∀ n, ¬ Reach Grid b start n c) → s.DistanceMapOut.Data c = init.Data c := by
    intro s hinv
    refine ⟨hinv.bounds, fun c hc => hinv.frame c (fun hv => ?_)⟩
    obtain ⟨n, hn⟩ := hinv.reach c hv
    exact hc n hn
  induction fuel generalizing s with
  | zero =>
    have hq : s.pq = [] := List.length_eq_zero.1 (by omega)
    refine ⟨s.DistanceMapOut, ?_, hdone s hinv⟩
    unfold DijkstraLoop
    rw [hq, Q.pop_nil]
  | succ fuel ih =>
    unfold DijkstraLoop
    cases hpop : Q.pop s.pq with
    | none => exact ⟨s.DistanceMapOut, rfl, hdone s hinv⟩
    | some a =>
      obtain ⟨⟨δ, u⟩, rest⟩ := a
      simp only [SetValue_GridBounds, hinv.bounds]
      have hnext := hinv.frame_next Q Grid hpop
      refine ih _ hnext ?_
      have hlen := expand_length Q (WalkableB Grid b) (fun c => (δ + 1, c)) u directions
        s.visited rest
      rw [← DijkstraNeighbor_eq] at hlen
      have h1 := hnext.frame_bound
      have h2 := (Q.pop_some hpop).1.length_eq
      simp only [List.length_cons] at h2
      simp only at h1 ⊢
      omega

theorem Dijkstra_frame (StartPoint : FVector) (init : FGAGridMap) :
    ∃ m, Dijkstra Q Grid StartPoint init = some m ∧ m.GridBounds = init.GridBounds ∧
      ∀ c, (∀ n, ¬ Reach Grid init.GridBounds (Grid.GetCellRef StartPoint) n c) →
        m.Data c = init.Data c := by
  unfold Dijkstra
  refine DijkstraLoop_frame Q Grid _ _ (DijkstraFrameInv.frame_first Q Grid _ _ init rfl) ?_
  have := (Q.push_perm [] ((0 : ℚ), Grid.GetCellRef StartPoint)).length_eq
  simp only [List.length_cons, List.length_nil] at this ⊢
  omega

end DijkstraFrame

theorem valid_iff_bounds (b : FGridBox) (x y : Int) :
    (x < b.MaxX ∧ x ≥ b.MinX ∧ y < b.MaxY ∧ y ≥ b.MinY) ↔ b.IsValidCell ⟨x, y⟩ = true := by
  simp only [FGridBox.IsValidCell, Bool.and_eq_true, decide_eq_true_eq]
  constructor
  · rintro ⟨h1, h2, h3, h4⟩
    exact ⟨⟨⟨h2, h1⟩, h4⟩, h3⟩
  · rintro ⟨⟨⟨h2, h1⟩, h4⟩, h3⟩
    exact ⟨h1, h2, h3, h4⟩

theorem OccupancyMapDiffuseSide_Data (flags : Bool) (c : FCellRef) (p sp : ℚ)
    (o : FGAGridMap) (s : Int × Int) (x : FCellRef) :
    (OccupancyMapDiffuseSide flags c.X c.Y p sp o s).Data x
      = if flags = true ∧ o.GridBounds.IsValidCell (c.offset s) = true
            ∧ p > o.Data (c.offset s) ∧ x = c.offset s
        then sp else o.Data x := by
  unfold OccupancyMapDiffuseSide
  dsimp only
  by_cases hcond : flags = true ∧ c.X + s.1 < o.GridBounds.MaxX ∧ c.X + s.1 ≥ o.GridBounds.MinX
      ∧ c.Y + s.2 < o.GridBounds.MaxY ∧ c.Y + s.2 ≥ o.GridBounds.MinY
  · have hv : o.GridBounds.IsValidCell (c.offset s) = true :=
      (valid_iff_bounds _ _ _).1 hcond.2
    rw [if_pos hcond, show (⟨c.X + s.1, c.Y + s.2⟩ : FCellRef) = c.offset s from rfl,
      GetValue_valid _ _ _ hv]
    by_cases hgt : p > o.Data (c.offset s)
    · rw [if_pos hgt]
      by_cases hx : x = c.offset s
      · rw [if_pos ⟨hcond.1, hv, hgt, hx⟩, hx]
        exact SetValue_Data_self _ _ _ hv
      · rw [if_neg (fun h => hx h.2.2.2)]
        exact SetValue_Data_ne _ _ _ _ hx
    · rw [if_neg hgt, if_neg (fun h => hgt h.2.2.1)]
  · rw [if_neg hcond, if_neg]
    rintro ⟨h1, h2, _, _⟩
    exact hcond ⟨h1, (valid_iff_bounds _ _ _).2 h2⟩

theorem offset_injective (c : FCellRef) (s t : Int × Int) (h : c.offset s = c.offset t) :
    s = t := by
  obtain ⟨s1, s2⟩ := s
  obtain ⟨t1, t2⟩ := t
  simp only [FCellRef.offset, FCellRef.mk.injEq] at h
  obtain ⟨h1, h2⟩ := h
  have e1 : s1 = t1 := by omega
  have e2 : s2 = t2 := by omega
  rw [e1, e2]

theorem OccupancyMapDiffuseSide_fold_Data (flags : Bool) (c : FCellRef) (p sp : ℚ)
    (ds : List (Int × Int)) (hds : ds.Nodup) (o : FGAGridMap) (x : FCellRef) :
    (ds.foldl (OccupancyMapDiffuseSide flags c.X c.Y p sp) o).Data x
      = if flags = true ∧ ∃ s ∈ ds, o.GridBounds.IsValidCell (c.offset s) = true
            ∧ p > o.Data (c.offset s) ∧ x = c.offset s
        then sp else o.Data x := by
  induction ds generalizing o with
  | nil => simp
  | cons d ds ih =>
    rw [List.nodup_cons] at hds
    rw [List.foldl_cons, ih hds.2]
    have hb : (OccupancyMapDiffuseSide flags c.X c.Y p sp o d).GridBounds = o.GridBounds :=
      OccupancyMapDiffuseSide_bounds flags c.X c.Y p sp o [d]
    have hrest : ∀ s ∈ ds, (OccupancyMapDiffuseSide flags c.X c.Y p sp o d).Data (c.offset s)
        = o.Data (c.offset s) := by
      intro s hs
      rw [OccupancyMapDiffuseSide_Data, if_neg]
      rintro ⟨_, _, _, h⟩
      exact hds.1 (offset_injective c s d h ▸ hs)
    by_cases hlater : flags = true ∧ ∃ s ∈ ds, o.GridBounds.IsValidCell (c.offset s) = true
        ∧ p > o.Data (c.offset s) ∧ x = c.offset s
    · obtain ⟨hf, s, hs, h1, h2, h3⟩ := hlater
      rw [if_pos ⟨hf, s, hs, by rw [hb]; exact h1, by rw [hrest s hs]; exact h2, h3⟩,
        if_pos ⟨hf, s, List.mem_cons_of_mem _ hs, h1, h2, h3⟩]
    · rw [if_neg, OccupancyMapDiffuseSide_Data]
      · by_cases hnow : flags = true ∧ o.GridBounds.IsValidCell (c.offset d) = true
            ∧ p > o.Data (c.offset d) ∧ x = c.offset d
        · rw [if_pos hnow, if_pos ⟨hnow.1, d, List.mem_cons_self _ _, hnow.2⟩]
        · rw [if_neg hnow, if_neg]
          rintro ⟨hf, s, hs, h1, h2, h3⟩
          rcases List.mem_cons.1 hs with rfl | hs
          · exact hnow ⟨hf, h1, h2, h3⟩
          · exact hlater ⟨hf, s, hs, h1, h2, h3⟩
      · rintro ⟨hf, s, hs, h1, h2, h3⟩
        exact hlater ⟨hf, s, hs, by rw [← hb]; exact h1, by rw [← hrest s hs]; exact h2, h3⟩

theorem OccupancyMapDiffuseCell_Data (Grid : AGAGridActor) (o : FGAGridMap) (c x : FCellRef)
    (hc : o.GridBounds.IsValidCell c = true) :
    (OccupancyMapDiffuseCell Grid o c).Data x
      = if o.Data c ≠ 0 ∧ Grid.GetCellData c = ECellData.CellDataTraversable
            ∧ ∃ s ∈ sides, o.GridBounds.IsValidCell (c.offset s) = true
              ∧ o.Data c > o.Data (c.offset s) ∧ x = c.offset s
        then alpha * o.Data c else o.Data x := by
  unfold OccupancyMapDiffuseCell
  dsimp only
  rw [GetValue_valid _ _ _ hc]
  by_cases h0 : o.Data c = 0
  · rw [if_pos h0, if_neg (fun h => h.1 h0)]
  · rw [if_neg h0, OccupancyMapDiffuseDiag_fold,
      OccupancyMapDiffuseSide_fold_Data _ _ _ _ _ (by decide)]
    by_cases ht : Grid.GetCellData c = ECellData.CellDataTraversable
    · simp only [ht, decide_True, true_and, ne_eq, h0, not_false_eq_true]
    · simp only [ht, decide_False, Bool.false_eq_true, false_and, if_false, and_false]

theorem OccupancyMapDiffuseCell_side (Grid : AGAGridActor) (o : FGAGridMap) (c : FCellRef)
    (s : Int × Int) (hc : o.GridBounds.IsValidCell c = true) (hs : s ∈ sides)
    (hn : o.GridBounds.IsValidCell (c.offset s) = true) :
    (OccupancyMapDiffuseCell Grid o c).Data (c.offset s)
      = if o.Data c ≠ 0 ∧ Grid.GetCellData c = ECellData.CellDataTraversable
            ∧ o.Data c > o.Data (c.offset s)
        then alpha * o.Data c else o.Data (c.offset s) := by
  rw [OccupancyMapDiffuseCell_Data Grid o c _ hc]
  by_cases h : o.Data c ≠ 0 ∧ Grid.GetCellData c = ECellData.CellDataTraversable
      ∧ o.Data c > o.Data (c.offset s)
  · rw [if_pos h, if_pos ⟨h.1, h.2.1, s, hs, hn, h.2.2, rfl⟩]
  · rw [if_neg h, if_neg]
    rintro ⟨h1, h2, t, _, _, h4, h5⟩
    rw [← offset_injective c s t h5] at h4
    exact h ⟨h1, h2, h4⟩

/-- C17, evaluated next to a cell that is not traversable: on a grid of two cells
whose cell `(1,0)` is not traversable, with belief 1 in the cell `(0,0)` and 0
in the cell `(1,0)`, the diffusion sweep writes 0.75 into the cell `(1,0)`. -/
theorem OccupancyMapDiffuseSweep_enters_blocked_cell :
    (sampleGrid 2 1 [⟨1, 0⟩]).GetCellData ⟨1, 0⟩ ≠ ECellData.CellDataTraversable ∧
      (sampleTwoCells 1 0).Data ⟨1, 0⟩ = 0 ∧
      (OccupancyMapDiffuseSweep (sampleGrid 2 1 [⟨1, 0⟩]) (sampleTwoCells 1 0)).Data ⟨1, 0⟩
        = 3 / 4 := by
  have ht1 : (sampleGrid 2 1 [⟨1, 0⟩]).GetCellData ⟨1, 0⟩ ≠ ECellData.CellDataTraversable := by
    decide
  have ht0 : (sampleGrid 2 1 [⟨1, 0⟩]).GetCellData ⟨0, 0⟩ = ECellData.CellDataTraversable := by
    decide
  refine ⟨ht1, by simp [sampleTwoCells], ?_⟩
  have hc : (sampleTwoCells 1 0).GridBounds.cells = [⟨0, 0⟩, ⟨1, 0⟩] := sample_cells
  have hfirst := OccupancyMapDiffuseCell_side (sampleGrid 2 1 [⟨1, 0⟩]) (sampleTwoCells 1 0)
    ⟨0, 0⟩ (1, 0) (by decide) (by simp [sides]) (by decide)
  have hoff : (⟨0, 0⟩ : FCellRef).offset (1, 0) = ⟨1, 0⟩ := by decide
  rw [hoff] at hfirst
  unfold OccupancyMapDiffuseSweep
  rw [hc]
  simp only [List.foldl_cons, List.foldl_nil]
  rw [OccupancyMapDiffuseCell_Data _ _ _ _ (by
    rw [OccupancyMapDiffuseCell_bounds]; decide), if_neg (fun h => ht1 h.2.1), hfirst, if_pos]
  · simp only [sampleTwoCells, alpha]
    norm_num
  · refine ⟨?_, ht0, ?_⟩ <;> simp only [sampleTwoCells] <;> norm_num

/-- C18, evaluated at a neighbour between `0.75 * p` and `p`: with belief 1 in the
traversable cell `(0,0)` and 0.9 in its neighbour `(1,0)`, the neighbour already
holds at least the contribution 0.75, yet processing the cell `(0,0)`
overwrites it with 0.75, which lowers its value. -/
theorem OccupancyMapDiffuseCell_lowers_neighbour :
    (sampleTwoCells 1 (9 / 10)).Data ⟨1, 0⟩ ≥ alpha * (sampleTwoCells 1 (9 / 10)).Data ⟨0, 0⟩ ∧
      (OccupancyMapDiffuseCell (sampleGrid 2 1 []) (sampleTwoCells 1 (9 / 10)) ⟨0, 0⟩).Data
          ⟨1, 0⟩ = 3 / 4 ∧
      (3 / 4 : ℚ) < (sampleTwoCells 1 (9 / 10)).Data ⟨1, 0⟩ := by
  have hfirst := OccupancyMapDiffuseCell_side (sampleGrid 2 1 []) (sampleTwoCells 1 (9 / 10))
    ⟨0, 0⟩ (1, 0) (by decide) (by simp [sides]) (by decide)
  have hoff : (⟨0, 0⟩ : FCellRef).offset (1, 0) = ⟨1, 0⟩ := by decide
  rw [hoff] at hfirst
  refine ⟨by simp only [sampleTwoCells, alpha]; norm_num, ?_,
    by simp only [sampleTwoCells]; norm_num⟩
  rw [hfirst, if_pos]
  · simp only [sampleTwoCells, alpha]
    norm_num
  · refine ⟨?_, by decide, ?_⟩ <;> simp only [sampleTwoCells] <;> norm_num

/-- C18 as the code has it: when the diffusion sweep processes a source cell with
probability `p`, an in-bounds orthogonal neighbour with current value `v` is
left untouched when `v` is at least `p`, when `p` is 0 or when the source is
not traversable, and is overwritten with `0.75 * p` when `p` exceeds `v`, `p`
is not 0 and the source is traversable, whether or not that raises `v`. -/
theorem OccupancyMapDiffuseCell_neighbour (Grid : AGAGridActor) (o : FGAGridMap)
    (c : FCellRef) (s : Int × Int) (hc : o.GridBounds.IsValidCell c = true) (hs : s ∈ sides)
    (hn : o.GridBounds.IsValidCell (c.offset s) = true) :
    (o.Data c ≤ o.Data (c.offset s) →
        (OccupancyMapDiffuseCell Grid o c).Data (c.offset s) = o.Data (c.offset s)) ∧
      (o.Data c = 0 ∨ Grid.GetCellData c ≠ ECellData.CellDataTraversable →
        (OccupancyMapDiffuseCell Grid o c).Data (c.offset s) = o.Data (c.offset s)) ∧
      (o.Data c > o.Data (c.offset s) → o.Data c ≠ 0 →
        Grid.GetCellData c = ECellData.CellDataTraversable →
        (OccupancyMapDiffuseCell Grid o c).Data (c.offset s) = (3 / 4) * o.Data c) := by
  rw [OccupancyMapDiffuseCell_side Grid o c s hc hs hn]
  refine ⟨fun h => ?_, fun h => ?_, fun h1 h2 h3 => ?_⟩
  · rw [if_neg (fun hh => absurd h (not_le.2 hh.2.2))]
  · rw [if_neg]
    rintro ⟨h1, h2, _⟩
    rcases h with h | h
    · exact h1 h
    · exact h h2
  · rw [if_pos ⟨h2, h3, h1⟩]
    rfl

theorem OccupancyMapDiffuseCell_neighbour_witness :
    (OccupancyMapDiffuseCell (sampleGrid 2 1 []) (sampleTwoCells 1 0) ⟨0, 0⟩).Data
        ((⟨0, 0⟩ : FCellRef).offset (1, 0))
      = (3 / 4) * (sampleTwoCells 1 0).Data ⟨0, 0⟩ :=
  (OccupancyMapDiffuseCell_neighbour (sampleGrid 2 1 []) (sampleTwoCells 1 0) ⟨0, 0⟩ (1, 0)
    (by decide) (by simp [sides]) (by decide)).2.2
    (by simp only [sampleTwoCells]; norm_num [FCellRef.offset])
    (by simp only [sampleTwoCells]; norm_num) (by decide)

/-! ## The visibility map of the occupancy update -/

theorem OccupancyMapVisibilityCell_eq (Grid : AGAGridActor) (LK : FVector3)
    (P : UGAPerceptionComponent) (V : FGAGridMap) (c : FCellRef) :
    OccupancyMapVisibilityCell Grid LK P V c
      = if Marks Grid LK P c then V.SetValue c 1 else V := by
  by_cases hm : Marks Grid LK P c
  · rw [if_pos hm]
    unfold Marks cellEnd at hm
    unfold OccupancyMapVisibilityCell
    dsimp only
    rcases hm with ⟨h1, ⟨h5, h3, h4⟩ | h2⟩
    · simp [h1, h3, h4, h5]
    · simp [h1, h2]
  · rw [if_neg hm]
    unfold Marks cellEnd at hm
    unfold OccupancyMapVisibilityCell
    dsimp only
    split
    · rename_i hcond
      split
      · rename_i hhit
        exfalso
        apply hm
        simp only [Bool.or_eq_true, Bool.and_eq_true, decide_eq_true_eq] at hcond
        simp only [Bool.not_eq_true', ] at hhit
        refine ⟨hhit, ?_⟩
        rcases hcond with ⟨⟨h5, h3⟩, h4⟩ | h2
        · exact Or.inl ⟨h5, h3, h4⟩
        · exact Or.inr h2
      · rfl
    · rfl

theorem OccupancyMapVisibility_row (Grid : AGAGridActor) (LK : FVector3)
    (P : UGAPerceptionComponent) (b : FGridBox) (V : FGAGridMap) :
    (b.cells.foldl (OccupancyMapVisibilityCell Grid LK P) V).GridBounds = V.GridBounds ∧
      (∀ x, x ∉ b.cells →
        (b.cells.foldl (OccupancyMapVisibilityCell Grid LK P) V).Data x = V.Data x) ∧
      (∀ x ∈ b.cells, V.GridBounds.IsValidCell x = true →
        (b.cells.foldl (OccupancyMapVisibilityCell Grid LK P) V).Data x
          = if Marks Grid LK P x then 1 else V.Data x) :=
  foldl_pointwise (OccupancyMapVisibilityCell Grid LK P)
    (fun c v => if Marks Grid LK P c then 1 else v)
    (fun g c => by rw [OccupancyMapVisibilityCell_eq]; split <;> simp)
    (fun g c x hx => by
      rw [OccupancyMapVisibilityCell_eq]
      split
      · exact SetValue_Data_ne _ _ _ _ hx
      · rfl)
    (fun g c hv => by
      rw [OccupancyMapVisibilityCell_eq]
      dsimp only
      by_cases h : Marks Grid LK P c
      · rw [if_pos h, if_pos h]
        exact SetValue_Data_self _ _ _ hv
      · rw [if_neg h, if_neg h])
    _ (nodup_cells b) V

theorem OccupancyMapVisibility_fold (Grid : AGAGridActor) (LK : FVector3) (b : FGridBox)
    (Ps : List UGAPerceptionComponent) (V : FGAGridMap) (c : FCellRef) (hc : c ∈ b.cells)
    (hv : V.GridBounds.IsValidCell c = true) :
    (Ps.foldl (fun W P => b.cells.foldl (OccupancyMapVisibilityCell Grid LK P) W) V).Data c
      = if ∃ P ∈ Ps, Marks Grid LK P c then 1 else V.Data c := by
  induction Ps generalizing V with
  | nil => simp
  | cons P Ps ih =>
    obtain ⟨h1, _, h3⟩ := OccupancyMapVisibility_row Grid LK P b V
    rw [List.foldl_cons, ih _ (by rw [h1]; exact hv), h3 c hc hv]
    by_cases hPs : ∃ Q ∈ Ps, Marks Grid LK Q c
    · obtain ⟨Q, hQ, hm⟩ := hPs
      rw [if_pos ⟨Q, hQ, hm⟩, if_pos ⟨Q, List.mem_cons_of_mem _ hQ, hm⟩]
    · rw [if_neg hPs]
      by_cases hP : Marks Grid LK P c
      · rw [if_pos hP, if_pos ⟨P, List.mem_cons_self _ _, hP⟩]
      · rw [if_neg hP, if_neg]
        rintro ⟨Q, hQ, hm⟩
        rcases List.mem_cons.1 hQ with rfl | hQ
        · exact hP hm
        · exact hPs ⟨Q, hQ, hm⟩

theorem OccupancyMapVisibility_Data (Grid : AGAGridActor) (OccupancyMap : FGAGridMap)
    (LK : FVector3) (Ps : List UGAPerceptionComponent) (c : FCellRef)
    (hc : c ∈ OccupancyMap.GridBounds.cells) (hg : Grid.GridBounds.IsValidCell c = true) :
    (OccupancyMapVisibility Grid OccupancyMap LK Ps).Data c
      = if ∃ P ∈ Ps, Marks Grid LK P c then 1 else 0 :=
  OccupancyMapVisibility_fold Grid LK OccupancyMap.GridBounds Ps (FGAGridMap.ofGrid Grid 0) c hc hg

/-- C19, evaluated with an observer far from the last known position: on a grid of
two cells with the last known position at the centre `(50, 50, 0)` of the cell
`(0,0)`, that cell is within 200 units (at distance 0) of the last known
position, and with one observer standing at `(1000, 50, 0)` with vision range
100 and no line trace blocked, the visibility map holds 0 at the cell. -/
theorem OccupancyMapVisibility_near_cell_not_marked :
    IsWithinDistance
        ⟨((sampleGrid 2 1 []).GetCellPosition ⟨0, 0⟩).X,
          ((sampleGrid 2 1 []).GetCellPosition ⟨0, 0⟩).Y, 0⟩ ⟨50, 50, 0⟩ 200 = true ∧
      (OccupancyMapVisibility (sampleGrid 2 1 []) (sampleTwoCells 1 0) ⟨50, 50, 0⟩
        [sampleObserver ⟨1000, 50, 0⟩]).Data ⟨0, 0⟩ = 0 := by
  constructor
  · simp only [IsWithinDistance, DistSquared, sampleGrid, decide_eq_true_eq]
    norm_num
  · rw [OccupancyMapVisibility_Data _ _ _ _ _ (by simp only [sampleTwoCells, sample_cells]; simp)
      (by decide), if_neg]
    rintro ⟨P, hP, hm⟩
    rw [List.mem_singleton] at hP
    subst hP
    rcases hm.2 with ⟨_, _, h⟩ | h
    · revert h
      simp only [IsWithinDistance, DistSquared, sampleObserver, cellEnd, sampleGrid,
        decide_eq_true_eq]
      norm_num
    · revert h
      simp only [IsWithinDistance, DistSquared, sampleObserver, decide_eq_true_eq]
      norm_num

/-- C19 as the code has it: in the visibility map built by `OccupancyMapUpdate`, a
cell of the window that lies in the grid is marked visible (1.0) exactly when
some observer has an unobstructed line trace to it and either the cell is
traversable, in that observer's vision cone and within its vision range, or
that observer itself stands within 200 units of the last known position; every
other such cell holds 0.  The distance of the cell to the last known position
plays no part. -/
theorem OccupancyMapVisibility_marked_iff (Grid : AGAGridActor) (OccupancyMap : FGAGridMap)
    (LastKnownPosition : FVector3) (PerceptionComponents : List UGAPerceptionComponent)
    (c : FCellRef) (hc : c ∈ OccupancyMap.GridBounds.cells)
    (hg : Grid.GridBounds.IsValidCell c = true) :
    ((OccupancyMapVisibility Grid OccupancyMap LastKnownPosition PerceptionComponents).Data c = 1
        ↔ ∃ P ∈ PerceptionComponents,
          P.LineTraceSingleByChannel P.Start (cellEnd Grid P c) = false ∧
            ((Grid.GetCellData c = ECellData.CellDataTraversable ∧
                P.IsWithinVisionAngle ((cellEnd Grid P c).sub P.Start) = true ∧
                DistSquared P.Start (cellEnd Grid P c) ≤ P.VisionDistance * P.VisionDistance) ∨
              DistSquared P.Start LastKnownPosition ≤ 200 * 200)) ∧
      ((OccupancyMapVisibility Grid OccupancyMap LastKnownPosition PerceptionComponents).Data c = 1
        ∨ (OccupancyMapVisibility Grid OccupancyMap LastKnownPosition
            PerceptionComponents).Data c = 0) := by
  rw [OccupancyMapVisibility_Data Grid OccupancyMap LastKnownPosition PerceptionComponents c hc hg]
  have hiff : (∃ P ∈ PerceptionComponents, Marks Grid LastKnownPosition P c) ↔
      ∃ P ∈ PerceptionComponents,
        P.LineTraceSingleByChannel P.Start (cellEnd Grid P c) = false ∧
          ((Grid.GetCellData c = ECellData.CellDataTraversable ∧
              P.IsWithinVisionAngle ((cellEnd Grid P c).sub P.Start) = true ∧
              DistSquared P.Start (cellEnd Grid P c) ≤ P.VisionDistance * P.VisionDistance) ∨
            DistSquared P.Start LastKnownPosition ≤ 200 * 200) := by
    simp only [Marks, IsWithinDistance, decide_eq_true_eq]
  rw [← hiff]
  by_cases h : ∃ P ∈ PerceptionComponents, Marks Grid LastKnownPosition P c
  · rw [if_pos h]
    exact ⟨⟨fun _ => h, fun _ => rfl⟩, Or.inl rfl⟩
  · rw [if_neg h]
    exact ⟨⟨fun h0 => absurd h0 (by norm_num), fun h1 => absurd h1 h⟩, Or.inr rfl⟩

theorem OccupancyMapVisibility_marked_iff_witness :
    (sampleTwoCells 1 0).GridBounds.IsValidCell ⟨1, 0⟩ = true ∧
      (OccupancyMapVisibility (sampleGrid 2 1 [⟨1, 0⟩]) (sampleTwoCells 1 0) ⟨50, 50, 0⟩
        [sampleObserver ⟨50, 50, 0⟩]).Data ⟨1, 0⟩ = 1 :=
  ⟨by decide,
    ((OccupancyMapVisibility_marked_iff (sampleGrid 2 1 [⟨1, 0⟩]) (sampleTwoCells 1 0)
      ⟨50, 50, 0⟩ [sampleObserver ⟨50, 50, 0⟩] ⟨1, 0⟩
      (by simp only [sampleTwoCells, sample_cells]; simp) (by decide)).1).2
      ⟨sampleObserver ⟨50, 50, 0⟩, List.mem_singleton.2 rfl, rfl,
        Or.inr (by simp only [DistSquared, sampleObserver]; norm_num)⟩⟩

/-! ## The highest-likelihood cell of the occupancy update -/

theorem cells_pairwise (b : FGridBox) : b.cells.Pairwise RowMajorBefore := by
  unfold FGridBox.cells
  rw [List.pairwise_flatMap]
  refine ⟨fun j _ => ?_, ?_⟩
  · rw [List.pairwise_map]
    refine (List.pairwise_lt_range _).imp ?_
    intro i i' h
    refine Or.inr ⟨rfl, ?_⟩
    show b.MinX + (i : Int) < b.MinX + (i' : Int)
    omega
  · refine (List.pairwise_lt_range _).imp ?_
    intro j j' h x hx y hy
    rw [List.mem_map] at hx hy
    obtain ⟨i, _, rfl⟩ := hx
    obtain ⟨i', _, rfl⟩ := hy
    refine Or.inl ?_
    show b.MinY + (j : Int) < b.MinY + (j' : Int)
    omega

theorem maxScan_congr (Grid : AGAGridActor) (f g : FCellRef → ℚ) (l : List FCellRef)
    (h : ∀ c ∈ l, f c = g c) (r : ℚ × FCellRef) :
    l.foldl (maxScan Grid f) r = l.foldl (maxScan Grid g) r := by
  induction l generalizing r with
  | nil => rfl
  | cons c l ih =>
    rw [List.foldl_cons, List.foldl_cons, ih (fun x hx => h x (List.mem_cons_of_mem _ hx))]
    unfold maxScan
    rw [h c (List.mem_cons_self _ _)]

theorem maxScan_first (Grid : AGAGridActor) (f : FCellRef → ℚ) (l : List FCellRef)
    (r : ℚ × FCellRef) :
    (l.foldl (maxScan Grid f) r = r ∧
        ∀ c ∈ l, Grid.GetCellData c = ECellData.CellDataTraversable → f c ≤ r.1) ∨
      ∃ l1 l2, l = l1 ++ (l.foldl (maxScan Grid f) r).2 :: l2 ∧
        Grid.GetCellData (l.foldl (maxScan Grid f) r).2 = ECellData.CellDataTraversable ∧
        (l.foldl (maxScan Grid f) r).1 = f (l.foldl (maxScan Grid f) r).2 ∧
        r.1 < (l.foldl (maxScan Grid f) r).1 ∧
        (∀ c ∈ l1, Grid.GetCellData c = ECellData.CellDataTraversable →
          f c < (l.foldl (maxScan Grid f) r).1) ∧
        (∀ c ∈ l2, Grid.GetCellData c = ECellData.CellDataTraversable →
          f c ≤ (l.foldl (maxScan Grid f) r).1) := by
  induction l generalizing r with
  | nil => exact Or.inl ⟨rfl, fun c hc => absurd hc (List.not_mem_nil c)⟩
  | cons c l ih =>
    rw [List.foldl_cons]
    by_cases h : Grid.GetCellData c = ECellData.CellDataTraversable ∧ f c > r.1
    · have hstep : maxScan Grid f r c = (f c, c) := by
        unfold maxScan
        rw [if_pos h]
      rw [hstep]
      rcases ih (f c, c) with ⟨hq, hle⟩ | ⟨l1, l2, hl, ht, hv, hlt, h1, h2⟩
      · refine Or.inr ⟨[], l, ?_, ?_, ?_, ?_, ?_, ?_⟩
        · rw [hq]
          rfl
        · rw [hq]
          exact h.1
        · rw [hq]
        · rw [hq]
          exact h.2
        · intro x hx
          exact absurd hx (List.not_mem_nil x)
        · rw [hq]
          exact hle
      · refine Or.inr ⟨c :: l1, l2, ?_, ht, hv, lt_trans h.2 hlt, ?_, h2⟩
        · rw [List.cons_append, ← hl]
        · intro x hx hxt
          rcases List.mem_cons.1 hx with rfl | hx
          · exact hlt
          · exact h1 x hx hxt
    · have hstep : maxScan Grid f r c = r := by
        unfold maxScan
        rw [if_neg h]
      have hc : Grid.GetCellData c = ECellData.CellDataTraversable → f c ≤ r.1 :=
        fun ht => not_lt.1 fun hgt => h ⟨ht, hgt⟩
      rw [hstep]
      rcases ih r with ⟨hq, hle⟩ | ⟨l1, l2, hl, ht, hv, hlt, h1, h2⟩
      · refine Or.inl ⟨hq, ?_⟩
        intro x hx hxt
        rcases List.mem_cons.1 hx with rfl | hx
        · exact hc hxt
        · exact hle x hx hxt
      · refine Or.inr ⟨c :: l1, l2, ?_, ht, hv, hlt, ?_, h2⟩
        · rw [List.cons_append, ← hl]
        · intro x hx hxt
          rcases List.mem_cons.1 hx with rfl | hx
          · exact lt_of_le_of_lt (hc hxt) hlt
          · exact h1 x hx hxt

theorem OccupancyMapNorm_scan (Grid : AGAGridActor) (S : ℚ) (hS : S ≠ 0)
    (l : List FCellRef) (hl : l.Nodup) (s : NormState)
    (hv : ∀ c ∈ l, s.OccupancyMap.GridBounds.IsValidCell c = true) :
    ∃ n, l.foldlM (OccupancyMapNormCell Grid S) s = some n ∧
      (n.maxVal, n.maxCell)
        = l.foldl (maxScan Grid fun c => s.OccupancyMap.Data c / S) (s.maxVal, s.maxCell) := by
  induction l generalizing s with
  | nil => exact ⟨s, rfl, rfl⟩
  | cons c l ih =>
    rw [List.nodup_cons] at hl
    have hvc := hv c (List.mem_cons_self _ _)
    rw [List.foldlM_cons, List.foldl_cons]
    by_cases ht : Grid.GetCellData c = ECellData.CellDataTraversable
    · have hcongr : ∀ (mv : ℚ) (mc : FCellRef),
          l.foldl (maxScan Grid fun x =>
              (s.OccupancyMap.SetValue c (s.OccupancyMap.Data c / S)).Data x / S) (mv, mc)
            = l.foldl (maxScan Grid fun x => s.OccupancyMap.Data x / S) (mv, mc) := by
        intro mv mc
        refine maxScan_congr Grid _ _ l (fun x hx => ?_) _
        have hxc : x ≠ c := fun h => hl.1 (h ▸ hx)
        show (s.OccupancyMap.SetValue c (s.OccupancyMap.Data c / S)).Data x / S = _
        rw [SetValue_Data_ne _ _ _ _ hxc]
      by_cases hgt : s.OccupancyMap.Data c / S > s.maxVal
      · obtain ⟨n, hn1, hn2⟩ := ih hl.2
          ⟨s.OccupancyMap.SetValue c (s.OccupancyMap.Data c / S),
            s.OccupancyMap.Data c / S, c⟩
          (fun x hx => by
            rw [SetValue_GridBounds]
            exact hv x (List.mem_cons_of_mem _ hx))
        refine ⟨n, ?_, ?_⟩
        · simp only [OccupancyMapNormCell, if_pos ht, fdiv, if_neg hS, Option.map_some',
            GetValue_valid _ _ _ hvc, if_pos hgt, Option.bind_eq_bind, Option.some_bind]
          exact hn1
        · rw [hn2, hcongr]
          unfold maxScan
          rw [if_pos ⟨ht, hgt⟩]
      · obtain ⟨n, hn1, hn2⟩ := ih hl.2
          ⟨s.OccupancyMap.SetValue c (s.OccupancyMap.Data c / S), s.maxVal, s.maxCell⟩
          (fun x hx => by
            rw [SetValue_GridBounds]
            exact hv x (List.mem_cons_of_mem _ hx))
        refine ⟨n, ?_, ?_⟩
        · simp only [OccupancyMapNormCell, if_pos ht, fdiv, if_neg hS, Option.map_some',
            GetValue_valid _ _ _ hvc, if_neg hgt, Option.bind_eq_bind, Option.some_bind]
          exact hn1
        · rw [hn2, hcongr]
          unfold maxScan
          rw [if_neg (fun h => hgt h.2)]
    · obtain ⟨n, hn1, hn2⟩ := ih hl.2 s (fun x hx => hv x (List.mem_cons_of_mem _ hx))
      refine ⟨n, ?_, ?_⟩
      · simp only [OccupancyMapNormCell, if_neg ht, Option.bind_eq_bind, Option.some_bind]
        exact hn1
      · rw [hn2]
        unfold maxScan
        rw [if_neg (fun h => ht h.1)]

theorem RowMajorBefore_asymm (a c : FCellRef) (h : RowMajorBefore a c) :
    ¬RowMajorBefore c a := by
  unfold RowMajorBefore at h ⊢
  omega

theorem OccupancyMapClear_sum_pos (VisibilityMap OccupancyMap : FGAGridMap) (c0 : FCellRef)
    (hb : VisibilityMap.GridBounds = OccupancyMap.GridBounds)
    (hnn : ∀ c ∈ OccupancyMap.GridBounds.cells, 0 ≤ OccupancyMap.Data c)
    (hc0 : c0 ∈ OccupancyMap.GridBounds.cells) (hv0 : VisibilityMap.Data c0 ≠ 1)
    (hp0 : 0 < OccupancyMap.Data c0) :
    0 < (OccupancyMapClear VisibilityMap OccupancyMap).oMapSum := by
  rw [OccupancyMapClear_sum VisibilityMap OccupancyMap hb]
  have hle : (if VisibilityMap.Data c0 = 1 then 0 else OccupancyMap.Data c0)
      ≤ (OccupancyMap.GridBounds.cells.map fun c =>
          if VisibilityMap.Data c = 1 then 0 else OccupancyMap.Data c).sum := by
    refine List.single_le_sum ?_ _ (List.mem_map.2 ⟨c0, hc0, rfl⟩)
    intro x hx
    obtain ⟨c, hc, rfl⟩ := List.mem_map.1 hx
    split
    · exact le_refl _
    · exact hnn c hc
  rw [if_neg hv0] at hle
  exact lt_of_lt_of_le hp0 hle

/-- C20: after `OccupancyMapUpdate` on a map with bounds equal to the visibility
map's, beliefs at least 0 and some traversable cell of the window that is not
visible and holds positive belief, the update returns a map and a position, and
the position is the world position of a traversable cell of the window whose
renormalised belief is at least that of every traversable cell of the window and
strictly larger than that of every traversable cell before it in the scan order
(`Y` outer, `X` inner). -/
theorem OccupancyMapUpdate_position_is_first_max (Grid : AGAGridActor)
    (VisibilityMap OccupancyMap : FGAGridMap) (maxCell c0 : FCellRef)
    (hb : VisibilityMap.GridBounds = OccupancyMap.GridBounds)
    (hnn : ∀ c ∈ OccupancyMap.GridBounds.cells, 0 ≤ OccupancyMap.Data c)
    (hc0 : c0 ∈ OccupancyMap.GridBounds.cells)
    (ht0 : Grid.GetCellData c0 = ECellData.CellDataTraversable)
    (hv0 : VisibilityMap.Data c0 ≠ 1) (hp0 : 0 < OccupancyMap.Data c0) :
    ∃ m p cm, OccupancyMapUpdate Grid VisibilityMap OccupancyMap maxCell = some (m, p) ∧
      p = Grid.GetCellPosition cm ∧ cm ∈ OccupancyMap.GridBounds.cells ∧
      Grid.GetCellData cm = ECellData.CellDataTraversable ∧
      (∀ c ∈ OccupancyMap.GridBounds.cells,
        Grid.GetCellData c = ECellData.CellDataTraversable → m.Data c ≤ m.Data cm) ∧
      (∀ c ∈ OccupancyMap.GridBounds.cells,
        Grid.GetCellData c = ECellData.CellDataTraversable →
        (c.Y < cm.Y ∨ (c.Y = cm.Y ∧ c.X < cm.X)) → m.Data c < m.Data cm) := by
  have hS := OccupancyMapClear_sum_pos VisibilityMap OccupancyMap c0 hb hnn hc0 hv0 hp0
  obtain ⟨hcb, hcd⟩ := OccupancyMapClear_Data VisibilityMap OccupancyMap hb
  obtain ⟨m, p, hup, _, hmd⟩ :=
    OccupancyMapUpdate_Data Grid VisibilityMap OccupancyMap maxCell hb (ne_of_gt hS)
  obtain ⟨n, hn1, hn2⟩ := OccupancyMapNorm_scan Grid _ (ne_of_gt hS)
    (OccupancyMapClear VisibilityMap OccupancyMap).OccupancyMap.GridBounds.cells
    (nodup_cells _) ⟨(OccupancyMapClear VisibilityMap OccupancyMap).OccupancyMap, 0, maxCell⟩
    (fun c hc => (mem_cells _ c).1 hc)
  have hp : p = Grid.GetCellPosition n.maxCell := by
    unfold OccupancyMapUpdate at hup
    simp only [hn1, Option.map_some', Option.some.injEq, Prod.mk.injEq] at hup
    exact hup.2.symm
  have hf : ∀ c ∈ OccupancyMap.GridBounds.cells,
      Grid.GetCellData c = ECellData.CellDataTraversable →
      m.Data c = (OccupancyMapClear VisibilityMap OccupancyMap).OccupancyMap.Data c
        / (OccupancyMapClear VisibilityMap OccupancyMap).oMapSum := by
    intro c hc ht
    rw [hmd c hc, if_pos ht, hcd c hc]
  have hq := maxScan_first Grid
    (fun c => (OccupancyMapClear VisibilityMap OccupancyMap).OccupancyMap.Data c
      / (OccupancyMapClear VisibilityMap OccupancyMap).oMapSum)
    (OccupancyMapClear VisibilityMap OccupancyMap).OccupancyMap.GridBounds.cells (0, maxCell)
  rw [← hn2, hcb] at hq
  rcases hq with ⟨_, hle⟩ | ⟨l1, l2, hl, ht, hv, _, h1, h2⟩
  · exfalso
    have h0 := hle c0 hc0 ht0
    rw [← hf c0 hc0 ht0, hmd c0 hc0, if_pos ht0, if_neg hv0] at h0
    exact absurd (div_pos hp0 hS) (not_lt.2 h0)
  · have hmem : n.maxCell ∈ OccupancyMap.GridBounds.cells := by
      rw [hl]
      exact List.mem_append_right _ (List.mem_cons_self _ _)
    have hcm : m.Data n.maxCell = n.maxVal := by
      rw [hf _ hmem ht]
      exact hv.symm
    have hpw := cells_pairwise OccupancyMap.GridBounds
    rw [hl] at hpw
    refine ⟨m, p, n.maxCell, hup, hp, hmem, ht, ?_, ?_⟩
    · intro c hc htc
      rw [hl] at hc
      rw [hcm, hf c (by rw [hl]; exact hc) htc]
      rcases List.mem_append.1 hc with hc | hc
      · exact le_of_lt (h1 c hc htc)
      · rcases List.mem_cons.1 hc with rfl | hc
        · exact le_of_eq hv.symm
        · exact h2 c hc htc
    · intro c hc htc hbefore
      rw [hl] at hc
      rw [hcm, hf c (by rw [hl]; exact hc) htc]
      rcases List.mem_append.1 hc with hc | hc
      · exact h1 c hc htc
      · exfalso
        rcases List.mem_cons.1 hc with rfl | hc
        · exact RowMajorBefore_asymm _ _ hbefore hbefore
        · exact RowMajorBefore_asymm _ _ hbefore
            ((List.pairwise_cons.1 (List.pairwise_append.1 hpw).2.1).1 c hc)

theorem OccupancyMapUpdate_position_is_first_max_witness :
    ∃ m p cm, OccupancyMapUpdate (sampleGrid 2 1 []) (sampleTwoCells 0 0)
        (sampleTwoCells (1 / 4) (3 / 4)) ⟨0, 0⟩ = some (m, p) ∧
      p = (sampleGrid 2 1 []).GetCellPosition cm ∧
      cm ∈ (sampleTwoCells (1 / 4) (3 / 4)).GridBounds.cells ∧
      (sampleGrid 2 1 []).GetCellData cm = ECellData.CellDataTraversable ∧
      (∀ c ∈ (sampleTwoCells (1 / 4) (3 / 4)).GridBounds.cells,
        (sampleGrid 2 1 []).GetCellData c = ECellData.CellDataTraversable →
        m.Data c ≤ m.Data cm) ∧
      (∀ c ∈ (sampleTwoCells (1 / 4) (3 / 4)).GridBounds.cells,
        (sampleGrid 2 1 []).GetCellData c = ECellData.CellDataTraversable →
        (c.Y < cm.Y ∨ (c.Y = cm.Y ∧ c.X < cm.X)) → m.Data c < m.Data cm) :=
  OccupancyMapUpdate_position_is_first_max (sampleGrid 2 1 []) (sampleTwoCells 0 0)
    (sampleTwoCells (1 / 4) (3 / 4)) ⟨0, 0⟩ ⟨0, 0⟩ rfl
    (by
      intro c _
      simp only [sampleTwoCells]
      split <;> norm_num)
    (by simp only [sampleTwoCells, sample_cells]; simp)
    (by decide)
    (by simp only [sampleTwoCells]; norm_num)
    (by simp only [sampleTwoCells]; norm_num)

/-! ## The diagonal branch of the diffusion -/

theorem OccupancyMapDiffuseCell_orthogonal (Grid : AGAGridActor) :
    OccupancyMapDiffuseCell Grid = OccupancyMapDiffuseCellOrthogonal Grid := by
  funext o c
  unfold OccupancyMapDiffuseCell OccupancyMapDiffuseCellOrthogonal
  dsimp only
  split
  · rfl
  · rw [OccupancyMapDiffuseDiag_fold]

/-- C21: the diagonal branch of the diffusion sweep writes back the value it has
just read, so each pass of it, and the whole loop over `diag`, returns the map
unchanged; for every occupancy map and grid the sweep and the result of
`OccupancyMapDiffuse` are those of the same procedure restricted to the four
orthogonal directions. -/
theorem OccupancyMapDiffuse_diagonal_noop (Grid : AGAGridActor) (OccupancyMap : FGAGridMap) :
    (∀ (flags : Bool) (X Y : Int) (curProb : ℚ) (o : FGAGridMap) (d : Int × Int),
        OccupancyMapDiffuseDiag flags X Y curProb o d = o) ∧
      OccupancyMapDiffuseSweep Grid OccupancyMap
        = OccupancyMap.GridBounds.cells.foldl (OccupancyMapDiffuseCellOrthogonal Grid)
            OccupancyMap ∧
      OccupancyMapDiffuse Grid OccupancyMap = OccupancyMapDiffuseOrthogonal Grid OccupancyMap := by
  refine ⟨OccupancyMapDiffuseDiag_eq, ?_, ?_⟩
  · unfold OccupancyMapDiffuseSweep
    rw [OccupancyMapDiffuseCell_orthogonal]
  · unfold OccupancyMapDiffuse OccupancyMapDiffuseOrthogonal OccupancyMapDiffuseSweep
    rw [OccupancyMapDiffuseCell_orthogonal]

/-! ## The raw input of a layer -/

/-- C22: for a traversable cell of the window that lies in the distance map, the raw
input of a layer of kind PathDistance is the distance-map value at the cell, or
0 when that value is `FLT_MAX`, and the raw input of a layer of kind None or
of the occupancy/perception kind is 0; `EvaluateLayer` combines the response
curve of that raw value with the old value of the cell by the layer's
operator. -/
theorem EvaluateLayer_raw_input (W : SpatialQueries) (Grid : AGAGridActor)
    (Layer : FFunctionLayer) (GridMap DistanceMap : FGAGridMap) (c : FCellRef)
    (hc : c ∈ GridMap.GridBounds.cells)
    (ht : Grid.GetCellData c = ECellData.CellDataTraversable)
    (hd : DistanceMap.GridBounds.IsValidCell c = true) :
    (Layer.Input = ESpatialInput.SI_PathDistance →
        EvaluateLayerInput W Layer DistanceMap c
          = (if DistanceMap.Data c = FLT_MAX then 0 else DistanceMap.Data c) ∧
        (EvaluateLayer W Grid Layer GridMap DistanceMap).Data c
          = match Layer.Op with
            | ESpatialOp.SO_None => 0
            | ESpatialOp.SO_Add => GridMap.Data c + Layer.ResponseCurve
                (if DistanceMap.Data c = FLT_MAX then 0 else DistanceMap.Data c)
            | ESpatialOp.SO_Multiply => GridMap.Data c * Layer.ResponseCurve
                (if DistanceMap.Data c = FLT_MAX then 0 else DistanceMap.Data c)) ∧
      (Layer.Input = ESpatialInput.SI_None ∨ Layer.Input = ESpatialInput.SI_PERCEP →
        EvaluateLayerInput W Layer DistanceMap c = 0 ∧
        (EvaluateLayer W Grid Layer GridMap DistanceMap).Data c
          = match Layer.Op with
            | ESpatialOp.SO_None => 0
            | ESpatialOp.SO_Add => GridMap.Data c + Layer.ResponseCurve 0
            | ESpatialOp.SO_Multiply => GridMap.Data c * Layer.ResponseCurve 0) := by
  have hpath : Layer.Input = ESpatialInput.SI_PathDistance →
      EvaluateLayerInput W Layer DistanceMap c
        = (if DistanceMap.Data c = FLT_MAX then 0 else DistanceMap.Data c) := by
    intro hi
    unfold EvaluateLayerInput
    rw [hi]
    dsimp only
    rw [GetValue_valid _ _ _ hd]
    by_cases h : DistanceMap.Data c = FLT_MAX
    · rw [if_neg (not_not.2 h), if_pos h]
    · rw [if_pos h, if_neg h]
  have hzero : Layer.Input = ESpatialInput.SI_None ∨ Layer.Input = ESpatialInput.SI_PERCEP →
      EvaluateLayerInput W Layer DistanceMap c = 0 := by
    intro hi
    unfold EvaluateLayerInput
    rcases hi with hi | hi <;> rw [hi]
  refine ⟨fun hi => ⟨hpath hi, ?_⟩, fun hi => ⟨hzero hi, ?_⟩⟩
  · rw [EvaluateLayer_Data W Grid Layer GridMap DistanceMap c hc, EvaluateLayerValue,
      if_pos ht, hpath hi]
  · rw [EvaluateLayer_Data W Grid Layer GridMap DistanceMap c hc, EvaluateLayerValue,
      if_pos ht, hzero hi]

theorem EvaluateLayer_raw_input_witness :
    EvaluateLayerInput ⟨fun _ => 7, fun _ => false⟩
        ⟨ESpatialInput.SI_PathDistance, fun v => v, ESpatialOp.SO_Add⟩ sampleBlockedField ⟨1, 0⟩
      = (if sampleBlockedField.Data ⟨1, 0⟩ = FLT_MAX then 0 else sampleBlockedField.Data ⟨1, 0⟩) :=
  ((EvaluateLayer_raw_input ⟨fun _ => 7, fun _ => false⟩ (sampleGrid 3 1 [])
    ⟨ESpatialInput.SI_PathDistance, fun v => v, ESpatialOp.SO_Add⟩
    (FGAGridMap.ofBox ⟨0, 0, 3, 1⟩ 0) sampleBlockedField ⟨1, 0⟩
    ((mem_cells _ _).2 (by decide)) (by decide) (by decide)).1 rfl).1

/-! ## AStar next to the goal -/

theorem sampleNear_start :
    (sampleGrid 3 1 []).GetCellRef (FVector3.xy ⟨150, 50, 0⟩) = ⟨1, 0⟩ := by
  simp only [sampleGrid, FVector3.xy, FCellRef.mk.injEq]
  constructor <;> norm_num [Int.floor_eq_iff]

theorem sampleNear_search :
    AStarSearch (sampleAStarQueue samplePathComponent.DestinationCell) (sampleGrid 3 1 [])
        samplePathComponent.ArrivalDistance (FVector3.xy ⟨150, 50, 0⟩)
      = some (some (⟨1, 0⟩, [])) := by
  have hg : AStarGoalTest (sampleGrid 3 1 []) ⟨2, 0⟩ 100 ⟨1, 0⟩ = true := by
    simp only [AStarGoalTest, sampleGrid, decide_eq_true_eq]
    norm_num
  unfold AStarSearch
  dsimp only
  rw [sampleNear_start]
  unfold AStarLoop
  simp only [sampleAStarQueue, listQueue, popMin, samplePathComponent]
  rw [if_pos hg]

/-- C23: in `AStar`, when the search leaves its loop with a cell that passes the goal
test and the path accumulated to reach it has fewer than 2 cells, the call
returns without the result of `getLineTrace` and with `Steps` holding the one
aim point made of the pawn's position and the pawn's cell. -/
theorem AStar_short_path_aims_at_pawn
    (Q : (dest : FCellRef) → PriorityQueue (FCellRef × List FCellRef) (CompareCells dest))
    (Grid : AGAGridActor) (NewStep : FPathStep) (StartPoint : FVector3)
    (C : UGAPathComponent) (cell : FCellRef) (curPath : List FCellRef)
    (hs : AStarSearch (Q C.DestinationCell) Grid C.ArrivalDistance StartPoint.xy
      = some (some (cell, curPath)))
    (hl : curPath.length < 2) :
    AStar Q Grid NewStep StartPoint C
      = some ({ C with Steps := [⟨StartPoint.xy, Grid.GetCellRef StartPoint.xy⟩] },
          EGAPathState.GAPS_Active) := by
  unfold AStar
  dsimp only
  rw [hs]
  dsimp only
  rw [if_neg (by omega)]

theorem AStar_short_path_aims_at_pawn_witness :
    AStar sampleAStarQueue (sampleGrid 3 1 []) ⟨⟨0, 0⟩, ⟨0, 0⟩⟩ ⟨150, 50, 0⟩ samplePathComponent
      = some ({ samplePathComponent with
            Steps := [⟨FVector3.xy ⟨150, 50, 0⟩,
              (sampleGrid 3 1 []).GetCellRef (FVector3.xy ⟨150, 50, 0⟩)⟩] },
          EGAPathState.GAPS_Active) :=
  AStar_short_path_aims_at_pawn sampleAStarQueue (sampleGrid 3 1 []) ⟨⟨0, 0⟩, ⟨0, 0⟩⟩
    ⟨150, 50, 0⟩ samplePathComponent ⟨1, 0⟩ [] sampleNear_search (by decide)

/-! ## Running the layers twice -/

theorem EvaluateLayer_bounds (W : SpatialQueries) (Grid : AGAGridActor)
    (Layer : FFunctionLayer) (GridMap DistanceMap : FGAGridMap) :
    (EvaluateLayer W Grid Layer GridMap DistanceMap).GridBounds = GridMap.GridBounds :=
  (foldl_pointwise (EvaluateLayerCell W Grid Layer DistanceMap)
    (EvaluateLayerValue W Grid Layer DistanceMap)
    (EvaluateLayerCell_bounds W Grid Layer DistanceMap)
    (EvaluateLayerCell_ne W Grid Layer DistanceMap)
    (EvaluateLayerCell_self W Grid Layer DistanceMap)
    _ (nodup_cells _) GridMap).1

theorem EvaluateLayers_bounds (W : SpatialQueries) (Grid : AGAGridActor)
    (Layers : List FFunctionLayer) (GridMap DistanceMap : FGAGridMap) :
    (EvaluateLayers W Grid Layers GridMap DistanceMap).GridBounds = GridMap.GridBounds := by
  unfold EvaluateLayers
  induction Layers generalizing GridMap with
  | nil => rfl
  | cons L Ls ih => rw [List.foldl_cons, ih, EvaluateLayer_bounds]

theorem EvaluateLayers_Data (W : SpatialQueries) (Grid : AGAGridActor)
    (Layers : List FFunctionLayer) (GridMap DistanceMap : FGAGridMap) (c : FCellRef)
    (hc : c ∈ GridMap.GridBounds.cells) :
    (EvaluateLayers W Grid Layers GridMap DistanceMap).Data c
      = EvaluateLayersValue W Grid Layers DistanceMap c (GridMap.Data c) := by
  unfold EvaluateLayers EvaluateLayersValue
  induction Layers generalizing GridMap with
  | nil => rfl
  | cons L Ls ih =>
    rw [List.foldl_cons, List.foldl_cons, ih _ (by rw [EvaluateLayer_bounds]; exact hc),
      EvaluateLayer_Data W Grid L GridMap DistanceMap c hc]

theorem EvaluateLayersValue_not_traversable (W : SpatialQueries) (Grid : AGAGridActor)
    (Layers : List FFunctionLayer) (DistanceMap : FGAGridMap) (c : FCellRef) (old : ℚ)
    (ht : Grid.GetCellData c ≠ ECellData.CellDataTraversable) :
    EvaluateLayersValue W Grid Layers DistanceMap c old = old := by
  unfold EvaluateLayersValue
  induction Layers generalizing old with
  | nil => rfl
  | cons L Ls ih => rw [List.foldl_cons, EvaluateLayerValue, if_neg ht, ih]

theorem EvaluateLayersValue_reset (W : SpatialQueries) (Grid : AGAGridActor)
    (Layers : List FFunctionLayer) (DistanceMap : FGAGridMap) (c : FCellRef)
    (ht : Grid.GetCellData c = ECellData.CellDataTraversable)
    (hn : ∃ L ∈ Layers, L.Op = ESpatialOp.SO_None) (v w : ℚ) :
    EvaluateLayersValue W Grid Layers DistanceMap c v
      = EvaluateLayersValue W Grid Layers DistanceMap c w := by
  unfold EvaluateLayersValue
  induction Layers generalizing v w with
  | nil =>
    obtain ⟨L, hL, _⟩ := hn
    exact absurd hL (List.not_mem_nil L)
  | cons L Ls ih =>
    rw [List.foldl_cons, List.foldl_cons]
    by_cases hL : L.Op = ESpatialOp.SO_None
    · have e : ∀ x, EvaluateLayerValue W Grid L DistanceMap c x = 0 := by
        intro x
        rw [EvaluateLayerValue, if_pos ht, hL]
      rw [e v, e w]
    · refine ih ?_ _ _
      obtain ⟨K, hK, hKn⟩ := hn
      rcases List.mem_cons.1 hK with rfl | hK
      · exact absurd hKn hL
      · exact ⟨K, hK, hKn⟩

/-- C24, evaluated with one Add layer: on a grid of two traversable cells, with the
single layer that adds the constant response 1, the first run on the
zero-filled window leaves 1 in the cell `(0,0)` and the second run, on the
window that holds the result of the first, leaves 2 there. -/
theorem EvaluateLayers_second_run_differs :
    (EvaluateLayers ⟨fun _ => 0, fun _ => false⟩ (sampleGrid 2 1 [])
        [⟨ESpatialInput.SI_None, fun _ => 1, ESpatialOp.SO_Add⟩]
        (FGAGridMap.ofBox ⟨0, 0, 2, 1⟩ 0) (FGAGridMap.ofBox ⟨0, 0, 2, 1⟩ FLT_MAX)).Data ⟨0, 0⟩
      = 1 ∧
    (EvaluateLayers ⟨fun _ => 0, fun _ => false⟩ (sampleGrid 2 1 [])
        [⟨ESpatialInput.SI_None, fun _ => 1, ESpatialOp.SO_Add⟩]
        (EvaluateLayers ⟨fun _ => 0, fun _ => false⟩ (sampleGrid 2 1 [])
          [⟨ESpatialInput.SI_None, fun _ => 1, ESpatialOp.SO_Add⟩]
          (FGAGridMap.ofBox ⟨0, 0, 2, 1⟩ 0) (FGAGridMap.ofBox ⟨0, 0, 2, 1⟩ FLT_MAX))
        (FGAGridMap.ofBox ⟨0, 0, 2, 1⟩ FLT_MAX)).Data ⟨0, 0⟩
      = 2 := by
  have ht : (sampleGrid 2 1 []).GetCellData ⟨0, 0⟩ = ECellData.CellDataTraversable := by
    decide
  have hc : (⟨0, 0⟩ : FCellRef) ∈ (FGAGridMap.ofBox ⟨0, 0, 2, 1⟩ 0).GridBounds.cells :=
    (mem_cells _ _).2 (by decide)
  have h1 : (EvaluateLayers ⟨fun _ => 0, fun _ => false⟩ (sampleGrid 2 1 [])
      [⟨ESpatialInput.SI_None, fun _ => 1, ESpatialOp.SO_Add⟩]
      (FGAGridMap.ofBox ⟨0, 0, 2, 1⟩ 0) (FGAGridMap.ofBox ⟨0, 0, 2, 1⟩ FLT_MAX)).Data ⟨0, 0⟩
      = 1 := by
    rw [EvaluateLayers_Data _ _ _ _ _ _ hc]
    simp only [EvaluateLayersValue, List.foldl_cons, List.foldl_nil, EvaluateLayerValue,
      if_pos ht, FGAGridMap.ofBox]
    norm_num
  refine ⟨h1, ?_⟩
  rw [EvaluateLayers_Data _ _ _ _ _ _ (by rw [EvaluateLayers_bounds]; exact hc), h1]
  simp only [EvaluateLayersValue, List.foldl_cons, List.foldl_nil, EvaluateLayerValue,
    if_pos ht]
  norm_num

/-- C24 as the code has it: a run of all layers leaves in every cell of the window
the layers' updates applied in order to the value the cell held, so a second
run on the window that holds the result of the first applies every update
once more to the scores of the first run.  The scores of the second run are
those of the first in every cell that is not traversable, and in every cell
when some layer of the list has the operator None. -/
theorem EvaluateLayers_second_run (W : SpatialQueries) (Grid : AGAGridActor)
    (Layers : List FFunctionLayer) (GridMap DistanceMap : FGAGridMap) :
    (∀ c ∈ GridMap.GridBounds.cells,
        (EvaluateLayers W Grid Layers GridMap DistanceMap).Data c
          = EvaluateLayersValue W Grid Layers DistanceMap c (GridMap.Data c)) ∧
      (∀ c ∈ GridMap.GridBounds.cells,
        (EvaluateLayers W Grid Layers
            (EvaluateLayers W Grid Layers GridMap DistanceMap) DistanceMap).Data c
          = EvaluateLayersValue W Grid Layers DistanceMap c
              ((EvaluateLayers W Grid Layers GridMap DistanceMap).Data c)) ∧
      (∀ c ∈ GridMap.GridBounds.cells,
        Grid.GetCellData c ≠ ECellData.CellDataTraversable →
        (EvaluateLayers W Grid Layers
            (EvaluateLayers W Grid Layers GridMap DistanceMap) DistanceMap).Data c
          = (EvaluateLayers W Grid Layers GridMap DistanceMap).Data c) ∧
      ((∃ L ∈ Layers, L.Op = ESpatialOp.SO_None) →
        ∀ c ∈ GridMap.GridBounds.cells,
          (EvaluateLayers W Grid Layers
              (EvaluateLayers W Grid Layers GridMap DistanceMap) DistanceMap).Data c
            = (EvaluateLayers W Grid Layers GridMap DistanceMap).Data c) := by
  have h2 : ∀ c ∈ GridMap.GridBounds.cells,
      (EvaluateLayers W Grid Layers
          (EvaluateLayers W Grid Layers GridMap DistanceMap) DistanceMap).Data c
        = EvaluateLayersValue W Grid Layers DistanceMap c
            ((EvaluateLayers W Grid Layers GridMap DistanceMap).Data c) :=
    fun c hc => EvaluateLayers_Data W Grid Layers _ DistanceMap c
      (by rw [EvaluateLayers_bounds]; exact hc)
  refine ⟨fun c hc => EvaluateLayers_Data W Grid Layers GridMap DistanceMap c hc, h2,
    fun c hc ht => ?_, fun hn c hc => ?_⟩
  · rw [h2 c hc, EvaluateLayersValue_not_traversable W Grid Layers DistanceMap c _ ht]
  · by_cases ht : Grid.GetCellData c = ECellData.CellDataTraversable
    · rw [h2 c hc, EvaluateLayers_Data W Grid Layers GridMap DistanceMap c hc]
      exact EvaluateLayersValue_reset W Grid Layers DistanceMap c ht hn _ _
    · rw [h2 c hc, EvaluateLayersValue_not_traversable W Grid Layers DistanceMap c _ ht]

/-! ## Dijkstra on a window without obstacles -/

theorem Reach.manhattan_le {Grid : AGAGridActor} {b : FGridBox} {start : FCellRef} {n : Nat}
    {c : FCellRef} (h : Reach Grid b start n c) : manhattan start c ≤ n := by
  induction h with
  | zero => simp [manhattan]
  | @step n u v _ hadj _ ih =>
    obtain ⟨d, hd, rfl⟩ := hadj
    simp only [directions, List.mem_cons, List.mem_singleton, List.not_mem_nil,
      or_false] at hd
    unfold manhattan at ih ⊢
    rcases hd with rfl | rfl | rfl | rfl <;> simp only [FCellRef.offset] <;> omega

theorem reach_manhattan (Grid : AGAGridActor) (b : FGridBox) (start : FCellRef)
    (hs : b.IsValidCell start = true)
    (hfull : ∀ c, b.IsValidCell c = true →
      Grid.GetCellData c = ECellData.CellDataTraversable)
    (k : Nat) (c : FCellRef) (hc : b.IsValidCell c = true) (hk : manhattan start c = k) :
    Reach Grid b start k c := by
  induction k generalizing c with
  | zero =>
    have : c = start := by
      obtain ⟨x, y⟩ := c
      obtain ⟨sx, sy⟩ := start
      unfold manhattan at hk
      simp only at hk
      simp only [FCellRef.mk.injEq]
      omega
    rw [this]
    exact Reach.zero
  | succ k ih =>
    obtain ⟨x, y⟩ := c
    obtain ⟨sx, sy⟩ := start
    unfold manhattan at hk ih
    simp only at hk ih
    simp only [FGridBox.IsValidCell, Bool.and_eq_true, decide_eq_true_eq] at hc hs
    have hw : Walkable Grid b ⟨x, y⟩ := by
      refine ⟨?_, hfull _ ?_⟩ <;>
        simp only [FGridBox.IsValidCell, Bool.and_eq_true, decide_eq_true_eq] <;> exact hc
    by_cases hx1 : sx < x
    · refine Reach.step (ih ⟨x - 1, y⟩ ?_ (by simp only; omega))
        ⟨(1, 0), by simp [directions], by simp [FCellRef.offset]⟩ hw
      simp only [FGridBox.IsValidCell, Bool.and_eq_true, decide_eq_true_eq]
      omega
    · by_cases hx2 : x < sx
      · refine Reach.step (ih ⟨x + 1, y⟩ ?_ (by simp only; omega))
          ⟨(-1, 0), by simp [directions], by simp [FCellRef.offset]⟩ hw
        simp only [FGridBox.IsValidCell, Bool.and_eq_true, decide_eq_true_eq]
        omega
      · by_cases hy1 : sy < y
        · refine Reach.step (ih ⟨x, y - 1⟩ ?_ (by simp only; omega))
            ⟨(0, 1), by simp [directions], by simp [FCellRef.offset]⟩ hw
          simp only [FGridBox.IsValidCell, Bool.and_eq_true, decide_eq_true_eq]
          omega
        · refine Reach.step (ih ⟨x, y + 1⟩ ?_ (by simp only; omega))
            ⟨(0, -1), by simp [directions], by simp [FCellRef.offset]⟩ hw
          simp only [FGridBox.IsValidCell, Bool.and_eq_true, decide_eq_true_eq]
          omega

theorem sampleGrid5_start : (sampleGrid 5 5 []).GetCellRef ⟨50, 50⟩ = ⟨0, 0⟩ := by
  simp only [sampleGrid, FCellRef.mk.injEq]
  constructor <;> norm_num [Int.floor_eq_iff]

/-- C25: on a window all of whose cells are traversable, `Dijkstra` from a source cell
`(sx, sy)` inside the window returns a distance map that holds at every cell
`(x, y)` of the window the Manhattan distance `|x - sx| + |y - sy|`; on the 5x5
grid without obstacles and the source `(0,0)` the distance at `(2,2)` is 4. -/
theorem Dijkstra_manhattan (Q : PriorityQueue (ℚ × FCellRef) PairLess)
    (Grid : AGAGridActor) (StartPoint : FVector) (DistanceMapOut : FGAGridMap)
    (hsrc : DistanceMapOut.GridBounds.IsValidCell (Grid.GetCellRef StartPoint) = true)
    (hfull : ∀ c, DistanceMapOut.GridBounds.IsValidCell c = true →
      Grid.GetCellData c = ECellData.CellDataTraversable) :
    ∃ m, Dijkstra Q Grid StartPoint DistanceMapOut = some m ∧
      m.GridBounds = DistanceMapOut.GridBounds ∧
      ∀ c, DistanceMapOut.GridBounds.IsValidCell c = true →
        m.Data c = ((|c.X - (Grid.GetCellRef StartPoint).X|
          + |c.Y - (Grid.GetCellRef StartPoint).Y| : Int) : ℚ) := by
  obtain ⟨m, hm, hb, hdist, _⟩ := Dijkstra_spec Q Grid StartPoint DistanceMapOut hsrc
  refine ⟨m, hm, hb, fun c hc => ?_⟩
  have hr := reach_manhattan Grid DistanceMapOut.GridBounds (Grid.GetCellRef StartPoint) hsrc
    hfull _ c hc rfl
  rw [hdist c (manhattan (Grid.GetCellRef StartPoint) c) ⟨hr, fun n hn => hn.manhattan_le⟩]
  have h : ((manhattan (Grid.GetCellRef StartPoint) c : Nat) : Int)
      = |c.X - (Grid.GetCellRef StartPoint).X| + |c.Y - (Grid.GetCellRef StartPoint).Y| := by
    unfold manhattan
    rw [Nat.cast_add, Int.natCast_natAbs, Int.natCast_natAbs]
  rw [← h, Int.cast_natCast]

theorem Dijkstra_manhattan_witness :
    ∃ m, Dijkstra sampleDijkstraQueue (sampleGrid 5 5 []) ⟨50, 50⟩
        (FGAGridMap.ofBox ⟨0, 0, 5, 5⟩ FLT_MAX) = some m ∧ m.Data ⟨2, 2⟩ = 4 := by
  obtain ⟨m, hm, _, hd⟩ := Dijkstra_manhattan sampleDijkstraQueue (sampleGrid 5 5 []) ⟨50, 50⟩
    (FGAGridMap.ofBox ⟨0, 0, 5, 5⟩ FLT_MAX) (by rw [sampleGrid5_start]; decide)
    (fun c hc => by
      rw [sampleGrid_GetCellData]
      have h : (⟨0, 0, 5, 5⟩ : FGridBox).IsValidCell c = true := hc
      simp only [FGridBox.IsValidCell, Bool.and_eq_true, decide_eq_true_eq] at h
      exact ⟨⟨h.1.1.1, h.1.1.2, h.1.2, h.2⟩, by simp⟩)
  refine ⟨m, hm, ?_⟩
  rw [hd ⟨2, 2⟩ (by decide), sampleGrid5_start]
  norm_num

/-! ## Position choice without a spatial function or without a grid -/

/-- C26, evaluated without a grid: with no spatial function assigned `ChoosePosition`
returns false and leaves the state and the aim points of the path component as
they were, but with a spatial function assigned and no grid actor the call
reaches `Grid->GetCellRef(pawnLocation)` on the null pointer and returns
nothing. -/
theorem ChoosePosition_without_grid_fails (S : StdSort (ℚ × FCellRef) comparePairs)
    (Q : PriorityQueue (ℚ × FCellRef) PairLess) (W : SpatialQueries)
    (CellRect : Option FGridBox) (NewStep : FPathStep) (pawnLocation : FVector)
    (maxCell : FCellRef) (PathfindToPosition : Bool) (State : EGAPathState)
    (Steps : List FPathStep) :
    (∀ Grid, ChoosePosition S Q W none Grid CellRect NewStep pawnLocation maxCell
        PathfindToPosition State Steps = some (false, State, Steps)) ∧
      (∀ Layers, ChoosePosition S Q W (some Layers) none CellRect NewStep pawnLocation maxCell
        PathfindToPosition State Steps = none) ∧
      ChoosePosition sampleSort sampleDijkstraQueue ⟨fun _ => 0, fun _ => false⟩ (some []) none
        (some ⟨0, 0, 2, 1⟩) ⟨⟨0, 0⟩, ⟨0, 0⟩⟩ ⟨50, 50⟩ ⟨0, 0⟩ true EGAPathState.GAPS_None []
        = none :=
  ⟨fun _ => rfl, fun _ => rfl, rfl⟩

/-! ## Awareness -/

/-- C27: the awareness after `UpdateTargetData` is `clamp(old + d, 0, 1)` with
`d = 0.25` when the target is in the vision cone, within the range 1000 and the
line trace hits nothing, and `d = -0.025` otherwise.  It lies in `[0, 1]`; on a
tick with a clear line of sight it is at least the old value when that is at
most 1, and on any other tick it is at most the old value when that is at
least 0, which both hold for every old value that is itself the result of an
update. -/
theorem UpdateTargetData_awareness (Start End : FVector3) (inAngle bHitSomething : Bool)
    (Awareness : ℚ) :
    ((inAngle = true ∧ IsWithinDistance Start End 1000 = true ∧ bHitSomething = false) →
        UpdateTargetData Start End inAngle bHitSomething Awareness
          = stdClamp (Awareness + 1 / 4) 0 1 ∧
        (Awareness ≤ 1 →
          Awareness ≤ UpdateTargetData Start End inAngle bHitSomething Awareness)) ∧
      (¬(inAngle = true ∧ IsWithinDistance Start End 1000 = true ∧ bHitSomething = false) →
        UpdateTargetData Start End inAngle bHitSomething Awareness
          = stdClamp (Awareness - 1 / 40) 0 1 ∧
        (0 ≤ Awareness →
          UpdateTargetData Start End inAngle bHitSomething Awareness ≤ Awareness)) ∧
      0 ≤ UpdateTargetData Start End inAngle bHitSomething Awareness ∧
      UpdateTargetData Start End inAngle bHitSomething Awareness ≤ 1 ∧
      (∀ (Start2 End2 : FVector3) (inAngle2 bHitSomething2 : Bool),
        ((inAngle2 = true ∧ IsWithinDistance Start2 End2 1000 = true ∧ bHitSomething2 = false) →
          UpdateTargetData Start End inAngle bHitSomething Awareness
            ≤ UpdateTargetData Start2 End2 inAngle2 bHitSomething2
                (UpdateTargetData Start End inAngle bHitSomething Awareness)) ∧
        (¬(inAngle2 = true ∧ IsWithinDistance Start2 End2 1000 = true
              ∧ bHitSomething2 = false) →
          UpdateTargetData Start2 End2 inAngle2 bHitSomething2
              (UpdateTargetData Start End inAngle bHitSomething Awareness)
            ≤ UpdateTargetData Start End inAngle bHitSomething Awareness)) := by
  have hclear : ∀ (S E : FVector3) (ia bh : Bool) (a : ℚ),
      (ia = true ∧ IsWithinDistance S E 1000 = true ∧ bh = false) →
      UpdateTargetData S E ia bh a = stdClamp (a + 1 / 4) 0 1 := by
    intro S E ia bh a h
    unfold UpdateTargetData
    simp [h.1, h.2.1, h.2.2]
  have hother : ∀ (S E : FVector3) (ia bh : Bool) (a : ℚ),
      ¬(ia = true ∧ IsWithinDistance S E 1000 = true ∧ bh = false) →
      UpdateTargetData S E ia bh a = stdClamp (a - 1 / 40) 0 1 := by
    intro S E ia bh a h
    unfold UpdateTargetData
    cases ia <;> cases hd : IsWithinDistance S E 1000 <;> cases bh <;> simp [hd] at h ⊢
    ring_nf
  have hlo : ∀ v : ℚ, 0 ≤ stdClamp v 0 1 := by
    intro v
    unfold stdClamp
    split_ifs <;> linarith
  have hhi : ∀ v : ℚ, stdClamp v 0 1 ≤ 1 := by
    intro v
    unfold stdClamp
    split_ifs <;> linarith
  have hup : ∀ a : ℚ, a ≤ 1 → a ≤ stdClamp (a + 1 / 4) 0 1 := by
    intro a ha
    unfold stdClamp
    split_ifs <;> linarith
  have hdown : ∀ a : ℚ, 0 ≤ a → stdClamp (a - 1 / 40) 0 1 ≤ a := by
    intro a ha
    unfold stdClamp
    split_ifs <;> linarith
  have hrange : ∀ (S E : FVector3) (ia bh : Bool) (a : ℚ),
      0 ≤ UpdateTargetData S E ia bh a ∧ UpdateTargetData S E ia bh a ≤ 1 := by
    intro S E ia bh a
    by_cases h : ia = true ∧ IsWithinDistance S E 1000 = true ∧ bh = false
    · rw [hclear S E ia bh a h]
      exact ⟨hlo _, hhi _⟩
    · rw [hother S E ia bh a h]
      exact ⟨hlo _, hhi _⟩
  refine ⟨fun h => ⟨hclear _ _ _ _ _ h, fun ha => ?_⟩, fun h => ⟨hother _ _ _ _ _ h, fun ha => ?_⟩,
    (hrange _ _ _ _ _).1, (hrange _ _ _ _ _).2, fun S2 E2 ia2 bh2 => ⟨fun h => ?_, fun h => ?_⟩⟩
  · rw [hclear _ _ _ _ _ h]
    exact hup _ ha
  · rw [hother _ _ _ _ _ h]
    exact hdown _ ha
  · rw [hclear S2 E2 ia2 bh2 _ h]
    exact hup _ (hrange _ _ _ _ _).2
  · rw [hother S2 E2 ia2 bh2 _ h]
    exact hdown _ (hrange _ _ _ _ _).1

/-! ## The branches of step 4 of the position choice -/

theorem getPositionPath_length (DistanceMap : FGAGridMap) (StartPoint : FVector)
    (dest : FCellRef) (Grid : AGAGridActor) :
    (getPositionPath DistanceMap StartPoint dest Grid).length = 1000 ∨
      ∃ k, k < 1000 ∧
        Nat.iterate (getPositionPathNext DistanceMap Grid) k dest = Grid.GetCellRef StartPoint ∧
        (getPositionPath DistanceMap StartPoint dest Grid).length = k := by
  have hlen : (getPositionPath DistanceMap StartPoint dest Grid).length
      = (getPositionPathLoop DistanceMap Grid (Grid.GetCellRef StartPoint) 1000
          dest []).length := by
    simp [getPositionPath]
  have hcases := getPositionPathLoop_length DistanceMap Grid (Grid.GetCellRef StartPoint)
    1000 dest []
  rw [← hlen] at hcases
  simpa only [List.length_nil, Nat.zero_add] using hcases

theorem getPositionPathNext_adjacent (DistanceMap : FGAGridMap) (Grid : AGAGridActor)
    (cur : FCellRef) :
    getPositionPathNext DistanceMap Grid cur = cur ∨
      Adjacent4 cur (getPositionPathNext DistanceMap Grid cur) := by
  unfold getPositionPathNext
  rcases (getPositionPathNeighbor_fold DistanceMap Grid cur directions (FLT_MAX, cur)).2
    with h | ⟨d, hd, _, h⟩
  · rw [h]
    exact Or.inl rfl
  · rw [h]
    exact Or.inr ⟨d, hd, rfl⟩

theorem getPositionPath_short (DistanceMap : FGAGridMap) (StartPoint : FVector)
    (dest : FCellRef) (Grid : AGAGridActor)
    (h : (getPositionPath DistanceMap StartPoint dest Grid).length ≤ 1) :
    dest = Grid.GetCellRef StartPoint ∨ Adjacent4 dest (Grid.GetCellRef StartPoint) := by
  rcases getPositionPath_length DistanceMap StartPoint dest Grid with h1 | ⟨k, _, hk, h1⟩
  · omega
  · rw [h1] at h
    rcases Nat.le_one_iff_eq_zero_or_eq_one.1 h with rfl | rfl
    · exact Or.inl hk
    · rw [Function.iterate_one] at hk
      rcases getPositionPathNext_adjacent DistanceMap Grid dest with h2 | h2
      · exact Or.inl (h2.symm.trans hk)
      · rw [hk] at h2
        exact Or.inr h2

theorem ChoosePositionGoThere_cases (DistanceMap : FGAGridMap) (StartPoint : FVector)
    (dest : FCellRef) (Grid : AGAGridActor) :
    ((getPositionPath DistanceMap StartPoint dest Grid).length = 1000 →
        ChoosePositionGoThere DistanceMap StartPoint dest Grid
          = (some ⟨Grid.GetCellGridSpacePosition dest, dest⟩, EGAPathState.GAPS_Active)) ∧
      (2 ≤ (getPositionPath DistanceMap StartPoint dest Grid).length →
        (getPositionPath DistanceMap StartPoint dest Grid).length ≤ 999 →
        ∃ moveToTuple,
          getLineTrace2 (getPositionPath DistanceMap StartPoint dest Grid) StartPoint Grid
            = some moveToTuple ∧
          ChoosePositionGoThere DistanceMap StartPoint dest Grid
            = (some ⟨moveToTuple.1, moveToTuple.2⟩, EGAPathState.GAPS_Active)) ∧
      ((getPositionPath DistanceMap StartPoint dest Grid).length ≤ 1 →
        ChoosePositionGoThere DistanceMap StartPoint dest Grid
          = (none, EGAPathState.GAPS_Finished)) := by
  refine ⟨fun h => ?_, fun h1 h2 => ?_, fun h => ?_⟩
  · unfold ChoosePositionGoThere
    dsimp only
    rw [if_neg (by omega), if_pos h]
  · have hne : getPositionPath DistanceMap StartPoint dest Grid ≠ [] := by
      intro h
      rw [h] at h1
      simp at h1
    refine ⟨_, getLineTrace2_eq Grid StartPoint _ hne, ?_⟩
    unfold ChoosePositionGoThere
    simp only [getLineTrace2_eq Grid StartPoint _ hne]
    rw [if_pos ⟨by omega, by omega⟩]
  · unfold ChoosePositionGoThere
    dsimp only
    rw [if_neg (by omega), if_neg (by omega)]

/-- C28: `ChoosePosition` with `PathfindToPosition` set, a spatial function, a grid and
a window runs `Dijkstra` and selects a cell, and then dispatches on the size
`n` of the path reconstructed to that cell.  For `n = 1000` it returns true with
the state Active and `Steps` holding the selected cell and its grid-space
position; for `2 <= n <= 999` it returns true with the state Active and `Steps`
holding the point and cell that `getLineTrace2` returns; for `n <= 1` it
returns true with the state Finished and `Steps` as `SetNum(1)` left it, and the
selected cell is then the pawn's cell or 4-adjacent to it. -/
theorem ChoosePosition_dispatch (S : StdSort (ℚ × FCellRef) comparePairs)
    (Q : PriorityQueue (ℚ × FCellRef) PairLess) (W : SpatialQueries)
    (Layers : List FFunctionLayer) (Grid : AGAGridActor) (GridBox : FGridBox)
    (NewStep : FPathStep) (pawnLocation : FVector) (maxCell : FCellRef)
    (State : EGAPathState) (Steps : List FPathStep) :
    ∃ DistanceMap dest,
      Dijkstra Q Grid pawnLocation (FGAGridMap.ofBox GridBox FLT_MAX) = some DistanceMap ∧
      dest = ChoosePositionSelect S
        (EvaluateLayers W Grid Layers (FGAGridMap.ofBox GridBox 0) DistanceMap)
        DistanceMap maxCell ∧
      ((getPositionPath DistanceMap pawnLocation dest Grid).length = 1000 →
        ChoosePosition S Q W (some Layers) (some Grid) (some GridBox) NewStep pawnLocation
            maxCell true State Steps
          = some (true, EGAPathState.GAPS_Active,
              [⟨Grid.GetCellGridSpacePosition dest, dest⟩])) ∧
      (2 ≤ (getPositionPath DistanceMap pawnLocation dest Grid).length →
        (getPositionPath DistanceMap pawnLocation dest Grid).length ≤ 999 →
        ∃ moveToTuple,
          getLineTrace2 (getPositionPath DistanceMap pawnLocation dest Grid) pawnLocation Grid
            = some moveToTuple ∧
          ChoosePosition S Q W (some Layers) (some Grid) (some GridBox) NewStep pawnLocation
              maxCell true State Steps
            = some (true, EGAPathState.GAPS_Active, [⟨moveToTuple.1, moveToTuple.2⟩])) ∧
      ((getPositionPath DistanceMap pawnLocation dest Grid).length ≤ 1 →
        ChoosePosition S Q W (some Layers) (some Grid) (some GridBox) NewStep pawnLocation
            maxCell true State Steps
          = some (true, EGAPathState.GAPS_Finished, StepsSetNum1 NewStep Steps) ∧
        (dest = Grid.GetCellRef pawnLocation ∨
          Adjacent4 dest (Grid.GetCellRef pawnLocation))) := by
  obtain ⟨D, hD, _⟩ := Dijkstra_frame Q Grid pawnLocation (FGAGridMap.ofBox GridBox FLT_MAX)
  obtain ⟨h1, h2, h3⟩ := ChoosePositionGoThere_cases D pawnLocation
    (ChoosePositionSelect S (EvaluateLayers W Grid Layers (FGAGridMap.ofBox GridBox 0) D)
      D maxCell) Grid
  have hcp : ChoosePosition S Q W (some Layers) (some Grid) (some GridBox) NewStep pawnLocation
      maxCell true State Steps
      = match (ChoosePositionGoThere D pawnLocation
          (ChoosePositionSelect S (EvaluateLayers W Grid Layers (FGAGridMap.ofBox GridBox 0) D)
            D maxCell) Grid).1 with
        | some step => some (true, (ChoosePositionGoThere D pawnLocation
            (ChoosePositionSelect S
              (EvaluateLayers W Grid Layers (FGAGridMap.ofBox GridBox 0) D) D maxCell) Grid).2,
            [step])
        | none => some (true, (ChoosePositionGoThere D pawnLocation
            (ChoosePositionSelect S
              (EvaluateLayers W Grid Layers (FGAGridMap.ofBox GridBox 0) D) D maxCell) Grid).2,
            StepsSetNum1 NewStep Steps) := by
    unfold ChoosePosition
    simp only [hD, if_true]
  refine ⟨D, _, hD, rfl, fun h => ?_, fun ha hb => ?_, fun h => ⟨?_, ?_⟩⟩
  · rw [hcp, h1 h]
  · obtain ⟨t, ht1, ht2⟩ := h2 ha hb
    exact ⟨t, ht1, by rw [hcp, ht2]⟩
  · rw [hcp, h3 h]
  · exact getPositionPath_short D pawnLocation _ Grid h

/-! ## The iteration cap of the path reconstruction -/

theorem getPositionPathLoop_reached (m : FGAGridMap) (Grid : AGAGridActor) (start : FCellRef)
    (left : Nat) (cur : FCellRef) (path : List FCellRef) (k : Nat)
    (hk : Nat.iterate (getPositionPathNext m Grid) k cur = start) :
    (getPositionPathLoop m Grid start left cur path).length ≤ path.length + k := by
  induction left generalizing cur path k with
  | zero => simp [getPositionPathLoop]
  | succ left ih =>
    rw [getPositionPathLoop]
    by_cases hc : cur = start
    · rw [if_pos hc]
      omega
    · rw [if_neg hc]
      cases k with
      | zero => exact absurd hk hc
      | succ k =>
        rw [Function.iterate_succ_apply] at hk
        have := ih (getPositionPathNext m Grid cur) (path ++ [cur]) k hk
        simp only [List.length_append, List.length_singleton] at this
        omega

/-- C29: `getPositionPath` returns on every distance map, start and destination, with
at most 1000 cells.  It returns exactly 1000 cells when none of the first 1000
cells of the descent from the destination is the start cell, and as many cells
as the descent needs to reach the start cell when that is fewer than 1000. -/
theorem getPositionPath_capped (DistanceMap : FGAGridMap) (StartPoint : FVector)
    (dest : FCellRef) (Grid : AGAGridActor) :
    (∃ path, getPositionPath DistanceMap StartPoint dest Grid = path ∧ path.length ≤ 1000) ∧
      ((∀ k, k < 1000 →
          Nat.iterate (getPositionPathNext DistanceMap Grid) k dest
            ≠ Grid.GetCellRef StartPoint) →
        (getPositionPath DistanceMap StartPoint dest Grid).length = 1000) ∧
      (∀ k, Nat.iterate (getPositionPathNext DistanceMap Grid) k dest
            = Grid.GetCellRef StartPoint →
        (∀ j, j < k → Nat.iterate (getPositionPathNext DistanceMap Grid) j dest
            ≠ Grid.GetCellRef StartPoint) →
        (getPositionPath DistanceMap StartPoint dest Grid).length = min k 1000) := by
  have hlen : (getPositionPath DistanceMap StartPoint dest Grid).length
      = (getPositionPathLoop DistanceMap Grid (Grid.GetCellRef StartPoint) 1000
          dest []).length := by
    simp [getPositionPath]
  have hcases := getPositionPath_length DistanceMap StartPoint dest Grid
  refine ⟨⟨_, rfl, ?_⟩, fun hno => ?_, fun k hk hmin => ?_⟩
  · rcases hcases with h | ⟨k, hk, _, h⟩ <;> omega
  · rcases hcases with h | ⟨k, hk, h1, _⟩
    · exact h
    · exact absurd h1 (hno k hk)
  · have hle := getPositionPathLoop_reached DistanceMap Grid (Grid.GetCellRef StartPoint)
      1000 dest [] k hk
    rw [← hlen, List.length_nil, Nat.zero_add] at hle
    rcases hcases with h | ⟨j, hj, h1, h⟩
    · rw [h] at hle ⊢
      omega
    · have hjk : ¬ j < k := fun hlt => hmin j hlt h1
      rw [h] at hle ⊢
      omega

/-! ## Dijkstra: the number of iterations -/

section DijkstraLog

variable (Q : PriorityQueue (ℚ × FCellRef) PairLess) (Grid : AGAGridActor)

theorem DijkstraLoopLog_map (fuel : Nat) (s : DijkstraState) (log : List FCellRef) :
    (DijkstraLoopLog Q Grid fuel s log).map (fun r => r.1.DistanceMapOut)
      = DijkstraLoop Q Grid fuel s := by
  induction fuel generalizing s log with
  | zero =>
    unfold DijkstraLoopLog DijkstraLoop
    cases Q.pop s.pq with
    | none => rfl
    | some a => rfl
  | succ fuel ih =>
    unfold DijkstraLoopLog DijkstraLoop
    cases Q.pop s.pq with
    | none => rfl
    | some a => exact ih _ _

theorem DijkstraLoopLog_mono (fuel k : Nat) (s : DijkstraState) (log : List FCellRef)
    (r : DijkstraState × List FCellRef) (h : DijkstraLoopLog Q Grid fuel s log = some r) :
    DijkstraLoopLog Q Grid (fuel + k) s log = some r := by
  induction fuel generalizing s log with
  | zero =>
    unfold DijkstraLoopLog at h ⊢
    cases hpop : Q.pop s.pq with
    | none =>
      rw [hpop] at h
      exact h
    | some a =>
      rw [hpop] at h
      cases h
  | succ fuel ih =>
    rw [Nat.succ_add]
    unfold DijkstraLoopLog at h ⊢
    cases hpop : Q.pop s.pq with
    | none =>
      rw [hpop] at h
      exact h
    | some a =>
      rw [hpop] at h
      exact ih _ _ h

theorem DijkstraLogInv.log_first (b : FGridBox) (start : FCellRef) (init : FGAGridMap)
    (hb : init.GridBounds = b) :
    DijkstraLogInv Grid b start ⟨Q.push [] (0, start), [start], init⟩ [] := by
  have hmem : ∀ e, e ∈ Q.push [] ((0 : ℚ), start) ↔ e = (0, start) := by
    intro e
    rw [(Q.push_perm [] (0, start)).mem_iff, List.mem_singleton]
  refine ⟨hb, List.nodup_singleton _, ?_, ?_, ?_⟩
  · intro c hc
    exact Or.inl (List.mem_singleton.1 hc)
  · intro c hc
    rw [List.mem_singleton.1 hc]
    exact Or.inr ⟨(0, start), (hmem _).2 rfl, rfl⟩
  · have := (Q.push_perm [] ((0 : ℚ), start)).length_eq
    simpa using this

theorem DijkstraLogInv.log_next {b : FGridBox} {start : FCellRef} {s : DijkstraState}
    {log : List FCellRef} (hinv : DijkstraLogInv Grid b start s log) {δ : ℚ} {u : FCellRef}
    {rest : List (ℚ × FCellRef)} (hpop : Q.pop s.pq = some ((δ, u), rest)) :
    DijkstraLogInv Grid b start
      ⟨(directions.foldl (DijkstraNeighbor Q Grid b u (δ + 1)) (s.visited, rest)).2,
        (directions.foldl (DijkstraNeighbor Q Grid b u (δ + 1)) (s.visited, rest)).1,
        s.DistanceMapOut.SetValue u δ⟩ (log ++ [u]) := by
  obtain ⟨hperm, _⟩ := Q.pop_some hpop
  have hmem : ∀ e, e ∈ s.pq ↔ e = (δ, u) ∨ e ∈ rest := by
    intro e
    rw [hperm.mem_iff, List.mem_cons]
  have hplen : s.pq.length = rest.length + 1 := by
    simpa using hperm.length_eq
  rw [DijkstraNeighbor_eq]
  have hvis := expand_visited Q (WalkableB Grid b) (fun c => (δ + 1, c)) u directions
    s.visited rest
  have hque := expand_queue Q (WalkableB Grid b) (fun c => (δ + 1, c)) u directions
    s.visited rest
  have hnd := expand_nodup Q (WalkableB Grid b) (fun c => (δ + 1, c)) u directions
    s.visited rest hinv.nodup
  have hlen := expand_length Q (WalkableB Grid b) (fun c => (δ + 1, c)) u directions
    s.visited rest
  generalize directions.foldl (expandNeighbor Q (WalkableB Grid b) (fun c => (δ + 1, c)) u)
    (s.visited, rest) = R at hvis hque hnd hlen
  refine ⟨by simp [hinv.bounds], hnd, ?_, ?_, ?_⟩
  · intro c hc
    rcases (hvis c).1 hc with h | ⟨d, _, _, hw⟩
    · exact hinv.visitedOk c h
    · exact Or.inr ((walkableB_iff Grid b c).1 hw)
  · intro c hc
    by_cases hcv : c ∈ s.visited
    · rcases hinv.cover c hcv with h | ⟨e, he, hec⟩
      · exact Or.inl (List.mem_append_left _ h)
      · rcases (hmem e).1 he with h | h
        · left
          rw [h] at hec
          rw [← hec]
          exact List.mem_append_right _ (List.mem_singleton.2 rfl)
        · exact Or.inr ⟨e, (hque e).2 (Or.inl h), hec⟩
    · rcases (hvis c).1 hc with h | ⟨d, hd, hcd, hw⟩
      · exact absurd h hcv
      · exact Or.inr ⟨(δ + 1, c), (hque _).2 (Or.inr ⟨c, rfl, hcv, d, hd, hcd, hw⟩), rfl⟩
  · have := hinv.count
    simp only [List.length_append, List.length_singleton]
    omega

theorem DijkstraLogInv.log_bound {b : FGridBox} {start : FCellRef} {s : DijkstraState}
    {log : List FCellRef} (hinv : DijkstraLogInv Grid b start s log) :
    s.visited.length ≤ traversableCount Grid b + 1 := by
  have hsub : s.visited ⊆ start :: b.cells.filter fun c =>
      decide (Grid.GetCellData c = ECellData.CellDataTraversable) := by
    intro c hc
    rcases hinv.visitedOk c hc with h | h
    · exact List.mem_cons.2 (Or.inl h)
    · refine List.mem_cons.2 (Or.inr (List.mem_filter.2 ⟨(mem_cells b c).2 h.1, ?_⟩))
      simpa using h.2
  simpa [traversableCount] using (List.subperm_of_subset hinv.nodup hsub).length_le

theorem DijkstraLogInv.log_perm {b : FGridBox} {start : FCellRef} {s : DijkstraState}
    {log : List FCellRef} (hinv : DijkstraLogInv Grid b start s log) (hq : s.pq = []) :
    log.Perm s.visited := by
  have hsub : s.visited ⊆ log := by
    intro c hc
    rcases hinv.cover c hc with h | ⟨e, he, _⟩
    · exact h
    · rw [hq] at he
      cases he
  have hlen : log.length ≤ s.visited.length := by
    have := hinv.count
    rw [hq] at this
    simp only [List.length_nil, Nat.add_zero] at this
    omega
  exact ((List.subperm_of_subset hinv.nodup hsub).perm_of_length_le hlen).symm

theorem DijkstraLoopLog_spec {b : FGridBox} {start : FCellRef} (fuel : Nat)
    (s : DijkstraState) (log : List FCellRef) (hinv : DijkstraLogInv Grid b start s log)
    (hfuel : traversableCount Grid b + 1 - log.length ≤ fuel) :
    ∃ final L, DijkstraLoopLog Q Grid fuel s log = some (final, L) ∧ final.pq = [] ∧
      DijkstraLogInv Grid b start final L := by
  induction fuel generalizing s log with
  | zero =>
    have hq : s.pq = [] := by
      have h1 := hinv.count
      have h2 := hinv.log_bound Grid
      exact List.length_eq_zero.1 (by omega)
    refine ⟨s, log, ?_, hq, hinv⟩
    unfold DijkstraLoopLog
    rw [hq, Q.pop_nil]
  | succ fuel ih =>
    unfold DijkstraLoopLog
    cases hpop : Q.pop s.pq with
    | none => exact ⟨s, log, rfl, Q.pop_none hpop, hinv⟩
    | some a =>
      obtain ⟨⟨δ, u⟩, rest⟩ := a
      simp only [SetValue_GridBounds, hinv.bounds]
      refine ih _ _ (hinv.log_next Q Grid hpop) ?_
      simp only [List.length_append, List.length_singleton]
      omega

end DijkstraLog

/-- C30: `Dijkstra` ends on every window.  With at least one more unit of fuel than
the window has traversable cells the loop runs to the empty queue, always with
the same result, which is the map `Dijkstra` returns.  The list `visited` of the
cells pushed on the queue has no cell twice, the cells whose distance the
iterations write are those cells, each written once, and the number of
iterations is at most one plus the number of traversable cells of the
window. -/
theorem Dijkstra_iterations (Q : PriorityQueue (ℚ × FCellRef) PairLess)
    (Grid : AGAGridActor) (StartPoint : FVector) (DistanceMapOut : FGAGridMap) :
    ∃ final log,
      (∀ fuel, traversableCount Grid DistanceMapOut.GridBounds + 1 ≤ fuel →
        DijkstraLoopLog Q Grid fuel
          ⟨Q.push [] (0, Grid.GetCellRef StartPoint), [Grid.GetCellRef StartPoint],
            DistanceMapOut⟩ [] = some (final, log)) ∧
      Dijkstra Q Grid StartPoint DistanceMapOut = some final.DistanceMapOut ∧
      final.pq = [] ∧ final.visited.Nodup ∧ log.Nodup ∧ log.Perm final.visited ∧
      log.length ≤ traversableCount Grid DistanceMapOut.GridBounds + 1 := by
  obtain ⟨final, L, hrun, hq, hinv⟩ := DijkstraLoopLog_spec Q Grid
    (traversableCount Grid DistanceMapOut.GridBounds + 1) _ []
    (DijkstraLogInv.log_first Q Grid DistanceMapOut.GridBounds (Grid.GetCellRef StartPoint)
      DistanceMapOut rfl)
    (by simp)
  have hall : ∀ fuel, traversableCount Grid DistanceMapOut.GridBounds + 1 ≤ fuel →
      DijkstraLoopLog Q Grid fuel
        ⟨Q.push [] (0, Grid.GetCellRef StartPoint), [Grid.GetCellRef StartPoint],
          DistanceMapOut⟩ [] = some (final, L) := by
    intro fuel hf
    obtain ⟨k, rfl⟩ := Nat.exists_eq_add_of_le hf
    exact DijkstraLoopLog_mono Q Grid _ k _ _ _ hrun
  have hperm := hinv.log_perm Grid hq
  have hT : traversableCount Grid DistanceMapOut.GridBounds
      ≤ DistanceMapOut.GridBounds.cells.length := by
    unfold traversableCount
    exact List.length_filter_le _ _
  refine ⟨final, L, hall, ?_, hq, hinv.nodup, hperm.nodup_iff.2 hinv.nodup, hperm, ?_⟩
  · unfold Dijkstra
    dsimp only
    rw [← DijkstraLoopLog_map Q Grid _ _ [], hall _ (by omega)]
    rfl
  · rw [hperm.length_eq]
    exact hinv.log_bound Grid

/-! ## AStar without a path: the aim point -/

/-- C31: when the search of `AStar` empties its queue without a cell that passes the
goal test and `Steps` already holds an aim point, `AStar` returns with `Steps`
holding that same aim point as its one element and with every other field of
the component as it was; the aim point is not set to `Destination` or
`DestinationCell`. -/
theorem AStar_no_path_keeps_aim
    (Q : (dest : FCellRef) → PriorityQueue (FCellRef × List FCellRef) (CompareCells dest))
    (Grid : AGAGridActor) (NewStep : FPathStep) (StartPoint : FVector3)
    (C : UGAPathComponent) (step : FPathStep) (rest : List FPathStep)
    (hs : AStarSearch (Q C.DestinationCell) Grid C.ArrivalDistance StartPoint.xy = some none)
    (hsteps : C.Steps = step :: rest) :
    ∃ C2, AStar Q Grid NewStep StartPoint C = some (C2, EGAPathState.GAPS_Active) ∧
      C2.Steps = [step] ∧ C2.Steps.head? = C.Steps.head? ∧
      C2.State = C.State ∧ C2.bDestinationValid = C.bDestinationValid ∧
      C2.Destination = C.Destination ∧ C2.DestinationCell = C.DestinationCell ∧
      C2.ArrivalDistance = C.ArrivalDistance := by
  refine ⟨{ C with Steps := [step] }, ?_, rfl, by rw [hsteps]; rfl, rfl, rfl, rfl, rfl, rfl⟩
  unfold AStar
  dsimp only
  rw [hs, hsteps]
  rfl

theorem AStar_no_path_keeps_aim_witness :
    ∃ C2, AStar sampleAStarQueue (sampleGrid 3 1 [⟨1, 0⟩]) ⟨⟨0, 0⟩, ⟨0, 0⟩⟩ ⟨50, 50, 0⟩
          { samplePathComponent with Steps := [⟨⟨70, 50⟩, ⟨0, 0⟩⟩, ⟨⟨250, 50⟩, ⟨2, 0⟩⟩] }
        = some (C2, EGAPathState.GAPS_Active) ∧
      C2.Steps = [⟨⟨70, 50⟩, ⟨0, 0⟩⟩] ∧
      C2.Steps.head?
        = ({ samplePathComponent with
              Steps := [⟨⟨70, 50⟩, ⟨0, 0⟩⟩, ⟨⟨250, 50⟩, ⟨2, 0⟩⟩] } : UGAPathComponent).Steps.head? ∧
      C2.State = samplePathComponent.State ∧
      C2.bDestinationValid = samplePathComponent.bDestinationValid ∧
      C2.Destination = samplePathComponent.Destination ∧
      C2.DestinationCell = samplePathComponent.DestinationCell ∧
      C2.ArrivalDistance = samplePathComponent.ArrivalDistance :=
  AStar_no_path_keeps_aim sampleAStarQueue (sampleGrid 3 1 [⟨1, 0⟩]) ⟨⟨0, 0⟩, ⟨0, 0⟩⟩
    ⟨50, 50, 0⟩ { samplePathComponent with Steps := [⟨⟨70, 50⟩, ⟨0, 0⟩⟩, ⟨⟨250, 50⟩, ⟨2, 0⟩⟩] }
    ⟨⟨70, 50⟩, ⟨0, 0⟩⟩ [⟨⟨250, 50⟩, ⟨2, 0⟩⟩] samplePath_search rfl

/-! ## SetDestination with a destination outside the grid -/

theorem EvaluateLayer_frame (W : SpatialQueries) (Grid : AGAGridActor)
    (Layer : FFunctionLayer) (GridMap DistanceMap : FGAGridMap) (x : FCellRef)
    (hx : x ∉ GridMap.GridBounds.cells) :
    (EvaluateLayer W Grid Layer GridMap DistanceMap).Data x = GridMap.Data x :=
  (foldl_pointwise (EvaluateLayerCell W Grid Layer DistanceMap)
    (EvaluateLayerValue W Grid Layer DistanceMap)
    (EvaluateLayerCell_bounds W Grid Layer DistanceMap)
    (EvaluateLayerCell_ne W Grid Layer DistanceMap)
    (EvaluateLayerCell_self W Grid Layer DistanceMap)
    _ (nodup_cells _) GridMap).2.1 x hx

theorem EvaluateLayers_frame (W : SpatialQueries) (Grid : AGAGridActor)
    (Layers : List FFunctionLayer) (GridMap DistanceMap : FGAGridMap) (x : FCellRef)
    (hx : x ∉ GridMap.GridBounds.cells) :
    (EvaluateLayers W Grid Layers GridMap DistanceMap).Data x = GridMap.Data x := by
  unfold EvaluateLayers
  induction Layers generalizing GridMap with
  | nil => rfl
  | cons L Ls ih =>
    rw [List.foldl_cons, ih _ (by rw [EvaluateLayer_bounds]; exact hx),
      EvaluateLayer_frame W Grid L GridMap DistanceMap x hx]

theorem EvaluateLayerCells_bounds (W : SpatialQueries) (Grid : AGAGridActor)
    (Layers : List FFunctionLayer) (D g : FGAGridMap) (c : FCellRef) :
    (Layers.foldl (fun g Layer => EvaluateLayerCell W Grid Layer D g c) g).GridBounds
      = g.GridBounds := by
  induction Layers generalizing g with
  | nil => rfl
  | cons L Ls ih => rw [List.foldl_cons, ih, EvaluateLayerCell_bounds]

theorem EvaluateLayerCells_ne (W : SpatialQueries) (Grid : AGAGridActor)
    (Layers : List FFunctionLayer) (D g : FGAGridMap) (c x : FCellRef) (h : x ≠ c) :
    (Layers.foldl (fun g Layer => EvaluateLayerCell W Grid Layer D g c) g).Data x
      = g.Data x := by
  induction Layers generalizing g with
  | nil => rfl
  | cons L Ls ih => rw [List.foldl_cons, ih, EvaluateLayerCell_ne W Grid L D g c x h]

theorem EvaluateLayerCells_self (W : SpatialQueries) (Grid : AGAGridActor)
    (Layers : List FFunctionLayer) (D g : FGAGridMap) (c : FCellRef)
    (h : g.GridBounds.IsValidCell c = true) :
    (Layers.foldl (fun g Layer => EvaluateLayerCell W Grid Layer D g c) g).Data c
      = EvaluateLayersValue W Grid Layers D c (g.Data c) := by
  unfold EvaluateLayersValue
  induction Layers generalizing g with
  | nil => rfl
  | cons L Ls ih =>
    rw [List.foldl_cons, List.foldl_cons, ih _ (by rw [EvaluateLayerCell_bounds]; exact h),
      EvaluateLayerCell_self W Grid L D g c h]

theorem EvaluateLayersValue_traversable (W : SpatialQueries) (Grid : AGAGridActor)
    (Layers : List FFunctionLayer) (D : FGAGridMap) (c : FCellRef) (v : ℚ)
    (ht : Grid.GetCellData c = ECellData.CellDataTraversable) :
    EvaluateLayersValue W Grid Layers D c v
      = Layers.foldl (fun v Layer => LayerCombine W Layer D c v) v := by
  unfold EvaluateLayersValue
  induction Layers generalizing v with
  | nil => rfl
  | cons L Ls ih =>
    rw [List.foldl_cons, List.foldl_cons, ih]
    congr 1
    unfold EvaluateLayerValue LayerCombine
    rw [if_pos ht]

/-- C32: `ChoosePosition` applies each layer to the whole window before the next
layer.  For every layer list, window and traversable cell of the window the
final value is the left fold, over the layers in list order, of the layer's
combinator applied to the running value of the cell, starting from the cell's
initial value; and the resulting map is the one that evaluating all layers
cell by cell produces. -/
theorem EvaluateLayers_layer_major (W : SpatialQueries) (Grid : AGAGridActor)
    (Layers : List FFunctionLayer) (GridMap DistanceMap : FGAGridMap) :
    (∀ (Layer : FFunctionLayer) (Rest : List FFunctionLayer),
        EvaluateLayers W Grid (Layer :: Rest) GridMap DistanceMap
          = EvaluateLayers W Grid Rest (EvaluateLayer W Grid Layer GridMap DistanceMap)
              DistanceMap) ∧
      (∀ c ∈ GridMap.GridBounds.cells,
        Grid.GetCellData c = ECellData.CellDataTraversable →
        (EvaluateLayers W Grid Layers GridMap DistanceMap).Data c
          = Layers.foldl (fun v Layer => LayerCombine W Layer DistanceMap c v)
              (GridMap.Data c)) ∧
      (EvaluateLayers W Grid Layers GridMap DistanceMap).GridBounds
        = (EvaluateCellByCell W Grid Layers GridMap DistanceMap).GridBounds ∧
      ∀ x, (EvaluateLayers W Grid Layers GridMap DistanceMap).Data x
        = (EvaluateCellByCell W Grid Layers GridMap DistanceMap).Data x := by
  have hcell := foldl_pointwise
    (fun g c => Layers.foldl (fun g Layer => EvaluateLayerCell W Grid Layer DistanceMap g c) g)
    (fun c v => EvaluateLayersValue W Grid Layers DistanceMap c v)
    (fun g c => EvaluateLayerCells_bounds W Grid Layers DistanceMap g c)
    (fun g c x hx => EvaluateLayerCells_ne W Grid Layers DistanceMap g c x hx)
    (fun g c hv => EvaluateLayerCells_self W Grid Layers DistanceMap g c hv)
    _ (nodup_cells GridMap.GridBounds) GridMap
  refine ⟨fun _ _ => rfl, fun c hc ht => ?_, ?_, fun x => ?_⟩
  · rw [EvaluateLayers_Data W Grid Layers GridMap DistanceMap c hc,
      EvaluateLayersValue_traversable W Grid Layers DistanceMap c _ ht]
  · rw [EvaluateLayers_bounds]
    exact hcell.1.symm
  · unfold EvaluateCellByCell
    by_cases hx : x ∈ GridMap.GridBounds.cells
    · rw [EvaluateLayers_Data W Grid Layers GridMap DistanceMap x hx,
        hcell.2.2 x hx ((mem_cells _ x).1 hx)]
    · rw [EvaluateLayers_frame W Grid Layers GridMap DistanceMap x hx, hcell.2.1 x hx]

/-! ## The diffusion and the largest belief -/

theorem OccupancyMapDiffuseSweep_max (Grid : AGAGridActor) (o : FGAGridMap) (M : ℚ)
    (l : List FCellRef) (g : FGAGridMap) (hb : g.GridBounds = o.GridBounds)
    (hl : ∀ c ∈ l, o.GridBounds.IsValidCell c = true)
    (h1 : ∀ y, o.GridBounds.IsValidCell y = true → 0 ≤ g.Data y ∧ g.Data y ≤ M)
    (h2 : ∀ y, o.GridBounds.IsValidCell y = true → o.Data y = M → g.Data y = M)
    (h3 : ∀ y, o.GridBounds.IsValidCell y = true →
      g.Data y = o.Data y ∨ g.Data y ≤ alpha * M) :
    (∀ y, o.GridBounds.IsValidCell y = true →
        0 ≤ (l.foldl (OccupancyMapDiffuseCell Grid) g).Data y ∧
        (l.foldl (OccupancyMapDiffuseCell Grid) g).Data y ≤ M) ∧
      (∀ y, o.GridBounds.IsValidCell y = true → o.Data y = M →
        (l.foldl (OccupancyMapDiffuseCell Grid) g).Data y = M) ∧
      (∀ y, o.GridBounds.IsValidCell y = true →
        (l.foldl (OccupancyMapDiffuseCell Grid) g).Data y = o.Data y ∨
        (l.foldl (OccupancyMapDiffuseCell Grid) g).Data y ≤ alpha * M) := by
  induction l generalizing g with
  | nil => exact ⟨h1, h2, h3⟩
  | cons c l ih =>
    rw [List.foldl_cons]
    have hco : o.GridBounds.IsValidCell c = true := hl c (List.mem_cons_self _ _)
    have hc : g.GridBounds.IsValidCell c = true := by
      rw [hb]
      exact hco
    have hstep := fun y => OccupancyMapDiffuseCell_Data Grid g c y hc
    have ha : (0 : ℚ) ≤ alpha := by norm_num [alpha]
    have ha1 : alpha ≤ 1 := by norm_num [alpha]
    have hw : 0 ≤ alpha * g.Data c ∧ alpha * g.Data c ≤ M ∧ alpha * g.Data c ≤ alpha * M := by
      have := h1 c hco
      refine ⟨mul_nonneg ha this.1, ?_, mul_le_mul_of_nonneg_left this.2 ha⟩
      calc alpha * g.Data c ≤ 1 * g.Data c := mul_le_mul_of_nonneg_right ha1 this.1
        _ = g.Data c := one_mul _
        _ ≤ M := this.2
    refine ih _ (by rw [OccupancyMapDiffuseCell_bounds]; exact hb)
      (fun x hx => hl x (List.mem_cons_of_mem _ hx)) ?_ ?_ ?_
    · intro y hy
      rw [hstep y]
      split
      · exact ⟨hw.1, hw.2.1⟩
      · exact h1 y hy
    · intro y hy hyM
      rw [hstep y]
      split
      · rename_i hcond
        obtain ⟨_, _, s, _, _, hgt, hys⟩ := hcond
        rw [← hys, h2 y hy hyM] at hgt
        exact absurd (h1 c hco).2 (not_le.2 hgt)
      · exact h2 y hy hyM
    · intro y hy
      rw [hstep y]
      split
      · exact Or.inr hw.2.2
      · exact h3 y hy

/-- C34: for a map with values at least 0 whose largest value, held by the cell `c0`,
is positive, the diffusion sweep leaves every cell that holds the largest
value as it is and leaves no cell above that value; `OccupancyMapDiffuse`
returns a map in which every cell that held the largest value holds the
largest value, and in which `c0` is strictly above every other cell when it was
so before, as it is after a direct observation at `c0`. -/
theorem OccupancyMapDiffuse_keeps_maximum (Grid : AGAGridActor) (OccupancyMap : FGAGridMap)
    (c0 : FCellRef) (hc0 : c0 ∈ OccupancyMap.GridBounds.cells)
    (hnn : ∀ y ∈ OccupancyMap.GridBounds.cells, 0 ≤ OccupancyMap.Data y)
    (hmax : ∀ y ∈ OccupancyMap.GridBounds.cells, OccupancyMap.Data y ≤ OccupancyMap.Data c0)
    (hpos : 0 < OccupancyMap.Data c0) :
    (∀ c ∈ OccupancyMap.GridBounds.cells, OccupancyMap.Data c = OccupancyMap.Data c0 →
        (OccupancyMapDiffuseSweep Grid OccupancyMap).Data c = OccupancyMap.Data c) ∧
      (∀ c ∈ OccupancyMap.GridBounds.cells,
        (OccupancyMapDiffuseSweep Grid OccupancyMap).Data c ≤ OccupancyMap.Data c0) ∧
      ∃ m, OccupancyMapDiffuse Grid OccupancyMap = some m ∧
        (∀ c ∈ OccupancyMap.GridBounds.cells, OccupancyMap.Data c = OccupancyMap.Data c0 →
          ∀ x ∈ OccupancyMap.GridBounds.cells, m.Data x ≤ m.Data c) ∧
        ((∀ x ∈ OccupancyMap.GridBounds.cells, x ≠ c0 →
            OccupancyMap.Data x < OccupancyMap.Data c0) →
          ∀ x ∈ OccupancyMap.GridBounds.cells, x ≠ c0 → m.Data x < m.Data c0) := by
  have hv : ∀ y, y ∈ OccupancyMap.GridBounds.cells ↔
      OccupancyMap.GridBounds.IsValidCell y = true := mem_cells _
  obtain ⟨h1, h2, h3⟩ := OccupancyMapDiffuseSweep_max Grid OccupancyMap (OccupancyMap.Data c0)
    OccupancyMap.GridBounds.cells OccupancyMap rfl
    (fun c hc => (hv c).1 hc)
    (fun y hy => ⟨hnn y ((hv y).2 hy), hmax y ((hv y).2 hy)⟩) (fun y _ hy => hy)
    (fun y _ => Or.inl rfl)
  have hsw : OccupancyMap.GridBounds.cells.foldl (OccupancyMapDiffuseCell Grid) OccupancyMap
      = OccupancyMapDiffuseSweep Grid OccupancyMap := rfl
  rw [hsw] at h1 h2 h3
  have hS : 0 < OccupancyMapDiffuseSum (OccupancyMapDiffuseSweep Grid OccupancyMap) := by
    rw [OccupancyMapDiffuseSum_eq, CellSum, OccupancyMapDiffuseSweep_bounds]
    have hle : (OccupancyMapDiffuseSweep Grid OccupancyMap).Data c0
        ≤ (OccupancyMap.GridBounds.cells.map
            (OccupancyMapDiffuseSweep Grid OccupancyMap).Data).sum := by
      refine List.single_le_sum ?_ _ (List.mem_map.2 ⟨c0, hc0, rfl⟩)
      intro x hx
      obtain ⟨c, hc, rfl⟩ := List.mem_map.1 hx
      exact (h1 c ((hv c).1 hc)).1
    rw [h2 c0 ((hv c0).1 hc0) rfl] at hle
    exact lt_of_lt_of_le hpos hle
  obtain ⟨m, hm, _, hmd⟩ := OccupancyMapDiffuse_Data Grid OccupancyMap (ne_of_gt hS)
  refine ⟨fun c hc hcm => by rw [h2 c ((hv c).1 hc) hcm, hcm],
    fun c hc => (h1 c ((hv c).1 hc)).2, m, hm, ?_, ?_⟩
  · intro c hc hcm x hx
    rw [hmd x hx, hmd c hc, h2 c ((hv c).1 hc) hcm]
    exact div_le_div_of_nonneg_right (h1 x ((hv x).1 hx)).2 (le_of_lt hS)
  · intro hlt x hx hne
    rw [hmd x hx, hmd c0 hc0, h2 c0 ((hv c0).1 hc0) rfl]
    refine div_lt_div_of_pos_right ?_ hS
    rcases h3 x ((hv x).1 hx) with h | h
    · rw [h]
      exact hlt x hx hne
    · refine lt_of_le_of_lt h ?_
      have : alpha * OccupancyMap.Data c0 < 1 * OccupancyMap.Data c0 :=
        mul_lt_mul_of_pos_right (by norm_num [alpha]) hpos
      rwa [one_mul] at this

theorem OccupancyMapDiffuse_keeps_maximum_witness :
    ∃ m, OccupancyMapDiffuse (sampleGrid 2 1 [])
          (OccupancyMapSetPosition (sampleGrid 2 1 []) (sampleTwoCells 0 0) ⟨50, 50⟩) = some m ∧
      ∀ x ∈ (sampleTwoCells 0 0).GridBounds.cells, x ≠ ⟨0, 0⟩ → m.Data x < m.Data ⟨0, 0⟩ := by
  have hcell : (sampleGrid 2 1 []).GetCellRef ⟨50, 50⟩ = ⟨0, 0⟩ := by
    simp only [sampleGrid, FCellRef.mk.injEq]
    constructor <;> norm_num [Int.floor_eq_iff]
  obtain ⟨hb, hd⟩ := OccupancyMapSetPosition_Data (sampleGrid 2 1 []) (sampleTwoCells 0 0)
    ⟨50, 50⟩
  rw [hcell] at hd
  have h00 : (⟨0, 0⟩ : FCellRef) ∈ (sampleTwoCells 0 0).GridBounds.cells :=
    (mem_cells _ _).2 (by decide)
  obtain ⟨_, _, m, hm, _, huniq⟩ := OccupancyMapDiffuse_keeps_maximum (sampleGrid 2 1 [])
    (OccupancyMapSetPosition (sampleGrid 2 1 []) (sampleTwoCells 0 0) ⟨50, 50⟩) ⟨0, 0⟩
    (by rw [hb]; exact h00)
    (fun y hy => by
      rw [hb] at hy
      rw [hd y hy]
      split <;> norm_num)
    (fun y hy => by
      rw [hb] at hy
      rw [hd y hy, hd _ h00, if_pos rfl]
      split <;> norm_num)
    (by rw [hd _ h00, if_pos rfl]; norm_num)
  refine ⟨m, hm, fun x hx hne => ?_⟩
  refine huniq (fun y hy hyne => ?_) x (by rw [hb]; exact hx) hne
  rw [hb] at hy
  rw [hd y hy, hd _ h00, if_pos rfl, if_neg hyne]
  norm_num

/-! ## The diffusion sweep on a map with a single source cell -/

theorem foldl_prefix_inv {α β : Type} (f : β → α → β) (Inv : List α → β → Prop)
    (l : List α) (init : β) (h0 : Inv [] init)
    (hstep : ∀ pre c post g, l = pre ++ c :: post → Inv pre g → Inv (pre ++ [c]) (f g c)) :
    Inv l (l.foldl f init) := by
  have aux : ∀ (post pre : List α) (g : β), l = pre ++ post → Inv pre g →
      Inv l (post.foldl f g) := by
    intro post
    induction post with
    | nil =>
      intro pre g hl hg
      rw [List.append_nil] at hl
      rw [hl]
      exact hg
    | cons c post ih =>
      intro pre g hl hg
      rw [List.foldl_cons]
      refine ih (pre ++ [c]) (f g c) ?_ (hstep pre c post g hl hg)
      rw [List.append_assoc]
      exact hl
  exact aux l [] init rfl h0

theorem cells_prefix_mem (b : FGridBox) (pre post : List FCellRef) (c : FCellRef)
    (h : b.cells = pre ++ c :: post) (x : FCellRef) :
    x ∈ pre ↔ b.IsValidCell x = true ∧ RowMajorBefore x c := by
  have hpw := cells_pairwise b
  rw [h] at hpw
  obtain ⟨_, hp2, hp3⟩ := List.pairwise_append.1 hpw
  constructor
  · intro hx
    refine ⟨(mem_cells b x).1 (by rw [h]; exact List.mem_append_left _ hx), ?_⟩
    exact hp3 x hx c (List.mem_cons_self _ _)
  · rintro ⟨hv, hr⟩
    have hx := (mem_cells b x).2 hv
    rw [h] at hx
    rcases List.mem_append.1 hx with hx | hx
    · exact hx
    · exfalso
      rcases List.mem_cons.1 hx with rfl | hx
      · exact RowMajorBefore_asymm _ _ hr hr
      · exact RowMajorBefore_asymm _ _ hr ((List.pairwise_cons.1 hp2).1 x hx)

theorem OccupancyMapDiffuseCell_val (Grid : AGAGridActor) (g : FGAGridMap) (c y : FCellRef)
    (hc : g.GridBounds.IsValidCell c = true)
    (ht : Grid.GetCellData c = ECellData.CellDataTraversable) :
    (OccupancyMapDiffuseCell Grid g c).Data y
      = if (g.GridBounds.IsValidCell y = true ∧
            ((y.X = c.X ∧ (y.Y = c.Y + 1 ∨ y.Y = c.Y - 1)) ∨
              (y.Y = c.Y ∧ (y.X = c.X + 1 ∨ y.X = c.X - 1)))) ∧
            g.Data c ≠ 0 ∧ g.Data c > g.Data y
        then alpha * g.Data c else g.Data y := by
  rw [OccupancyMapDiffuseCell_Data Grid g c y hc]
  obtain ⟨x0, y0⟩ := c
  obtain ⟨x, y1⟩ := y
  refine if_congr ?_ rfl rfl
  constructor
  · rintro ⟨h0, _, s, hs, hv, hgt, hy⟩
    rw [← hy] at hv hgt
    refine ⟨⟨hv, ?_⟩, h0, hgt⟩
    simp only [sides, List.mem_cons, List.mem_singleton, List.not_mem_nil, or_false] at hs
    simp only [FCellRef.offset, FCellRef.mk.injEq] at hy
    rcases hs with rfl | rfl | rfl | rfl <;> simp only at hy ⊢ <;> omega
  · rintro ⟨⟨hv, hadj⟩, h0, hgt⟩
    simp only at hadj
    refine ⟨h0, ht, ?_⟩
    rcases hadj with ⟨h1, h2 | h2⟩ | ⟨h1, h2 | h2⟩
    · refine ⟨(0, 1), by simp [sides], ?_⟩
      have e : (⟨x0, y0⟩ : FCellRef).offset (0, 1) = ⟨x, y1⟩ := by
        simp only [FCellRef.offset, FCellRef.mk.injEq]; omega
      rw [e]
      exact ⟨hv, hgt, rfl⟩
    · refine ⟨(0, -1), by simp [sides], ?_⟩
      have e : (⟨x0, y0⟩ : FCellRef).offset (0, -1) = ⟨x, y1⟩ := by
        simp only [FCellRef.offset, FCellRef.mk.injEq]; omega
      rw [e]
      exact ⟨hv, hgt, rfl⟩
    · refine ⟨(1, 0), by simp [sides], ?_⟩
      have e : (⟨x0, y0⟩ : FCellRef).offset (1, 0) = ⟨x, y1⟩ := by
        simp only [FCellRef.offset, FCellRef.mk.injEq]; omega
      rw [e]
      exact ⟨hv, hgt, rfl⟩
    · refine ⟨(-1, 0), by simp [sides], ?_⟩
      have e : (⟨x0, y0⟩ : FCellRef).offset (-1, 0) = ⟨x, y1⟩ := by
        simp only [FCellRef.offset, FCellRef.mk.injEq]; omega
      rw [e]
      exact ⟨hv, hgt, rfl⟩


theorem sweepRow_congr (cx cy : Int) (pre pre2 : List FCellRef) (x : Int)
    (h : (⟨x - 1, cy⟩ : FCellRef) ∈ pre2 ↔ (⟨x - 1, cy⟩ : FCellRef) ∈ pre) :
    sweepRow cx cy pre2 x = sweepRow cx cy pre x := by
  unfold sweepRow
  simp only [h]

theorem sweepRowBelow_congr (cx cy : Int) (pre pre2 : List FCellRef) (x : Int)
    (h1 : x = cx - 1 → ((⟨cx, cy + 1⟩ : FCellRef) ∈ pre2 ↔ (⟨cx, cy + 1⟩ : FCellRef) ∈ pre))
    (h2 : (⟨x, cy⟩ : FCellRef) ∈ pre2 ↔ (⟨x, cy⟩ : FCellRef) ∈ pre) :
    sweepRowBelow cx cy pre2 x = sweepRowBelow cx cy pre x := by
  unfold sweepRowBelow
  by_cases hx : x = cx - 1
  · simp only [h1 hx, h2]
  · simp only [h2, if_neg hx]

theorem sweepRow_right (cx cy : Int) (pre : List FCellRef) (x : Int) (h : cx < x) :
    sweepRow cx cy pre x
      = if (⟨x - 1, cy⟩ : FCellRef) ∈ pre then alpha ^ (x - cx).toNat else 0 := by
  unfold sweepRow
  rw [if_neg (by omega), if_neg (by omega), if_neg (by omega)]

theorem sweepRowBelow_right (cx cy : Int) (pre : List FCellRef) (x : Int) (h : cx ≤ x) :
    sweepRowBelow cx cy pre x
      = if (⟨x, cy⟩ : FCellRef) ∈ pre then alpha ^ ((x - cx).toNat + 1) else 0 := by
  unfold sweepRowBelow
  rw [if_neg (by omega), if_neg (by omega)]

theorem alpha_pow_pos (n : Nat) : 0 < alpha ^ n := pow_pos (by norm_num [alpha]) n

theorem alpha_pow_succ_lt (n : Nat) : alpha ^ (n + 1) < alpha ^ n := by
  rw [pow_succ]
  exact mul_lt_of_lt_one_right (alpha_pow_pos n) (by norm_num [alpha])

theorem alpha_pow_le_one (n : Nat) : alpha ^ n ≤ 1 :=
  pow_le_one₀ (by norm_num [alpha]) (by norm_num [alpha])

theorem SweepInv.sweep_step (Grid : AGAGridActor) (o : FGAGridMap) (cx cy : Int)
    (hfull : ∀ y, o.GridBounds.IsValidCell y = true →
      Grid.GetCellData y = ECellData.CellDataTraversable)
    (h0 : o.GridBounds.IsValidCell ⟨cx, cy⟩ = true) (h1 : o.Data ⟨cx, cy⟩ = 1)
    (hz : ∀ y, o.GridBounds.IsValidCell y = true → y ≠ ⟨cx, cy⟩ → o.Data y = 0)
    (pre : List FCellRef) (c : FCellRef) (post : List FCellRef) (g : FGAGridMap)
    (hl : o.GridBounds.cells = pre ++ c :: post) (hinv : SweepInv o cx cy pre g) :
    SweepInv o cx cy (pre ++ [c]) (OccupancyMapDiffuseCell Grid g c) := by
  obtain ⟨x0, y0⟩ := c
  have hcv : o.GridBounds.IsValidCell ⟨x0, y0⟩ = true :=
    (mem_cells _ _).1 (by rw [hl]; simp)
  have hp : ∀ x y, (⟨x, y⟩ : FCellRef) ∈ pre ↔
      o.GridBounds.IsValidCell ⟨x, y⟩ = true ∧ (y < y0 ∨ (y = y0 ∧ x < x0)) :=
    fun x y => cells_prefix_mem _ pre post _ hl ⟨x, y⟩
  have hp2 : ∀ x y, (⟨x, y⟩ : FCellRef) ∈ pre ++ [(⟨x0, y0⟩ : FCellRef)] ↔
      (⟨x, y⟩ : FCellRef) ∈ pre ∨ (x = x0 ∧ y = y0) := by
    intro x y
    simp [List.mem_append]
  have hv : ∀ x y, o.GridBounds.IsValidCell ⟨x, y⟩ = true ↔
      (o.GridBounds.MinX ≤ x ∧ x < o.GridBounds.MaxX) ∧
        o.GridBounds.MinY ≤ y ∧ o.GridBounds.MaxY > y := by
    intro x y
    simp only [FGridBox.IsValidCell, Bool.and_eq_true, decide_eq_true_eq]
    constructor
    · rintro ⟨⟨⟨a1, a2⟩, a3⟩, a4⟩
      exact ⟨⟨a1, a2⟩, a3, a4⟩
    · rintro ⟨⟨a1, a2⟩, a3, a4⟩
      exact ⟨⟨⟨a1, a2⟩, a3⟩, a4⟩
  have hb0 := (hv _ _).1 h0
  have hbc := (hv _ _).1 hcv
  have hval := fun y => OccupancyMapDiffuseCell_val Grid g ⟨x0, y0⟩ y
    (by rw [hinv.bounds]; exact hcv) (hfull _ hcv)
  simp only [hinv.bounds] at hval
  have hbnd : (OccupancyMapDiffuseCell Grid g ⟨x0, y0⟩).GridBounds = o.GridBounds := by
    rw [OccupancyMapDiffuseCell_bounds]
    exact hinv.bounds
  by_cases hin : (⟨cx, cy⟩ : FCellRef) ∈ pre
  · have hafter : cy < y0 ∨ (cy = y0 ∧ cx < x0) := ((hp cx cy).1 hin).2
    have hA := hinv.row hin
    refine ⟨hbnd, fun h => absurd (List.mem_append_left _ hin) h, fun _ x hx => ?_,
      fun _ hY x hx => ?_⟩
    · -- the row of the source cell
      have hbx := (hv _ _).1 hx
      by_cases hy : cy = y0
      · subst hy
        have hx0 : cx < x0 := by omega
        obtain ⟨n, hn⟩ : ∃ n : Nat, x0 - cx = (n : Int) + 1 :=
          ⟨(x0 - cx - 1).toNat, by omega⟩
        have e1 : (x0 - cx).toNat = n + 1 := by omega
        have hprev : (⟨x0 - 1, cy⟩ : FCellRef) ∈ pre :=
          (hp _ _).2 ⟨(hv _ _).2 ⟨⟨by omega, by omega⟩, hb0.2⟩, Or.inr ⟨rfl, by omega⟩⟩
        have gc : g.Data ⟨x0, cy⟩ = alpha ^ (n + 1) := by
          rw [hA x0 hcv, sweepRow_right _ _ _ _ hx0, if_pos hprev, e1]
        by_cases hx1 : x = x0 + 1
        · subst hx1
          have hnot : (⟨x0 + 1 - 1, cy⟩ : FCellRef) ∉ pre := by
            rw [hp]
            rintro ⟨_, h | h⟩ <;> omega
          have gx : g.Data ⟨x0 + 1, cy⟩ = 0 := by
            rw [hA _ hx, sweepRow_right _ _ _ _ (by omega), if_neg hnot]
          rw [hval, if_pos ⟨⟨hx, Or.inr ⟨rfl, Or.inl rfl⟩⟩, by rw [gc]; exact ne_of_gt (alpha_pow_pos _),
            by rw [gc, gx]; exact alpha_pow_pos _⟩, gc,
            sweepRow_right _ _ _ _ (by omega), if_pos ((hp2 _ _).2 (Or.inr ⟨by omega, rfl⟩))]
          have e2 : (x0 + 1 - cx).toNat = n + 1 + 1 := by omega
          rw [e2, pow_succ _ (n + 1)]
          ring
        · have hkeep : (OccupancyMapDiffuseCell Grid g ⟨x0, cy⟩).Data ⟨x, cy⟩
              = g.Data ⟨x, cy⟩ := by
            rw [hval, if_neg]
            rintro ⟨⟨_, hadj⟩, _, hgt⟩
            simp only at hadj
            have hxm : x = x0 - 1 := by omega
            subst hxm
            rw [gc, hA _ hx] at hgt
            by_cases hxc : x0 - 1 = cx
            · have : sweepRow cx cy pre (x0 - 1) = 1 := by
                unfold sweepRow
                rw [if_neg (by omega), if_neg (by omega), if_pos hxc]
              rw [this] at hgt
              exact absurd (alpha_pow_le_one (n + 1)) (not_le.2 hgt)
            · have hpp : (⟨x0 - 1 - 1, cy⟩ : FCellRef) ∈ pre :=
                (hp _ _).2 ⟨(hv _ _).2 ⟨⟨by omega, by omega⟩, hb0.2⟩, Or.inr ⟨rfl, by omega⟩⟩
              have e3 : (x0 - 1 - cx).toNat = n := by omega
              rw [sweepRow_right _ _ _ _ (by omega), if_pos hpp, e3] at hgt
              exact absurd (le_of_lt (alpha_pow_succ_lt n)) (not_le.2 hgt)
          rw [hkeep, hA x hx]
          refine (sweepRow_congr cx cy pre _ x ?_).symm
          rw [hp2]
          constructor
          · rintro (h | ⟨h, _⟩)
            · exact h
            · omega
          · exact Or.inl
      · -- the cell processed is in a later row
        have hy0 : cy < y0 := by omega
        have hcongr : sweepRow cx cy (pre ++ [(⟨x0, y0⟩ : FCellRef)]) x
            = sweepRow cx cy pre x := by
          refine sweepRow_congr cx cy pre _ x ?_
          rw [hp2]
          constructor
          · rintro (h | ⟨_, h⟩)
            · exact h
            · omega
          · exact Or.inl
        rw [hcongr, ← hA x hx, hval, if_neg]
        rintro ⟨⟨_, hadj⟩, hne, hgt⟩
        simp only at hadj
        have hy1 : y0 = cy + 1 := by omega
        have hxx : x = x0 := by omega
        subst hy1
        subst hxx
        have hB := hinv.below hin (fun p hp1 => by
          obtain ⟨px, py⟩ := p
          have := ((hp px py).1 hp1).2
          simp only
          omega)
        rw [hB x hcv, hA x hx] at hgt
        rw [hB x hcv] at hne
        by_cases hxc : cx ≤ x
        · have hrow : (⟨x, cy⟩ : FCellRef) ∈ pre :=
            (hp _ _).2 ⟨hx, Or.inl (by omega)⟩
          rw [sweepRowBelow_right _ _ _ _ hxc, if_pos hrow] at hgt
          by_cases hxe : x = cx
          · have : sweepRow cx cy pre x = 1 := by
              unfold sweepRow
              rw [if_neg (by omega), if_neg (by omega), if_pos hxe]
            rw [this] at hgt
            exact absurd (alpha_pow_le_one _) (not_le.2 hgt)
          · have hpp : (⟨x - 1, cy⟩ : FCellRef) ∈ pre :=
              (hp _ _).2 ⟨(hv _ _).2 ⟨⟨by omega, by omega⟩, hb0.2⟩, Or.inl (by omega)⟩
            rw [sweepRow_right _ _ _ _ (by omega), if_pos hpp] at hgt
            exact absurd (le_of_lt (alpha_pow_succ_lt _)) (not_le.2 hgt)
        · apply hne
          unfold sweepRowBelow
          by_cases hx2 : x < cx - 1
          · rw [if_pos hx2]
          · have hnot : (⟨cx, cy + 1⟩ : FCellRef) ∉ pre := by
              rw [hp]
              rintro ⟨_, h | h⟩ <;> omega
            rw [if_neg hx2, if_pos (by omega), if_neg hnot]
    · -- the row below the source cell
      have hbx := (hv _ _).1 hx
      have hYc := hY ⟨x0, y0⟩ ((hp2 _ _).2 (Or.inr ⟨rfl, rfl⟩))
      simp only at hYc
      have hB := hinv.below hin (fun p hp1 => hY p (List.mem_append_left _ hp1))
      by_cases hy : cy = y0
      · subst hy
        have hx0 : cx < x0 := by omega
        obtain ⟨n, hn⟩ : ∃ n : Nat, x0 - cx = (n : Int) + 1 :=
          ⟨(x0 - cx - 1).toNat, by omega⟩
        have e1 : (x0 - cx).toNat = n + 1 := by omega
        have hprev : (⟨x0 - 1, cy⟩ : FCellRef) ∈ pre :=
          (hp _ _).2 ⟨(hv _ _).2 ⟨⟨by omega, by omega⟩, hb0.2⟩, Or.inr ⟨rfl, by omega⟩⟩
        have gc : g.Data ⟨x0, cy⟩ = alpha ^ (n + 1) := by
          rw [hA x0 hcv, sweepRow_right _ _ _ _ hx0, if_pos hprev, e1]
        by_cases hx1 : x = x0
        · subst hx1
          have hnot : (⟨x, cy⟩ : FCellRef) ∉ pre := by
            rw [hp]
            rintro ⟨_, h | h⟩ <;> omega
          have gx : g.Data ⟨x, cy + 1⟩ = 0 := by
            rw [hB _ hx, sweepRowBelow_right _ _ _ _ (by omega), if_neg hnot]
          rw [hval, if_pos ⟨⟨hx, Or.inl ⟨rfl, Or.inl rfl⟩⟩, by rw [gc]; exact ne_of_gt (alpha_pow_pos _),
            by rw [gc, gx]; exact alpha_pow_pos _⟩, gc,
            sweepRowBelow_right _ _ _ _ (by omega),
            if_pos ((hp2 _ _).2 (Or.inr ⟨rfl, rfl⟩)), e1, pow_succ _ (n + 1)]
          ring
        · have hkeep : (OccupancyMapDiffuseCell Grid g ⟨x0, cy⟩).Data ⟨x, cy + 1⟩
              = g.Data ⟨x, cy + 1⟩ := by
            rw [hval, if_neg]
            rintro ⟨⟨_, hadj⟩, _, _⟩
            simp only at hadj
            omega
          rw [hkeep, hB x hx]
          refine (sweepRowBelow_congr cx cy pre _ x (fun _ => ?_) ?_).symm
          · rw [hp2]
            constructor
            · rintro (h | ⟨_, h⟩)
              · exact h
              · omega
            · exact Or.inl
          · rw [hp2]
            constructor
            · rintro (h | ⟨h, _⟩)
              · exact h
              · omega
            · exact Or.inl
      · have hy1 : y0 = cy + 1 := by omega
        subst hy1
        by_cases hxc : cx ≤ x0
        · obtain ⟨n, hn⟩ : ∃ n : Nat, x0 - cx = (n : Int) := ⟨(x0 - cx).toNat, by omega⟩
          have e1 : (x0 - cx).toNat = n := by omega
          have hrow : (⟨x0, cy⟩ : FCellRef) ∈ pre :=
            (hp _ _).2 ⟨(hv _ _).2 ⟨hbc.1, hb0.2⟩, Or.inl (by omega)⟩
          have gc : g.Data ⟨x0, cy + 1⟩ = alpha ^ (n + 1) := by
            rw [hB x0 hcv, sweepRowBelow_right _ _ _ _ hxc, if_pos hrow, e1]
          by_cases hx1 : x = x0 + 1
          · subst hx1
            have hrow2 : (⟨x0 + 1, cy⟩ : FCellRef) ∈ pre :=
              (hp _ _).2 ⟨(hv _ _).2 ⟨hbx.1, hb0.2⟩, Or.inl (by omega)⟩
            have e2 : (x0 + 1 - cx).toNat = n + 1 := by omega
            have gx : g.Data ⟨x0 + 1, cy + 1⟩ = alpha ^ (n + 1 + 1) := by
              rw [hB _ hx, sweepRowBelow_right _ _ _ _ (by omega), if_pos hrow2, e2]
            rw [hval, if_pos ⟨⟨hx, Or.inr ⟨rfl, Or.inl rfl⟩⟩, by rw [gc]; exact ne_of_gt (alpha_pow_pos _),
            by rw [gc, gx]; exact alpha_pow_succ_lt _⟩, gc,
              sweepRowBelow_right _ _ _ _ (by omega),
              if_pos ((hp2 _ _).2 (Or.inl hrow2)), e2, pow_succ _ (n + 1)]
            ring
          · by_cases hx2 : x = x0 - 1 ∧ x0 = cx
            · obtain ⟨hx2, hx3⟩ := hx2
              subst hx3
              subst hx2
              have hnot : (⟨x0, cy + 1⟩ : FCellRef) ∉ pre := by
                rw [hp]
                rintro ⟨_, h | h⟩ <;> omega
              have gx : g.Data ⟨x0 - 1, cy + 1⟩ = 0 := by
                rw [hB _ hx]
                unfold sweepRowBelow
                rw [if_neg (by omega), if_pos rfl, if_neg hnot]
              have en : n = 0 := by omega
              subst en
              rw [hval, if_pos ⟨⟨hx, Or.inr ⟨rfl, Or.inr rfl⟩⟩, by rw [gc]; exact ne_of_gt (alpha_pow_pos _),
            by rw [gc, gx]; exact alpha_pow_pos _⟩, gc]
              unfold sweepRowBelow
              rw [if_neg (by omega), if_pos rfl, if_pos ((hp2 _ _).2 (Or.inr ⟨rfl, rfl⟩))]
              ring
            · have hkeep : (OccupancyMapDiffuseCell Grid g ⟨x0, cy + 1⟩).Data ⟨x, cy + 1⟩
                  = g.Data ⟨x, cy + 1⟩ := by
                rw [hval, if_neg]
                rintro ⟨⟨_, hadj⟩, _, hgt⟩
                simp only at hadj
                have hxm : x = x0 - 1 := by omega
                subst hxm
                have hx0c : cx < x0 := by
                  rcases lt_or_eq_of_le hxc with h | h
                  · exact h
                  · exact absurd ⟨rfl, h.symm⟩ hx2
                have hrow3 : (⟨x0 - 1, cy⟩ : FCellRef) ∈ pre :=
                  (hp _ _).2 ⟨(hv _ _).2 ⟨hbx.1, hb0.2⟩, Or.inl (by omega)⟩
                obtain ⟨k, hk⟩ : ∃ k : Nat, n = k + 1 := ⟨n - 1, by omega⟩
                subst hk
                have e3 : (x0 - 1 - cx).toNat = k := by omega
                rw [gc, hB _ hx, sweepRowBelow_right _ _ _ _ (by omega), if_pos hrow3, e3] at hgt
                exact absurd (le_of_lt (alpha_pow_succ_lt (k + 1))) (not_le.2 hgt)
              rw [hkeep, hB x hx]
              refine (sweepRowBelow_congr cx cy pre _ x (fun hxe => ?_) ?_).symm
              · rw [hp2]
                constructor
                · rintro (h | ⟨h, _⟩)
                  · exact h
                  · exact absurd ⟨by omega, h.symm⟩ hx2
                · exact Or.inl
              · rw [hp2]
                constructor
                · rintro (h | ⟨_, h⟩)
                  · exact h
                  · omega
                · exact Or.inl
        · -- the cell processed holds 0
          have gc : g.Data ⟨x0, cy + 1⟩ = 0 := by
            rw [hB x0 hcv]
            unfold sweepRowBelow
            by_cases hx2 : x0 < cx - 1
            · rw [if_pos hx2]
            · have hnot : (⟨cx, cy + 1⟩ : FCellRef) ∉ pre := by
                rw [hp]
                rintro ⟨_, h | h⟩ <;> omega
              rw [if_neg hx2, if_pos (by omega), if_neg hnot]
          rw [hval, if_neg (fun h => h.2.1 gc), hB x hx]
          refine (sweepRowBelow_congr cx cy pre _ x (fun _ => ?_) ?_).symm
          · rw [hp2]
            constructor
            · rintro (h | ⟨h, _⟩)
              · exact h
              · omega
            · exact Or.inl
          · rw [hp2]
            constructor
            · rintro (h | ⟨_, h⟩)
              · exact h
              · omega
            · exact Or.inl
  · -- the source cell is not processed yet
    have hg := hinv.before hin
    by_cases hc0 : x0 = cx ∧ y0 = cy
    · obtain ⟨hc1, hc2⟩ := hc0
      subst hc1
      subst hc2
      have gc : g.Data ⟨x0, y0⟩ = 1 := by rw [hg, h1]
      have hzero : ∀ x y, o.GridBounds.IsValidCell ⟨x, y⟩ = true → (x ≠ x0 ∨ y ≠ y0) →
          g.Data ⟨x, y⟩ = 0 := by
        intro x y hxy hne
        rw [hg]
        refine hz _ hxy ?_
        intro h
        simp only [FCellRef.mk.injEq] at h
        omega
      have hnone : ∀ x y, (⟨x, y⟩ : FCellRef) ∈ pre → (y < y0 ∨ (y = y0 ∧ x < x0)) :=
        fun x y h => ((hp x y).1 h).2
      refine ⟨hbnd, fun h => absurd ((hp2 _ _).2 (Or.inr ⟨rfl, rfl⟩)) h, fun _ x hx => ?_,
        fun _ _ x hx => ?_⟩
      · by_cases hx1 : x = x0 + 1
        · subst hx1
          rw [hval, if_pos ⟨⟨hx, Or.inr ⟨rfl, Or.inl rfl⟩⟩, by rw [gc]; norm_num,
            by rw [gc, hzero _ _ hx (Or.inl (by omega))]; norm_num⟩, gc,
            sweepRow_right _ _ _ _ (by omega),
            if_pos ((hp2 _ _).2 (Or.inr ⟨by omega, rfl⟩))]
          have e : (x0 + 1 - x0).toNat = 1 := by omega
          rw [e]
          ring
        · by_cases hx2 : x = x0 - 1
          · subst hx2
            rw [hval, if_pos ⟨⟨hx, Or.inr ⟨rfl, Or.inr rfl⟩⟩, by rw [gc]; norm_num,
              by rw [gc, hzero _ _ hx (Or.inl (by omega))]; norm_num⟩, gc]
            unfold sweepRow
            rw [if_neg (by omega), if_pos rfl]
            ring
          · have hkeep : (OccupancyMapDiffuseCell Grid g ⟨x0, y0⟩).Data ⟨x, y0⟩
                = g.Data ⟨x, y0⟩ := by
              rw [hval, if_neg]
              rintro ⟨⟨_, hadj⟩, _, _⟩
              simp only at hadj
              omega
            rw [hkeep]
            by_cases hx3 : x = x0
            · subst hx3
              rw [gc]
              unfold sweepRow
              rw [if_neg (by omega), if_neg (by omega), if_pos rfl]
            · rw [hzero _ _ hx (Or.inl hx3)]
              unfold sweepRow
              by_cases hx4 : x < x0 - 1
              · rw [if_pos hx4]
              · have hnot : (⟨x - 1, y0⟩ : FCellRef) ∉ pre ++ [(⟨x0, y0⟩ : FCellRef)] := by
                  rw [hp2]
                  rintro (h | ⟨h, _⟩)
                  · have := hnone _ _ h
                    omega
                  · omega
                rw [if_neg hx4, if_neg hx2, if_neg hx3, if_neg hnot]
      · by_cases hx1 : x = x0
        · subst hx1
          rw [hval, if_pos ⟨⟨hx, Or.inl ⟨rfl, Or.inl rfl⟩⟩, by rw [gc]; norm_num,
            by rw [gc, hzero _ _ hx (Or.inr (by omega))]; norm_num⟩, gc,
            sweepRowBelow_right _ _ _ _ (le_refl _),
            if_pos ((hp2 _ _).2 (Or.inr ⟨rfl, rfl⟩))]
          have e : (x - x).toNat = 0 := by omega
          rw [e]
          ring
        · have hkeep : (OccupancyMapDiffuseCell Grid g ⟨x0, y0⟩).Data ⟨x, y0 + 1⟩
              = g.Data ⟨x, y0 + 1⟩ := by
            rw [hval, if_neg]
            rintro ⟨⟨_, hadj⟩, _, _⟩
            simp only at hadj
            omega
          rw [hkeep, hzero _ _ hx (Or.inl hx1)]
          unfold sweepRowBelow
          by_cases hx4 : x < x0 - 1
          · rw [if_pos hx4]
          · rw [if_neg hx4]
            by_cases hx2 : x = x0 - 1
            · have hnot : (⟨x0, y0 + 1⟩ : FCellRef) ∉ pre ++ [(⟨x0, y0⟩ : FCellRef)] := by
                rw [hp2]
                rintro (h | ⟨_, h⟩)
                · have := hnone _ _ h
                  omega
                · omega
              rw [if_pos hx2, if_neg hnot]
            · have hnot : (⟨x, y0⟩ : FCellRef) ∉ pre ++ [(⟨x0, y0⟩ : FCellRef)] := by
                rw [hp2]
                rintro (h | ⟨h, _⟩)
                · have := hnone _ _ h
                  omega
                · omega
              rw [if_neg hx2, if_neg hnot]
    · have gc : g.Data ⟨x0, y0⟩ = 0 := by
        rw [hg]
        refine hz _ hcv ?_
        intro h
        simp only [FCellRef.mk.injEq] at h
        exact hc0 h
      have hsame : ∀ y, (OccupancyMapDiffuseCell Grid g ⟨x0, y0⟩).Data y = g.Data y := by
        intro y
        rw [hval, if_neg (fun h => h.2.1 gc)]
      have hnot : (⟨cx, cy⟩ : FCellRef) ∉ pre ++ [(⟨x0, y0⟩ : FCellRef)] := by
        rw [hp2]
        rintro (h | ⟨h3, h4⟩)
        · exact hin h
        · exact hc0 ⟨h3.symm, h4.symm⟩
      exact ⟨hbnd, fun _ y => by rw [hsame, hg], fun h => absurd h hnot,
        fun h => absurd h hnot⟩

theorem OccupancyMapDiffuseSweep_inv (Grid : AGAGridActor) (o : FGAGridMap) (cx cy : Int)
    (hfull : ∀ y, o.GridBounds.IsValidCell y = true →
      Grid.GetCellData y = ECellData.CellDataTraversable)
    (h0 : o.GridBounds.IsValidCell ⟨cx, cy⟩ = true) (h1 : o.Data ⟨cx, cy⟩ = 1)
    (hz : ∀ y, o.GridBounds.IsValidCell y = true → y ≠ ⟨cx, cy⟩ → o.Data y = 0) :
    SweepInv o cx cy o.GridBounds.cells (OccupancyMapDiffuseSweep Grid o) := by
  unfold OccupancyMapDiffuseSweep
  refine foldl_prefix_inv (OccupancyMapDiffuseCell Grid) (SweepInv o cx cy) _ o
    ⟨rfl, fun _ _ => rfl, fun h => absurd h (List.not_mem_nil _),
      fun h => absurd h (List.not_mem_nil _)⟩ ?_
  intro pre c post g hl hinv
  exact SweepInv.sweep_step Grid o cx cy hfull h0 h1 hz pre c post g hl hinv

/-- C33: on a map whose window is fully traversable and that holds 1 at the single
cell `(cx, cy)` and 0 at every other cell, the diffusion sweep (the map before it
is renormalised) holds `0.75 ^ k` at `(cx + k, cy)` for every `k >= 0` inside the
map, `0.75` at `(cx - 1, cy)` and still 0 at `(cx - 2, cy)`. -/
theorem OccupancyMapDiffuseSweep_single_cell (Grid : AGAGridActor) (o : FGAGridMap)
    (cx cy : Int)
    (hfull : ∀ y, o.GridBounds.IsValidCell y = true →
      Grid.GetCellData y = ECellData.CellDataTraversable)
    (h0 : o.GridBounds.IsValidCell ⟨cx, cy⟩ = true) (h1 : o.Data ⟨cx, cy⟩ = 1)
    (hz : ∀ y, o.GridBounds.IsValidCell y = true → y ≠ ⟨cx, cy⟩ → o.Data y = 0) :
    (∀ k : Nat, o.GridBounds.IsValidCell ⟨cx + (k : Int), cy⟩ = true →
        (OccupancyMapDiffuseSweep Grid o).GetValue ⟨cx + (k : Int), cy⟩ 0 = (3 / 4 : ℚ) ^ k) ∧
      (o.GridBounds.IsValidCell ⟨cx - 1, cy⟩ = true →
        (OccupancyMapDiffuseSweep Grid o).GetValue ⟨cx - 1, cy⟩ 0 = 3 / 4) ∧
      (o.GridBounds.IsValidCell ⟨cx - 2, cy⟩ = true →
        (OccupancyMapDiffuseSweep Grid o).GetValue ⟨cx - 2, cy⟩ 0 = 0) := by
  have hinv := OccupancyMapDiffuseSweep_inv Grid o cx cy hfull h0 h1 hz
  have hmem : (⟨cx, cy⟩ : FCellRef) ∈ o.GridBounds.cells := (mem_cells _ _).2 h0
  have hrow := hinv.row hmem
  have hget : ∀ x, o.GridBounds.IsValidCell ⟨x, cy⟩ = true →
      (OccupancyMapDiffuseSweep Grid o).GetValue ⟨x, cy⟩ 0
        = sweepRow cx cy o.GridBounds.cells x := by
    intro x hx
    unfold FGAGridMap.GetValue
    rw [hinv.bounds, if_pos hx]
    exact hrow x hx
  refine ⟨fun k hk => ?_, fun h => ?_, fun h => ?_⟩
  · rw [hget _ hk]
    cases k with
    | zero =>
      unfold sweepRow
      rw [if_neg (by omega), if_neg (by omega), if_pos (by simp)]
      simp
    | succ n =>
      have hprev : (⟨cx + ((n + 1 : Nat) : Int) - 1, cy⟩ : FCellRef) ∈ o.GridBounds.cells := by
        rw [mem_cells]
        simp only [FGridBox.IsValidCell, Bool.and_eq_true, decide_eq_true_eq] at hk h0 ⊢
        omega
      rw [sweepRow_right _ _ _ _ (by omega), if_pos hprev]
      have e : (cx + ((n + 1 : Nat) : Int) - cx).toNat = n + 1 := by omega
      rw [e]
      rfl
  · rw [hget _ h]
    unfold sweepRow
    rw [if_neg (by omega), if_pos rfl]
    rfl
  · rw [hget _ h]
    unfold sweepRow
    rw [if_pos (by omega)]

theorem OccupancyMapDiffuseSweep_single_cell_witness :
    (OccupancyMapDiffuseSweep (sampleGrid 5 1 [])
        (sampleOneHot ⟨0, 0, 5, 1⟩ ⟨2, 0⟩)).GetValue ⟨4, 0⟩ 0 = 9 / 16 ∧
      (OccupancyMapDiffuseSweep (sampleGrid 5 1 [])
        (sampleOneHot ⟨0, 0, 5, 1⟩ ⟨2, 0⟩)).GetValue ⟨1, 0⟩ 0 = 3 / 4 ∧
      (OccupancyMapDiffuseSweep (sampleGrid 5 1 [])
        (sampleOneHot ⟨0, 0, 5, 1⟩ ⟨2, 0⟩)).GetValue ⟨0, 0⟩ 0 = 0 := by
  obtain ⟨hk, hl, hll⟩ := OccupancyMapDiffuseSweep_single_cell (sampleGrid 5 1 [])
    (sampleOneHot ⟨0, 0, 5, 1⟩ ⟨2, 0⟩) 2 0
    (fun y hy => by
      rw [sampleGrid_GetCellData]
      simp only [sampleOneHot, FGridBox.IsValidCell, Bool.and_eq_true,
        decide_eq_true_eq] at hy
      exact ⟨⟨hy.1.1.1, hy.1.1.2, hy.1.2, hy.2⟩, List.not_mem_nil _⟩)
    (by decide) (by simp [sampleOneHot])
    (fun y _ hne => by simp [sampleOneHot, hne])
  refine ⟨?_, hl (by decide), hll (by decide)⟩
  have h := hk 2 (by decide)
  norm_num at h
  exact h

/-! ## Path reconstruction with the start cell outside the window -/

theorem sampleWindow_start : (sampleGrid 4 1 []).GetCellRef ⟨50, 50⟩ = ⟨0, 0⟩ := by
  simp only [sampleGrid, FCellRef.mk.injEq]
  constructor <;> norm_num [Int.floor_eq_iff]

theorem sampleWindow_Dijkstra :
    ∃ m, Dijkstra sampleDijkstraQueue (sampleGrid 4 1 []) ⟨50, 50⟩
        (FGAGridMap.ofBox ⟨1, 0, 4, 1⟩ FLT_MAX) = some m ∧
      m.GridBounds = ⟨1, 0, 4, 1⟩ ∧ m.Data ⟨1, 0⟩ = 1 ∧ m.Data ⟨2, 0⟩ = 2 ∧
      m.Data ⟨3, 0⟩ = 3 := by
  have hlen : (FGAGridMap.ofBox ⟨1, 0, 4, 1⟩ FLT_MAX).GridBounds.cells.length = 3 := by
    decide
  unfold Dijkstra
  dsimp only
  rw [sampleWindow_start, hlen]
  simp [DijkstraLoop, sampleDijkstraQueue, listQueue, popMin, directions, DijkstraNeighbor,
    FCellRef.offset, FGAGridMap.SetValue, FGAGridMap.ofBox, FGridBox.IsValidCell,
    AGAGridActor.GetCellData, sampleGrid]
  norm_num

theorem sampleWindow_next (m : FGAGridMap) (hb : m.GridBounds = ⟨1, 0, 4, 1⟩)
    (h1 : m.Data ⟨1, 0⟩ = 1) (h2 : m.Data ⟨2, 0⟩ = 2) (h3 : m.Data ⟨3, 0⟩ = 3) :
    getPositionPathNext m (sampleGrid 4 1 []) ⟨3, 0⟩ = ⟨2, 0⟩ ∧
      getPositionPathNext m (sampleGrid 4 1 []) ⟨2, 0⟩ = ⟨1, 0⟩ ∧
      getPositionPathNext m (sampleGrid 4 1 []) ⟨1, 0⟩ = ⟨2, 0⟩ := by
  have e1 : (2 : ℚ) < 340282346638528859811704183484516925440 := by norm_num
  have e2 : (3 : ℚ) < 340282346638528859811704183484516925440 := by norm_num
  refine ⟨?_, ?_, ?_⟩ <;>
    simp [getPositionPathNext, getPositionPathNeighbor, directions, FCellRef.offset, hb,
      FGAGridMap.GetValue, FGridBox.IsValidCell, AGAGridActor.GetCellData, sampleGrid, h1, h2,
      h3, FLT_MAX, e1, e2]

/-- C2, evaluated with the start cell outside the window: on a row of four
traversable cells with the window holding the cells `(1,0)` to `(3,0)` and the
pawn in the cell `(0,0)`, the map that `Dijkstra` produces from the start cell
records the distance 3 at `(3,0)`, and `getPositionPath` from `(3,0)` returns
1000 cells, not 3: the start cell has no value in the map, so the walk steps
from `(1,0)` back to `(2,0)` until the cap. -/
theorem getPositionPath_start_outside_window :
    (sampleGrid 4 1 []).GetCellData ((sampleGrid 4 1 []).GetCellRef ⟨50, 50⟩)
        = ECellData.CellDataTraversable ∧
      ∃ m, Dijkstra sampleDijkstraQueue (sampleGrid 4 1 []) ⟨50, 50⟩
          (FGAGridMap.ofBox ⟨1, 0, 4, 1⟩ FLT_MAX) = some m ∧
        m.GetValue ⟨3, 0⟩ 0 = ((3 : Nat) : ℚ) ∧
        (getPositionPath m ⟨50, 50⟩ ⟨3, 0⟩ (sampleGrid 4 1 [])).length = 1000 ∧
        (getPositionPath m ⟨50, 50⟩ ⟨3, 0⟩ (sampleGrid 4 1 [])).length ≠ 3 := by
  refine ⟨by rw [sampleWindow_start]; decide, ?_⟩
  obtain ⟨m, hm, hb, h1, h2, h3⟩ := sampleWindow_Dijkstra
  obtain ⟨n3, n2, n1⟩ := sampleWindow_next m hb h1 h2 h3
  have hinv : ∀ k, Nat.iterate (getPositionPathNext m (sampleGrid 4 1 [])) k ⟨3, 0⟩ = ⟨1, 0⟩ ∨
      Nat.iterate (getPositionPathNext m (sampleGrid 4 1 [])) k ⟨3, 0⟩ = ⟨2, 0⟩ ∨
      Nat.iterate (getPositionPathNext m (sampleGrid 4 1 [])) k ⟨3, 0⟩ = ⟨3, 0⟩ := by
    intro k
    induction k with
    | zero => exact Or.inr (Or.inr rfl)
    | succ k ih =>
      rw [Function.iterate_succ_apply']
      rcases ih with h | h | h
      · rw [h, n1]; exact Or.inr (Or.inl rfl)
      · rw [h, n2]; exact Or.inl rfl
      · rw [h, n3]; exact Or.inr (Or.inl rfl)
  have hlen : (getPositionPath m ⟨50, 50⟩ ⟨3, 0⟩ (sampleGrid 4 1 [])).length = 1000 := by
    rcases getPositionPath_length m ⟨50, 50⟩ ⟨3, 0⟩ (sampleGrid 4 1 []) with h | ⟨k, _, hk, _⟩
    · exact h
    · rw [sampleWindow_start] at hk
      rcases hinv k with h | h | h <;> rw [h] at hk <;> exact absurd hk (by decide)
  refine ⟨m, hm, ?_, hlen, by rw [hlen]; decide⟩
  rw [GetValue_valid _ _ _ (by rw [hb]; decide), h3]
  norm_num

end GameAI
